import Mathlib

/-! # Point set readers and writers of `Modules/IO/src/PointSetIO.cc`

A shallow embedding of the GIFTI reader functions of `PointSetIO.cc`
(`GIFTIDataTypeToVTK`, `CopyGIFTIDataArrayWithDataType`, `CopyGIFTIDataArray`,
`CopyGIFTIMetaData`, `GIFTICoordinatesToVTK`, `GIFTITopologyToVTK`,
`GIFTINodeIndicesToVTK`, `GIFTIPointDataToVTK`, `ReadGIFTI`) together with the
properties of these functions.

Modelling conventions.

* Numeric array elements (`float`, `double`, and the integer types) are exact
  rationals; rounding of 64-bit integers through `double` is not modelled.
* `int dims[6]` is a list read with default `0`; the raw `data` buffer is the
  list of its elements read with default `0`.
* A `for` loop over `0 <= i < m` is a fold over `List.range m.toNat`; the
  moving read pointer `v` of the copy routine is an explicit offset that is
  part of the loop state.
* `exit(1)` and the use of a null smart pointer are the two faults of
  `Fault`; functions that can reach one return `Except Fault _`.
* A write to a tuple or component outside the allocated range (undefined
  behaviour in the program) leaves the array unchanged.
* Diagnostics on `cerr` and the `errmsg` flag that enables them are omitted.
* The string conversions of `mirtk/String.h` and the contents of uninitialised
  array memory are parameters (`Env`).
* The text readers and writers (`ReadOFF`, `WriteOFF`, `WriteTetGenNode`,
  `WriteTetGenPoly`, `WriteTetGenSMesh`) work on streams of characters with
  the state flags of `<iostream>`; the conversions of `double` and the
  behaviour of the output file are parameters (`StdLib`); the buffer of an
  `ofstream` and the device behind it are `filebuf`. Uninitialised local
  variables hold `0`, and the `int` counters of the writers do not wrap.
* For `ReadDFS`, `WriteDFS` and the generic readers and writers (`ReadPointSet`,
  `ReadPolyData`, `WritePointSet`, `WritePolyData`), the readers and writers
  of VTK and of the BrainSuite library, the conversion to `float`, and the
  default arguments of the declarations in `mirtk/PointSetIO.h` are parameters
  (`DFSHost`, `Readers`, `Writers`).
-/

namespace mirtk

/-! ## Constants of the external headers (`nifti1.h`, `gifti_io.h`, `vtkType.h`) -/

def NIFTI_TYPE_UINT8 : Int := 2
def NIFTI_TYPE_INT16 : Int := 4
def NIFTI_TYPE_INT32 : Int := 8
def NIFTI_TYPE_FLOAT32 : Int := 16
def NIFTI_TYPE_FLOAT64 : Int := 64
def NIFTI_TYPE_INT8 : Int := 256
def NIFTI_TYPE_UINT16 : Int := 512
def NIFTI_TYPE_UINT32 : Int := 768
def NIFTI_TYPE_INT64 : Int := 1024
def NIFTI_TYPE_UINT64 : Int := 1280

def NIFTI_INTENT_VECTOR : Int := 1007
def NIFTI_INTENT_POINTSET : Int := 1008
def NIFTI_INTENT_TRIANGLE : Int := 1009
def NIFTI_INTENT_NODE_INDEX : Int := 2002
def NIFTI_INTENT_SHAPE : Int := 2005

def GIFTI_IND_ORD_ROW_MAJOR : Int := 1
def GIFTI_IND_ORD_COL_MAJOR : Int := 2

def VTK_VOID : Int := 0
def VTK_CHAR : Int := 2
def VTK_UNSIGNED_CHAR : Int := 3
def VTK_SHORT : Int := 4
def VTK_UNSIGNED_SHORT : Int := 5
def VTK_INT : Int := 6
def VTK_UNSIGNED_INT : Int := 7
def VTK_FLOAT : Int := 10
def VTK_DOUBLE : Int := 11
def VTK_ID_TYPE : Int := 12
def VTK_LONG_LONG : Int := 16
def VTK_UNSIGNED_LONG_LONG : Int := 17

/-! ## Machine arithmetic -/

/-- Conversion `static_cast<int>(x)` of a `long long`: reduction to the signed
32-bit range. -/
def castInt (x : Int) : Int := (x + 2 ^ 31) % 2 ^ 32 - 2 ^ 31

/-- Conversion of a `double` to an integer type: truncation toward zero. -/
def truncate (q : Rat) : Int := Int.tdiv q.num q.den

/-! ## Faults -/

/-- The two ways in which a call does not return to its caller. -/
inductive Fault where
  /-- The call reached `exit(1)`. -/
  | exit
  /-- The call used a null `vtkSmartPointer`. -/
  | nullDeref
  deriving DecidableEq

deriving instance DecidableEq for Except

/-! ## GIFTI structures (`gifti_io.h`) -/

/-- The `giiMetaData` name/value list. -/
abbrev giiMetaData := List (String × String)

/-- The fields of `giiDataArray` that the reader and the writer use. `coordsys`
holds the `dataspace` string of each attached coordinate system (`numCS` is its
length); `encoding` is `GIFTI_ENCODING_UNDEF` (`0`) unless set. -/
structure giiDataArray where
  intent : Int
  datatype : Int
  ind_ord : Int
  num_dim : Int
  dims : List Int
  nvals : Int
  data : List Rat
  meta : giiMetaData
  coordsys : List String
  encoding : Int := 0
  deriving DecidableEq

/-- Entry `dims[k]` of a data array. -/
def giiDataArray.dim (a : giiDataArray) (k : Nat) : Int := a.dims.getD k 0

/-- Element `k` of the data buffer of a data array. -/
def giiDataArray.elem (a : giiDataArray) (k : Nat) : Rat := a.data.getD k 0

/-- The fields of `gifti_image` that the reader uses (`numDA` is the length of
`darray`). -/
structure gifti_image where
  darray : List giiDataArray
  meta : giiMetaData
  deriving DecidableEq

/-! ## VTK structures -/

/-- Value of a `vtkInformation` entry. -/
inductive InfoValue where
  | str (s : String)
  | dbl (x : Rat)
  | int (n : Int)
  deriving DecidableEq

/-- A `vtkInformation` table: entries by key name, at most one per key. -/
abbrev vtkInformation := List (String × InfoValue)

/-- The call `info->Set(key, value)`: replaces the entry of the key or adds one. -/
def vtkInformation.Set (info : vtkInformation) (key : String) (v : InfoValue) : vtkInformation :=
  if info.any (fun e => e.1 == key) then
    info.map (fun e => if e.1 == key then (key, v) else e)
  else info ++ [(key, v)]

/-- The call `info->Has(key)`. -/
def vtkInformation.Has (info : vtkInformation) (key : String) : Bool :=
  info.any (fun e => e.1 == key)

/-- The entry of a key, if present. -/
def vtkInformation.Get (info : vtkInformation) (key : String) : Option InfoValue :=
  (info.find? (fun e => e.1 == key)).map Prod.snd

/-- The call `info->CopyEntry(from, key)` for a key that `from` has. -/
def vtkInformation.CopyEntry (info from_ : vtkInformation) (key : String) : vtkInformation :=
  match vtkInformation.Get from_ key with
  | some v => vtkInformation.Set info key v
  | none => info

/-- Whether the values of an array are stored in an integer type (stores
truncate) or in a floating point type. -/
inductive ValueKind where
  | integral
  | real
  deriving DecidableEq

/-- A `vtkDataArray`: tuples of components, with the array name, the number of
components set by `SetNumberOfComponents`, and the information table. -/
structure vtkDataArray where
  kind : ValueKind
  name : String
  ncomp : Int
  tuples : List (List Rat)
  info : vtkInformation
  deriving DecidableEq

/-- The value that a store of `x` leaves in an array of the given kind. -/
def ValueKind.store (k : ValueKind) (x : Rat) : Rat :=
  match k with
  | ValueKind.integral => (truncate x : Rat)
  | ValueKind.real => x

/-- The call `dst->SetComponent(i, j, x)`. -/
def vtkDataArray.SetComponent (d : vtkDataArray) (i j : Int) (x : Rat) : vtkDataArray :=
  if 0 ≤ i ∧ 0 ≤ j then
    { d with tuples := d.tuples.set i.toNat (((d.tuples.getD i.toNat []).set j.toNat (d.kind.store x))) }
  else d

/-- The call `src->GetComponent(i, j)`. -/
def vtkDataArray.GetComponent (d : vtkDataArray) (i j : Nat) : Rat :=
  (d.tuples.getD i []).getD j 0

/-- The call `a->GetNumberOfTuples()`. -/
def vtkDataArray.GetNumberOfTuples (d : vtkDataArray) : Int := d.tuples.length

/-! ## Datatype dispatch -/

/-- Embedding of `GIFTIDataTypeToVTK`. -/
def GIFTIDataTypeToVTK (datatype : Int) : Int :=
  if datatype = NIFTI_TYPE_INT8 then VTK_CHAR
  else if datatype = NIFTI_TYPE_INT16 then VTK_SHORT
  else if datatype = NIFTI_TYPE_INT32 then VTK_INT
  else if datatype = NIFTI_TYPE_INT64 then VTK_LONG_LONG
  else if datatype = NIFTI_TYPE_UINT8 then VTK_UNSIGNED_CHAR
  else if datatype = NIFTI_TYPE_UINT16 then VTK_UNSIGNED_SHORT
  else if datatype = NIFTI_TYPE_UINT32 then VTK_UNSIGNED_INT
  else if datatype = NIFTI_TYPE_UINT64 then VTK_UNSIGNED_LONG_LONG
  else if datatype = NIFTI_TYPE_FLOAT32 then VTK_FLOAT
  else if datatype = NIFTI_TYPE_FLOAT64 then VTK_DOUBLE
  else VTK_VOID

/-- State of the copy loops: the destination array and the offset of the read
pointer `v` into the source buffer. -/
abbrev CopyState := vtkDataArray × Nat

/-- Embedding of `CopyGIFTIDataArrayWithDataType<T>`. The element type `T` only
decides how the buffer is decoded, which `giiDataArray.elem` has done. Every
caller checks `dims[0] > 0` before the call, so the division is defined; for
`dims[0] = 0` the program divides by zero, and the value of the model there
(no rows, nothing copied) describes no run of the program. -/
def CopyGIFTIDataArrayWithDataType (dst : vtkDataArray) (src : giiDataArray)
    (indices : Option vtkDataArray) : vtkDataArray :=
  let m : Int := src.dim 0
  let n : Int := castInt (Int.tdiv src.nvals m)
  let rows : List Nat := List.range m.toNat
  let cols : List Nat := List.range n.toNat
  match indices with
  | some ind =>
    let dst0 : vtkDataArray :=
      rows.foldl (fun (d : vtkDataArray) (i : Nat) =>
        cols.foldl (fun (d : vtkDataArray) (j : Nat) => d.SetComponent i j 0) d) dst
    if src.ind_ord = GIFTI_IND_ORD_COL_MAJOR then
      (cols.foldl (fun (s : CopyState) (j : Nat) =>
        rows.foldl (fun (s : CopyState) (i : Nat) =>
          let index : Int := truncate (ind.GetComponent i 0)
          (s.1.SetComponent index j (src.elem s.2), s.2 + 1)) s) (dst0, 0)).1
    else
      (rows.foldl (fun (s : CopyState) (i : Nat) =>
        let index : Int := truncate (ind.GetComponent i 0)
        cols.foldl (fun (s : CopyState) (j : Nat) =>
          (s.1.SetComponent index j (src.elem s.2), s.2)) s) (dst0, 0)).1
  | none =>
    if src.ind_ord = GIFTI_IND_ORD_COL_MAJOR then
      (cols.foldl (fun (s : CopyState) (j : Nat) =>
        rows.foldl (fun (s : CopyState) (i : Nat) =>
          (s.1.SetComponent i j (src.elem s.2), s.2 + 1)) s) (dst, 0)).1
    else
      (rows.foldl (fun (s : CopyState) (i : Nat) =>
        cols.foldl (fun (s : CopyState) (j : Nat) =>
          (s.1.SetComponent i j (src.elem s.2), s.2)) s) (dst, 0)).1

/-- Embedding of `CopyGIFTIDataArray`: the `default` branch is `exit(1)`. -/
def CopyGIFTIDataArray (dst : vtkDataArray) (src : giiDataArray)
    (indices : Option vtkDataArray) : Except Fault vtkDataArray :=
  if src.datatype = NIFTI_TYPE_INT8 then .ok (CopyGIFTIDataArrayWithDataType dst src indices)
  else if src.datatype = NIFTI_TYPE_INT16 then .ok (CopyGIFTIDataArrayWithDataType dst src indices)
  else if src.datatype = NIFTI_TYPE_INT32 then .ok (CopyGIFTIDataArrayWithDataType dst src indices)
  else if src.datatype = NIFTI_TYPE_INT64 then .ok (CopyGIFTIDataArrayWithDataType dst src indices)
  else if src.datatype = NIFTI_TYPE_UINT8 then .ok (CopyGIFTIDataArrayWithDataType dst src indices)
  else if src.datatype = NIFTI_TYPE_UINT16 then .ok (CopyGIFTIDataArrayWithDataType dst src indices)
  else if src.datatype = NIFTI_TYPE_UINT32 then .ok (CopyGIFTIDataArrayWithDataType dst src indices)
  else if src.datatype = NIFTI_TYPE_UINT64 then .ok (CopyGIFTIDataArrayWithDataType dst src indices)
  else if src.datatype = NIFTI_TYPE_FLOAT32 then .ok (CopyGIFTIDataArrayWithDataType dst src indices)
  else if src.datatype = NIFTI_TYPE_FLOAT64 then .ok (CopyGIFTIDataArrayWithDataType dst src indices)
  else .error Fault.exit

/-! ## Metadata keys (`GiftiMetaDataKeyMacro`) -/

def GiftiMetaData.DATE : String := "Date"
def GiftiMetaData.USER_NAME : String := "UserName"
def GiftiMetaData.SUBJECT_ID : String := "SubjectID"
def GiftiMetaData.SURFACE_ID : String := "SurfaceID"
def GiftiMetaData.UNIQUE_ID : String := "UniqueID"
def GiftiMetaData.NAME : String := "Name"
def GiftiMetaData.DESCRIPTION : String := "Description"
def GiftiMetaData.TIME_STEP : String := "TimeStep"
def GiftiMetaData.DATA_SPACE : String := "DataSpace"
def GiftiMetaData.ANATOMICAL_STRUCTURE_PRIMARY : String := "AnatomicalStructurePrimary"
def GiftiMetaData.ANATOMICAL_STRUCTURE_SECONDARY : String := "AnatomicalStructureSecondary"
def GiftiMetaData.GEOMETRIC_TYPE : String := "GeometricType"
def GiftiMetaData.TOPOLOGICAL_TYPE : String := "TopologicalType"
def GiftiMetaData.INTENT_CODE : String := "Intent_code"
def GiftiMetaData.INTENT_P1 : String := "intent_p1"
def GiftiMetaData.INTENT_P2 : String := "intent_p2"
def GiftiMetaData.INTENT_P3 : String := "intent_p3"

/-- What the reader takes from outside the file: the `FromString` conversions of
`mirtk/String.h` for `double` and `int`, and the contents of freshly allocated
array memory (tuple, component), which `SetNumberOfTuples` does not initialise. -/
structure Env where
  fromStringDouble : String → Option Rat
  fromStringInt : String → Option Int
  uninit : Nat → Nat → Rat

/-- One iteration of the loop of `CopyGIFTIMetaData(vtkInformation *, const giiMetaData &)`. -/
def CopyGIFTIMetaData.step (env : Env) (info : vtkInformation) (e : String × String) :
    vtkInformation :=
  let name := e.1
  let value := e.2
  if name = GiftiMetaData.DATE then info.Set GiftiMetaData.DATE (.str value)
  else if name = GiftiMetaData.USER_NAME then info.Set GiftiMetaData.USER_NAME (.str value)
  else if name = GiftiMetaData.SUBJECT_ID then info.Set GiftiMetaData.SUBJECT_ID (.str value)
  else if name = GiftiMetaData.SURFACE_ID then info.Set GiftiMetaData.SURFACE_ID (.str value)
  else if name = GiftiMetaData.UNIQUE_ID then info.Set GiftiMetaData.UNIQUE_ID (.str value)
  else if name = GiftiMetaData.NAME then info.Set GiftiMetaData.NAME (.str value)
  else if name = GiftiMetaData.DESCRIPTION then info.Set GiftiMetaData.DESCRIPTION (.str value)
  else if name = GiftiMetaData.TIME_STEP then
    match env.fromStringDouble value with
    | some tr => info.Set GiftiMetaData.TIME_STEP (.dbl tr)
    | none => info
  else if name = GiftiMetaData.ANATOMICAL_STRUCTURE_PRIMARY then
    info.Set GiftiMetaData.ANATOMICAL_STRUCTURE_PRIMARY (.str value)
  else if name = GiftiMetaData.ANATOMICAL_STRUCTURE_SECONDARY then
    info.Set GiftiMetaData.ANATOMICAL_STRUCTURE_SECONDARY (.str value)
  else if name = GiftiMetaData.GEOMETRIC_TYPE then info.Set GiftiMetaData.GEOMETRIC_TYPE (.str value)
  else if name = GiftiMetaData.TOPOLOGICAL_TYPE then info.Set GiftiMetaData.TOPOLOGICAL_TYPE (.str value)
  else if name = GiftiMetaData.INTENT_CODE ∨ name = "Intent" ∨ name = "IntentCode" then
    match env.fromStringInt value with
    | some intent_code => info.Set GiftiMetaData.INTENT_CODE (.int intent_code)
    | none => info
  else if name = GiftiMetaData.INTENT_P1 ∨ name = "Intent_p1" ∨ name = "IntentP1" then
    match env.fromStringDouble value with
    | some intent_p1 => info.Set GiftiMetaData.INTENT_P1 (.dbl intent_p1)
    | none => info
  else if name = GiftiMetaData.INTENT_P2 ∨ name = "Intent_p2" ∨ name = "IntentP2" then
    match env.fromStringDouble value with
    | some intent_p2 => info.Set GiftiMetaData.INTENT_P2 (.dbl intent_p2)
    | none => info
  else if name = GiftiMetaData.INTENT_P3 ∨ name = "Intent_p3" ∨ name = "IntentP3" then
    match env.fromStringDouble value with
    | some intent_p3 => info.Set GiftiMetaData.INTENT_P3 (.dbl intent_p3)
    | none => info
  else info

/-- Embedding of `CopyGIFTIMetaData(vtkInformation *info, const giiMetaData &meta)`. -/
def CopyGIFTIMetaData (env : Env) (info : vtkInformation) (meta : giiMetaData) :
    vtkInformation :=
  meta.foldl (CopyGIFTIMetaData.step env) info

/-! ## Coordinates -/

/-- A point of `vtkPoints`. -/
abbrev Point := Rat × Rat × Rat

/-- State of the point loop: the points and the offsets of the read pointers
`x`, `y`, `z`. -/
structure CoordState where
  points : List Point
  x : Nat
  y : Nat
  z : Nat

/-- The two point loops of `GIFTICoordinatesToVTK` after
`points->SetNumberOfPoints(n)`: every point `j < n` is set, and the pointers
advance by `1` (column-major) or `3` (row-major). -/
def GIFTICoordinatesToVTK.fill (array : giiDataArray) (n : Nat) : List Point :=
  let init : CoordState :=
    if array.ind_ord = GIFTI_IND_ORD_COL_MAJOR then
      { points := List.replicate n (0, 0, 0), x := 0, y := n, z := n + n }
    else
      { points := List.replicate n (0, 0, 0), x := 0, y := 1, z := 2 }
  let inc : Nat := if array.ind_ord = GIFTI_IND_ORD_COL_MAJOR then 1 else 3
  ((List.range n).foldl (fun (s : CoordState) j =>
    { points := s.points.set j (array.elem s.x, array.elem s.y, array.elem s.z),
      x := s.x + inc, y := s.y + inc, z := s.z + inc }) init).points

/-- The `dataspace` selection of `GIFTICoordinatesToVTK`. -/
def GIFTICoordinatesToVTK.dataspace (array : giiDataArray) : String :=
  match array.coordsys with
  | [] => "NIFTI_XFORM_UNKNOWN"
  | d :: rest => if rest.any (fun c => c ≠ d) then "NIFTI_XFORM_UNKNOWN" else d

/-- The loop over the data arrays of `GIFTICoordinatesToVTK`: the first array
with intent `POINTSET` ends it, whether accepted or not. -/
def GIFTICoordinatesToVTK.loop (env : Env) (info : Option vtkInformation) :
    List giiDataArray → List Point × Option vtkInformation
  | [] => ([], info)
  | array :: rest =>
    if array.intent = NIFTI_INTENT_POINTSET then
      if array.datatype ≠ NIFTI_TYPE_FLOAT32 then ([], info)
      else if array.num_dim ≠ 2 then ([], info)
      else if array.dim 1 ≠ 3 then ([], info)
      else
        let n : Int := array.dim 0
        let points := GIFTICoordinatesToVTK.fill array n.toNat
        match info with
        | some i =>
          (points, some ((CopyGIFTIMetaData env i array.meta).Set GiftiMetaData.DATA_SPACE
            (.str (GIFTICoordinatesToVTK.dataspace array))))
        | none => (points, none)
    else GIFTICoordinatesToVTK.loop env info rest

/-- Embedding of `GIFTICoordinatesToVTK`: the points and the information table
after the call (`none` when the caller passes no table). -/
def GIFTICoordinatesToVTK (env : Env) (gim : gifti_image) (info : Option vtkInformation) :
    List Point × Option vtkInformation :=
  GIFTICoordinatesToVTK.loop env info gim.darray

/-! ## Topology -/

/-- State of the triangle loop: the cells and the offsets of the read pointers
`a`, `b`, `c`. -/
structure TopoState where
  cells : List (List Int)
  a : Nat
  b : Nat
  c : Nat

/-- The two triangle loops of `GIFTITopologyToVTK`: each iteration inserts one
cell of three point IDs. -/
def GIFTITopologyToVTK.fill (array : giiDataArray) (n : Nat) : List (List Int) :=
  let init : TopoState :=
    if array.ind_ord = GIFTI_IND_ORD_COL_MAJOR then
      { cells := [], a := 0, b := n, c := n + n }
    else
      { cells := [], a := 0, b := 1, c := 2 }
  let inc : Nat := if array.ind_ord = GIFTI_IND_ORD_COL_MAJOR then 1 else 3
  ((List.range n).foldl (fun (s : TopoState) _ =>
    { cells := s.cells ++ [[truncate (array.elem s.a), truncate (array.elem s.b),
        truncate (array.elem s.c)]],
      a := s.a + inc, b := s.b + inc, c := s.c + inc }) init).cells

/-- The loop over the data arrays of `GIFTITopologyToVTK`; `none` is the null
cell array. -/
def GIFTITopologyToVTK.loop (env : Env) (info : Option vtkInformation) :
    List giiDataArray → Option (List (List Int)) × Option vtkInformation
  | [] => (none, info)
  | array :: rest =>
    if array.intent = NIFTI_INTENT_TRIANGLE then
      if array.datatype ≠ NIFTI_TYPE_INT32 then (none, info)
      else if array.num_dim ≠ 2 then (none, info)
      else if array.dim 1 ≠ 3 then (none, info)
      else
        let n : Int := array.dim 0
        (some (GIFTITopologyToVTK.fill array n.toNat),
          info.map (fun i => CopyGIFTIMetaData env i array.meta))
    else GIFTITopologyToVTK.loop env info rest

/-- Embedding of `GIFTITopologyToVTK`. -/
def GIFTITopologyToVTK (env : Env) (gim : gifti_image) (info : Option vtkInformation) :
    Option (List (List Int)) × Option vtkInformation :=
  GIFTITopologyToVTK.loop env info gim.darray

/-! ## Node indices and point data -/

/-- Modelled from the spec: `NewVTKDataArray` of `mirtk/Vtk.h` is not part of the
file. It returns a new, empty array whose value type is the one named by the
VTK type code: a floating point type for `VTK_FLOAT`, `VTK_DOUBLE` and (the
default type) `VTK_VOID`, an integer type otherwise. -/
def NewVTKDataArray (vtkType : Int) : vtkDataArray :=
  { kind := if vtkType = VTK_FLOAT ∨ vtkType = VTK_DOUBLE ∨ vtkType = VTK_VOID
      then ValueKind.real else ValueKind.integral,
    name := "", ncomp := 1, tuples := [], info := [] }

/-- The call `vtkSmartPointer<vtkIdTypeArray>::New()`. -/
def vtkIdTypeArray.New : vtkDataArray :=
  { kind := ValueKind.integral, name := "", ncomp := 1, tuples := [], info := [] }

/-- The call `a->SetNumberOfComponents(n)`. -/
def vtkDataArray.SetNumberOfComponents (d : vtkDataArray) (n : Int) : vtkDataArray :=
  { d with ncomp := n }

/-- The call `a->SetNumberOfTuples(n)`: allocates `n` tuples whose components
hold whatever the memory holds. -/
def vtkDataArray.SetNumberOfTuples (env : Env) (d : vtkDataArray) (n : Int) : vtkDataArray :=
  { d with tuples := (List.range n.toNat).map (fun i =>
      (List.range d.ncomp.toNat).map (fun j => d.kind.store (env.uninit i j))) }

/-- The call `a->SetName(s)`. -/
def vtkDataArray.SetName (d : vtkDataArray) (s : String) : vtkDataArray :=
  { d with name := s }

/-- The loop of `GIFTINodeIndicesToVTK`; `none` is the null array. An accepted
array does not end the loop. -/
def GIFTINodeIndicesToVTK.loop (env : Env) :
    Option vtkDataArray → List giiDataArray → Except Fault (Option vtkDataArray)
  | indices, [] => .ok indices
  | indices, array :: rest =>
    if array.intent = NIFTI_INTENT_NODE_INDEX then
      if array.num_dim ≠ 1 then .ok indices
      else if array.dim 0 ≤ 0 then .ok indices
      else
        match CopyGIFTIDataArray
          ((vtkIdTypeArray.New.SetNumberOfComponents 1).SetNumberOfTuples env (array.dim 0))
          array none with
        | .error f => .error f
        | .ok ind => GIFTINodeIndicesToVTK.loop env (some ind) rest
    else GIFTINodeIndicesToVTK.loop env indices rest

/-- Embedding of `GIFTINodeIndicesToVTK`. -/
def GIFTINodeIndicesToVTK (env : Env) (gim : gifti_image) : Except Fault (Option vtkDataArray) :=
  GIFTINodeIndicesToVTK.loop env none gim.darray

/-- A `vtkPointData`: its arrays and the indices of the active scalars,
vectors, normals and texture coordinates (`none` when `GetScalars()`,
`GetVectors()`, `GetNormals()` or `GetTCoords()` is null). -/
structure vtkPointData where
  arrays : List vtkDataArray
  scalars : Option Nat
  vectors : Option Nat
  normals : Option Nat := none
  tcoords : Option Nat := none
  deriving DecidableEq

/-- The call `vtkSmartPointer<vtkPointData>::New()`, also the state after
`pd->Initialize()`. -/
def vtkPointData.New : vtkPointData := { arrays := [], scalars := none, vectors := none }

/-- The call `pd->AddArray(data)`: an array of the same name is replaced,
otherwise the array is appended; the result is the index of the array. -/
def vtkPointData.AddArray (pd : vtkPointData) (data : vtkDataArray) : vtkPointData × Nat :=
  let idx := pd.arrays.findIdx (fun a => a.name == data.name)
  if idx < pd.arrays.length then ({ pd with arrays := pd.arrays.set idx data }, idx)
  else ({ pd with arrays := pd.arrays ++ [data] }, idx)

/-- Whether an array is converted by `GIFTIPointDataToVTK`. -/
def isPointDataArray (array : giiDataArray) : Prop :=
  array.intent ≠ NIFTI_INTENT_POINTSET ∧ array.intent ≠ NIFTI_INTENT_TRIANGLE ∧
  array.intent ≠ NIFTI_INTENT_NODE_INDEX ∧
  array.num_dim > 0 ∧ array.dim 0 > 0 ∧ array.nvals > 0

instance (array : giiDataArray) : Decidable (isPointDataArray array) := by
  unfold isPointDataArray; infer_instance

/-- The size check of `GIFTIPointDataToVTK` for a non-zero point count. -/
def sizeMismatch (array : giiDataArray) (npoints : Int) (indices : Option vtkDataArray)
    (nindices : Int) : Prop :=
  (indices.isSome ∧ array.dim 0 ≠ nindices) ∨ (indices.isNone ∧ array.dim 0 ≠ npoints)

instance (array : giiDataArray) (npoints : Int) (indices : Option vtkDataArray) (nindices : Int) :
    Decidable (sizeMismatch array npoints indices nindices) := by
  unfold sizeMismatch; infer_instance

/-- The metadata and naming step of the loop body of `GIFTIPointDataToVTK`:
the metadata of the source goes to the information table of the array, which
is named by its `Name` entry if it has one and by the intent code otherwise. -/
def GIFTIPointDataToVTK.named (env : Env) (array : giiDataArray) (data : vtkDataArray) :
    vtkDataArray :=
  let info := CopyGIFTIMetaData env data.info array.meta
  let data := { data with info := info }
  if vtkInformation.Has info GiftiMetaData.NAME then
    match vtkInformation.Get info GiftiMetaData.NAME with
    | some (.str s) => data.SetName s
    | _ => data
  else data.SetName (toString array.intent)

/-- The activation step of the loop body of `GIFTIPointDataToVTK` for the array
added at index `idx`. -/
def GIFTIPointDataToVTK.activate (array : giiDataArray) (ncomp : Int) (pd : vtkPointData)
    (idx : Nat) : vtkPointData :=
  let pd :=
    if array.intent = NIFTI_INTENT_SHAPE ∧ pd.scalars.isNone then
      { pd with scalars := some idx }
    else pd
  if array.intent = NIFTI_INTENT_VECTOR ∧ ncomp = 3 ∧ pd.vectors.isNone then
    { pd with vectors := some idx }
  else pd

/-- The part of the loop body of `GIFTIPointDataToVTK` after the array has its
tuples: copy, metadata, name, insertion, activation. -/
def GIFTIPointDataToVTK.convert (env : Env) (indices : Option vtkDataArray)
    (pd : vtkPointData) (array : giiDataArray) (ncomp : Int) (data : vtkDataArray) :
    Except Fault vtkPointData :=
  match CopyGIFTIDataArray data array indices with
  | .error f => .error f
  | .ok data =>
    let added := pd.AddArray (GIFTIPointDataToVTK.named env array data)
    .ok (GIFTIPointDataToVTK.activate array ncomp added.1 added.2)

/-- The loop of `GIFTIPointDataToVTK`. A size mismatch sets `ok = false` and
ends the loop, after which `pd->Initialize()` empties the result. -/
def GIFTIPointDataToVTK.loop (env : Env) (npoints : Int) (indices : Option vtkDataArray)
    (nindices : Int) : vtkPointData → List giiDataArray → Except Fault vtkPointData
  | pd, [] => .ok pd
  | pd, array :: rest =>
    if isPointDataArray array then
      let ncomp : Int := castInt (Int.tdiv array.nvals (array.dim 0))
      let data := (NewVTKDataArray (GIFTIDataTypeToVTK array.datatype)).SetNumberOfComponents ncomp
      if npoints ≠ 0 then
        if sizeMismatch array npoints indices nindices then .ok vtkPointData.New
        else
          match GIFTIPointDataToVTK.convert env indices pd array ncomp
            (data.SetNumberOfTuples env npoints) with
          | .error f => .error f
          | .ok pd => GIFTIPointDataToVTK.loop env npoints indices nindices pd rest
      else
        match GIFTIPointDataToVTK.convert env indices pd array ncomp
          (data.SetNumberOfTuples env (array.dim 0)) with
        | .error f => .error f
        | .ok pd => GIFTIPointDataToVTK.loop env npoints indices nindices pd rest
    else GIFTIPointDataToVTK.loop env npoints indices nindices pd rest

/-- Embedding of `GIFTIPointDataToVTK`. -/
def GIFTIPointDataToVTK (env : Env) (gim : gifti_image) (npoints : Int)
    (indices : Option vtkDataArray) : Except Fault vtkPointData :=
  let nindices : Int := match indices with
    | some ind => ind.GetNumberOfTuples
    | none => 0
  if indices.isSome ∧ npoints = 0 then .error Fault.exit
  else if indices.isSome ∧ nindices > npoints then .error Fault.exit
  else GIFTIPointDataToVTK.loop env npoints indices nindices vtkPointData.New gim.darray

/-! ## Reading a GIFTI file -/

/-- A `vtkPolyData`: points, polygons, point data and information table, and
the vertex, line and triangle strip cells (each cell is the list of its point
IDs). -/
structure vtkPolyData where
  points : List Point
  polys : List (List Int)
  pointData : vtkPointData
  info : vtkInformation
  verts : List (List Int) := []
  lines : List (List Int) := []
  strips : List (List Int) := []
  deriving DecidableEq

/-- The call `vtkSmartPointer<vtkPolyData>::New()`: the empty mesh. -/
def vtkPolyData.New : vtkPolyData :=
  { points := [], polys := [], pointData := vtkPointData.New, info := [] }

/-- The point set that `ReadGIFTI` works with: the one of the file, or the one
of the input surface when the file has none; `none` when neither has points. -/
def ReadGIFTI.points (filePoints : List Point) (surface : Option vtkPolyData) :
    Option (List Point) :=
  if filePoints.length = 0 then
    match surface with
    | some s => if s.points.length > 0 then some s.points else none
    | none => none
  else some filePoints

/-- The topology check of `ReadGIFTI` on one cell. -/
def ReadGIFTI.badCell (npoints : Int) (pts : List Int) : Prop :=
  pts.length ≠ 3 ∨ pts.getD 0 0 ≥ npoints ∨ pts.getD 1 0 ≥ npoints ∨ pts.getD 2 0 ≥ npoints

instance (npoints : Int) (pts : List Int) : Decidable (ReadGIFTI.badCell npoints pts) := by
  unfold ReadGIFTI.badCell; infer_instance

/-- The entries that `ReadGIFTI` copies from the tables of the coordinates and
topology arrays. -/
def ReadGIFTI.copyEntries (info geom_info topo_info : vtkInformation) : vtkInformation :=
  let copy (src : vtkInformation) (info : vtkInformation) (key : String) : vtkInformation :=
    if vtkInformation.Has src key then vtkInformation.CopyEntry info src key else info
  let info := [GiftiMetaData.SUBJECT_ID, GiftiMetaData.SURFACE_ID, GiftiMetaData.UNIQUE_ID,
    GiftiMetaData.DESCRIPTION, GiftiMetaData.DATA_SPACE,
    GiftiMetaData.ANATOMICAL_STRUCTURE_PRIMARY, GiftiMetaData.ANATOMICAL_STRUCTURE_SECONDARY,
    GiftiMetaData.GEOMETRIC_TYPE].foldl (copy geom_info) info
  copy topo_info info GiftiMetaData.TOPOLOGICAL_TYPE

/-- Embedding of `ReadGIFTI`. The argument `gim` is the result of
`gifti_read_image` (`none` when the file cannot be read), `surface` the
optional input surface. -/
def ReadGIFTI (env : Env) (gim : Option gifti_image) (surface : Option vtkPolyData) :
    Except Fault vtkPolyData :=
  let polydata := vtkPolyData.New
  match gim with
  | none => .ok polydata
  | some gim =>
    let geom := GIFTICoordinatesToVTK env gim (some [])
    let topo := GIFTITopologyToVTK env gim (some [])
    match ReadGIFTI.points geom.1 surface with
    | none => .ok polydata
    | some points =>
      let npoints : Int := points.length
      match topo.1 with
      | none => .error Fault.nullDeref
      | some polys =>
        if polys.any (fun pts => decide (ReadGIFTI.badCell npoints pts)) then .ok polydata
        else
          match GIFTINodeIndicesToVTK env gim with
          | .error f => .error f
          | .ok indices =>
            let badIndex : Bool := match indices with
              | some ind => (List.range ind.tuples.length).any (fun i =>
                  decide (truncate (ind.GetComponent i 0) ≥ npoints))
              | none => false
            if badIndex then .ok polydata
            else
              match GIFTIPointDataToVTK env gim npoints indices with
              | .error f => .error f
              | .ok pd =>
                let info := CopyGIFTIMetaData env polydata.info gim.meta
                let ok : Bool := pd.arrays.all (fun array =>
                  decide (array.GetNumberOfTuples = npoints))
                if ok then
                  .ok { points := points, polys := polys, pointData := pd,
                        info := ReadGIFTI.copyEntries info (geom.2.getD []) (topo.2.getD []) }
                else .ok { polydata with info := [] }

/-! ## Writing a GIFTI file -/

def NIFTI_FIRST_STATCODE : Int := 2
def NIFTI_LAST_STATCODE : Int := 24

def GIFTI_ENCODING_ASCII : Int := 1
def GIFTI_ENCODING_B64BIN : Int := 2
def GIFTI_ENCODING_B64GZ : Int := 3

/-- The value type of a `vtkInformationKey`: the class that `SafeDownCast`
recognises. -/
inductive KeyType where
  | string
  | double
  | integer
  deriving DecidableEq

/-- A `vtkInformationKey`: its name and its value type. -/
structure vtkInformationKey where
  name : String
  type : KeyType
  deriving DecidableEq

/-! The keys that `GiftiMetaDataKeyMacro` declares, with their types. -/

def GiftiMetaData.Key.DATE : vtkInformationKey := ⟨GiftiMetaData.DATE, .string⟩
def GiftiMetaData.Key.USER_NAME : vtkInformationKey := ⟨GiftiMetaData.USER_NAME, .string⟩
def GiftiMetaData.Key.SUBJECT_ID : vtkInformationKey := ⟨GiftiMetaData.SUBJECT_ID, .string⟩
def GiftiMetaData.Key.SURFACE_ID : vtkInformationKey := ⟨GiftiMetaData.SURFACE_ID, .string⟩
def GiftiMetaData.Key.UNIQUE_ID : vtkInformationKey := ⟨GiftiMetaData.UNIQUE_ID, .string⟩
def GiftiMetaData.Key.NAME : vtkInformationKey := ⟨GiftiMetaData.NAME, .string⟩
def GiftiMetaData.Key.DESCRIPTION : vtkInformationKey := ⟨GiftiMetaData.DESCRIPTION, .string⟩
def GiftiMetaData.Key.TIME_STEP : vtkInformationKey := ⟨GiftiMetaData.TIME_STEP, .double⟩
def GiftiMetaData.Key.DATA_SPACE : vtkInformationKey := ⟨GiftiMetaData.DATA_SPACE, .string⟩
def GiftiMetaData.Key.ANATOMICAL_STRUCTURE_PRIMARY : vtkInformationKey :=
  ⟨GiftiMetaData.ANATOMICAL_STRUCTURE_PRIMARY, .string⟩
def GiftiMetaData.Key.ANATOMICAL_STRUCTURE_SECONDARY : vtkInformationKey :=
  ⟨GiftiMetaData.ANATOMICAL_STRUCTURE_SECONDARY, .string⟩
def GiftiMetaData.Key.GEOMETRIC_TYPE : vtkInformationKey :=
  ⟨GiftiMetaData.GEOMETRIC_TYPE, .string⟩
def GiftiMetaData.Key.TOPOLOGICAL_TYPE : vtkInformationKey :=
  ⟨GiftiMetaData.TOPOLOGICAL_TYPE, .string⟩
def GiftiMetaData.Key.INTENT_CODE : vtkInformationKey := ⟨GiftiMetaData.INTENT_CODE, .integer⟩
def GiftiMetaData.Key.INTENT_P1 : vtkInformationKey := ⟨GiftiMetaData.INTENT_P1, .double⟩
def GiftiMetaData.Key.INTENT_P2 : vtkInformationKey := ⟨GiftiMetaData.INTENT_P2, .double⟩
def GiftiMetaData.Key.INTENT_P3 : vtkInformationKey := ⟨GiftiMetaData.INTENT_P3, .double⟩

/-- Embedding of `GiftiMetaData::KeysForFile`. -/
def GiftiMetaData.KeysForFile : List vtkInformationKey :=
  [GiftiMetaData.Key.DATE, GiftiMetaData.Key.USER_NAME, GiftiMetaData.Key.DESCRIPTION,
   GiftiMetaData.Key.SUBJECT_ID, GiftiMetaData.Key.UNIQUE_ID, GiftiMetaData.Key.TIME_STEP]

/-- Embedding of `GiftiMetaData::KeysForDataArray`. -/
def GiftiMetaData.KeysForDataArray (intent : Int) : List vtkInformationKey :=
  let keys := [GiftiMetaData.Key.NAME, GiftiMetaData.Key.DESCRIPTION,
    GiftiMetaData.Key.UNIQUE_ID, GiftiMetaData.Key.SUBJECT_ID, GiftiMetaData.Key.SURFACE_ID]
  if intent < 0 then
    keys ++ [GiftiMetaData.Key.ANATOMICAL_STRUCTURE_PRIMARY,
      GiftiMetaData.Key.ANATOMICAL_STRUCTURE_SECONDARY, GiftiMetaData.Key.GEOMETRIC_TYPE,
      GiftiMetaData.Key.TOPOLOGICAL_TYPE, GiftiMetaData.Key.INTENT_CODE,
      GiftiMetaData.Key.INTENT_P1, GiftiMetaData.Key.INTENT_P2, GiftiMetaData.Key.INTENT_P3]
  else if intent = NIFTI_INTENT_POINTSET then
    keys ++ [GiftiMetaData.Key.ANATOMICAL_STRUCTURE_PRIMARY,
      GiftiMetaData.Key.ANATOMICAL_STRUCTURE_SECONDARY, GiftiMetaData.Key.GEOMETRIC_TYPE]
  else if intent = NIFTI_INTENT_TRIANGLE then
    keys ++ [GiftiMetaData.Key.TOPOLOGICAL_TYPE]
  else if NIFTI_FIRST_STATCODE ≤ intent ∧ intent ≤ NIFTI_LAST_STATCODE then
    keys ++ [GiftiMetaData.Key.INTENT_CODE, GiftiMetaData.Key.INTENT_P1,
      GiftiMetaData.Key.INTENT_P2, GiftiMetaData.Key.INTENT_P3]
  else keys

/-- What the writer takes from outside the file: `Extension(path, EXT_Last)` of
`mirtk/Path.h`, `ToString(double)` of `mirtk/String.h`, `GetDateTime()` and
`GetUserName()` of `mirtk/System.h`, whether `HAVE_ZLIB` is defined, and the
outcome of the calls into the GIFTI library and of `calloc` that can fail. -/
structure Host where
  Extension : String → String
  ToString : Rat → String
  GetDateTime : String
  GetUserName : String
  HAVE_ZLIB : Bool
  gifti_create_image : Bool
  gifti_add_empty_darray : gifti_image → Bool
  calloc : Int → Bool
  gifti_add_empty_CS : giiDataArray → Bool
  gifti_write_image : gifti_image → String → Int

/-- Embedding of `GiftiMetaData::Get`. The third cast result `ikey` is computed
but the test before its use is on `dkey`. -/
def GiftiMetaData.Get (host : Host) (info : vtkInformation) (key : vtkInformationKey) :
    String :=
  let skey : Bool := decide (key.type = KeyType.string)
  if skey then
    match vtkInformation.Get info key.name with
    | some (.str s) => s
    | _ => ""
  else
    let dkey : Bool := decide (key.type = KeyType.double)
    if dkey then
      match vtkInformation.Get info key.name with
      | some (.dbl x) => host.ToString x
      | _ => host.ToString 0
    else
      let _ikey : Bool := decide (key.type = KeyType.integer)
      if dkey then
        match vtkInformation.Get info key.name with
        | some (.int n) => toString n
        | _ => toString (0 : Int)
      else ""

/-- The call `gifti_add_to_meta(&meta, name, value, 1)` of the GIFTI library:
the value of an existing entry of that name is replaced, otherwise the pair is
appended. -/
def gifti_add_to_meta (meta : giiMetaData) (name value : String) : giiMetaData :=
  if meta.any (fun e => e.1 == name) then
    meta.map (fun e => if e.1 == name then (name, value) else e)
  else meta ++ [(name, value)]

/-- Embedding of `CopyGIFTIMetaData(giiMetaData &meta, vtkInformation *info,
const Array<vtkInformationKey *> &keys)`. -/
def CopyGIFTIMetaData.fromInfo (host : Host) (meta : giiMetaData) (info : vtkInformation)
    (keys : List vtkInformationKey) : giiMetaData :=
  keys.foldl (fun (meta : giiMetaData) (key : vtkInformationKey) =>
    if vtkInformation.Has info key.name then
      let value := GiftiMetaData.Get host info key
      if value ≠ "" then gifti_add_to_meta meta key.name value else meta
    else meta) meta

/-- The call `gifti_darray_nvals(da)` of the GIFTI library: the product of the
first `num_dim` dimensions, and `0` when `num_dim` is not in `1..6` or the
product is not positive. -/
def gifti_darray_nvals (da : giiDataArray) : Int :=
  if da.num_dim < 1 ∨ da.num_dim > 6 then 0
  else
    let ndim := ((List.range da.num_dim.toNat).map (fun c => da.dim c)).foldl (· * ·) 1
    if ndim ≤ 0 then 0 else ndim

/-- The data array that `gifti_add_empty_darray` appends: all fields cleared. -/
def giiDataArray.empty : giiDataArray :=
  { intent := 0, datatype := 0, ind_ord := 0, num_dim := 0, dims := [0, 0, 0, 0, 0, 0],
    nvals := 0, data := [], meta := [], coordsys := [], encoding := 0 }

/-- The data array attributes that `AddGIFTICoordinates` and `AddGIFTITopology`
set before allocating the data (`nvals` from `gifti_darray_nvals`). -/
def setAttributes (host : Host) (da : giiDataArray) (intent datatype : Int) (dims0 : Int) :
    giiDataArray :=
  let da := { da with intent := intent, datatype := datatype,
                      ind_ord := GIFTI_IND_ORD_ROW_MAJOR, num_dim := 2,
                      dims := (da.dims.set 0 dims0).set 1 3,
                      encoding := if host.HAVE_ZLIB then GIFTI_ENCODING_B64GZ
                                  else GIFTI_ENCODING_B64BIN }
  { da with nvals := gifti_darray_nvals da }

/-- Embedding of `AddGIFTICoordinates`: the result and the image after the call.
A failure after `gifti_add_empty_darray` removes the new array again. -/
def AddGIFTICoordinates (host : Host) (gim : gifti_image) (points : List Point)
    (info : Option vtkInformation) : Bool × gifti_image :=
  if ¬ host.gifti_add_empty_darray gim then (false, gim)
  else
    let da := setAttributes host giiDataArray.empty NIFTI_INTENT_POINTSET NIFTI_TYPE_FLOAT32
      (castInt points.length)
    if ¬ host.calloc (da.nvals * 4) then (false, gim)
    else
      let data := (List.range (da.dim 0).toNat).foldl (fun (pdata : List Rat) (i : Nat) =>
        let p := points.getD i (0, 0, 0)
        pdata ++ [p.1, p.2.1, p.2.2]) []
      let da := { da with data := data }
      if ¬ host.gifti_add_empty_CS da then (false, gim)
      else
        let dataspace : String :=
          match info with
          | some i =>
            if vtkInformation.Has i GiftiMetaData.DATA_SPACE then
              match vtkInformation.Get i GiftiMetaData.DATA_SPACE with
              | some (.str s) => s
              | _ => ""
            else "NIFTI_XFORM_UNKNOWN"
          | none => "NIFTI_XFORM_UNKNOWN"
        let da := { da with coordsys := da.coordsys ++ [dataspace] }
        let da :=
          match info with
          | some i =>
            { da with meta := (CopyGIFTIMetaData.fromInfo host da.meta i
                (GiftiMetaData.KeysForDataArray da.intent)) }
          | none => da
        (true, { gim with darray := gim.darray ++ [da] })

/-- The call `triangles->GetMaxCellSize()`. -/
def GetMaxCellSize (cells : List (List Int)) : Nat :=
  cells.foldl (fun m pts => max m pts.length) 0

/-- The triangle loop of `AddGIFTITopology` over the cells still to be visited:
the data written, or `none` when a cell does not have three points. -/
def AddGIFTITopology.copy : List (List Int) → List Rat → Option (List Rat)
  | [], pdata => some pdata
  | pts :: rest, pdata =>
    if pts.length ≠ 3 then none
    else AddGIFTITopology.copy rest
      (pdata ++ [(castInt (pts.getD 0 0) : Rat), (castInt (pts.getD 1 0) : Rat),
        (castInt (pts.getD 2 0) : Rat)])

/-- Embedding of `AddGIFTITopology`: the result and the image after the call. -/
def AddGIFTITopology (host : Host) (gim : gifti_image) (triangles : List (List Int))
    (info : Option vtkInformation) : Bool × gifti_image :=
  if GetMaxCellSize triangles ≠ 3 then (false, gim)
  else if ¬ host.gifti_add_empty_darray gim then (false, gim)
  else
    let da := setAttributes host giiDataArray.empty NIFTI_INTENT_TRIANGLE NIFTI_TYPE_INT32
      (castInt triangles.length)
    if ¬ host.calloc (da.nvals * 4) then (false, gim)
    else
      match AddGIFTITopology.copy (triangles.take (da.dim 0).toNat) [] with
      | none => (false, gim)
      | some data =>
        let da := { da with data := data }
        let da :=
          match info with
          | some i =>
            { da with meta := (CopyGIFTIMetaData.fromInfo host da.meta i
                (GiftiMetaData.KeysForDataArray da.intent)) }
          | none => da
        (true, { gim with darray := gim.darray ++ [da] })

/-- The C++ expression `name.substr(0, name.length() - ext.length())`. -/
def dropExtension (name ext : String) : String :=
  String.mk (name.data.take (name.data.length - ext.data.length))

/-- The file type that `WriteGIFTI` determines from the file name: `none` for
the unsupported types (the function returns `false`), otherwise the type,
which is empty when the second extension is not an enumerated one or the file
name does not end in `.gii`. -/
def WriteGIFTI.type (host : Host) (fname : String) : Option String :=
  let ext := host.Extension fname
  if ext = ".gii" then
    let type := host.Extension (dropExtension fname ext)
    if type = ".label" ∨ type = ".time" then none
    else if type ≠ ".coord" ∧ type ≠ ".func" ∧ type ≠ ".label" ∧ type ≠ ".rgba" ∧
        type ≠ ".shape" ∧ type ≠ ".surf" ∧ type ≠ ".tensor" ∧ type ≠ ".time" ∧
        type ≠ ".topo" ∧ type ≠ ".vector" then some ""
    else some type
  else some ""

/-- The result of `WriteGIFTI`: its return value and the image that it handed
to `gifti_write_image` (`none` when no image was created). -/
structure WriteResult where
  success : Bool
  written : Option gifti_image
  deriving DecidableEq

/-- The image that `WriteGIFTI` assembles for a file type: file metadata,
date and user name, coordinates, triangles, and the encoding of all arrays.
The results of `AddGIFTICoordinates` and `AddGIFTITopology` are not used. -/
def WriteGIFTI.assemble (host : Host) (type : String) (polydata : vtkPolyData)
    (compress ascii : Bool) : gifti_image :=
  let gim : gifti_image := { darray := [], meta := [] }
  let info := polydata.info
  let gim := { gim with meta := (CopyGIFTIMetaData.fromInfo host gim.meta info
    GiftiMetaData.KeysForFile) }
  let gim := { gim with meta := gifti_add_to_meta gim.meta GiftiMetaData.DATE host.GetDateTime }
  let gim := { gim with meta :=
    (gifti_add_to_meta gim.meta GiftiMetaData.USER_NAME host.GetUserName) }
  let gim :=
    if polydata.points.length > 0 then
      if type = "" ∨ type = ".coord" ∨ type = ".surf" then
        (AddGIFTICoordinates host gim polydata.points (some info)).2
      else gim
    else gim
  let gim :=
    if polydata.polys.length > 0 then
      if type = "" ∨ type = ".topo" ∨ type = ".surf" then
        (AddGIFTITopology host gim polydata.polys (some info)).2
      else gim
    else gim
  let compress := if host.HAVE_ZLIB then compress else false
  let encoding : Int :=
    if ascii then GIFTI_ENCODING_ASCII
    else if compress then GIFTI_ENCODING_B64GZ else GIFTI_ENCODING_B64BIN
  { gim with darray := gim.darray.map (fun da => { da with encoding := encoding }) }

/-- Embedding of `WriteGIFTI`. -/
def WriteGIFTI (host : Host) (fname : String) (polydata : vtkPolyData)
    (compress ascii : Bool) : WriteResult :=
  match WriteGIFTI.type host fname with
  | none => { success := false, written := none }
  | some type =>
    if ¬ host.gifti_create_image then { success := false, written := none }
    else
      let gim := WriteGIFTI.assemble host type polydata compress ascii
      { success := decide (host.gifti_write_image gim fname = 0), written := some gim }

/-! ## Text streams (`<iostream>`, `<fstream>`) -/

/-- What the text readers and writers take from the C++ library and the file
system: the `num_get` conversion of a `double` field (the value, `none` when
the characters are not a number, and the number of characters extracted from
the characters after the skipped whitespace), the `num_put` conversion of a
`double` with a precision in the default float format, whether `ofstream`
opens the output file, and whether an output operation succeeds: `accepts text
s` tells whether a stream to which the characters `text` were written takes
the characters `s` (on an unbuffered stream, whether the device accepts
them; for a buffered file see `filebuf`). -/
structure StdLib where
  scanDouble : List Char → Option Rat × Nat
  formatDouble : Nat → Rat → List Char
  opens : Bool
  accepts : List Char → List Char → Bool

/-- The function `std::isspace` in the "C" locale. -/
def isspace (c : Char) : Bool :=
  c == ' ' || c == '\t' || c == '\n' || c == Char.ofNat 11 || c == Char.ofNat 12 || c == '\r'

/-- An input stream: the characters not yet extracted, `eofbit` and `failbit`
(no operation of the readers sets `badbit`). -/
structure istream where
  buf : List Char
  eofbit : Bool
  failbit : Bool
  deriving DecidableEq

/-- The call `is.good()`. -/
def istream.good (s : istream) : Bool := !s.eofbit && !s.failbit

/-- The call `is.fail()`. -/
def istream.fail (s : istream) : Bool := s.failbit

/-- The constructor `ifstream ifs(fname)`: the contents of the file, or a stream
with `failbit` set when the file cannot be opened (`none`). -/
def ifstream.open (file : Option (List Char)) : istream :=
  match file with
  | some contents => { buf := contents, eofbit := false, failbit := false }
  | none => { buf := [], eofbit := false, failbit := true }

/-- The `sentry` of a formatted input function: a stream that is not good gets
`failbit`; otherwise leading whitespace is skipped, and a stream that ends
there gets `eofbit` and `failbit`. The flag tells whether extraction goes on. -/
def istream.sentry (s : istream) : istream × Bool :=
  if s.good then
    let rest := s.buf.dropWhile isspace
    if rest.isEmpty then ({ buf := [], eofbit := true, failbit := true }, false)
    else ({ s with buf := rest }, true)
  else ({ s with failbit := true }, false)

/-- The operator `is >> str` for a `string`: the characters up to the next
whitespace or the end; `str` is unchanged when the sentry fails. -/
def istream.readString (s : istream) (str : String) : istream × String :=
  match s.sentry with
  | (s, false) => (s, str)
  | (s, true) =>
    let word := s.buf.takeWhile (fun c => !isspace c)
    let rest := s.buf.dropWhile (fun c => !isspace c)
    ({ s with buf := rest, eofbit := rest.isEmpty }, String.mk word)

/-- The value of a decimal digit. -/
def digitValue (c : Char) : Nat := c.toNat - '0'.toNat

/-- The value of a sequence of decimal digits. -/
def digitsValue (digits : List Char) : Nat :=
  digits.foldl (fun a c => 10 * a + digitValue c) 0

/-- The operator `is >> n` for an `int`: an optional sign and decimal digits.
The variable is unchanged when the sentry fails, `0` when there is no digit,
and the nearest bound when the number is not an `int`; the latter two set
`failbit`. Reaching the end of the characters sets `eofbit`. -/
def istream.readInt (s : istream) (old : Int) : istream × Int :=
  match s.sentry with
  | (s, false) => (s, old)
  | (s, true) =>
    let negative : Bool := s.buf.head? == some '-'
    let afterSign := if s.buf.head? == some '-' ∨ s.buf.head? == some '+' then s.buf.tail else s.buf
    let digits := afterSign.takeWhile Char.isDigit
    let rest := afterSign.dropWhile Char.isDigit
    let s := { s with buf := rest, eofbit := rest.isEmpty }
    if digits.isEmpty then ({ s with failbit := true }, 0)
    else
      let v : Int := if negative then -(digitsValue digits : Int) else (digitsValue digits : Int)
      if v < -2 ^ 31 then ({ s with failbit := true }, -2 ^ 31)
      else if v > 2 ^ 31 - 1 then ({ s with failbit := true }, 2 ^ 31 - 1)
      else (s, v)

/-- The operator `is >> x` for a `double`. -/
def istream.readDouble (lib : StdLib) (s : istream) (old : Rat) : istream × Rat :=
  match s.sentry with
  | (s, false) => (s, old)
  | (s, true) =>
    let scanned := lib.scanDouble s.buf
    let rest := s.buf.drop scanned.2
    let s := { s with buf := rest, eofbit := rest.isEmpty }
    match scanned.1 with
    | some x => (s, x)
    | none => ({ s with failbit := true }, 0)

/-! ## Object File Format -/

/-- The call `points->SetNumberOfPoints(n)`: `n` points whose coordinates hold
whatever the memory holds. -/
def vtkPoints.SetNumberOfPoints (env : Env) (n : Int) : List Point :=
  (List.range n.toNat).map (fun i => (env.uninit i 0, env.uninit i 1, env.uninit i 2))

/-- The vertex loop of `ReadOFF` with `k` iterations to go, at index `i`: the
stream, the points and the array `p` after the loop. -/
def ReadOFF.vertices (lib : StdLib) :
    Nat → Nat → istream → List Point → Point → istream × List Point × Point
  | 0, _, ifs, points, p => (ifs, points, p)
  | k + 1, i, ifs, points, p =>
    let r0 := ifs.readDouble lib p.1
    let r1 := r0.1.readDouble lib p.2.1
    let r2 := r1.1.readDouble lib p.2.2
    let ifs := r2.1
    let p : Point := (r0.2, r1.2, r2.2)
    if ifs.fail then (ifs, points, p)
    else ReadOFF.vertices lib k (i + 1) ifs (points.set i p) p

/-- The loop of `ReadOFF` over the `n` point IDs of one face, with `k` IDs to
go: the stream, the variable `ptId` and the cell after the loop. -/
def ReadOFF.cell : Nat → istream → Int → List Int → istream × Int × List Int
  | 0, ifs, ptId, cell => (ifs, ptId, cell)
  | k + 1, ifs, ptId, cell =>
    let r := ifs.readInt ptId
    ReadOFF.cell k r.1 r.2 (cell ++ [r.2])

/-- The cell arrays `verts`, `lines` and `polys` that `ReadOFF` fills. -/
structure ReadOFF.Cells where
  verts : List (List Int)
  lines : List (List Int)
  polys : List (List Int)
  deriving DecidableEq

/-- The face loop of `ReadOFF` with `k` iterations to go: the stream, the
variables `ptId` and `n`, and the cell arrays after the loop. -/
def ReadOFF.faces :
    Nat → istream → Int → Int → ReadOFF.Cells → istream × ReadOFF.Cells
  | 0, ifs, _, _, cells => (ifs, cells)
  | k + 1, ifs, ptId, n, cells =>
    let r := ifs.readInt n
    let ifs := r.1
    let n := r.2
    if ifs.fail then (ifs, cells)
    else if n > 0 then
      let c := ReadOFF.cell n.toNat ifs ptId []
      let ifs := c.1
      let ptId := c.2.1
      let cell := c.2.2
      let cells : ReadOFF.Cells :=
        if n = 1 then { cells with verts := cells.verts ++ [cell] }
        else if n = 2 then { cells with lines := cells.lines ++ [cell] }
        else { cells with polys := cells.polys ++ [cell] }
      if ¬ ifs.good then (ifs, cells)
      else ReadOFF.faces k ifs ptId n cells
    else ReadOFF.faces k ifs ptId n cells

/-- Embedding of `ReadOFF`; `file` is the contents of the file `fname`, `none`
when it cannot be opened. Uninitialised local variables hold `0`. -/
def ReadOFF (lib : StdLib) (env : Env) (file : Option (List Char)) : vtkPolyData :=
  let polydata := vtkPolyData.New
  let ifs := ifstream.open file
  if ifs.fail then polydata
  else
    let r := ifs.readString ""
    let ifs := r.1
    let keyword := r.2
    if keyword ≠ "OFF" ∧ keyword ≠ "off" then polydata
    else
      let r0 := ifs.readInt (-1)
      let r1 := r0.1.readInt (-1)
      let r2 := r1.1.readInt (-1)
      let ifs := r2.1
      let numVertices := r0.2
      let numFaces := r1.2
      if ifs.fail then polydata
      else
        let numVertices := if numVertices < 0 then 0 else numVertices
        let numFaces := if numFaces < 0 then 0 else numFaces
        let points := vtkPoints.SetNumberOfPoints env numVertices
        let v := ReadOFF.vertices lib numVertices.toNat 0 ifs points (0, 0, 0)
        let ifs := v.1
        let points := v.2.1
        if ifs.fail then polydata
        else
          let f := ReadOFF.faces numFaces.toNat ifs 0 0 { verts := [], lines := [], polys := [] }
          let ifs := f.1
          let cells := f.2
          if ifs.fail then polydata
          else
            let polydata := { polydata with points := points }
            let polydata :=
              if cells.verts.length > 0 then { polydata with verts := cells.verts } else polydata
            let polydata :=
              if cells.lines.length > 0 then { polydata with lines := cells.lines } else polydata
            let polydata :=
              if cells.polys.length > 0 then { polydata with polys := cells.polys } else polydata
            polydata

/-- An output stream: the characters written to it so far, whether `fail()`
holds (`failbit` or `badbit`), the precision, and whether the file is open. -/
structure ostream where
  text : List Char
  failed : Bool
  precision : Nat
  is_open : Bool
  deriving DecidableEq

/-- The constructor `ofstream os(fname)`: an empty open file with the default
precision, or a stream with `failbit` set when the file cannot be opened. -/
def ofstream.open (lib : StdLib) : ostream :=
  { text := [], failed := !lib.opens, precision := 6, is_open := lib.opens }

/-- Output of characters: a stream that has failed ignores them, and an output
operation that does not succeed makes the stream fail. -/
def ostream.write (lib : StdLib) (os : ostream) (s : List Char) : ostream :=
  if os.failed then os
  else if lib.accepts os.text s then { os with text := os.text ++ s }
  else { os with failed := true }

/-- The operator `os << s` for a string literal. -/
def ostream.str (lib : StdLib) (os : ostream) (s : String) : ostream :=
  os.write lib s.data

/-- The operator `os << n` for an integer: its decimal digits, after a minus
sign when it is negative. -/
def ostream.int (lib : StdLib) (os : ostream) (n : Int) : ostream :=
  os.write lib (toString n).data

/-- The operator `os << x` for a `double`, with the precision of the stream. -/
def ostream.dbl (lib : StdLib) (os : ostream) (x : Rat) : ostream :=
  os.write lib (lib.formatDouble os.precision x)

/-- The call `polydata->GetNumberOfPoints()`. -/
def vtkPolyData.GetNumberOfPoints (polydata : vtkPolyData) : Int := polydata.points.length

/-- The cells of a `vtkPolyData` in the order of their cell IDs: vertices,
lines, polygons, triangle strips. -/
def vtkPolyData.cells (polydata : vtkPolyData) : List (List Int) :=
  polydata.verts ++ polydata.lines ++ polydata.polys ++ polydata.strips

/-- The call `polydata->GetNumberOfCells()`. -/
def vtkPolyData.GetNumberOfCells (polydata : vtkPolyData) : Int := polydata.cells.length

/-- The call `polydata->GetPoint(ptId, p)`. -/
def vtkPolyData.GetPoint (polydata : vtkPolyData) (ptId : Nat) : Point :=
  polydata.points.getD ptId (0, 0, 0)

/-- Embedding of `WriteOFF`: the result and the characters written to `ofs`.
The stream is an `ofstream`, whose output is buffered; what the file holds
after the call is the second component of `WriteOFF.buffered`. -/
def WriteOFF (lib : StdLib) (polydata : vtkPolyData) : Bool × List Char :=
  let ofs := ofstream.open lib
  let ofs := { ofs with precision := 12 }
  let ofs := ofs.str lib "OFF\n"
  let ofs := (ofs.int lib polydata.GetNumberOfPoints).str lib " "
  let ofs := (ofs.int lib polydata.GetNumberOfCells).str lib " 0\n"
  let ofs := (List.range polydata.GetNumberOfPoints.toNat).foldl (fun (ofs : ostream) (ptId : Nat) =>
    let p := polydata.GetPoint ptId
    (((((ofs.dbl lib p.1).str lib " ").dbl lib p.2.1).str lib " ").dbl lib p.2.2).str lib "\n")
    ofs
  let ofs := (List.range polydata.GetNumberOfCells.toNat).foldl (fun (ofs : ostream) (cellId : Nat) =>
    let ptIds := polydata.cells.getD cellId []
    let numPts : Int := ptIds.length
    let ofs := ofs.int lib numPts
    let ofs := (List.range numPts.toNat).foldl (fun (ofs : ostream) (i : Nat) =>
      (ofs.str lib " ").int lib (ptIds.getD i 0)) ofs
    ofs.str lib "\n") ofs
  (!ofs.failed, ofs.text)

/-- The file behind an `ofstream`, whose output is buffered: a buffer of
`capacity` characters in front of a device that stores at most `room`
characters. -/
structure filebuf where
  capacity : Nat
  room : Nat

/-- Whether `<<` of the characters `s` succeeds on an `ofstream` to which the
characters `text` were written: as long as everything fits in the buffer the
device is not asked; when it no longer fits the buffer is written, and the
device must have room for the output so far (the buffer is taken to be
written as a whole). -/
def filebuf.accepts (fb : filebuf) (text s : List Char) : Bool :=
  decide (text.length + s.length ≤ fb.capacity) || decide (text.length + s.length ≤ fb.room)

/-- The destructor of `ofstream`: it writes what is still in the buffer and
reports nothing, so of the characters `text` written to the stream the file
holds those that the device had room for. -/
def filebuf.close (fb : filebuf) (text : List Char) : List Char :=
  text.take fb.room

/-- `WriteOFF` on a buffered file: the result of the call, and the file once
`ofs` has been destroyed at the end of the call (line 538), which is after
`ofs.fail()` was read (line 537). -/
def WriteOFF.buffered (lib : StdLib) (fb : filebuf) (polydata : vtkPolyData) :
    Bool × List Char :=
  let r := WriteOFF { lib with accepts := fb.accepts } polydata
  (r.1, fb.close r.2)

/-! ## TetGen -/

/-- Embedding of `WriteTetGenNode(ostream &os, vtkPointSet *pointset)`: the
result and the stream after the call. -/
def WriteTetGenNode (lib : StdLib) (os : ostream) (pointset : vtkPolyData) :
    Bool × ostream :=
  let pd := pointset.pointData
  let nattributes : Int := pd.arrays.foldl (fun (n : Int) ar => n + ar.ncomp) 0
  let os := (((os.int lib pointset.GetNumberOfPoints).str lib " 3 ").int lib nattributes).str lib
    " 0\n"
  let precision := os.precision
  let os := (List.range pointset.GetNumberOfPoints.toNat).foldl (fun (os : ostream) (ptId : Nat) =>
    let os := (os.int lib ((ptId : Int) + 1)).str lib " "
    let os := { os with precision := 8 }
    let p := pointset.GetPoint ptId
    let os := (((((os.str lib " ").dbl lib p.1).str lib " ").dbl lib p.2.1).str lib " ").dbl lib
      p.2.2
    let os := { os with precision := 5 }
    let os := pd.arrays.foldl (fun (os : ostream) ar =>
      (List.range ar.ncomp.toNat).foldl (fun (os : ostream) (j : Nat) =>
        (os.str lib " ").dbl lib (ar.GetComponent ptId j)) os) os
    os.str lib "\n") os
  let os := { os with precision := precision }
  (!os.failed, os)

/-- The loop `while (cells->GetNextCell(npts, pts))` of the TetGen writers: one
line per cell, the point count, the separator that follows it, and each point
ID plus one after a space. -/
def WriteTetGen.cells (lib : StdLib) (os : ostream) (sep : String)
    (cells : List (List Int)) : ostream :=
  cells.foldl (fun (os : ostream) pts =>
    let npts : Int := pts.length
    let os := (os.int lib npts).str lib sep
    let os := (List.range npts.toNat).foldl (fun (os : ostream) (i : Nat) =>
      (os.str lib " ").int lib (pts.getD i 0 + 1)) os
    os.str lib "\n") os

/-- The hole list and region list sections of `WriteTetGenPoly` and
`WriteTetGenSMesh`. -/
def WriteTetGen.holes (lib : StdLib) (os : ostream) (holes : Option (List Point)) : ostream :=
  let os := os.str lib "\n# part 3: hole list\n"
  let os :=
    match holes with
    | some holes =>
      let os := (os.int lib holes.length).str lib "\n"
      (List.range holes.length).foldl (fun (os : ostream) (i : Nat) =>
        let p := holes.getD i (0, 0, 0)
        (((((((os.int lib ((i : Int) + 1)).str lib " ").dbl lib p.1).str lib " ").dbl lib
          p.2.1).str lib " ").dbl lib p.2.2).str lib "\n") os
    | none => os.str lib "0\n"
  let os := os.str lib "\n# part 4: region list\n"
  os.str lib "0\n"

/-- Embedding of `WriteTetGenPoly`: the result and the characters in the file. -/
def WriteTetGenPoly (lib : StdLib) (polydata : vtkPolyData) (holes : Option (List Point)) :
    Bool × List Char :=
  let os := ofstream.open lib
  if ¬ os.is_open then (false, os.text)
  else
    let os := os.str lib "# part 1: nodes\n"
    let os := (WriteTetGenNode lib os polydata).2
    let verts := polydata.verts
    let lines := polydata.lines
    let polys := polydata.polys
    let strips := polydata.strips
    let nfacets : Int := 0
    let nfacets := if verts.length > 0 then nfacets + 1 else nfacets
    let nfacets := if lines.length > 0 then nfacets + 1 else nfacets
    let nfacets := if polys.length > 0 then nfacets + 1 else nfacets
    let nfacets := if strips.length > 0 then nfacets + 1 else nfacets
    let os := os.str lib "\n# part 2: facets\n"
    let os := (os.int lib nfacets).str lib " 0\n"
    let os :=
      if verts.length > 0 then
        let os := os.str lib "# verts\n"
        let os := (os.int lib verts.length).str lib "\n"
        WriteTetGen.cells lib os " " verts
      else os
    let os :=
      if lines.length > 0 then
        let os := os.str lib "# lines\n"
        let os := (os.int lib lines.length).str lib "\n"
        WriteTetGen.cells lib os " " lines
      else os
    let os :=
      if polys.length > 0 then
        let os := os.str lib "# polys\n"
        let os := (os.int lib polys.length).str lib "\n"
        WriteTetGen.cells lib os " " polys
      else os
    let os :=
      if strips.length > 0 then
        let os := os.str lib "# strips\n"
        let os := (os.int lib strips.length).str lib "\n"
        WriteTetGen.cells lib os " " strips
      else os
    let os := WriteTetGen.holes lib os holes
    (!os.failed, os.text)

/-- Embedding of `WriteTetGenSMesh`: the result and the characters in the file.
The lines of the triangle strips have no separator after the point count. -/
def WriteTetGenSMesh (lib : StdLib) (polydata : vtkPolyData) (holes : Option (List Point)) :
    Bool × List Char :=
  let os := ofstream.open lib
  if ¬ os.is_open then (false, os.text)
  else
    let os := os.str lib "# part 1: nodes\n"
    let os := (WriteTetGenNode lib os polydata).2
    let verts := polydata.verts
    let lines := polydata.lines
    let polys := polydata.polys
    let strips := polydata.strips
    let nfacets : Int := 0
    let nfacets := if verts.length > 0 then nfacets + verts.length else nfacets
    let nfacets := if lines.length > 0 then nfacets + lines.length else nfacets
    let nfacets := if polys.length > 0 then nfacets + polys.length else nfacets
    let nfacets := if strips.length > 0 then nfacets + strips.length else nfacets
    let os := os.str lib "\n# part 2: facets\n"
    let os := (os.int lib nfacets).str lib " 0\n"
    let os := if verts.length > 0 then WriteTetGen.cells lib os " " verts else os
    let os := if lines.length > 0 then WriteTetGen.cells lib os " " lines else os
    let os := if polys.length > 0 then WriteTetGen.cells lib os " " polys else os
    let os := if strips.length > 0 then WriteTetGen.cells lib os "" strips else os
    let os := WriteTetGen.holes lib os holes
    (!os.failed, os.text)

/-! ## BrainSuite surfaces (`brainsuite/dfsurface.h`) -/

/-- The fields of `SILT::DFSurface`: vertices, triangles (`int` indices), and
the per-vertex normals, colours, UV coordinates, labels (`unsigned short`) and
attributes; a vector that the file does not have is empty. -/
structure SILT.DFSurface where
  vertices : List Point
  triangles : List (Int × Int × Int)
  vertexNormals : List Point
  vertexColors : List Point
  vertexUV : List (Rat × Rat)
  vertexLabels : List Int
  vertexAttributes : List Rat
  deriving DecidableEq

/-- The default-constructed `SILT::DFSurface`. -/
def SILT.DFSurface.empty : SILT.DFSurface :=
  { vertices := [], triangles := [], vertexNormals := [], vertexColors := [], vertexUV := [],
    vertexLabels := [], vertexAttributes := [] }

/-- What `ReadDFS` and `WriteDFS` take from outside: the conversion
`static_cast<float>` of a `double`, and the calls `surface.readDFS(fname)`
(the surface read, `none` when the call returns `false`) and
`surface.writeDFS(fname)` of the BrainSuite library. -/
structure DFSHost where
  toFloat : Rat → Rat
  readDFS : String → Option SILT.DFSurface
  writeDFS : String → SILT.DFSurface → Bool

/-- A `for` loop over `0 ≤ i < n` whose body assigns element `i` of a sequence. -/
def assignAll {α : Type} (n : Nat) (init : List α) (f : Nat → α) : List α :=
  (List.range n).foldl (fun l i => l.set i (f i)) init

/-- The call `vtkSmartPointer<vtkFloatArray>::New()`. -/
def vtkFloatArray.New : vtkDataArray :=
  { kind := ValueKind.real, name := "", ncomp := 1, tuples := [], info := [] }

/-- The call `vtkSmartPointer<vtkUnsignedShortArray>::New()`. -/
def vtkUnsignedShortArray.New : vtkDataArray :=
  { kind := ValueKind.integral, name := "", ncomp := 1, tuples := [], info := [] }

/-- The loop `for (i < n) a->SetTuple(i, t)` where `t` holds the components
that `tuple i` lists. -/
def vtkDataArray.SetTuples (d : vtkDataArray) (n : Nat) (tuple : Nat → List Rat) :
    vtkDataArray :=
  { d with tuples := assignAll n d.tuples (fun i => (tuple i).map d.kind.store) }

/-- The call `pd->GetArray(name)`: the first array of that name. -/
def vtkPointData.GetArray (pd : vtkPointData) (name : String) : Option vtkDataArray :=
  pd.arrays.find? (fun a => a.name == name)

/-- The array at an attribute index, `none` for no index. -/
def vtkPointData.attribute (pd : vtkPointData) (idx : Option Nat) : Option vtkDataArray :=
  idx.bind (fun i => pd.arrays.get? i)

/-- The call `pd->GetScalars()`. -/
def vtkPointData.GetScalars (pd : vtkPointData) : Option vtkDataArray := pd.attribute pd.scalars

/-- The call `pd->GetNormals()`. -/
def vtkPointData.GetNormals (pd : vtkPointData) : Option vtkDataArray := pd.attribute pd.normals

/-- The call `pd->GetTCoords()`. -/
def vtkPointData.GetTCoords (pd : vtkPointData) : Option vtkDataArray := pd.attribute pd.tcoords

/-- The call `pd->SetNormals(data)` on point data without active normals: the
array is added and becomes the active normals. -/
def vtkPointData.SetNormals (pd : vtkPointData) (data : vtkDataArray) : vtkPointData :=
  let added := pd.AddArray data
  { added.1 with normals := some added.2 }

/-- The call `pd->SetTCoords(data)` on point data without active texture
coordinates. -/
def vtkPointData.SetTCoords (pd : vtkPointData) (data : vtkDataArray) : vtkPointData :=
  let added := pd.AddArray data
  { added.1 with tcoords := some added.2 }

/-- The call `pd->SetScalars(data)` on point data without active scalars. -/
def vtkPointData.SetScalars (pd : vtkPointData) (data : vtkDataArray) : vtkPointData :=
  let added := pd.AddArray data
  { added.1 with scalars := some added.2 }

/-- Embedding of `ReadDFS`; `surface` is the surface that `surface.readDFS(fname)`
read, `none` when the call returns `false`. -/
def ReadDFS (env : Env) (surface : Option SILT.DFSurface) : vtkPolyData :=
  let polydata := vtkPolyData.New
  match surface with
  | none => polydata
  | some surface =>
    let npoints : Nat := surface.vertices.length
    let ncells : Nat := surface.triangles.length
    let points := assignAll npoints (vtkPoints.SetNumberOfPoints env npoints)
      (fun i => surface.vertices.getD i (0, 0, 0))
    let polydata := { polydata with points := points }
    let cells := (List.range ncells).foldl (fun (cells : List (List Int)) i =>
      let t := surface.triangles.getD i (0, 0, 0)
      cells ++ [[t.1, t.2.1, t.2.2]]) []
    let polydata := { polydata with polys := cells }
    let pd := polydata.pointData
    let pd :=
      if ¬ surface.vertexNormals.isEmpty then
        let normals := ((vtkFloatArray.New.SetName "Normals").SetNumberOfComponents 3
          ).SetNumberOfTuples env npoints
        pd.SetNormals (normals.SetTuples npoints (fun i =>
          let n := surface.vertexNormals.getD i (0, 0, 0)
          [n.1, n.2.1, n.2.2]))
      else pd
    let pd :=
      if ¬ surface.vertexColors.isEmpty then
        let colors := ((vtkFloatArray.New.SetName "Colors").SetNumberOfComponents 3
          ).SetNumberOfTuples env npoints
        (pd.AddArray (colors.SetTuples npoints (fun i =>
          let rgb := surface.vertexColors.getD i (0, 0, 0)
          [rgb.1, rgb.2.1, rgb.2.2]))).1
      else pd
    let pd :=
      if ¬ surface.vertexUV.isEmpty then
        let coords := ((vtkFloatArray.New.SetName "UV").SetNumberOfComponents 3
          ).SetNumberOfTuples env npoints
        pd.SetTCoords (coords.SetTuples npoints (fun i =>
          let uv := surface.vertexUV.getD i (0, 0)
          [uv.1, uv.2, 0]))
      else pd
    let pd :=
      if ¬ surface.vertexLabels.isEmpty then
        let labels := ((vtkUnsignedShortArray.New.SetName "Labels").SetNumberOfComponents 1
          ).SetNumberOfTuples env npoints
        (pd.AddArray (labels.SetTuples npoints (fun i =>
          [((surface.vertexLabels.getD i 0 : Int) : Rat)]))).1
      else pd
    let pd :=
      if ¬ surface.vertexAttributes.isEmpty then
        let scalars := ((vtkFloatArray.New.SetName "Attributes").SetNumberOfComponents 1
          ).SetNumberOfTuples env npoints
        pd.SetScalars (scalars.SetTuples npoints (fun i =>
          [surface.vertexAttributes.getD i 0]))
      else pd
    { polydata with pointData := pd }

/-- Conversion of a `double` to `unsigned short`: truncation toward zero, modulo
`2 ^ 16`. -/
def castUShort (x : Rat) : Int := truncate x % 2 ^ 16

/-- The triangle loop of `WriteDFS` over the cells from cell `i` on: `none`
when it reaches a cell that does not have three points (`return false`). -/
def WriteDFS.triangles : List (List Int) → Option (List (Int × Int × Int))
  | [] => some []
  | pts :: rest =>
    if pts.length ≠ 3 then none
    else
      match WriteDFS.triangles rest with
      | none => none
      | some triangles =>
        some ((castInt (pts.getD 0 0), castInt (pts.getD 1 0), castInt (pts.getD 2 0)) ::
          triangles)

/-- The surface that `WriteDFS` fills, `none` when it returns before the call
of the writer: each vector is resized to the number of points and assigned, or
stays empty. Components that an array does not have read as `0`. -/
def WriteDFS.surface (host : DFSHost) (polydata : vtkPolyData) : Option SILT.DFSurface :=
  let npoints : Nat := polydata.GetNumberOfPoints.toNat
  let vertices := assignAll npoints (List.replicate npoints (0, 0, 0)) (fun i =>
    let p := polydata.GetPoint i
    (host.toFloat p.1, host.toFloat p.2.1, host.toFloat p.2.2))
  match WriteDFS.triangles polydata.cells with
  | none => none
  | some triangles =>
    let pd := polydata.pointData
    let normals := match pd.GetNormals with
      | some a => some a
      | none => pd.GetArray "Normals"
    let vertexNormals := match normals with
      | some normals =>
        assignAll npoints (List.replicate npoints (0, 0, 0)) (fun i =>
          (host.toFloat (normals.GetComponent i 0), host.toFloat (normals.GetComponent i 1),
           host.toFloat (normals.GetComponent i 2)))
      | none => []
    let vertexColors := match pd.GetArray "Colors" with
      | some colors =>
        assignAll npoints (List.replicate npoints (0, 0, 0)) (fun i =>
          (host.toFloat (colors.GetComponent i 0), host.toFloat (colors.GetComponent i 1),
           host.toFloat (colors.GetComponent i 2)))
      | none => []
    let coords := match pd.GetTCoords with
      | some a => some a
      | none => pd.GetArray "UV"
    let vertexUV := match coords with
      | some coords =>
        if coords.ncomp = 2 ∨ coords.ncomp = 3 then
          assignAll npoints (List.replicate npoints (0, 0)) (fun i =>
            (host.toFloat (coords.GetComponent i 0), host.toFloat (coords.GetComponent i 1)))
        else []
      | none => []
    let vertexLabels := match pd.GetArray "Labels" with
      | some labels =>
        if labels.ncomp = 1 then
          assignAll npoints (List.replicate npoints 0) (fun i =>
            castUShort (labels.GetComponent i 0))
        else []
      | none => []
    let scalars := match pd.GetScalars with
      | some a => some a
      | none => pd.GetArray "Attributes"
    let vertexAttributes := match scalars with
      | some scalars =>
        if scalars.ncomp = 1 then
          assignAll npoints (List.replicate npoints 0) (fun i =>
            host.toFloat (scalars.GetComponent i 0))
        else []
      | none => []
    some { vertices := vertices, triangles := triangles, vertexNormals := vertexNormals,
           vertexColors := vertexColors, vertexUV := vertexUV, vertexLabels := vertexLabels,
           vertexAttributes := vertexAttributes }

/-- Embedding of `WriteDFS`: the result, and the surface handed to
`surface.writeDFS(fname)` (`none` when the writer is not called). -/
def WriteDFS (host : DFSHost) (fname : String) (polydata : vtkPolyData) :
    Bool × Option SILT.DFSurface :=
  match WriteDFS.surface host polydata with
  | none => (false, none)
  | some surface => (host.writeDFS fname surface, some surface)

/-! ## Generic readers and writers -/

/-- A `vtkPointSet`: a `vtkPolyData`, or a data set of another class (such as
`vtkUnstructuredGrid`), of which the functions here use the points only. -/
inductive vtkPointSet where
  | polyData (polydata : vtkPolyData)
  | other (points : List Point)
  deriving DecidableEq

/-- The call `pointset->GetNumberOfPoints()`. -/
def vtkPointSet.GetNumberOfPoints : vtkPointSet → Int
  | .polyData polydata => polydata.GetNumberOfPoints
  | .other points => points.length

/-- The call `vtkPolyData::SafeDownCast(pointset)`. -/
def vtkPolyData.SafeDownCast : vtkPointSet → Option vtkPolyData
  | .polyData polydata => some polydata
  | .other _ => none

/-- The C++ test `ext.length() == 4 && ext.substr(0, 3) == ".vt" && ext != ".vtk"`;
`length()` counts bytes, and the first three bytes are `.vt` exactly when the
first three characters are. -/
def isXMLExtension (ext : String) : Prop :=
  ext.utf8ByteSize = 4 ∧ ext.take 3 = ".vt" ∧ ext ≠ ".vtk"

instance (ext : String) : Decidable (isXMLExtension ext) := by
  unfold isXMLExtension; infer_instance

/-- What the generic readers take from outside: `Extension` of `mirtk/Path.h`,
whether `MIRTK_IO_WITH_GIFTI` is set, the default value of the argument
`exit_on_failure` in the declaration of `ReadPolyData` (`mirtk/PointSetIO.h`),
the output of each VTK reader for a file name (for the generic readers after
`vtkPointSet::SafeDownCast`, `none` when that is null), the BrainSuite library,
the contents of a file (`none` when it cannot be opened), and the result of
`gifti_read_image`. -/
structure Readers where
  Extension : String → String
  MIRTK_IO_WITH_GIFTI : Bool
  ReadPolyData_exit_on_failure : Bool
  vtkXMLGenericDataObjectReader : String → Option vtkPointSet
  vtkGenericDataObjectReader : String → Option vtkPointSet
  vtkXMLPolyDataReader : String → vtkPolyData
  vtkSTLReader : String → vtkPolyData
  vtkPLYReader : String → vtkPolyData
  vtkOBJReader : String → vtkPolyData
  vtkPolyDataReader : String → vtkPolyData
  dfs : DFSHost
  file : String → Option (List Char)
  gifti_read_image : String → Option gifti_image

/-- The reader selection of `ReadPolyData`: the polygonal data set before the
final check, `none` for the null pointer. The output argument `ftype` is
omitted. -/
def ReadPolyData.read (r : Readers) (lib : StdLib) (env : Env) (fname : String)
    (exit_on_failure : Bool) : Except Fault (Option vtkPolyData) :=
  let ext := r.Extension fname
  if ext = ".vtp" then .ok (some (r.vtkXMLPolyDataReader fname))
  else if ext = ".stl" then .ok (some (r.vtkSTLReader fname))
  else if ext = ".ply" then .ok (some (r.vtkPLYReader fname))
  else if ext = ".obj" then .ok (some (r.vtkOBJReader fname))
  else if ext = ".dfs" then .ok (some (ReadDFS env (r.dfs.readDFS fname)))
  else if ext = ".off" then .ok (some (ReadOFF lib env (r.file fname)))
  else if ext = ".gii" then
    if r.MIRTK_IO_WITH_GIFTI then
      match ReadGIFTI env (r.gifti_read_image fname) none with
      | .error f => .error f
      | .ok polydata => .ok (some polydata)
    else if exit_on_failure then .error Fault.exit
    else .ok none
  else .ok (some (r.vtkPolyDataReader fname))

/-- Embedding of `ReadPolyData`. -/
def ReadPolyData (r : Readers) (lib : StdLib) (env : Env) (fname : String)
    (exit_on_failure : Bool) : Except Fault (Option vtkPolyData) :=
  match ReadPolyData.read r lib env fname exit_on_failure with
  | .error f => .error f
  | .ok polydata =>
    if exit_on_failure then
      match polydata with
      | none => .error Fault.nullDeref
      | some p => if p.GetNumberOfPoints = 0 then .error Fault.exit else .ok polydata
    else .ok polydata

/-- The reader selection of `ReadPointSet`: the point set before the final
check. `ReadPolyData` is called with the file name only. -/
def ReadPointSet.read (r : Readers) (lib : StdLib) (env : Env) (fname : String) :
    Except Fault (Option vtkPointSet) :=
  let ext := r.Extension fname
  if ext = ".vtp" ∨ ext = ".stl" ∨ ext = ".ply" ∨ ext = ".obj" ∨ ext = ".dfs" ∨ ext = ".off" ∨
      ext = ".gii" then
    match ReadPolyData r lib env fname r.ReadPolyData_exit_on_failure with
    | .error f => .error f
    | .ok polydata => .ok (polydata.map vtkPointSet.polyData)
  else if isXMLExtension ext then .ok (r.vtkXMLGenericDataObjectReader fname)
  else .ok (r.vtkGenericDataObjectReader fname)

/-- Embedding of `ReadPointSet`. -/
def ReadPointSet (r : Readers) (lib : StdLib) (env : Env) (fname : String)
    (exit_on_failure : Bool) : Except Fault (Option vtkPointSet) :=
  match ReadPointSet.read r lib env fname with
  | .error f => .error f
  | .ok pointset =>
    let empty : Bool := match pointset with
      | none => true
      | some p => decide (p.GetNumberOfPoints = 0)
    if exit_on_failure ∧ empty then .error Fault.exit else .ok pointset

/-- What the generic writers take from outside: the host of `WriteGIFTI` (with
`Extension`), whether `MIRTK_IO_WITH_GIFTI` is set, the default value of the
argument `holes` in the declarations of `WriteTetGenPoly` and
`WriteTetGenSMesh` (`mirtk/PointSetIO.h`), the result of `Write()` of each VTK
writer for a file name, an input and the compression or ASCII flag, the
BrainSuite library, and the stream library for the file of a name. -/
structure Writers where
  host : Host
  MIRTK_IO_WITH_GIFTI : Bool
  holes : Option (List Point)
  vtkXMLDataSetWriter : String → vtkPointSet → Bool → Int
  vtkDataSetWriter : String → vtkPointSet → Bool → Int
  vtkXMLPolyDataWriter : String → vtkPolyData → Bool → Int
  vtkSTLWriter : String → vtkPolyData → Bool → Int
  vtkPLYWriter : String → vtkPolyData → Bool → Int
  vtkPolyDataWriter : String → vtkPolyData → Bool → Int
  dfs : DFSHost
  lib : String → StdLib

/-- Embedding of `WriteTetGenNode(const char *fname, vtkPointSet *pointset)`. -/
def WriteTetGenNode.toFile (lib : StdLib) (pointset : vtkPolyData) : Bool :=
  let os := ofstream.open lib
  if ¬ os.is_open then false
  else (WriteTetGenNode lib os pointset).1

/-- The conversion of a `bool` to `int`. -/
def boolToInt (b : Bool) : Int := if b then 1 else 0

/-- The value of `success` at the end of `WritePolyData`. -/
def WritePolyData.success (w : Writers) (fname : String) (polydata : vtkPolyData)
    (compress ascii : Bool) : Int :=
  let ext := w.host.Extension fname
  if ext = ".vtp" then w.vtkXMLPolyDataWriter fname polydata compress
  else if ext = ".stl" then w.vtkSTLWriter fname polydata ascii
  else if ext = ".ply" then w.vtkPLYWriter fname polydata ascii
  else if ext = ".node" then boolToInt (WriteTetGenNode.toFile (w.lib fname) polydata)
  else if ext = ".poly" then boolToInt (WriteTetGenPoly (w.lib fname) polydata w.holes).1
  else if ext = ".smesh" then boolToInt (WriteTetGenSMesh (w.lib fname) polydata w.holes).1
  else if ext = ".dfs" then boolToInt (WriteDFS w.dfs fname polydata).1
  else if ext = ".off" then boolToInt (WriteOFF (w.lib fname) polydata).1
  else if ext = ".gii" then
    if w.MIRTK_IO_WITH_GIFTI then
      boolToInt (WriteGIFTI w.host fname polydata compress ascii).success
    else 0
  else w.vtkPolyDataWriter fname polydata ascii

/-- Embedding of `WritePolyData`. -/
def WritePolyData (w : Writers) (fname : String) (polydata : vtkPolyData)
    (compress ascii : Bool) : Bool :=
  decide (WritePolyData.success w fname polydata compress ascii = 1)

/-- Embedding of `WritePointSet`. -/
def WritePointSet (w : Writers) (fname : String) (pointset : vtkPointSet)
    (compress ascii : Bool) : Bool :=
  match vtkPolyData.SafeDownCast pointset with
  | some polydata => WritePolyData w fname polydata compress ascii
  | none =>
    let ext := w.host.Extension fname
    let success : Int :=
      if isXMLExtension ext then w.vtkXMLDataSetWriter fname pointset compress
      else w.vtkDataSetWriter fname pointset ascii
    decide (success = 1)

/-! ## Definitions used to state the properties -/

/-- The ten recognised NIfTI datatype tags. -/
def recognisedTypes : List Int :=
  [NIFTI_TYPE_INT8, NIFTI_TYPE_INT16, NIFTI_TYPE_INT32, NIFTI_TYPE_INT64, NIFTI_TYPE_UINT8,
   NIFTI_TYPE_UINT16, NIFTI_TYPE_UINT32, NIFTI_TYPE_UINT64, NIFTI_TYPE_FLOAT32,
   NIFTI_TYPE_FLOAT64]

/-- Point ID stored at offset `k` of a triangle array. -/
def giiDataArray.pointId (a : giiDataArray) (k : Nat) : Int := truncate (a.elem k)

/-- Triangle `j` of an `n`-row triangle array under its declared layout. -/
def giiDataArray.triangle (a : giiDataArray) (n j : Nat) : List Int :=
  if a.ind_ord = GIFTI_IND_ORD_COL_MAJOR then
    [a.pointId j, a.pointId (n + j), a.pointId (2 * n + j)]
  else [a.pointId (3 * j), a.pointId (3 * j + 1), a.pointId (3 * j + 2)]

/-- What the copy loops leave alone in the destination: the number of tuples
and the number of components. -/
def vtkDataArray.shape (d : vtkDataArray) : Nat × Int := (d.tuples.length, d.ncomp)

/-- The size requirement on a point data array: its `dims[0]` is the number of
node indices when there is an index array, and the number of points otherwise. -/
def sizeMatches (array : giiDataArray) (npoints : Int) (indices : Option vtkDataArray) : Prop :=
  match indices with
  | some ind => array.dim 0 = ind.GetNumberOfTuples
  | none => array.dim 0 = npoints

/-- What the loop of `GIFTIPointDataToVTK` guarantees of an array of its result
that was not there before: `npoints` tuples, and the component count of a
point data array of the list that passed the size check. -/
def convertedFrom (l : List giiDataArray) (npoints : Int) (indices : Option vtkDataArray)
    (nindices : Int) (d : vtkDataArray) : Prop :=
  d.tuples.length = npoints.toNat ∧
    ∃ a ∈ l, isPointDataArray a ∧ ¬ sizeMismatch a npoints indices nindices ∧
      d.ncomp = castInt (Int.tdiv a.nvals (a.dim 0))

/-! ## Metadata, names and activation -/

/-- The metadata names that `CopyGIFTIMetaData` copies verbatim to the string
key of the same name. -/
def stringKeyNames : List String :=
  [GiftiMetaData.DATE, GiftiMetaData.USER_NAME, GiftiMetaData.SUBJECT_ID,
   GiftiMetaData.SURFACE_ID, GiftiMetaData.UNIQUE_ID, GiftiMetaData.NAME,
   GiftiMetaData.DESCRIPTION, GiftiMetaData.ANATOMICAL_STRUCTURE_PRIMARY,
   GiftiMetaData.ANATOMICAL_STRUCTURE_SECONDARY, GiftiMetaData.GEOMETRIC_TYPE,
   GiftiMetaData.TOPOLOGICAL_TYPE]

/-- The metadata names of the intent code: the key name and its two aliases. -/
def intentCodeNames : List String := [GiftiMetaData.INTENT_CODE, "Intent", "IntentCode"]

/-- The metadata names of the first intent parameter. -/
def intentP1Names : List String := [GiftiMetaData.INTENT_P1, "Intent_p1", "IntentP1"]

/-- The metadata names of the second intent parameter. -/
def intentP2Names : List String := [GiftiMetaData.INTENT_P2, "Intent_p2", "IntentP2"]

/-- The metadata names of the third intent parameter. -/
def intentP3Names : List String := [GiftiMetaData.INTENT_P3, "Intent_p3", "IntentP3"]

/-- All metadata names that `CopyGIFTIMetaData` recognises. -/
def recognisedNames : List String :=
  stringKeyNames ++ [GiftiMetaData.TIME_STEP] ++ intentCodeNames ++ intentP1Names ++
    intentP2Names ++ intentP3Names

/-- The keys that `CopyGIFTIMetaData` can set. -/
def targetKeys : List String :=
  stringKeyNames ++ [GiftiMetaData.TIME_STEP, GiftiMetaData.INTENT_CODE,
    GiftiMetaData.INTENT_P1, GiftiMetaData.INTENT_P2, GiftiMetaData.INTENT_P3]

/-- The entry that one metadata name/value pair contributes to the table: the
key and its typed value, or nothing when the name is not recognised or a
numeric value does not parse. -/
def entryOf (env : Env) (name value : String) : Option (String × InfoValue) :=
  if name ∈ stringKeyNames then some (name, .str value)
  else if name = GiftiMetaData.TIME_STEP then
    (env.fromStringDouble value).map (fun x => (GiftiMetaData.TIME_STEP, .dbl x))
  else if name ∈ intentCodeNames then
    (env.fromStringInt value).map (fun n => (GiftiMetaData.INTENT_CODE, .int n))
  else if name ∈ intentP1Names then
    (env.fromStringDouble value).map (fun x => (GiftiMetaData.INTENT_P1, .dbl x))
  else if name ∈ intentP2Names then
    (env.fromStringDouble value).map (fun x => (GiftiMetaData.INTENT_P2, .dbl x))
  else if name ∈ intentP3Names then
    (env.fromStringDouble value).map (fun x => (GiftiMetaData.INTENT_P3, .dbl x))
  else none

/-- A numeric key of `CopyGIFTIMetaData` (file to mesh): the key that is set,
the metadata names under which it is read, and the conversion of the value
string to a value of the key's type. -/
structure NumericKey where
  key : String
  names : List String
  parse : String → Option InfoValue

/-- The five numeric keys of `CopyGIFTIMetaData`: the time step and the intent
parameters are `double` keys, the intent code is an `int` key. -/
def numericKeys (env : Env) : List NumericKey :=
  [{ key := GiftiMetaData.TIME_STEP, names := [GiftiMetaData.TIME_STEP],
     parse := fun s => (env.fromStringDouble s).map .dbl },
   { key := GiftiMetaData.INTENT_CODE, names := intentCodeNames,
     parse := fun s => (env.fromStringInt s).map .int },
   { key := GiftiMetaData.INTENT_P1, names := intentP1Names,
     parse := fun s => (env.fromStringDouble s).map .dbl },
   { key := GiftiMetaData.INTENT_P2, names := intentP2Names,
     parse := fun s => (env.fromStringDouble s).map .dbl },
   { key := GiftiMetaData.INTENT_P3, names := intentP3Names,
     parse := fun s => (env.fromStringDouble s).map .dbl }]

/-- The value of the last entry of a metadata list with the given name. -/
def lastValue (key : String) : giiMetaData → Option String
  | [] => none
  | e :: rest =>
    match lastValue key rest with
    | some s => some s
    | none => if e.1 = key then some e.2 else none

/-- The name that a point data array is expected to get: the value of its
`Name` metadata entry (the last one, should there be several), and the decimal
string of its intent code when it has none. -/
def expectedName (a : giiDataArray) : String :=
  match lastValue GiftiMetaData.NAME a.meta with
  | some s => s
  | none => toString a.intent

/-- The point data arrays of an image, in file order. -/
def pointDataArrays (gim : gifti_image) : List giiDataArray :=
  gim.darray.filter (fun a => decide (isPointDataArray a))

/-- The component count that `GIFTIPointDataToVTK` gives to a point data array. -/
def componentCount (a : giiDataArray) : Int := castInt (Int.tdiv a.nvals (a.dim 0))

/-- The array that the loop body of `GIFTIPointDataToVTK` builds from a point
data array: allocated, filled by the copy routine, then given its metadata and
name. -/
def convertedArray (env : Env) (npoints : Int) (indices : Option vtkDataArray)
    (a : giiDataArray) : vtkDataArray :=
  GIFTIPointDataToVTK.named env a (CopyGIFTIDataArrayWithDataType
    (((NewVTKDataArray (GIFTIDataTypeToVTK a.datatype)).SetNumberOfComponents
      (componentCount a)).SetNumberOfTuples env (if npoints ≠ 0 then npoints else a.dim 0))
    a indices)

/-- The effect of one accepted point data array on the point data: insertion
of its converted array and activation. -/
def addConverted (env : Env) (npoints : Int) (indices : Option vtkDataArray)
    (pd : vtkPointData) (a : giiDataArray) : vtkPointData :=
  GIFTIPointDataToVTK.activate a (componentCount a)
    (pd.AddArray (convertedArray env npoints indices a)).1
    (pd.AddArray (convertedArray env npoints indices a)).2

/-- The index of the first element of a list that satisfies a predicate. -/
def firstIndex {α : Type} (p : α → Bool) : List α → Option Nat
  | [] => none
  | a :: l => if p a then some 0 else (firstIndex p l).map (fun i => i + 1)

/-- Whether a point data array is one that `GIFTIPointDataToVTK` makes the
active scalars: intent `SHAPE`. -/
def isShapeArray (a : giiDataArray) : Bool := decide (a.intent = NIFTI_INTENT_SHAPE)

/-- Whether a point data array is one that `GIFTIPointDataToVTK` makes the
active vectors: intent `VECTOR` and exactly three components. -/
def isVectorArray (a : giiDataArray) : Bool :=
  decide (a.intent = NIFTI_INTENT_VECTOR ∧ componentCount a = 3)

/-- The active index after further arrays are appended behind `offset` arrays:
an index that is already active stays, otherwise the first qualifying array of
the appended ones becomes active. -/
def activeAfter (active : Option Nat) (offset : Nat) (first : Option Nat) : Option Nat :=
  match active with
  | some i => some i
  | none => first.map (fun i => i + offset)

instance (array : giiDataArray) (npoints : Int) (indices : Option vtkDataArray) :
    Decidable (sizeMatches array npoints indices) := by
  unfold sizeMatches; cases indices <;> infer_instance

/-! ## Writing: metadata and file types -/

/-- The keys that occur in the lists of `KeysForFile` and `KeysForDataArray`. -/
def listedKeys : List vtkInformationKey :=
  [GiftiMetaData.Key.DATE, GiftiMetaData.Key.USER_NAME, GiftiMetaData.Key.SUBJECT_ID,
   GiftiMetaData.Key.SURFACE_ID, GiftiMetaData.Key.UNIQUE_ID, GiftiMetaData.Key.NAME,
   GiftiMetaData.Key.DESCRIPTION, GiftiMetaData.Key.TIME_STEP,
   GiftiMetaData.Key.ANATOMICAL_STRUCTURE_PRIMARY,
   GiftiMetaData.Key.ANATOMICAL_STRUCTURE_SECONDARY, GiftiMetaData.Key.GEOMETRIC_TYPE,
   GiftiMetaData.Key.TOPOLOGICAL_TYPE, GiftiMetaData.Key.INTENT_CODE,
   GiftiMetaData.Key.INTENT_P1, GiftiMetaData.Key.INTENT_P2, GiftiMetaData.Key.INTENT_P3]

/-- A metadata list has an entry of the name with the value, and no entry of the
name with another value. -/
def holdsOnly (meta : giiMetaData) (name value : String) : Prop :=
  (name, value) ∈ meta ∧ ∀ e ∈ meta, e.1 = name → e.2 = value

/-- The ten file types that `WriteGIFTI` enumerates. -/
def enumeratedSubtypes : List String :=
  [".coord", ".func", ".label", ".rgba", ".shape", ".surf", ".tensor", ".time", ".topo",
   ".vector"]

/-- The array intents stated for a `.gii` file whose second extension is `sub`:
the coordinates for `.coord`, `.surf` and a second extension that is not an
enumerated type, the triangles for `.topo`, `.surf` and a second extension that
is not an enumerated type. -/
def expectedIntents (sub : String) : List Int :=
  (if sub = ".coord" ∨ sub = ".surf" ∨ sub ∉ enumeratedSubtypes
    then [NIFTI_INTENT_POINTSET] else []) ++
  (if sub = ".topo" ∨ sub = ".surf" ∨ sub ∉ enumeratedSubtypes
    then [NIFTI_INTENT_TRIANGLE] else [])

/-! ## Example inputs -/

/-- An environment whose conversions fail and whose fresh memory holds `7`. -/
def exEnv : Env :=
  { fromStringDouble := fun _ => none, fromStringInt := fun _ => none, uninit := fun _ _ => 7 }

/-- A destination array of the given tuples. -/
def exArray (kind : ValueKind) (tuples : List (List Rat)) : vtkDataArray :=
  { kind := kind, name := "", ncomp := 1, tuples := tuples, info := [] }

/-- A one-dimensional `FLOAT32` array of intent `SHAPE` with the given storage
order and values. -/
def exShape (ind_ord : Int) (data : List Rat) : giiDataArray :=
  { intent := NIFTI_INTENT_SHAPE, datatype := NIFTI_TYPE_FLOAT32, ind_ord := ind_ord,
    num_dim := 1, dims := [data.length, 0, 0, 0, 0, 0], nvals := data.length, data := data,
    meta := [], coordsys := [] }

/-- A two-dimensional `FLOAT32` array of intent `VECTOR` with `m` rows and `n`
columns. -/
def exMatrix (ind_ord : Int) (m n : Nat) (data : List Rat) : giiDataArray :=
  { intent := NIFTI_INTENT_VECTOR, datatype := NIFTI_TYPE_FLOAT32, ind_ord := ind_ord,
    num_dim := 2, dims := [m, n, 0, 0, 0, 0], nvals := m * n, data := data,
    meta := [], coordsys := [] }

/-- A one-dimensional `INT32` node index array. -/
def exNodeIndex (ind_ord : Int) (data : List Rat) : giiDataArray :=
  { intent := NIFTI_INTENT_NODE_INDEX, datatype := NIFTI_TYPE_INT32, ind_ord := ind_ord,
    num_dim := 1, dims := [data.length, 0, 0, 0, 0, 0], nvals := data.length, data := data,
    meta := [], coordsys := [] }

/-- A row-major coordinates array of three points. -/
def exPoints : giiDataArray :=
  { intent := NIFTI_INTENT_POINTSET, datatype := NIFTI_TYPE_FLOAT32,
    ind_ord := GIFTI_IND_ORD_ROW_MAJOR, num_dim := 2, dims := [3, 3, 0, 0, 0, 0], nvals := 9,
    data := [0, 0, 0, 1, 0, 0, 0, 1, 0], meta := [], coordsys := [] }

/-- A row-major triangle array of the given point IDs. -/
def exTriangles (data : List Rat) : giiDataArray :=
  { intent := NIFTI_INTENT_TRIANGLE, datatype := NIFTI_TYPE_INT32,
    ind_ord := GIFTI_IND_ORD_ROW_MAJOR, num_dim := 2, dims := [data.length / 3, 3, 0, 0, 0, 0],
    nvals := data.length, data := data, meta := [], coordsys := [] }

/-- An image of the three example points and the given triangles, followed by
further arrays. -/
def exImage (triangles : List Rat) (arrays : List giiDataArray) : gifti_image :=
  { darray := exPoints :: exTriangles triangles :: arrays, meta := [] }

/-- A coordinates array with all three malformations: datatype `FLOAT64`, three
dimensions, second dimension `4`. -/
def exBadPoints : giiDataArray :=
  { exPoints with datatype := NIFTI_TYPE_FLOAT64, num_dim := 3, dims := [3, 4, 1, 0, 0, 0],
                  nvals := 12 }

/-- A triangle array with a malformed datatype (`INT64`). -/
def exBadTriangles : giiDataArray :=
  { exTriangles [0, 1, 2] with datatype := NIFTI_TYPE_INT64 }

/-- An extension function for the examples: the part of the file name from its
last dot on, empty when the file name has no dot. -/
def exExtension (path : String) : String :=
  let name := (path.data.reverse.takeWhile (fun c => c ≠ '/')).reverse
  if '.' ∈ name then String.mk ('.' :: (name.reverse.takeWhile (fun c => c ≠ '.')).reverse)
  else ""

/-- A host on which every library call succeeds. -/
def exHost : Host :=
  { Extension := exExtension, ToString := fun _ => "0.5", GetDateTime := "2026-10-30",
    GetUserName := "user", HAVE_ZLIB := true, gifti_create_image := true,
    gifti_add_empty_darray := fun _ => true, calloc := fun _ => true,
    gifti_add_empty_CS := fun _ => true, gifti_write_image := fun _ _ => 0 }

/-- A mesh of four points with the given polygons and information table. -/
def exMesh (polys : List (List Int)) (info : vtkInformation) : vtkPolyData :=
  { points := [(0, 0, 0), (1, 0, 0), (0, 1, 0), (1, 1, 0)], polys := polys,
    pointData := vtkPointData.New, info := info }

/-- An environment in which the string `5` parses as the integer five and the
string `0.5` as one half, and nothing else parses. -/
def exParseEnv : Env :=
  { fromStringDouble := fun s => if s = "0.5" then some (1 / 2) else none,
    fromStringInt := fun s => if s = "5" then some 5 else none,
    uninit := fun _ _ => 7 }

/-- A data array with the single metadata entry `Name`. -/
def exNamed (name : String) (a : giiDataArray) : giiDataArray :=
  { a with meta := [(GiftiMetaData.NAME, name)] }

/-- The example coordinates array with the given coordinate systems. -/
def exPointsCS (dataspaces : List String) : giiDataArray :=
  { exPoints with coordsys := dataspaces }

/-! ## Text readers and writers -/

/-- The first whitespace-delimited token of a text; empty when there is none. -/
def firstToken (text : List Char) : String :=
  String.mk ((text.dropWhile isspace).takeWhile (fun c => !isspace c))

/-- A scanner for the examples: an optional sign and decimal digits, read as an
integer valued number. -/
def exScanDouble (cs : List Char) : Option Rat × Nat :=
  let negative : Bool := cs.head? == some '-'
  let afterSign := if cs.head? == some '-' ∨ cs.head? == some '+' then cs.tail else cs
  let digits := afterSign.takeWhile Char.isDigit
  if digits.isEmpty then (none, cs.length - afterSign.length)
  else
    let v : Int := if negative then -(digitsValue digits : Int) else (digitsValue digits : Int)
    (some (v : Rat), cs.length - afterSign.length + digits.length)

/-- A library for the examples: numbers are printed by their numerator (the
examples use integer valued numbers only), files open and accept all output. -/
def exLib : StdLib :=
  { scanDouble := exScanDouble, formatDouble := fun _ x => (toString x.num).data,
    opens := true, accepts := fun _ _ => true }

/-- The decimal text of an integer. -/
def intText (n : Int) : List Char := (toString n).data

/-- The text of a sequence of lines, each ended by a line break. -/
def joinLines (lines : List (List Char)) : List Char :=
  (lines.map (fun l => l ++ ['\n'])).flatten

/-- A library on which files open and the device accepts all output. -/
def StdLib.healthy (lib : StdLib) : Prop :=
  lib.opens = true ∧ ∀ t s, lib.accepts t s = true

/-- The stream `os2` results from the stream `os1` by output of the characters
`t`: when `os2` has not failed, neither has `os1` and `t` has been appended;
and on a device that accepts all output, `os2` has not failed unless `os1`
has. -/
def Emits (lib : StdLib) (os1 os2 : ostream) (t : List Char) : Prop :=
  (os2.failed = false → os1.failed = false ∧ os2.text = os1.text ++ t) ∧
  ((∀ a b, lib.accepts a b = true) → os1.failed = false → os2.failed = false)

/-- The coordinate line of `WriteOFF` for a point. -/
def offPointLine (lib : StdLib) (p : Point) : List Char :=
  lib.formatDouble 12 p.1 ++ [' '] ++ lib.formatDouble 12 p.2.1 ++ [' '] ++
    lib.formatDouble 12 p.2.2

/-- The cell line of `WriteOFF` for a cell: the number of point IDs, and each
point ID after a space. -/
def offCellLine (ptIds : List Int) : List Char :=
  intText ptIds.length ++ (ptIds.map (fun id => ' ' :: intText id)).flatten

/-- The fields of a text after the characters `cur` of the field being read. -/
def fieldsAux : List Char → List Char → List (List Char)
  | [], cur => if cur.isEmpty then [] else [cur]
  | c :: cs, cur =>
    if isspace c then (if cur.isEmpty then fieldsAux cs [] else cur :: fieldsAux cs [])
    else fieldsAux cs (cur ++ [c])

/-- The whitespace-separated fields of a line. -/
def fields (line : List Char) : List (List Char) := fieldsAux line []

/-- The text of a sequence of fields, each after one space. -/
def spaced (toks : List (List Char)) : List Char := (toks.map (fun t => ' ' :: t)).flatten

/-- The number of attributes that the TetGen node writer declares: the sum of
the numbers of components of the point data arrays. -/
def nodeAttributeCount (pointset : vtkPolyData) : Int :=
  (pointset.pointData.arrays.map (fun ar => ar.ncomp)).sum

/-- The header line of the TetGen node writer. -/
def nodeHeader (pointset : vtkPolyData) : List Char :=
  intText pointset.points.length ++ " 3 ".data ++ intText (nodeAttributeCount pointset) ++
    " 0".data

/-- The attribute fields of a point in the TetGen node writer: every component of
every point data array, in the order of the arrays. -/
def nodeAttributes (lib : StdLib) (pointset : vtkPolyData) (ptId : Nat) : List (List Char) :=
  (pointset.pointData.arrays.map (fun ar =>
    (List.range ar.ncomp.toNat).map (fun j => lib.formatDouble 5 (ar.GetComponent ptId j)))).flatten

/-- The line of a point in the TetGen node writer: the point ID plus one, a
space, and after one more space each the coordinates and the attributes. -/
def nodePointLine (lib : StdLib) (pointset : vtkPolyData) (ptId : Nat) : List Char :=
  intText ((ptId : Int) + 1) ++ ' ' :: spaced
    ([lib.formatDouble 8 (pointset.GetPoint ptId).1, lib.formatDouble 8 (pointset.GetPoint ptId).2.1,
      lib.formatDouble 8 (pointset.GetPoint ptId).2.2] ++ nodeAttributes lib pointset ptId)

/-- The lines of the TetGen node writer. -/
def nodeLines (lib : StdLib) (pointset : vtkPolyData) : List (List Char) :=
  nodeHeader pointset :: (List.range pointset.points.length).map (nodePointLine lib pointset)

/-- The line of a cell in the TetGen writers: the number of points, a
separator, and after one space each the point IDs plus one. -/
def tetCellLine (sep : List Char) (pts : List Int) : List Char :=
  intText pts.length ++ sep ++ spaced (pts.map (fun id => intText (id + 1)))

/-- The lines of a cell group in `WriteTetGenPoly`: none for an empty group,
otherwise the comment, the number of cells, and the cell lines. -/
def polyGroup (comment : String) (cells : List (List Int)) : List (List Char) :=
  if cells.isEmpty then []
  else comment.data :: intText cells.length :: cells.map (tetCellLine [' '])

/-- The lines of the hole list: the number of holes and one line per hole, or
the line `0` when no hole list is given. -/
def holeLines (lib : StdLib) (holes : Option (List Point)) : List (List Char) :=
  match holes with
  | some holes =>
    intText holes.length :: (List.range holes.length).map (fun (i : Nat) =>
      intText ((i : Int) + 1) ++ ' ' :: lib.formatDouble 6 (holes.getD i (0, 0, 0)).1 ++
        ' ' :: lib.formatDouble 6 (holes.getD i (0, 0, 0)).2.1 ++
        ' ' :: lib.formatDouble 6 (holes.getD i (0, 0, 0)).2.2)
  | none => ["0".data]

/-- The hole list and region list sections of the TetGen writers. -/
def holeSection (lib : StdLib) (holes : Option (List Point)) : List Char :=
  "\n# part 3: hole list\n".data ++ joinLines (holeLines lib holes) ++
    "\n# part 4: region list\n".data ++ joinLines ["0".data]

/-- The node section of `WriteTetGenPoly` and `WriteTetGenSMesh`. -/
def nodeSection (lib : StdLib) (polydata : vtkPolyData) : List Char :=
  "# part 1: nodes\n".data ++ joinLines (nodeLines lib polydata)

/-- The facet count that `WriteTetGenPoly` is to declare: the number of non-empty
groups among vertices, lines, polygons and triangle strips. -/
def polyFacetCount (polydata : vtkPolyData) : Int :=
  (([polydata.verts, polydata.lines, polydata.polys, polydata.strips].filter
    (fun g => !g.isEmpty)).length : Nat)

/-- The facet section of `WriteTetGenPoly`: the facet count, and the non-empty
groups in the order vertices, lines, polygons, triangle strips. -/
def polyFacetSection (polydata : vtkPolyData) : List Char :=
  "\n# part 2: facets\n".data ++
    joinLines ((intText (polyFacetCount polydata) ++ " 0".data) ::
      (polyGroup "# verts" polydata.verts ++ polyGroup "# lines" polydata.lines ++
       polyGroup "# polys" polydata.polys ++ polyGroup "# strips" polydata.strips))

/-- The facet section of `WriteTetGenSMesh`: the number of cells, and one line
per cell; the lines of the triangle strips have no separator after the point
count. -/
def smeshFacetSection (polydata : vtkPolyData) : List Char :=
  "\n# part 2: facets\n".data ++
    joinLines ((intText polydata.cells.length ++ " 0".data) ::
      (polydata.verts.map (tetCellLine [' ']) ++ polydata.lines.map (tetCellLine [' ']) ++
       polydata.polys.map (tetCellLine [' ']) ++ polydata.strips.map (tetCellLine [])))

/-- The library prints every number as one field: at least one character, and
no whitespace. -/
def StdLib.printsFields (lib : StdLib) : Prop :=
  ∀ (p : Nat) (x : Rat), lib.formatDouble p x ≠ [] ∧ ∀ c ∈ lib.formatDouble p x, isspace c = false

/-- A mesh for the examples: the four points of the example mesh, a vertex, a
line, a triangle and a triangle strip, and one point data array of two
components. -/
def exCellMesh : vtkPolyData :=
  { exMesh [[0, 1, 2]] [] with
    verts := [[3]], lines := [[0, 1]], strips := [[0, 1, 2, 3]],
    pointData := { arrays := [{ kind := ValueKind.real, name := "a", ncomp := 2,
                                tuples := [[1, 2], [3, 4], [5, 6], [7, 8]], info := [] }],
                   scalars := none, vectors := none } }

/-! ## Well-formed OFF text -/

/-- A text is at a field boundary: it is empty or starts with whitespace. -/
def atBoundary (text : List Char) : Prop :=
  text = [] ∨ ∃ c cs, text = c :: cs ∧ isspace c = true

/-- The characters `t` are a decimal token of the `int` value `v`: digits, after
an optional sign. -/
def isIntToken (t : List Char) (v : Int) : Prop :=
  -2 ^ 31 ≤ v ∧ v ≤ 2 ^ 31 - 1 ∧
  ∃ digits : List Char, digits ≠ [] ∧ (∀ c ∈ digits, c.isDigit = true) ∧
    ((t = digits ∧ v = digitsValue digits) ∨ (t = '+' :: digits ∧ v = digitsValue digits) ∨
     (t = '-' :: digits ∧ v = -(digitsValue digits : Int)))

/-- The characters `t` are a token that the library reads in full as the number
`x` whenever a field boundary follows. -/
def isDoubleToken (lib : StdLib) (t : List Char) (x : Rat) : Prop :=
  t ≠ [] ∧ (∀ c ∈ t, isspace c = false) ∧
  ∀ rest, atBoundary rest → lib.scanDouble (t ++ rest) = (some x, t.length)

/-- The text holds, after optional whitespace, the keyword `OFF` or `off`, and
then `rest`. -/
def KeywordField (text rest : List Char) : Prop :=
  ∃ ws t, text = ws ++ t ++ rest ∧ (∀ c ∈ ws, isspace c = true) ∧
    (t = "OFF".data ∨ t = "off".data) ∧ atBoundary rest

/-- The text holds, after optional whitespace, a token of the integer `v`, and
then `rest`. -/
def IntField (v : Int) (text rest : List Char) : Prop :=
  ∃ ws t, text = ws ++ t ++ rest ∧ (∀ c ∈ ws, isspace c = true) ∧ isIntToken t v ∧
    atBoundary rest

/-- The text holds, after optional whitespace, a token of the number `x`, and
then `rest`. -/
def DoubleField (lib : StdLib) (x : Rat) (text rest : List Char) : Prop :=
  ∃ ws t, text = ws ++ t ++ rest ∧ (∀ c ∈ ws, isspace c = true) ∧ isDoubleToken lib t x ∧
    atBoundary rest

/-- The text holds the coordinate triples of the points, and then `rest`. -/
def PointFields (lib : StdLib) : List Point → List Char → List Char → Prop
  | [], text, rest => text = rest
  | p :: ps, text, rest =>
    ∃ t1 t2 t3, DoubleField lib p.1 text t1 ∧ DoubleField lib p.2.1 t1 t2 ∧
      DoubleField lib p.2.2 t2 t3 ∧ PointFields lib ps t3 rest

/-- The text holds the point indices, and then `rest`. -/
def IdFields : List Int → List Char → List Char → Prop
  | [], text, rest => text = rest
  | id :: ids, text, rest => ∃ t1, IntField id text t1 ∧ IdFields ids t1 rest

/-- The text holds the face records, and then `rest`: each record is its leading
integer `n` and `n` point indices (none when `n` is not positive). -/
def FaceFields : List (Int × List Int) → List Char → List Char → Prop
  | [], text, rest => text = rest
  | f :: fs, text, rest =>
    ∃ t1 t2, IntField f.1 text t1 ∧ f.2.length = f.1.toNat ∧ IdFields f.2 t1 t2 ∧
      FaceFields fs t2 rest

/-- A well-formed OFF text: the keyword, the three counts, as many coordinate
triples as the vertex count says, and as many face records as the face count
says (a negative count counting as zero). -/
def WellFormedOFF (lib : StdLib) (text : List Char) (numVertices numFaces numEdges : Int)
    (points : List Point) (faces : List (Int × List Int)) : Prop :=
  ∃ t1 t2 t3 t4 t5 t6, KeywordField text t1 ∧ IntField numVertices t1 t2 ∧
    IntField numFaces t2 t3 ∧ IntField numEdges t3 t4 ∧
    points.length = numVertices.toNat ∧ PointFields lib points t4 t5 ∧
    faces.length = numFaces.toNat ∧ FaceFields faces t5 t6

/-- The stream that has the text left to read, after a formatted extraction
that succeeded. -/
def streamAt (text : List Char) : istream :=
  { buf := text, eofbit := text.isEmpty, failbit := false }

/-- The point cells that the face records give: the point indices of the
records with `n = 1`, in the order of the records. -/
def offVerts (faces : List (Int × List Int)) : List (List Int) :=
  (faces.filter (fun f => decide (f.1 = 1))).map Prod.snd

/-- The line cells that the face records give: the records with `n = 2`. -/
def offLines (faces : List (Int × List Int)) : List (List Int) :=
  (faces.filter (fun f => decide (f.1 = 2))).map Prod.snd

/-- The polygon cells that the face records give: the records with `n ≥ 3`. -/
def offPolys (faces : List (Int × List Int)) : List (List Int) :=
  (faces.filter (fun f => decide (3 ≤ f.1))).map Prod.snd

/-! ## Storage order -/

/-- Point `j` of an `n`-row coordinates array under its declared layout. -/
def giiDataArray.point (a : giiDataArray) (n j : Nat) : Point :=
  if a.ind_ord = GIFTI_IND_ORD_COL_MAJOR then (a.elem j, a.elem (n + j), a.elem (2 * n + j))
  else (a.elem (3 * j), a.elem (3 * j + 1), a.elem (3 * j + 2))

/-- The row-major array that holds the transposed data of an `n`-row,
three-column array: row `j` is made of the elements `j`, `n + j` and `2 n + j`. -/
def giiDataArray.transposed (a : giiDataArray) (n : Nat) : giiDataArray :=
  { a with ind_ord := GIFTI_IND_ORD_ROW_MAJOR,
           data := ((List.range n).map (fun j =>
             [a.elem j, a.elem (n + j), a.elem (2 * n + j)])).flatten }

/-- An image of the column-major coordinates array of the points `(1, 2, 3)` and
`(4, 5, 6)` and a column-major triangle array of the triangles `(0, 1, 1)` and
`(1, 0, 0)`. -/
def exColumnMajorImage : gifti_image :=
  { darray :=
      [{ exPoints with ind_ord := GIFTI_IND_ORD_COL_MAJOR, dims := [2, 3, 0, 0, 0, 0],
                        nvals := 6, data := [1, 4, 2, 5, 3, 6] },
       { exTriangles [0, 1, 1, 0, 1, 0] with ind_ord := GIFTI_IND_ORD_COL_MAJOR }],
    meta := [] }

/-! ## BrainSuite surfaces -/

/-- The array that `ReadDFS` makes of a per-vertex vector of the surface: a
fresh array of the given kind, name and number of components with one tuple per
vertex. -/
def dfsArray (kind : ValueKind) (name : String) (ncomp : Int) (npoints : Nat)
    (tuple : Nat → List Rat) : vtkDataArray :=
  { kind := kind, name := name, ncomp := ncomp, tuples := (List.range npoints).map tuple,
    info := [] }

/-- The point data arrays of the mesh that `ReadDFS` returns, in their order:
one array for each non-empty per-vertex vector of the surface. -/
def dfsArrays (surface : SILT.DFSurface) : List vtkDataArray :=
  let npoints := surface.vertices.length
  (if surface.vertexNormals = [] then [] else
    [dfsArray ValueKind.real "Normals" 3 npoints (fun i =>
      [(surface.vertexNormals.getD i (0, 0, 0)).1, (surface.vertexNormals.getD i (0, 0, 0)).2.1,
       (surface.vertexNormals.getD i (0, 0, 0)).2.2])]) ++
  (if surface.vertexColors = [] then [] else
    [dfsArray ValueKind.real "Colors" 3 npoints (fun i =>
      [(surface.vertexColors.getD i (0, 0, 0)).1, (surface.vertexColors.getD i (0, 0, 0)).2.1,
       (surface.vertexColors.getD i (0, 0, 0)).2.2])]) ++
  (if surface.vertexUV = [] then [] else
    [dfsArray ValueKind.real "UV" 3 npoints (fun i =>
      [(surface.vertexUV.getD i (0, 0)).1, (surface.vertexUV.getD i (0, 0)).2, 0])]) ++
  (if surface.vertexLabels = [] then [] else
    [dfsArray ValueKind.integral "Labels" 1 npoints (fun i =>
      [((surface.vertexLabels.getD i 0 : Int) : Rat)])]) ++
  (if surface.vertexAttributes = [] then [] else
    [dfsArray ValueKind.real "Attributes" 1 npoints (fun i =>
      [surface.vertexAttributes.getD i 0])])

/-- Whether a point data has an array of the given name. -/
def vtkPointData.HasArray (pd : vtkPointData) (name : String) : Prop :=
  ∃ a ∈ pd.arrays, a.name = name

instance (pd : vtkPointData) (name : String) : Decidable (pd.HasArray name) := by
  unfold vtkPointData.HasArray; infer_instance

/-- A host for the examples: `static_cast<float>` keeps the (exactly
representable) numbers of the examples, no file is there to read, and the
writer succeeds. -/
def exDFSHost : DFSHost :=
  { toFloat := fun x => x, readDFS := fun _ => none, writeDFS := fun _ _ => true }

/-- A surface of three vertices and one triangle with labels and UV
coordinates. -/
def exSurface : SILT.DFSurface :=
  { SILT.DFSurface.empty with
    vertices := [(0, 0, 0), (1, 0, 0), (0, 1, 0)], triangles := [(0, 1, 2)],
    vertexUV := [(0, 0), (1, 0), (0, 1)], vertexLabels := [7, 8, 9] }

/-- The example mesh with one triangle and the point data array `Labels`, with
the given active scalars. -/
def exLabelledMesh (scalars : Option Nat) : vtkPolyData :=
  { exMesh [[0, 1, 2]] [] with
    pointData := { arrays := [{ kind := ValueKind.integral, name := "Labels", ncomp := 1,
                                tuples := [[7], [8], [9], [7]], info := [] }],
                   scalars := scalars, vectors := none } }

/-! ## Generic readers and writers -/

/-- The seven extensions for which `ReadPointSet` calls `ReadPolyData`. -/
def polyDataReadExtensions : List String :=
  [".vtp", ".stl", ".ply", ".obj", ".dfs", ".off", ".gii"]

/-- The extensions with a branch of their own in `WritePolyData`. -/
def polyDataWriteExtensions : List String :=
  [".vtp", ".stl", ".ply", ".node", ".poly", ".smesh", ".dfs", ".off", ".gii"]

/-- Readers for the examples: the XML readers return a data set with points,
the legacy readers return none, the STL, PLY and OBJ readers return the example
mesh, no file can be opened, and every GIFTI file holds the three example
points, a triangle and a `SHAPE` array of three values with the datatype tag
`0`. -/
def exReaders : Readers :=
  { Extension := exExtension, MIRTK_IO_WITH_GIFTI := true,
    ReadPolyData_exit_on_failure := false,
    vtkXMLGenericDataObjectReader := fun _ => some (vtkPointSet.other [(0, 0, 0)]),
    vtkGenericDataObjectReader := fun _ => none,
    vtkXMLPolyDataReader := fun _ => exMesh [[0, 1, 2]] [],
    vtkSTLReader := fun _ => exMesh [] [], vtkPLYReader := fun _ => exMesh [] [],
    vtkOBJReader := fun _ => exMesh [] [], vtkPolyDataReader := fun _ => vtkPolyData.New,
    dfs := exDFSHost, file := fun _ => none,
    gifti_read_image := fun _ => some (exImage [0, 1, 2]
      [{ exShape GIFTI_IND_ORD_ROW_MAJOR [1, 2, 3] with datatype := 0 }]) }

/-- Writers for the examples: the legacy writers of VTK fail and all other
writers succeed. -/
def exWriters : Writers :=
  { host := exHost, MIRTK_IO_WITH_GIFTI := true, holes := none,
    vtkXMLDataSetWriter := fun _ _ _ => 1, vtkDataSetWriter := fun _ _ _ => 0,
    vtkXMLPolyDataWriter := fun _ _ _ => 1, vtkSTLWriter := fun _ _ _ => 1,
    vtkPLYWriter := fun _ _ _ => 1, vtkPolyDataWriter := fun _ _ _ => 0,
    dfs := exDFSHost, lib := fun _ => exLib }

/-! # Properties -/

/-! ## Auxiliary facts -/

theorem foldl_invariant {α β : Type} (P : β → Prop) (f : β → α → β)
    (hf : ∀ b a, P b → P (f b a)) : ∀ (l : List α) (b : β), P b → P (l.foldl f b)
  | [], _, hb => hb
  | a :: l, b, hb => foldl_invariant P f hf l (f b a) (hf b a hb)

/-! ## The copy routine on concrete arrays -/

/-- C1: a sparse copy of the row-major one-component source `[9, 5]` with index
array `[2, 0]` over three points yields `[9, 0, 9]`, since the read pointer of
the row-major loop never advances; the claimed `[5, 0, 9]` is what the
column-major loop yields. -/
theorem C1_sparse_row_major_copy_repeats_first_element :
    CopyGIFTIDataArray (exArray .real [[7], [7], [7]]) (exShape GIFTI_IND_ORD_ROW_MAJOR [9, 5])
        (some (exArray .integral [[2], [0]]))
      = .ok (exArray .real [[9], [0], [9]]) ∧
    CopyGIFTIDataArray (exArray .real [[7], [7], [7]]) (exShape GIFTI_IND_ORD_COL_MAJOR [9, 5])
        (some (exArray .integral [[2], [0]]))
      = .ok (exArray .real [[5], [0], [9]]) := by
  decide

/-- C2: a sparse copy zeroes only the first `m` tuples of the destination (`m`
the number of stored rows): with index array `[1]` over three points whose
memory holds `7`, tuple `2` keeps `7` although point `2` is not listed; the same
happens in `ReadGIFTI`, where the destination is freshly allocated memory. -/
theorem C2_sparse_copy_leaves_unlisted_rows_unzeroed :
    CopyGIFTIDataArray (exArray .real [[7], [7], [7]]) (exShape GIFTI_IND_ORD_COL_MAJOR [9])
        (some (exArray .integral [[1]]))
      = .ok (exArray .real [[0], [9], [7]]) ∧
    (ReadGIFTI exEnv (some (exImage [0, 1, 2] [exNodeIndex GIFTI_IND_ORD_COL_MAJOR [1],
        exShape GIFTI_IND_ORD_COL_MAJOR [9]])) none).map
      (fun mesh => mesh.pointData.arrays.map (fun d => d.tuples))
      = .ok [[[0], [9], [7]]] := by
  decide

/-- C3: a dense copy of the row-major `2 x 2` source `[1, 2, 3, 4]` stores
element `0` in every component, since the read pointer of the row-major loop
never advances; the column-major loop stores element `j * m + i` in component
`(i, j)`. -/
theorem C3_dense_row_major_copy_repeats_first_element :
    CopyGIFTIDataArray (exArray .real [[7, 7], [7, 7]])
        (exMatrix GIFTI_IND_ORD_ROW_MAJOR 2 2 [1, 2, 3, 4]) none
      = .ok (exArray .real [[1, 1], [1, 1]]) ∧
    CopyGIFTIDataArray (exArray .real [[7, 7], [7, 7]])
        (exMatrix GIFTI_IND_ORD_COL_MAJOR 2 2 [1, 2, 3, 4]) none
      = .ok (exArray .real [[1, 3], [2, 4]]) := by
  decide

/-! ## Datatype dispatch -/

theorem mem_recognisedTypes (t : Int) :
    t ∈ recognisedTypes ↔ (t = NIFTI_TYPE_INT8 ∨ t = NIFTI_TYPE_INT16 ∨ t = NIFTI_TYPE_INT32 ∨
      t = NIFTI_TYPE_INT64 ∨ t = NIFTI_TYPE_UINT8 ∨ t = NIFTI_TYPE_UINT16 ∨
      t = NIFTI_TYPE_UINT32 ∨ t = NIFTI_TYPE_UINT64 ∨ t = NIFTI_TYPE_FLOAT32 ∨
      t = NIFTI_TYPE_FLOAT64) := by
  simp only [recognisedTypes, List.mem_cons, List.mem_singleton, List.not_mem_nil, or_false]

theorem CopyGIFTIDataArray_eq (dst : vtkDataArray) (src : giiDataArray)
    (indices : Option vtkDataArray) :
    CopyGIFTIDataArray dst src indices =
      if src.datatype ∈ recognisedTypes then
        .ok (CopyGIFTIDataArrayWithDataType dst src indices)
      else .error Fault.exit := by
  by_cases h : src.datatype ∈ recognisedTypes
  · rw [if_pos h]
    rw [mem_recognisedTypes] at h
    unfold CopyGIFTIDataArray
    rcases h with h | h | h | h | h | h | h | h | h | h <;> rw [h] <;>
      simp [NIFTI_TYPE_INT8, NIFTI_TYPE_INT16, NIFTI_TYPE_INT32, NIFTI_TYPE_INT64,
        NIFTI_TYPE_UINT8, NIFTI_TYPE_UINT16, NIFTI_TYPE_UINT32, NIFTI_TYPE_UINT64,
        NIFTI_TYPE_FLOAT32, NIFTI_TYPE_FLOAT64]
  · rw [if_neg h]
    rw [mem_recognisedTypes] at h
    simp only [not_or] at h
    obtain ⟨h1, h2, h3, h4, h5, h6, h7, h8, h9, h10⟩ := h
    simp only [CopyGIFTIDataArray, if_neg h1, if_neg h2, if_neg h3, if_neg h4, if_neg h5,
      if_neg h6, if_neg h7, if_neg h8, if_neg h9, if_neg h10]

theorem GIFTIDataTypeToVTK_ne_void (datatype : Int) :
    GIFTIDataTypeToVTK datatype ≠ VTK_VOID ↔ datatype ∈ recognisedTypes := by
  by_cases h : datatype ∈ recognisedTypes
  · simp only [h, iff_true]
    rw [mem_recognisedTypes] at h
    unfold GIFTIDataTypeToVTK
    rcases h with h | h | h | h | h | h | h | h | h | h <;> rw [h] <;>
      simp [NIFTI_TYPE_INT8, NIFTI_TYPE_INT16, NIFTI_TYPE_INT32, NIFTI_TYPE_INT64,
        NIFTI_TYPE_UINT8, NIFTI_TYPE_UINT16, NIFTI_TYPE_UINT32, NIFTI_TYPE_UINT64,
        NIFTI_TYPE_FLOAT32, NIFTI_TYPE_FLOAT64, VTK_VOID, VTK_CHAR, VTK_SHORT, VTK_INT,
        VTK_LONG_LONG, VTK_UNSIGNED_CHAR, VTK_UNSIGNED_SHORT, VTK_UNSIGNED_INT,
        VTK_UNSIGNED_LONG_LONG, VTK_FLOAT, VTK_DOUBLE]
  · simp only [h, iff_false, ne_eq, not_not]
    rw [mem_recognisedTypes] at h
    simp only [not_or] at h
    obtain ⟨h1, h2, h3, h4, h5, h6, h7, h8, h9, h10⟩ := h
    simp only [GIFTIDataTypeToVTK, if_neg h1, if_neg h2, if_neg h3, if_neg h4, if_neg h5,
      if_neg h6, if_neg h7, if_neg h8, if_neg h9, if_neg h10]

/-- For a source with `dims[0] ≠ 0`, which is what every caller passes,
`CopyGIFTIDataArray` reaches `exit(1)` exactly when the datatype tag is none of
the ten recognised tags, returns otherwise, and the recognised tags are those
that `GIFTIDataTypeToVTK` maps to something other than `VTK_VOID`. -/
theorem CopyGIFTIDataArray_exit_iff (dst : vtkDataArray) (src : giiDataArray)
    (indices : Option vtkDataArray) (_hm : src.dim 0 ≠ 0) :
    (CopyGIFTIDataArray dst src indices = .error Fault.exit ↔
      src.datatype ∉ recognisedTypes) ∧
    (src.datatype ∈ recognisedTypes → ∃ d, CopyGIFTIDataArray dst src indices = .ok d) ∧
    (src.datatype ∈ recognisedTypes ↔ GIFTIDataTypeToVTK src.datatype ≠ VTK_VOID) := by
  refine ⟨?_, ?_, (GIFTIDataTypeToVTK_ne_void _).symm⟩
  · rw [CopyGIFTIDataArray_eq]
    by_cases h : src.datatype ∈ recognisedTypes
    · simp [h]
    · simp [h]
  · intro h
    rw [CopyGIFTIDataArray_eq, if_pos h]
    exact ⟨_, rfl⟩

/-- C4: a row-major source with a recognised tag is not copied. For each of
the ten recognised tags `CopyGIFTIDataArray` returns, but of the row-major
`2 x 2` source `[1, 2, 3, 4]` every component of the destination receives
element `0`, where the same data flagged column-major is copied element by
element; the same happens to a row-major point data array read by
`GIFTIPointDataToVTK`. A tag that is none of the ten (`128`, `RGB24`) ends in
`exit(1)`, and `GIFTIDataTypeToVTK` maps it to `VTK_VOID` and each of the ten
to another value. -/
theorem C4_row_major_data_not_copied_for_recognised_tags :
    recognisedTypes.map (fun t => CopyGIFTIDataArray (exArray .real [[7, 7], [7, 7]])
        { exMatrix GIFTI_IND_ORD_ROW_MAJOR 2 2 [1, 2, 3, 4] with datatype := t } none)
      = List.replicate 10 (.ok (exArray .real [[1, 1], [1, 1]])) ∧
    recognisedTypes.map (fun t => CopyGIFTIDataArray (exArray .real [[7, 7], [7, 7]])
        { exMatrix GIFTI_IND_ORD_COL_MAJOR 2 2 [1, 2, 3, 4] with datatype := t } none)
      = List.replicate 10 (.ok (exArray .real [[1, 3], [2, 4]])) ∧
    (GIFTIPointDataToVTK exEnv (exImage [0, 1, 2]
        [exMatrix GIFTI_IND_ORD_ROW_MAJOR 3 2 [1, 2, 3, 4, 5, 6]]) 3 none).map
      (fun pd => pd.arrays.map (fun d => d.tuples))
      = .ok [[[1, 1], [1, 1], [1, 1]]] ∧
    CopyGIFTIDataArray (exArray .real [[7, 7], [7, 7]])
        { exMatrix GIFTI_IND_ORD_ROW_MAJOR 2 2 [1, 2, 3, 4] with datatype := 128 } none
      = .error Fault.exit ∧
    GIFTIDataTypeToVTK 128 = VTK_VOID ∧
    VTK_VOID ∉ recognisedTypes.map GIFTIDataTypeToVTK := by
  decide

/-! ## Coordinates and topology -/

theorem coordinates_loop_skip (env : Env) (info : Option vtkInformation)
    (pre rest : List giiDataArray) (hpre : ∀ b ∈ pre, b.intent ≠ NIFTI_INTENT_POINTSET) :
    GIFTICoordinatesToVTK.loop env info (pre ++ rest) =
      GIFTICoordinatesToVTK.loop env info rest := by
  induction pre with
  | nil => rfl
  | cons b pre ih =>
    have hb : b.intent ≠ NIFTI_INTENT_POINTSET := hpre b (List.mem_cons_self _ _)
    rw [List.cons_append, GIFTICoordinatesToVTK.loop, if_neg hb]
    exact ih (fun c hc => hpre c (List.mem_cons_of_mem _ hc))

theorem coordinates_fill_length (array : giiDataArray) (n : Nat) :
    (GIFTICoordinatesToVTK.fill array n).length = n := by
  unfold GIFTICoordinatesToVTK.fill
  apply foldl_invariant (fun (s : CoordState) => s.points.length = n)
  · intro s j hs
    simp only [List.length_set]
    exact hs
  · split_ifs <;> simp

/-- C5: let `a` be the first array of intent `POINTSET` of the image. If `a` has
a datatype other than `FLOAT32`, or a number of dimensions other than `2`, or
a second dimension other than `3` (any combination of the three),
`GIFTICoordinatesToVTK` returns no points; if none of the three holds it
returns `dims[0]` points. -/
theorem C5_coordinates_rejected_or_dims0_points (env : Env) (gim : gifti_image)
    (info : Option vtkInformation) (pre post : List giiDataArray) (a : giiDataArray)
    (hda : gim.darray = pre ++ a :: post)
    (hpre : ∀ b ∈ pre, b.intent ≠ NIFTI_INTENT_POINTSET)
    (ha : a.intent = NIFTI_INTENT_POINTSET) :
    ((a.datatype ≠ NIFTI_TYPE_FLOAT32 ∨ a.num_dim ≠ 2 ∨ a.dim 1 ≠ 3) →
      (GIFTICoordinatesToVTK env gim info).1 = []) ∧
    (¬ (a.datatype ≠ NIFTI_TYPE_FLOAT32 ∨ a.num_dim ≠ 2 ∨ a.dim 1 ≠ 3) →
      (GIFTICoordinatesToVTK env gim info).1.length = (a.dim 0).toNat) := by
  unfold GIFTICoordinatesToVTK
  rw [hda, coordinates_loop_skip env info pre _ hpre, GIFTICoordinatesToVTK.loop,
    if_pos ha]
  constructor
  · intro h
    split_ifs with h1 h2 h3
    · rfl
    · rfl
    · rfl
    · exact absurd h (by tauto)
  · intro h
    simp only [not_or, not_not] at h
    obtain ⟨h1, h2, h3⟩ := h
    rw [if_neg (not_not.mpr h1), if_neg (not_not.mpr h2), if_neg (not_not.mpr h3)]
    cases info <;> simp [coordinates_fill_length]

/-- Witness of C5: the coordinates array of the example image is accepted and
yields three points, and the example array with all three malformations yields
none. -/
theorem C5_coordinates_witness :
    (GIFTICoordinatesToVTK exEnv (exImage [0, 1, 2] []) none).1.length = 3 ∧
    (GIFTICoordinatesToVTK exEnv { darray := [exBadPoints], meta := [] } none).1 = [] :=
  ⟨(C5_coordinates_rejected_or_dims0_points exEnv (exImage [0, 1, 2] []) none []
      [exTriangles [0, 1, 2]] exPoints rfl (fun _ h => absurd h (List.not_mem_nil _)) rfl).2
      (by decide),
   (C5_coordinates_rejected_or_dims0_points exEnv { darray := [exBadPoints], meta := [] } none []
      [] exBadPoints rfl (fun _ h => absurd h (List.not_mem_nil _)) rfl).1 (by decide)⟩

theorem topology_fold_eq (array : giiDataArray) (inc : Nat) :
    ∀ (l : List Nat) (s : TopoState),
      l.foldl (fun (s : TopoState) _ =>
        { cells := s.cells ++ [[truncate (array.elem s.a), truncate (array.elem s.b),
            truncate (array.elem s.c)]],
          a := s.a + inc, b := s.b + inc, c := s.c + inc }) s =
      { cells := s.cells ++ (List.range l.length).map (fun j =>
          [truncate (array.elem (s.a + j * inc)), truncate (array.elem (s.b + j * inc)),
           truncate (array.elem (s.c + j * inc))]),
        a := s.a + l.length * inc, b := s.b + l.length * inc, c := s.c + l.length * inc } := by
  intro l
  induction l with
  | nil => intro s; simp
  | cons x l ih =>
    intro s
    rw [List.foldl_cons, ih]
    simp only [List.length_cons, List.range_succ_eq_map, List.map_cons, List.map_map,
      List.append_assoc, List.singleton_append, Nat.zero_mul, Nat.add_zero]
    congr 1
    · congr 2
      apply List.map_congr_left
      intro j _
      simp only [Function.comp_apply, Nat.succ_mul, Nat.add_assoc, Nat.add_comm inc]
    all_goals ring

theorem topology_fill_eq (array : giiDataArray) (n : Nat) :
    GIFTITopologyToVTK.fill array n = (List.range n).map (array.triangle n) := by
  unfold GIFTITopologyToVTK.fill
  by_cases h : array.ind_ord = GIFTI_IND_ORD_COL_MAJOR
  · simp only [topology_fold_eq, List.length_range, List.nil_append, if_pos h]
    apply List.map_congr_left
    intro j _
    simp [giiDataArray.triangle, giiDataArray.pointId, if_pos h, two_mul, Nat.add_assoc]
  · simp only [topology_fold_eq, List.length_range, List.nil_append, if_neg h]
    apply List.map_congr_left
    intro j _
    simp [giiDataArray.triangle, giiDataArray.pointId, if_neg h, Nat.mul_comm, Nat.add_comm]

theorem topology_loop_skip (env : Env) (info : Option vtkInformation)
    (pre rest : List giiDataArray) (hpre : ∀ b ∈ pre, b.intent ≠ NIFTI_INTENT_TRIANGLE) :
    GIFTITopologyToVTK.loop env info (pre ++ rest) = GIFTITopologyToVTK.loop env info rest := by
  induction pre with
  | nil => rfl
  | cons b pre ih =>
    have hb : b.intent ≠ NIFTI_INTENT_TRIANGLE := hpre b (List.mem_cons_self _ _)
    rw [List.cons_append, GIFTITopologyToVTK.loop, if_neg hb]
    exact ih (fun c hc => hpre c (List.mem_cons_of_mem _ hc))

/-- C6: let `a` be the first array of intent `TRIANGLE` of the image. If `a` has
a datatype other than `INT32`, or a number of dimensions other than `2`, or a
second dimension other than `3` (any combination of the three),
`GIFTITopologyToVTK` returns the null cell array; if none of the three holds it
returns exactly `dims[0]` cells, each of exactly three point IDs, and cell `j`
is triangle `j` of the source under its declared layout. -/
theorem C6_topology_rejected_or_dims0_triangles (env : Env) (gim : gifti_image)
    (info : Option vtkInformation) (pre post : List giiDataArray) (a : giiDataArray)
    (hda : gim.darray = pre ++ a :: post)
    (hpre : ∀ b ∈ pre, b.intent ≠ NIFTI_INTENT_TRIANGLE)
    (ha : a.intent = NIFTI_INTENT_TRIANGLE) :
    ((a.datatype ≠ NIFTI_TYPE_INT32 ∨ a.num_dim ≠ 2 ∨ a.dim 1 ≠ 3) →
      (GIFTITopologyToVTK env gim info).1 = none) ∧
    (¬ (a.datatype ≠ NIFTI_TYPE_INT32 ∨ a.num_dim ≠ 2 ∨ a.dim 1 ≠ 3) →
      ∃ cells, (GIFTITopologyToVTK env gim info).1 = some cells ∧
        cells.length = (a.dim 0).toNat ∧
        (∀ c ∈ cells, c.length = 3) ∧
        ∀ j, j < (a.dim 0).toNat → cells.get? j = some (a.triangle (a.dim 0).toNat j)) := by
  unfold GIFTITopologyToVTK
  rw [hda, topology_loop_skip env info pre _ hpre, GIFTITopologyToVTK.loop, if_pos ha]
  constructor
  · intro h
    split_ifs with h1 h2 h3
    · rfl
    · rfl
    · rfl
    · exact absurd h (by tauto)
  · intro h
    simp only [not_or, not_not] at h
    obtain ⟨h1, h2, h3⟩ := h
    rw [if_neg (not_not.mpr h1), if_neg (not_not.mpr h2), if_neg (not_not.mpr h3)]
    refine ⟨_, rfl, ?_, ?_, ?_⟩
    · simp [topology_fill_eq]
    · intro c hc
      rw [topology_fill_eq, List.mem_map] at hc
      obtain ⟨j, _, rfl⟩ := hc
      unfold giiDataArray.triangle
      split_ifs <;> rfl
    · intro j hj
      rw [topology_fill_eq]
      simp [List.getElem?_range, hj]

/-- Witness of C6: the triangle array of the example image is accepted and
yields one cell, and the example array of datatype `INT64` yields the null cell
array. -/
theorem C6_topology_witness :
    (∃ cells, (GIFTITopologyToVTK exEnv (exImage [0, 1, 2] []) none).1 = some cells ∧
      cells.length = ((exTriangles [0, 1, 2]).dim 0).toNat ∧
      (∀ c ∈ cells, c.length = 3) ∧
      ∀ j, j < ((exTriangles [0, 1, 2]).dim 0).toNat →
        cells.get? j = some ((exTriangles [0, 1, 2]).triangle
          ((exTriangles [0, 1, 2]).dim 0).toNat j)) ∧
    (GIFTITopologyToVTK exEnv { darray := [exBadTriangles], meta := [] } none).1 = none :=
  ⟨(C6_topology_rejected_or_dims0_triangles exEnv (exImage [0, 1, 2] []) none [exPoints] []
      (exTriangles [0, 1, 2]) rfl (by decide) rfl).2 (by decide),
   (C6_topology_rejected_or_dims0_triangles exEnv { darray := [exBadTriangles], meta := [] }
      none [] [] exBadTriangles rfl (fun _ h => absurd h (List.not_mem_nil _)) rfl).1
      (by decide)⟩

/-! ## Point data -/

theorem SetComponent_shape (d : vtkDataArray) (i j : Int) (x : Rat) :
    (d.SetComponent i j x).shape = d.shape := by
  unfold vtkDataArray.SetComponent vtkDataArray.shape
  split_ifs <;> simp

theorem CopyGIFTIDataArrayWithDataType_shape (dst : vtkDataArray) (src : giiDataArray)
    (indices : Option vtkDataArray) :
    (CopyGIFTIDataArrayWithDataType dst src indices).shape = dst.shape := by
  have zero : ∀ (rows cols : List Nat), (rows.foldl (fun (d : vtkDataArray) (i : Nat) =>
      cols.foldl (fun (d : vtkDataArray) (j : Nat) => d.SetComponent i j 0) d) dst).shape
        = dst.shape := by
    intro rows cols
    apply foldl_invariant (fun (d : vtkDataArray) => d.shape = dst.shape)
    · intro b a hb
      apply foldl_invariant (fun (d : vtkDataArray) => d.shape = dst.shape)
      · intro b a hb
        rw [SetComponent_shape]; exact hb
      · exact hb
    · rfl
  unfold CopyGIFTIDataArrayWithDataType
  cases indices with
  | some ind =>
    simp only
    split_ifs
    all_goals
      apply foldl_invariant (fun (s : CopyState) => s.1.shape = dst.shape)
      · intro b a hb
        apply foldl_invariant (fun (s : CopyState) => s.1.shape = dst.shape)
        · intro b a hb
          simp only [SetComponent_shape]; exact hb
        · exact hb
      · exact zero _ _
  | none =>
    simp only
    split_ifs
    all_goals
      apply foldl_invariant (fun (s : CopyState) => s.1.shape = dst.shape)
      · intro b a hb
        apply foldl_invariant (fun (s : CopyState) => s.1.shape = dst.shape)
        · intro b a hb
          simp only [SetComponent_shape]; exact hb
        · exact hb
      · rfl

theorem mem_AddArray (pd : vtkPointData) (data d : vtkDataArray)
    (hd : d ∈ (pd.AddArray data).1.arrays) : d ∈ pd.arrays ∨ d = data := by
  unfold vtkPointData.AddArray at hd
  simp only at hd
  split_ifs at hd
  · rcases List.mem_or_eq_of_mem_set hd with h | h
    · exact Or.inl h
    · exact Or.inr h
  · simp only [List.mem_append, List.mem_singleton] at hd
    exact hd

theorem pointData_named_shape (env : Env) (array : giiDataArray)
    (data : vtkDataArray) : (GIFTIPointDataToVTK.named env array data).shape = data.shape := by
  unfold GIFTIPointDataToVTK.named
  simp only
  split_ifs
  · split <;> rfl
  · rfl

theorem pointData_activate_arrays (array : giiDataArray) (ncomp : Int)
    (pd : vtkPointData) (idx : Nat) :
    (GIFTIPointDataToVTK.activate array ncomp pd idx).arrays = pd.arrays := by
  unfold GIFTIPointDataToVTK.activate
  simp only
  split_ifs <;> rfl

theorem pointData_convert_arrays (env : Env) (indices : Option vtkDataArray)
    (pd pd' : vtkPointData) (array : giiDataArray) (ncomp : Int) (data : vtkDataArray)
    (h : GIFTIPointDataToVTK.convert env indices pd array ncomp data = .ok pd') :
    ∀ d ∈ pd'.arrays, d ∈ pd.arrays ∨ d.shape = data.shape := by
  unfold GIFTIPointDataToVTK.convert at h
  rw [CopyGIFTIDataArray_eq] at h
  split_ifs at h with hrec
  simp only [Except.ok.injEq] at h
  subst h
  intro d hd
  rw [pointData_activate_arrays] at hd
  rcases mem_AddArray _ _ _ hd with h | h
  · exact Or.inl h
  · right
    rw [h, pointData_named_shape, CopyGIFTIDataArrayWithDataType_shape]

theorem pointData_convert_ok (env : Env) (indices : Option vtkDataArray)
    (pd : vtkPointData) (array : giiDataArray) (ncomp : Int) (data : vtkDataArray)
    (hrec : array.datatype ∈ recognisedTypes) :
    ∃ pd', GIFTIPointDataToVTK.convert env indices pd array ncomp data = .ok pd' := by
  unfold GIFTIPointDataToVTK.convert
  rw [CopyGIFTIDataArray_eq, if_pos hrec]
  exact ⟨_, rfl⟩

theorem pointData_convert_error (env : Env) (indices : Option vtkDataArray)
    (pd : vtkPointData) (array : giiDataArray) (ncomp : Int) (data : vtkDataArray) (f : Fault)
    (h : GIFTIPointDataToVTK.convert env indices pd array ncomp data = .error f) :
    array.datatype ∉ recognisedTypes := by
  intro hrec
  obtain ⟨pd', hpd⟩ := pointData_convert_ok env indices pd array ncomp data hrec
  rw [hpd] at h
  exact Except.noConfusion h

theorem sizeMismatch_iff (array : giiDataArray) (npoints : Int)
    (indices : Option vtkDataArray) :
    sizeMismatch array npoints indices
      (match indices with
        | some ind => ind.GetNumberOfTuples
        | none => 0) ↔ ¬ sizeMatches array npoints indices := by
  unfold sizeMismatch sizeMatches
  cases indices <;> simp

theorem fresh_shape (env : Env) (t ncomp npoints : Int) :
    (((NewVTKDataArray t).SetNumberOfComponents ncomp).SetNumberOfTuples env npoints).shape
      = (npoints.toNat, ncomp) := by
  simp [vtkDataArray.shape, vtkDataArray.SetNumberOfTuples, vtkDataArray.SetNumberOfComponents,
    NewVTKDataArray]

theorem convertedFrom_cons (a : giiDataArray) (l : List giiDataArray) (npoints : Int)
    (indices : Option vtkDataArray) (nindices : Int) (d : vtkDataArray)
    (h : convertedFrom l npoints indices nindices d) :
    convertedFrom (a :: l) npoints indices nindices d := by
  obtain ⟨h1, b, hb, h2⟩ := h
  exact ⟨h1, b, List.mem_cons_of_mem _ hb, h2⟩

theorem pointData_loop_spec (env : Env) (npoints : Int)
    (indices : Option vtkDataArray) (nindices : Int) (hn : npoints ≠ 0) :
    ∀ (l : List giiDataArray) (pd pd' : vtkPointData),
      GIFTIPointDataToVTK.loop env npoints indices nindices pd l = .ok pd' →
      ((∃ a ∈ l, isPointDataArray a ∧ sizeMismatch a npoints indices nindices) →
        pd' = vtkPointData.New) ∧
      (∀ d ∈ pd'.arrays, d ∈ pd.arrays ∨ convertedFrom l npoints indices nindices d) := by
  intro l
  induction l with
  | nil =>
    intro pd pd' h
    simp only [GIFTIPointDataToVTK.loop, Except.ok.injEq] at h
    subst h
    exact ⟨fun ⟨a, ha, _⟩ => absurd ha (List.not_mem_nil _), fun d hd => Or.inl hd⟩
  | cons a l ih =>
    intro pd pd' h
    rw [GIFTIPointDataToVTK.loop] at h
    by_cases hg : isPointDataArray a
    · rw [if_pos hg] at h
      simp only [if_pos hn] at h
      by_cases hm : sizeMismatch a npoints indices nindices
      · rw [if_pos hm] at h
        simp only [Except.ok.injEq] at h
        subst h
        exact ⟨fun _ => rfl, fun d hd => absurd hd (List.not_mem_nil _)⟩
      · rw [if_neg hm] at h
        cases hc : GIFTIPointDataToVTK.convert env indices pd a
            (castInt (Int.tdiv a.nvals (a.dim 0)))
            (((NewVTKDataArray (GIFTIDataTypeToVTK a.datatype)).SetNumberOfComponents
              (castInt (Int.tdiv a.nvals (a.dim 0)))).SetNumberOfTuples env npoints) with
        | error f => rw [hc] at h; exact Except.noConfusion h
        | ok pd1 =>
          rw [hc] at h
          obtain ⟨ih1, ih2⟩ := ih pd1 pd' h
          refine ⟨?_, ?_⟩
          · rintro ⟨b, hb, hbg, hbm⟩
            rcases List.mem_cons.mp hb with rfl | hb
            · exact absurd hbm hm
            · exact ih1 ⟨b, hb, hbg, hbm⟩
          · intro d hd
            rcases ih2 d hd with h1 | h1
            · rcases pointData_convert_arrays env indices pd pd1 a _ _ hc d h1
                with h2 | h2
              · exact Or.inl h2
              · right
                rw [fresh_shape] at h2
                simp only [vtkDataArray.shape, Prod.mk.injEq] at h2
                exact ⟨h2.1, a, List.mem_cons_self _ _, hg, hm, h2.2⟩
            · exact Or.inr (convertedFrom_cons a l npoints indices nindices d h1)
    · rw [if_neg hg] at h
      obtain ⟨ih1, ih2⟩ := ih pd pd' h
      refine ⟨?_, ?_⟩
      · rintro ⟨b, hb, hbg, hbm⟩
        rcases List.mem_cons.mp hb with rfl | hb
        · exact absurd hbg hg
        · exact ih1 ⟨b, hb, hbg, hbm⟩
      · intro d hd
        rcases ih2 d hd with h1 | h1
        · exact Or.inl h1
        · exact Or.inr (convertedFrom_cons a l npoints indices nindices d h1)

theorem pointData_loop_ok (env : Env) (npoints : Int)
    (indices : Option vtkDataArray) (nindices : Int) :
    ∀ (l : List giiDataArray) (pd : vtkPointData),
      (∀ a ∈ l, isPointDataArray a → a.datatype ∈ recognisedTypes) →
      ∃ pd', GIFTIPointDataToVTK.loop env npoints indices nindices pd l = .ok pd' := by
  intro l
  induction l with
  | nil => intro pd _; exact ⟨pd, rfl⟩
  | cons a l ih =>
    intro pd hrec
    have hl : ∀ b ∈ l, isPointDataArray b → b.datatype ∈ recognisedTypes :=
      fun b hb => hrec b (List.mem_cons_of_mem _ hb)
    rw [GIFTIPointDataToVTK.loop]
    by_cases hg : isPointDataArray a
    · rw [if_pos hg]
      have ha := hrec a (List.mem_cons_self _ _) hg
      simp only
      split_ifs
      · exact ⟨_, rfl⟩
      · obtain ⟨pd1, h1⟩ := pointData_convert_ok env indices pd a
          (castInt (Int.tdiv a.nvals (a.dim 0)))
          (((NewVTKDataArray (GIFTIDataTypeToVTK a.datatype)).SetNumberOfComponents
            (castInt (Int.tdiv a.nvals (a.dim 0)))).SetNumberOfTuples env npoints) ha
        rw [h1]
        exact ih pd1 hl
      · obtain ⟨pd1, h1⟩ := pointData_convert_ok env indices pd a
          (castInt (Int.tdiv a.nvals (a.dim 0)))
          (((NewVTKDataArray (GIFTIDataTypeToVTK a.datatype)).SetNumberOfComponents
            (castInt (Int.tdiv a.nvals (a.dim 0)))).SetNumberOfTuples env (a.dim 0)) ha
        rw [h1]
        exact ih pd1 hl
    · rw [if_neg hg]
      exact ih pd hl

theorem castInt_of_lt (q : Int) (h0 : 0 ≤ q) (h1 : q < 2 ^ 31) : castInt q = q := by
  unfold castInt
  norm_num at h1 ⊢
  omega

/-! ## Reading a file -/

theorem badCell_of_mem (npoints : Int) (c : List Int) (id : Int) (hid : id ∈ c)
    (hge : npoints ≤ id) : ReadGIFTI.badCell npoints c := by
  unfold ReadGIFTI.badCell
  by_cases hlen : c.length = 3
  · match c, hlen with
    | [x, y, z], _ =>
      simp only [List.mem_cons, List.mem_singleton, List.not_mem_nil, or_false] at hid
      rcases hid with rfl | rfl | rfl
      · right; left; simpa using hge
      · right; right; left; simpa using hge
      · right; right; right; simpa using hge
  · left; exact hlen

/-- C7: if the image yields a non-empty point set of `npoints` points and a cell
array, and some cell of the cell array holds a point ID `id >= npoints`, then
`ReadGIFTI` returns the empty mesh (no points, no polygons, no point data, no
metadata), whatever the input surface. -/
theorem C7_triangle_index_out_of_range_rejected (env : Env) (gim : gifti_image)
    (surface : Option vtkPolyData) (cells : List (List Int)) (c : List Int) (id : Int)
    (hpoints : 0 < (GIFTICoordinatesToVTK env gim (some [])).1.length)
    (htopo : (GIFTITopologyToVTK env gim (some [])).1 = some cells)
    (hc : c ∈ cells) (hid : id ∈ c)
    (hge : ((GIFTICoordinatesToVTK env gim (some [])).1.length : Int) ≤ id) :
    ReadGIFTI env (some gim) surface = .ok vtkPolyData.New := by
  have hp : ReadGIFTI.points (GIFTICoordinatesToVTK env gim (some [])).1 surface
      = some (GIFTICoordinatesToVTK env gim (some [])).1 := by
    unfold ReadGIFTI.points
    rw [if_neg (Nat.pos_iff_ne_zero.mp hpoints)]
  have hany : cells.any (fun pts => decide (ReadGIFTI.badCell
      ((GIFTICoordinatesToVTK env gim (some [])).1.length : Int) pts)) = true := by
    rw [List.any_eq_true]
    exact ⟨c, hc, decide_eq_true (badCell_of_mem _ c id hid hge)⟩
  unfold ReadGIFTI
  simp only [hp, htopo, hany, if_true]

/-- Witness of C7: three points and the triangle `[0, 1, 5]`. -/
theorem C7_triangle_index_witness :
    (GIFTICoordinatesToVTK exEnv (exImage [0, 1, 5] []) (some [])).1.length = 3 ∧
    (GIFTITopologyToVTK exEnv (exImage [0, 1, 5] []) (some [])).1 = some [[0, 1, 5]] ∧
    ReadGIFTI exEnv (some (exImage [0, 1, 5] [])) none = .ok vtkPolyData.New :=
  ⟨by decide, by decide,
    C7_triangle_index_out_of_range_rejected exEnv (exImage [0, 1, 5] []) none [[0, 1, 5]]
      [0, 1, 5] 5 (by decide) (by decide) (by decide) (by decide) (by decide)⟩

theorem nodeIndices_loop_ok (env : Env) :
    ∀ (l : List giiDataArray) (indices : Option vtkDataArray),
      (∀ a ∈ l, a.datatype ∈ recognisedTypes) →
      ∃ r, GIFTINodeIndicesToVTK.loop env indices l = .ok r := by
  intro l
  induction l with
  | nil => intro indices _; exact ⟨indices, rfl⟩
  | cons a l ih =>
    intro indices hrec
    have hl : ∀ b ∈ l, b.datatype ∈ recognisedTypes :=
      fun b hb => hrec b (List.mem_cons_of_mem _ hb)
    rw [GIFTINodeIndicesToVTK.loop]
    split_ifs
    · exact ⟨_, rfl⟩
    · exact ⟨_, rfl⟩
    · rw [CopyGIFTIDataArray_eq, if_pos (hrec a (List.mem_cons_self _ _))]
      exact ih _ hl
    · exact ih _ hl

theorem readPoints_pos (filePoints points : List Point) (surface : Option vtkPolyData)
    (h : ReadGIFTI.points filePoints surface = some points) : 0 < points.length := by
  unfold ReadGIFTI.points at h
  split_ifs at h with h0
  · split at h
    · split_ifs at h with h1
      simp only [Option.some.injEq] at h
      subst h
      exact h1
    · exact Option.noConfusion h
  · simp only [Option.some.injEq] at h
    subst h
    exact Nat.pos_of_ne_zero h0

/-- C9 (amended): when every data array of the image carries one of the ten
recognised datatype tags, `ReadGIFTI` reaches `exit(1)` in exactly one case:
there is a point set and a cell array, every cell and every listed node index
passes its range check, and the node index array has more entries than there
are points. An unreadable file yields the empty mesh. -/
theorem C9_exit_iff_more_node_indices_than_points (env : Env) (gim : gifti_image)
    (surface : Option vtkPolyData)
    (hrec : ∀ a ∈ gim.darray, a.datatype ∈ recognisedTypes) :
    ReadGIFTI env none surface = .ok vtkPolyData.New ∧
    (ReadGIFTI env (some gim) surface = .error Fault.exit ↔
      ∃ points polys ind,
        ReadGIFTI.points (GIFTICoordinatesToVTK env gim (some [])).1 surface = some points ∧
        (GIFTITopologyToVTK env gim (some [])).1 = some polys ∧
        (∀ pts ∈ polys, ¬ ReadGIFTI.badCell points.length pts) ∧
        GIFTINodeIndicesToVTK env gim = .ok (some ind) ∧
        (∀ i, i < ind.tuples.length → truncate (ind.GetComponent i 0) < points.length) ∧
        (points.length : Int) < ind.GetNumberOfTuples) := by
  refine ⟨rfl, ?_⟩
  obtain ⟨r, hr⟩ := nodeIndices_loop_ok env gim.darray none hrec
  have hr' : GIFTINodeIndicesToVTK env gim = .ok r := hr
  have hpdok : ∀ (npoints : Int) (indices : Option vtkDataArray) (nindices : Int),
      ∃ pd, GIFTIPointDataToVTK.loop env npoints indices nindices vtkPointData.New gim.darray
        = .ok pd :=
    fun npoints indices nindices =>
      pointData_loop_ok env npoints indices nindices gim.darray _
        (fun a ha _ => hrec a ha)
  unfold ReadGIFTI
  simp only
  cases hp : ReadGIFTI.points (GIFTICoordinatesToVTK env gim (some [])).1 surface with
  | none => simp
  | some points =>
    have hpos := readPoints_pos _ _ _ hp
    have hne : (points.length : Int) ≠ 0 := by omega
    cases ht : (GIFTITopologyToVTK env gim (some [])).1 with
    | none => simp
    | some polys =>
      simp only [Option.some.injEq, exists_and_left, exists_eq_left']
      by_cases hany : polys.any (fun pts => decide (ReadGIFTI.badCell points.length pts)) = true
      · rw [if_pos hany]
        simp only [reduceCtorEq, false_iff, not_exists, not_and]
        intro hall
        rw [List.any_eq_true] at hany
        obtain ⟨pts, hpts, hbad⟩ := hany
        exact absurd (of_decide_eq_true hbad) (hall pts hpts)
      · rw [if_neg hany]
        have hall : ∀ pts ∈ polys, ¬ ReadGIFTI.badCell points.length pts := by
          intro pts hpts hbad
          exact hany (List.any_eq_true.mpr ⟨pts, hpts, decide_eq_true hbad⟩)
        rw [hr']
        simp only
        cases r with
        | none =>
          obtain ⟨pd, hpd⟩ := hpdok points.length none 0
          simp [GIFTIPointDataToVTK, hpd]
          split_ifs <;> simp
        | some ind =>
          simp only [Except.ok.injEq, Option.some.injEq, exists_eq_left']
          by_cases hbad : (List.range ind.tuples.length).any (fun i =>
              decide (truncate (ind.GetComponent i 0) ≥ points.length)) = true
          · rw [if_pos hbad]
            simp only [reduceCtorEq, false_iff, not_and, not_lt]
            intro _ hidx
            rw [List.any_eq_true] at hbad
            obtain ⟨i, hi, hge⟩ := hbad
            have := hidx i (List.mem_range.mp hi)
            have := of_decide_eq_true hge
            omega
          · rw [if_neg hbad]
            have hidx : ∀ i, i < ind.tuples.length →
                truncate (ind.GetComponent i 0) < points.length := by
              intro i hi
              by_contra hlt
              exact hbad (List.any_eq_true.mpr ⟨i, List.mem_range.mpr hi,
                decide_eq_true (not_lt.mp hlt)⟩)
            by_cases hmore : ind.GetNumberOfTuples > points.length
            · simp [GIFTIPointDataToVTK, hmore]
              exact ⟨hall, hidx⟩
            · obtain ⟨pd, hpd⟩ := hpdok points.length (some ind) ind.GetNumberOfTuples
              simp only [GIFTIPointDataToVTK, Option.isSome_some, true_and, hne, hmore,
                if_false, hpd]
              have : ¬ ((points.length : Int) < ind.GetNumberOfTuples) := hmore
              split_ifs <;> simp [this]

/-- C9 (counterexample): all datatype tags of the image are recognised, its four
node indices are all in range, and `ReadGIFTI` reaches `exit(1)`, because the
node index array has more entries than the image has points. -/
theorem C9_exit_with_recognised_tags :
    (∀ a ∈ (exImage [0, 1, 2] [exNodeIndex GIFTI_IND_ORD_COL_MAJOR [0, 1, 2, 0],
        exShape GIFTI_IND_ORD_COL_MAJOR [1, 2, 3, 4]]).darray,
      a.datatype ∈ recognisedTypes) ∧
    ReadGIFTI exEnv (some (exImage [0, 1, 2] [exNodeIndex GIFTI_IND_ORD_COL_MAJOR [0, 1, 2, 0],
        exShape GIFTI_IND_ORD_COL_MAJOR [1, 2, 3, 4]])) none = .error Fault.exit := by
  decide

/-- Witness of C9 (amended): an image with recognised tags and no node index
array does not reach `exit(1)`. -/
theorem C9_exit_iff_witness :
    ReadGIFTI exEnv (some (exImage [0, 1, 2] [exShape GIFTI_IND_ORD_COL_MAJOR [4, 5, 6]])) none
      ≠ .error Fault.exit :=
  fun h => by
    obtain ⟨_, _, ind, _, _, _, h4, _⟩ :=
      (C9_exit_iff_more_node_indices_than_points exEnv
        (exImage [0, 1, 2] [exShape GIFTI_IND_ORD_COL_MAJOR [4, 5, 6]]) none (by decide)).2.mp h
    have hnone : GIFTINodeIndicesToVTK exEnv
        (exImage [0, 1, 2] [exShape GIFTI_IND_ORD_COL_MAJOR [4, 5, 6]]) = .ok none := by decide
    rw [hnone] at h4
    simp at h4

/-! ## Node indices -/

/-- C8: for the row-major node index array `[0, 5]` over three points, the array
that `GIFTINodeIndicesToVTK` returns and `ReadGIFTI` checks is `[0, 0]`, since
the dense row-major copy stores element `0` of the source in every tuple; the
out-of-range index `5` passes unnoticed and `ReadGIFTI` returns a mesh of
three points. With the column-major flag the checked array is `[0, 5]` and the
mesh is empty. -/
theorem C8_row_major_node_indices_not_checked :
    GIFTINodeIndicesToVTK exEnv (exImage [0, 1, 2] [exNodeIndex GIFTI_IND_ORD_ROW_MAJOR [0, 5]])
      = .ok (some (exArray .integral [[0], [0]])) ∧
    (ReadGIFTI exEnv (some (exImage [0, 1, 2] [exNodeIndex GIFTI_IND_ORD_ROW_MAJOR [0, 5]]))
      none).map (fun mesh => mesh.points.length) = .ok 3 ∧
    GIFTINodeIndicesToVTK exEnv (exImage [0, 1, 2] [exNodeIndex GIFTI_IND_ORD_COL_MAJOR [0, 5]])
      = .ok (some (exArray .integral [[0], [5]])) ∧
    ReadGIFTI exEnv (some (exImage [0, 1, 2] [exNodeIndex GIFTI_IND_ORD_COL_MAJOR [0, 5]])) none
      = .ok vtkPolyData.New := by
  decide

/-! ## Information tables -/

theorem info_find_map_self (k : String) (v : InfoValue) :
    ∀ info : vtkInformation, info.any (fun e => e.1 == k) = true →
      (info.map (fun e => if e.1 == k then (k, v) else e)).find? (fun e => e.1 == k)
        = some (k, v)
  | [], h => by simp at h
  | e :: info, h => by
    by_cases he : (e.1 == k) = true
    · simp only [List.map_cons, he, if_true, List.find?_cons, beq_self_eq_true]
    · have hany : info.any (fun e => e.1 == k) = true := by
        simpa [List.any_cons, he] using h
      simp only [List.map_cons, he, if_false, List.find?_cons, Bool.false_eq_true]
      exact info_find_map_self k v info hany

theorem info_find_none_of_any (k : String) :
    ∀ info : vtkInformation, ¬ info.any (fun e => e.1 == k) = true →
      info.find? (fun e => e.1 == k) = none
  | [], _ => rfl
  | e :: info, h => by
    by_cases he : (e.1 == k) = true
    · exact absurd (by simp [List.any_cons, he]) h
    · have hany : ¬ info.any (fun e => e.1 == k) = true := by
        simpa [List.any_cons, he] using h
      simp only [List.find?_cons, he]
      exact info_find_none_of_any k info hany

theorem info_Get_Set_self (info : vtkInformation) (k : String) (v : InfoValue) :
    vtkInformation.Get (vtkInformation.Set info k v) k = some v := by
  unfold vtkInformation.Set vtkInformation.Get
  split_ifs with hany
  · rw [info_find_map_self k v info hany]; rfl
  · rw [List.find?_append, info_find_none_of_any k info hany]
    simp

theorem info_find_map_other (k k' : String) (v : InfoValue) (hk : k' ≠ k) :
    ∀ info : vtkInformation,
      ((info.map (fun e => if e.1 == k then (k, v) else e)).find? (fun e => e.1 == k')).map
          Prod.snd
        = (info.find? (fun e => e.1 == k')).map Prod.snd
  | [] => rfl
  | e :: info => by
    have hkk : (k == k') = false := by simpa using Ne.symm hk
    by_cases he : (e.1 == k) = true
    · have he' : (e.1 == k') = false := by
        have : e.1 = k := by simpa using he
        rw [this]; exact hkk
      simp only [List.map_cons, he, if_true, List.find?_cons, hkk, he']
      exact info_find_map_other k k' v hk info
    · simp only [List.map_cons, he, if_false, List.find?_cons, Bool.false_eq_true]
      cases hek : (e.1 == k')
      · exact info_find_map_other k k' v hk info
      · rfl

theorem info_Get_Set_other (info : vtkInformation) (k k' : String) (v : InfoValue)
    (hk : k' ≠ k) :
    vtkInformation.Get (vtkInformation.Set info k v) k' = vtkInformation.Get info k' := by
  unfold vtkInformation.Set vtkInformation.Get
  split_ifs with hany
  · exact info_find_map_other k k' v hk info
  · have hkk : (k == k') = false := by simpa using Ne.symm hk
    rw [List.find?_append]
    cases hf : info.find? (fun e => e.1 == k')
    · simp [List.find?_cons, hkk]
    · simp

theorem info_Has_eq (info : vtkInformation) (k : String) :
    vtkInformation.Has info k = (vtkInformation.Get info k).isSome := by
  unfold vtkInformation.Has vtkInformation.Get
  induction info with
  | nil => rfl
  | cons e info ih =>
    cases he : (e.1 == k)
    · simp only [List.any_cons, he, Bool.false_or, List.find?_cons]
      exact ih
    · simp only [List.any_cons, he, Bool.true_or, List.find?_cons, Option.map_some',
        Option.isSome_some]

/-! ## Metadata: file to mesh -/

theorem mem_recognisedNames (name : String) :
    name ∈ recognisedNames ↔
      (name = "Date" ∨ name = "UserName" ∨ name = "SubjectID" ∨ name = "SurfaceID" ∨
       name = "UniqueID" ∨ name = "Name" ∨ name = "Description" ∨
       name = "AnatomicalStructurePrimary" ∨ name = "AnatomicalStructureSecondary" ∨
       name = "GeometricType" ∨ name = "TopologicalType" ∨ name = "TimeStep" ∨
       name = "Intent_code" ∨ name = "Intent" ∨ name = "IntentCode" ∨
       name = "intent_p1" ∨ name = "Intent_p1" ∨ name = "IntentP1" ∨
       name = "intent_p2" ∨ name = "Intent_p2" ∨ name = "IntentP2" ∨
       name = "intent_p3" ∨ name = "Intent_p3" ∨ name = "IntentP3") := by
  simp [recognisedNames, stringKeyNames, intentCodeNames, intentP1Names, intentP2Names,
    intentP3Names, GiftiMetaData.DATE, GiftiMetaData.USER_NAME,
    GiftiMetaData.SUBJECT_ID, GiftiMetaData.SURFACE_ID, GiftiMetaData.UNIQUE_ID,
    GiftiMetaData.NAME, GiftiMetaData.DESCRIPTION, GiftiMetaData.TIME_STEP,
    GiftiMetaData.ANATOMICAL_STRUCTURE_PRIMARY, GiftiMetaData.ANATOMICAL_STRUCTURE_SECONDARY,
    GiftiMetaData.GEOMETRIC_TYPE, GiftiMetaData.TOPOLOGICAL_TYPE, GiftiMetaData.INTENT_CODE,
    GiftiMetaData.INTENT_P1, GiftiMetaData.INTENT_P2, GiftiMetaData.INTENT_P3, or_assoc]

theorem step_eq_entryOf (env : Env) (info : vtkInformation) (name value : String) :
    CopyGIFTIMetaData.step env info (name, value) =
      match entryOf env name value with
      | some (k, v) => info.Set k v
      | none => info := by
  by_cases h : name ∈ recognisedNames
  · rw [mem_recognisedNames] at h
    rcases h with h | h | h | h | h | h | h | h | h | h | h | h | h | h | h | h | h | h | h |
      h | h | h | h | h <;> subst h <;>
    simp [CopyGIFTIMetaData.step, entryOf, stringKeyNames, intentCodeNames, intentP1Names,
      intentP2Names, intentP3Names, GiftiMetaData.DATE, GiftiMetaData.USER_NAME,
      GiftiMetaData.SUBJECT_ID, GiftiMetaData.SURFACE_ID, GiftiMetaData.UNIQUE_ID,
      GiftiMetaData.NAME, GiftiMetaData.DESCRIPTION, GiftiMetaData.TIME_STEP,
      GiftiMetaData.ANATOMICAL_STRUCTURE_PRIMARY, GiftiMetaData.ANATOMICAL_STRUCTURE_SECONDARY,
      GiftiMetaData.GEOMETRIC_TYPE, GiftiMetaData.TOPOLOGICAL_TYPE, GiftiMetaData.INTENT_CODE,
      GiftiMetaData.INTENT_P1, GiftiMetaData.INTENT_P2, GiftiMetaData.INTENT_P3] <;>
    first
      | (cases env.fromStringDouble value <;> rfl)
      | (cases env.fromStringInt value <;> rfl)
  · rw [mem_recognisedNames] at h
    simp only [not_or] at h
    obtain ⟨h1, h2, h3, h4, h5, h6, h7, h8, h9, h10, h11, h12, h13, h14, h15, h16, h17, h18,
      h19, h20, h21, h22, h23, h24⟩ := h
    simp [CopyGIFTIMetaData.step, entryOf, stringKeyNames, intentCodeNames, intentP1Names,
      intentP2Names, intentP3Names, GiftiMetaData.DATE, GiftiMetaData.USER_NAME,
      GiftiMetaData.SUBJECT_ID, GiftiMetaData.SURFACE_ID, GiftiMetaData.UNIQUE_ID,
      GiftiMetaData.NAME, GiftiMetaData.DESCRIPTION, GiftiMetaData.TIME_STEP,
      GiftiMetaData.ANATOMICAL_STRUCTURE_PRIMARY, GiftiMetaData.ANATOMICAL_STRUCTURE_SECONDARY,
      GiftiMetaData.GEOMETRIC_TYPE, GiftiMetaData.TOPOLOGICAL_TYPE, GiftiMetaData.INTENT_CODE,
      GiftiMetaData.INTENT_P1, GiftiMetaData.INTENT_P2, GiftiMetaData.INTENT_P3, *]

theorem entryOf_key_mem (env : Env) (name value k : String) (v : InfoValue)
    (h : entryOf env name value = some (k, v)) : k ∈ targetKeys := by
  unfold entryOf at h
  split_ifs at h with h1 h2 h3 h4 h5 h6
  · simp only [Option.some.injEq, Prod.mk.injEq] at h
    rw [← h.1]
    exact List.mem_append_left _ h1
  all_goals
    simp only [Option.map_eq_some', Prod.mk.injEq] at h
    obtain ⟨_, _, hk, _⟩ := h
    rw [← hk]
    simp [targetKeys]

theorem entryOf_none_of_not_recognised (env : Env) (name value : String)
    (h : name ∉ recognisedNames) : entryOf env name value = none := by
  simp only [recognisedNames, List.mem_append, List.mem_singleton, not_or] at h
  obtain ⟨⟨⟨⟨⟨h1, h2⟩, h3⟩, h4⟩, h5⟩, h6⟩ := h
  simp only [entryOf, if_neg h1, if_neg h2, if_neg h3, if_neg h4, if_neg h5, if_neg h6]

theorem CopyGIFTIMetaData_Get_other (env : Env) (k : String) (hk : k ∉ targetKeys) :
    ∀ (meta : giiMetaData) (info : vtkInformation),
      vtkInformation.Get (CopyGIFTIMetaData env info meta) k = vtkInformation.Get info k := by
  intro meta
  induction meta with
  | nil => intro info; rfl
  | cons e meta ih =>
    intro info
    unfold CopyGIFTIMetaData at ih ⊢
    rw [List.foldl_cons, ih]
    obtain ⟨name, value⟩ := e
    rw [step_eq_entryOf]
    cases he : entryOf env name value with
    | none => rfl
    | some kv =>
      obtain ⟨k', v⟩ := kv
      simp only
      apply info_Get_Set_other
      intro hkk
      exact hk (hkk ▸ entryOf_key_mem env name value k' v he)

theorem CopyGIFTIMetaData_filter (env : Env) :
    ∀ (meta : giiMetaData) (info : vtkInformation),
      CopyGIFTIMetaData env info meta =
        CopyGIFTIMetaData env info (meta.filter (fun e => decide (e.1 ∈ recognisedNames))) := by
  intro meta
  induction meta with
  | nil => intro info; rfl
  | cons e meta ih =>
    intro info
    unfold CopyGIFTIMetaData at ih ⊢
    by_cases he : e.1 ∈ recognisedNames
    · rw [List.filter_cons_of_pos (by simpa using he), List.foldl_cons, List.foldl_cons]
      exact ih _
    · rw [List.filter_cons_of_neg (by simpa using he), List.foldl_cons]
      obtain ⟨name, value⟩ := e
      rw [step_eq_entryOf, entryOf_none_of_not_recognised env name value he]
      exact ih _

theorem entryOf_string (env : Env) (name value : String) (h : name ∈ stringKeyNames) :
    entryOf env name value = some (name, .str value) := by
  simp only [entryOf, if_pos h]

theorem entryOf_numeric (env : Env) (value : String) :
    (entryOf env GiftiMetaData.TIME_STEP value =
      (env.fromStringDouble value).map (fun x => (GiftiMetaData.TIME_STEP, .dbl x))) ∧
    (∀ name ∈ intentCodeNames, entryOf env name value =
      (env.fromStringInt value).map (fun n => (GiftiMetaData.INTENT_CODE, .int n))) ∧
    (∀ name ∈ intentP1Names, entryOf env name value =
      (env.fromStringDouble value).map (fun x => (GiftiMetaData.INTENT_P1, .dbl x))) ∧
    (∀ name ∈ intentP2Names, entryOf env name value =
      (env.fromStringDouble value).map (fun x => (GiftiMetaData.INTENT_P2, .dbl x))) ∧
    (∀ name ∈ intentP3Names, entryOf env name value =
      (env.fromStringDouble value).map (fun x => (GiftiMetaData.INTENT_P3, .dbl x))) := by
  refine ⟨?_, ?_, ?_, ?_, ?_⟩
  · simp [entryOf, stringKeyNames, GiftiMetaData.DATE, GiftiMetaData.USER_NAME,
      GiftiMetaData.SUBJECT_ID, GiftiMetaData.SURFACE_ID, GiftiMetaData.UNIQUE_ID,
      GiftiMetaData.NAME, GiftiMetaData.DESCRIPTION, GiftiMetaData.TIME_STEP,
      GiftiMetaData.ANATOMICAL_STRUCTURE_PRIMARY, GiftiMetaData.ANATOMICAL_STRUCTURE_SECONDARY,
      GiftiMetaData.GEOMETRIC_TYPE, GiftiMetaData.TOPOLOGICAL_TYPE]
  all_goals
    intro name hname
    simp only [intentCodeNames, intentP1Names, intentP2Names, intentP3Names, List.mem_cons,
      List.mem_singleton, List.not_mem_nil, or_false] at hname
    rcases hname with h | h | h <;> subst h <;>
    simp [entryOf, stringKeyNames, intentCodeNames, intentP1Names,
      intentP2Names, intentP3Names, GiftiMetaData.DATE, GiftiMetaData.USER_NAME,
      GiftiMetaData.SUBJECT_ID, GiftiMetaData.SURFACE_ID, GiftiMetaData.UNIQUE_ID,
      GiftiMetaData.NAME, GiftiMetaData.DESCRIPTION, GiftiMetaData.TIME_STEP,
      GiftiMetaData.ANATOMICAL_STRUCTURE_PRIMARY, GiftiMetaData.ANATOMICAL_STRUCTURE_SECONDARY,
      GiftiMetaData.GEOMETRIC_TYPE, GiftiMetaData.TOPOLOGICAL_TYPE, GiftiMetaData.INTENT_CODE,
      GiftiMetaData.INTENT_P1, GiftiMetaData.INTENT_P2, GiftiMetaData.INTENT_P3]

theorem CopyGIFTIMetaData_append (env : Env) (info : vtkInformation) (pre post : giiMetaData) :
    CopyGIFTIMetaData env info (pre ++ post) =
      CopyGIFTIMetaData env (CopyGIFTIMetaData env info pre) post := by
  unfold CopyGIFTIMetaData
  exact List.foldl_append _ _ _ _

theorem CopyGIFTIMetaData_cons (env : Env) (info : vtkInformation) (e : String × String)
    (meta : giiMetaData) :
    CopyGIFTIMetaData env info (e :: meta) =
      CopyGIFTIMetaData env (CopyGIFTIMetaData.step env info e) meta := by
  unfold CopyGIFTIMetaData
  exact List.foldl_cons _ _

theorem CopyGIFTIMetaData_Get_untouched (env : Env) (k : String) :
    ∀ (meta : giiMetaData) (info : vtkInformation),
      (∀ e ∈ meta, ∀ w, entryOf env e.1 e.2 ≠ some (k, w)) →
      vtkInformation.Get (CopyGIFTIMetaData env info meta) k = vtkInformation.Get info k := by
  intro meta
  induction meta with
  | nil => intro info _; rfl
  | cons e meta ih =>
    intro info h
    rw [CopyGIFTIMetaData_cons, ih _ (fun e' he' => h e' (List.mem_cons_of_mem _ he'))]
    have he := h e (List.mem_cons_self _ _)
    obtain ⟨name, value⟩ := e
    rw [step_eq_entryOf]
    cases hent : entryOf env name value with
    | none => rfl
    | some kv =>
      obtain ⟨k', v⟩ := kv
      simp only
      apply info_Get_Set_other
      intro hkk
      apply he v
      simp only
      rw [hent, hkk]

theorem entryOf_string_key (env : Env) (n v name : String) (w : InfoValue)
    (hname : name ∈ stringKeyNames) (h : entryOf env n v = some (name, w)) : n = name := by
  unfold entryOf at h
  split_ifs at h with h1
  · simp only [Option.some.injEq, Prod.mk.injEq] at h
    exact h.1
  all_goals
    simp only [Option.map_eq_some', Prod.mk.injEq] at h
    obtain ⟨_, _, hk, _⟩ := h
    rw [← hk] at hname
    exact absurd hname (by decide)

theorem entryOf_numeric_name (env : Env) (nk : NumericKey) (hnk : nk ∈ numericKeys env)
    (n v : String) (hn : n ∈ nk.names) :
    entryOf env n v = (nk.parse v).map (fun w => (nk.key, w)) := by
  simp only [numericKeys, List.mem_cons, List.mem_singleton, List.not_mem_nil, or_false] at hnk
  rcases hnk with h | h | h | h | h <;> subst h <;> simp only at hn ⊢
  · rw [List.mem_singleton] at hn
    subst hn
    rw [(entryOf_numeric env v).1]
    cases env.fromStringDouble v <;> rfl
  · rw [(entryOf_numeric env v).2.1 n hn]
    cases env.fromStringInt v <;> rfl
  · rw [(entryOf_numeric env v).2.2.1 n hn]
    cases env.fromStringDouble v <;> rfl
  · rw [(entryOf_numeric env v).2.2.2.1 n hn]
    cases env.fromStringDouble v <;> rfl
  · rw [(entryOf_numeric env v).2.2.2.2 n hn]
    cases env.fromStringDouble v <;> rfl

theorem entryOf_numeric_key (env : Env) (nk : NumericKey) (hnk : nk ∈ numericKeys env)
    (n v : String) (w : InfoValue) (h : entryOf env n v = some (nk.key, w)) :
    n ∈ nk.names := by
  simp only [numericKeys, List.mem_cons, List.mem_singleton, List.not_mem_nil, or_false] at hnk
  unfold entryOf at h
  rcases hnk with hk | hk | hk | hk | hk <;> subst hk <;> simp only at h ⊢ <;>
    split_ifs at h with h1 h2 h3 h4 h5 h6 <;>
    first
      | assumption
      | (rw [h2]; exact List.mem_singleton_self _)
      | (simp only [Option.some.injEq, Prod.mk.injEq] at h
         rw [h.1] at h1
         exact absurd h1 (by decide))
      | (simp only [Option.map_eq_some', Prod.mk.injEq] at h
         obtain ⟨_, _, hk, _⟩ := h
         exact absurd hk (by decide))


theorem CopyGIFTIMetaData_Get_congr (env : Env) (k : String) :
    ∀ (meta : giiMetaData) (info1 info2 : vtkInformation),
      vtkInformation.Get info1 k = vtkInformation.Get info2 k →
      vtkInformation.Get (CopyGIFTIMetaData env info1 meta) k =
        vtkInformation.Get (CopyGIFTIMetaData env info2 meta) k := by
  intro meta
  induction meta with
  | nil => intro info1 info2 h; exact h
  | cons e meta ih =>
    intro info1 info2 h
    rw [CopyGIFTIMetaData_cons, CopyGIFTIMetaData_cons]
    apply ih
    obtain ⟨name, value⟩ := e
    rw [step_eq_entryOf, step_eq_entryOf]
    cases hent : entryOf env name value with
    | none => exact h
    | some kv =>
      obtain ⟨k', v⟩ := kv
      simp only
      by_cases hk : k = k'
      · subst hk
        rw [info_Get_Set_self, info_Get_Set_self]
      · rw [info_Get_Set_other _ _ _ _ hk, info_Get_Set_other _ _ _ _ hk]
        exact h

theorem CopyGIFTIMetaData_Get_entry_other (env : Env) (info : vtkInformation)
    (pre post : giiMetaData) (name value k : String)
    (h : ∀ w, entryOf env name value ≠ some (k, w)) :
    vtkInformation.Get (CopyGIFTIMetaData env info (pre ++ (name, value) :: post)) k =
      vtkInformation.Get (CopyGIFTIMetaData env info (pre ++ post)) k := by
  rw [CopyGIFTIMetaData_append, CopyGIFTIMetaData_cons, CopyGIFTIMetaData_append]
  apply CopyGIFTIMetaData_Get_congr
  rw [step_eq_entryOf]
  cases hent : entryOf env name value with
  | none => rfl
  | some kv =>
    obtain ⟨k', v⟩ := kv
    simp only
    apply info_Get_Set_other
    intro hk
    exact h v (by rw [hent, hk])

/-- C14: what `CopyGIFTIMetaData` (file to mesh) does with a whole metadata
list. (1) An entry whose name is not recognised can be removed from the list
without changing the resulting table, and (2) a list of such entries leaves
the table as it was. (3) A string key holds, verbatim, the value of the last
entry of its name, and (4) is as before the copy when the list has no entry of
its name. (5) For a numeric key (`TimeStep`, the intent code and the intent
parameters, read under their names and aliases), the last entry of its names
sets the key to the parsed number when its value parses as a number of the
key's type, and can be removed from the list without changing the result when
it does not; (6) when no entry of its names has a value that parses, the key
is as before the copy. (7) Keys outside the fixed set are as before the copy,
and (8) an entry of a string key or of a numeric key changes no other key: the
other keys are what they are without the entry. -/
theorem C14_metadata_copy_whitelist (env : Env) (info : vtkInformation) :
    (∀ (pre post : giiMetaData) (name value : String), name ∉ recognisedNames →
      CopyGIFTIMetaData env info (pre ++ (name, value) :: post) =
        CopyGIFTIMetaData env info (pre ++ post)) ∧
    (∀ meta : giiMetaData, (∀ e ∈ meta, e.1 ∉ recognisedNames) →
      CopyGIFTIMetaData env info meta = info) ∧
    (∀ name ∈ stringKeyNames, ∀ (pre post : giiMetaData) (value : String),
      (∀ e ∈ post, e.1 ≠ name) →
      vtkInformation.Get (CopyGIFTIMetaData env info (pre ++ (name, value) :: post)) name =
        some (.str value)) ∧
    (∀ name ∈ stringKeyNames, ∀ meta : giiMetaData, (∀ e ∈ meta, e.1 ≠ name) →
      vtkInformation.Get (CopyGIFTIMetaData env info meta) name =
        vtkInformation.Get info name) ∧
    (∀ nk ∈ numericKeys env, ∀ name ∈ nk.names, ∀ (pre post : giiMetaData) (value : String),
      (∀ e ∈ post, e.1 ∉ nk.names) →
      (∀ w, nk.parse value = some w →
        vtkInformation.Get (CopyGIFTIMetaData env info (pre ++ (name, value) :: post)) nk.key =
          some w) ∧
      (nk.parse value = none →
        CopyGIFTIMetaData env info (pre ++ (name, value) :: post) =
          CopyGIFTIMetaData env info (pre ++ post))) ∧
    (∀ nk ∈ numericKeys env, ∀ meta : giiMetaData,
      (∀ e ∈ meta, e.1 ∈ nk.names → nk.parse e.2 = none) →
      vtkInformation.Get (CopyGIFTIMetaData env info meta) nk.key =
        vtkInformation.Get info nk.key) ∧
    (∀ (meta : giiMetaData) (k : String), k ∉ targetKeys →
      vtkInformation.Get (CopyGIFTIMetaData env info meta) k = vtkInformation.Get info k) ∧
    ((∀ name ∈ stringKeyNames, ∀ (pre post : giiMetaData) (value k : String), k ≠ name →
      vtkInformation.Get (CopyGIFTIMetaData env info (pre ++ (name, value) :: post)) k =
        vtkInformation.Get (CopyGIFTIMetaData env info (pre ++ post)) k) ∧
     (∀ nk ∈ numericKeys env, ∀ name ∈ nk.names,
      ∀ (pre post : giiMetaData) (value k : String), k ≠ nk.key →
      vtkInformation.Get (CopyGIFTIMetaData env info (pre ++ (name, value) :: post)) k =
        vtkInformation.Get (CopyGIFTIMetaData env info (pre ++ post)) k)) := by
  refine ⟨?_, ?_, ?_, ?_, ?_, ?_, ?_, ?_, ?_⟩
  · intro pre post name value h
    rw [CopyGIFTIMetaData_append, CopyGIFTIMetaData_cons, step_eq_entryOf,
      entryOf_none_of_not_recognised env name value h, CopyGIFTIMetaData_append]
  · intro meta h
    rw [CopyGIFTIMetaData_filter, List.filter_eq_nil_iff.mpr (fun e he => by simpa using h e he)]
    rfl
  · intro name hname pre post value hpost
    rw [CopyGIFTIMetaData_append, CopyGIFTIMetaData_cons,
      CopyGIFTIMetaData_Get_untouched env name post _
        (fun e he w hw => hpost e he (entryOf_string_key env e.1 e.2 name w hname hw)),
      step_eq_entryOf, entryOf_string env name value hname]
    exact info_Get_Set_self _ _ _
  · intro name hname meta hmeta
    exact CopyGIFTIMetaData_Get_untouched env name meta info
      (fun e he w hw => hmeta e he (entryOf_string_key env e.1 e.2 name w hname hw))
  · intro nk hnk name hname pre post value hpost
    constructor
    · intro w hw
      rw [CopyGIFTIMetaData_append, CopyGIFTIMetaData_cons,
        CopyGIFTIMetaData_Get_untouched env nk.key post _
          (fun e he w hw => hpost e he (entryOf_numeric_key env nk hnk e.1 e.2 w hw)),
        step_eq_entryOf, entryOf_numeric_name env nk hnk name value hname, hw]
      exact info_Get_Set_self _ _ _
    · intro hw
      rw [CopyGIFTIMetaData_append, CopyGIFTIMetaData_cons, step_eq_entryOf,
        entryOf_numeric_name env nk hnk name value hname, hw, CopyGIFTIMetaData_append]
      rfl
  · intro nk hnk meta hmeta
    apply CopyGIFTIMetaData_Get_untouched env nk.key meta info
    intro e he w hw
    have hn := entryOf_numeric_key env nk hnk e.1 e.2 w hw
    rw [entryOf_numeric_name env nk hnk e.1 e.2 hn, hmeta e he hn] at hw
    exact Option.noConfusion hw
  · intro meta k hk
    exact CopyGIFTIMetaData_Get_other env k hk meta info
  · intro name hname pre post value k hk
    apply CopyGIFTIMetaData_Get_entry_other
    intro w hw
    rw [entryOf_string env name value hname] at hw
    simp only [Option.some.injEq, Prod.mk.injEq] at hw
    exact hk hw.1.symm
  · intro nk hnk name hname pre post value k hk
    apply CopyGIFTIMetaData_Get_entry_other
    intro w hw
    rw [entryOf_numeric_name env nk hnk name value hname] at hw
    simp only [Option.map_eq_some', Prod.mk.injEq] at hw
    obtain ⟨_, _, hkk, _⟩ := hw
    exact hk hkk.symm

/-- Witness of C14: a list with an unknown name, two entries of the string key
`SubjectID`, an alias of the intent code whose value parses, and a time step
whose value does not parse. The table holds the second subject and the intent
code, and nothing else. -/
theorem C14_metadata_copy_witness :
    CopyGIFTIMetaData exParseEnv []
        [("SubjectID", "s0"), ("Comment", "x"), ("IntentCode", "5"), ("TimeStep", "soon"),
         ("SubjectID", "s1")] =
      CopyGIFTIMetaData exParseEnv []
        [("SubjectID", "s0"), ("IntentCode", "5"), ("TimeStep", "soon"), ("SubjectID", "s1")] ∧
    vtkInformation.Get (CopyGIFTIMetaData exParseEnv []
        [("SubjectID", "s0"), ("Comment", "x"), ("IntentCode", "5"), ("TimeStep", "soon"),
         ("SubjectID", "s1")]) "SubjectID" = some (.str "s1") ∧
    vtkInformation.Get (CopyGIFTIMetaData exParseEnv []
        [("SubjectID", "s0"), ("Comment", "x"), ("IntentCode", "5"), ("TimeStep", "soon"),
         ("SubjectID", "s1")]) "Intent_code" = some (.int 5) ∧
    vtkInformation.Get (CopyGIFTIMetaData exParseEnv []
        [("SubjectID", "s0"), ("Comment", "x"), ("IntentCode", "5"), ("TimeStep", "soon"),
         ("SubjectID", "s1")]) "TimeStep" = vtkInformation.Get [] "TimeStep" ∧
    CopyGIFTIMetaData exParseEnv []
        [("SubjectID", "s0"), ("Comment", "x"), ("IntentCode", "5"), ("TimeStep", "soon"),
         ("SubjectID", "s1")] = [("SubjectID", .str "s1"), ("Intent_code", .int 5)] :=
  ⟨(C14_metadata_copy_whitelist exParseEnv []).1 [("SubjectID", "s0")]
      [("IntentCode", "5"), ("TimeStep", "soon"), ("SubjectID", "s1")] "Comment" "x"
      (by decide),
   (C14_metadata_copy_whitelist exParseEnv []).2.2.1 "SubjectID" (by decide)
      [("SubjectID", "s0"), ("Comment", "x"), ("IntentCode", "5"), ("TimeStep", "soon")] []
      "s1" (by decide),
   ((C14_metadata_copy_whitelist exParseEnv []).2.2.2.2.1
      { key := GiftiMetaData.INTENT_CODE, names := intentCodeNames,
        parse := fun s => (exParseEnv.fromStringInt s).map .int }
      (by simp [numericKeys]) "IntentCode" (by decide)
      [("SubjectID", "s0"), ("Comment", "x")] [("TimeStep", "soon"), ("SubjectID", "s1")] "5"
      (by decide)).1 (.int 5) rfl,
   (C14_metadata_copy_whitelist exParseEnv []).2.2.2.2.2.1
      { key := GiftiMetaData.TIME_STEP, names := [GiftiMetaData.TIME_STEP],
        parse := fun s => (exParseEnv.fromStringDouble s).map .dbl }
      (by simp [numericKeys])
      [("SubjectID", "s0"), ("Comment", "x"), ("IntentCode", "5"), ("TimeStep", "soon"),
       ("SubjectID", "s1")] (by decide),
   by decide⟩

/-! ## Point data: names and activation -/

theorem CopyGIFTIDataArrayWithDataType_preserves {β : Type} (f : vtkDataArray → β)
    (hf : ∀ (d : vtkDataArray) (i j : Int) (x : Rat), f (d.SetComponent i j x) = f d)
    (dst : vtkDataArray) (src : giiDataArray) (indices : Option vtkDataArray) :
    f (CopyGIFTIDataArrayWithDataType dst src indices) = f dst := by
  have zero : ∀ (rows cols : List Nat), f (rows.foldl (fun (d : vtkDataArray) (i : Nat) =>
      cols.foldl (fun (d : vtkDataArray) (j : Nat) => d.SetComponent i j 0) d) dst)
        = f dst := by
    intro rows cols
    apply foldl_invariant (fun (d : vtkDataArray) => f d = f dst)
    · intro b a hb
      apply foldl_invariant (fun (d : vtkDataArray) => f d = f dst)
      · intro b a hb
        rw [hf]; exact hb
      · exact hb
    · rfl
  unfold CopyGIFTIDataArrayWithDataType
  cases indices with
  | some ind =>
    simp only
    split_ifs
    all_goals
      apply foldl_invariant (fun (s : CopyState) => f s.1 = f dst)
      · intro b a hb
        apply foldl_invariant (fun (s : CopyState) => f s.1 = f dst)
        · intro b a hb
          simp only [hf]; exact hb
        · exact hb
      · exact zero _ _
  | none =>
    simp only
    split_ifs
    all_goals
      apply foldl_invariant (fun (s : CopyState) => f s.1 = f dst)
      · intro b a hb
        apply foldl_invariant (fun (s : CopyState) => f s.1 = f dst)
        · intro b a hb
          simp only [hf]; exact hb
        · exact hb
      · rfl

theorem CopyGIFTIDataArrayWithDataType_info (dst : vtkDataArray) (src : giiDataArray)
    (indices : Option vtkDataArray) :
    (CopyGIFTIDataArrayWithDataType dst src indices).info = dst.info := by
  apply CopyGIFTIDataArrayWithDataType_preserves (fun d => d.info)
  intro d i j x
  unfold vtkDataArray.SetComponent
  split_ifs <;> rfl

theorem CopyGIFTIMetaData_Get_name (env : Env) :
    ∀ (meta : giiMetaData) (info : vtkInformation),
      vtkInformation.Get (CopyGIFTIMetaData env info meta) GiftiMetaData.NAME =
        match lastValue GiftiMetaData.NAME meta with
        | some s => some (.str s)
        | none => vtkInformation.Get info GiftiMetaData.NAME := by
  intro meta
  induction meta with
  | nil => intro info; rfl
  | cons e meta ih =>
    intro info
    unfold CopyGIFTIMetaData at ih ⊢
    rw [List.foldl_cons, ih, lastValue]
    cases hl : lastValue GiftiMetaData.NAME meta with
    | some s => rfl
    | none =>
      obtain ⟨name, value⟩ := e
      simp only
      by_cases hn : name = GiftiMetaData.NAME
      · subst hn
        rw [if_pos rfl, step_eq_entryOf,
          entryOf_string env GiftiMetaData.NAME value (by simp [stringKeyNames])]
        exact info_Get_Set_self _ _ _
      · rw [if_neg hn, step_eq_entryOf]
        cases he : entryOf env name value with
        | none => rfl
        | some kv =>
          obtain ⟨k, v⟩ := kv
          simp only
          apply info_Get_Set_other
          intro hk
          unfold entryOf at he
          split_ifs at he with h1
          · simp only [Option.some.injEq, Prod.mk.injEq] at he
            exact hn (he.1.trans hk.symm)
          all_goals
            simp only [Option.map_eq_some', Prod.mk.injEq] at he
            obtain ⟨_, _, hk', _⟩ := he
            rw [← hk'] at hk
            revert hk
            decide

theorem named_name (env : Env) (a : giiDataArray) (data : vtkDataArray)
    (hinfo : data.info = []) :
    (GIFTIPointDataToVTK.named env a data).name = expectedName a := by
  unfold GIFTIPointDataToVTK.named expectedName
  simp only [info_Has_eq, CopyGIFTIMetaData_Get_name, hinfo]
  cases lastValue GiftiMetaData.NAME a.meta with
  | some s => rfl
  | none => rfl

theorem convertedArray_name (env : Env) (npoints : Int) (indices : Option vtkDataArray)
    (a : giiDataArray) : (convertedArray env npoints indices a).name = expectedName a := by
  unfold convertedArray
  apply named_name
  rw [CopyGIFTIDataArrayWithDataType_info]
  rfl

theorem AddArray_names (pd : vtkPointData) (data : vtkDataArray) :
    (pd.AddArray data).1.arrays.map (fun d => d.name) =
      if data.name ∈ pd.arrays.map (fun d => d.name) then pd.arrays.map (fun d => d.name)
      else pd.arrays.map (fun d => d.name) ++ [data.name] := by
  unfold vtkPointData.AddArray
  simp only
  by_cases hidx : List.findIdx (fun a => a.name == data.name) pd.arrays < pd.arrays.length
  · have hname : (pd.arrays[List.findIdx (fun a => a.name == data.name) pd.arrays]).name
        = data.name := by
      have := @List.findIdx_getElem _ (fun a => a.name == data.name) pd.arrays hidx
      simpa using this
    have hmem : data.name ∈ pd.arrays.map (fun d => d.name) := by
      rw [List.mem_map]
      exact ⟨_, List.getElem_mem hidx, hname⟩
    rw [if_pos hidx, if_pos hmem]
    simp only [List.map_set]
    apply List.ext_getElem
    · simp
    · intro n h1 h2
      rw [List.getElem_set]
      split_ifs with hn
      · subst hn
        simp [hname]
      · rfl
  · have hmem : data.name ∉ pd.arrays.map (fun d => d.name) := by
      intro h
      rw [List.mem_map] at h
      obtain ⟨d, hd, hdn⟩ := h
      exact hidx (List.findIdx_lt_length_of_exists ⟨d, hd, by simpa using hdn⟩)
    rw [if_neg hidx, if_neg hmem]
    simp

theorem AddArray_fresh (pd : vtkPointData) (data : vtkDataArray)
    (hmem : data.name ∉ pd.arrays.map (fun d => d.name)) :
    pd.AddArray data = ({ pd with arrays := pd.arrays ++ [data] }, pd.arrays.length) := by
  have hall : ∀ x ∈ pd.arrays, (fun a => a.name == data.name) x = false := by
    intro x hx
    have : x.name ≠ data.name := fun h => hmem (List.mem_map.mpr ⟨x, hx, h⟩)
    simpa using this
  have hidx : List.findIdx (fun a => a.name == data.name) pd.arrays = pd.arrays.length :=
    List.findIdx_eq_length_of_false hall
  unfold vtkPointData.AddArray
  simp only [hidx, lt_irrefl, if_false]

theorem addConverted_arrays (env : Env) (npoints : Int) (indices : Option vtkDataArray)
    (pd : vtkPointData) (a : giiDataArray) :
    (addConverted env npoints indices pd a).arrays =
      (pd.AddArray (convertedArray env npoints indices a)).1.arrays := by
  unfold addConverted
  exact pointData_activate_arrays _ _ _ _

theorem pointData_convert_eq (env : Env) (indices : Option vtkDataArray)
    (pd : vtkPointData) (array : giiDataArray) (ncomp : Int) (data : vtkDataArray) :
    GIFTIPointDataToVTK.convert env indices pd array ncomp data =
      if array.datatype ∈ recognisedTypes then
        .ok (GIFTIPointDataToVTK.activate array ncomp
          (pd.AddArray (GIFTIPointDataToVTK.named env array
            (CopyGIFTIDataArrayWithDataType data array indices))).1
          (pd.AddArray (GIFTIPointDataToVTK.named env array
            (CopyGIFTIDataArrayWithDataType data array indices))).2)
      else .error Fault.exit := by
  unfold GIFTIPointDataToVTK.convert
  rw [CopyGIFTIDataArray_eq]
  split_ifs <;> rfl

theorem pointData_loop_eq_foldl (env : Env) (npoints : Int) (indices : Option vtkDataArray)
    (nindices : Int) :
    ∀ (l : List giiDataArray) (pd pd' : vtkPointData),
      GIFTIPointDataToVTK.loop env npoints indices nindices pd l = .ok pd' →
      (npoints = 0 ∨ ∀ a ∈ l, isPointDataArray a → ¬ sizeMismatch a npoints indices nindices) →
      pd' = (l.filter (fun a => decide (isPointDataArray a))).foldl
        (addConverted env npoints indices) pd := by
  intro l
  induction l with
  | nil =>
    intro pd pd' h _
    simp only [GIFTIPointDataToVTK.loop, Except.ok.injEq] at h
    exact h.symm
  | cons a l ih =>
    intro pd pd' h hsize
    have hsize' : npoints = 0 ∨
        ∀ b ∈ l, isPointDataArray b → ¬ sizeMismatch b npoints indices nindices := by
      rcases hsize with h0 | hs
      · exact Or.inl h0
      · exact Or.inr (fun b hb => hs b (List.mem_cons_of_mem _ hb))
    rw [GIFTIPointDataToVTK.loop] at h
    by_cases hg : isPointDataArray a
    · rw [if_pos hg] at h
      rw [List.filter_cons_of_pos (by simpa using hg), List.foldl_cons]
      simp only [pointData_convert_eq] at h
      by_cases hn : npoints = 0
      · subst hn
        simp only [ne_eq, not_true_eq_false, if_false] at h
        split_ifs at h with hrec
        have := ih _ pd' h hsize'
        rw [this]
        simp [addConverted, convertedArray, componentCount]
      · have hm : ¬ sizeMismatch a npoints indices nindices := by
          rcases hsize with h0 | hs
          · exact absurd h0 hn
          · exact hs a (List.mem_cons_self _ _) hg
        simp only [ne_eq, hn, not_false_eq_true, if_true, if_neg hm] at h
        split_ifs at h with hrec
        have := ih _ pd' h hsize'
        rw [this]
        simp [addConverted, convertedArray, componentCount, hn]
    · rw [if_neg hg] at h
      rw [List.filter_cons_of_neg (by simpa using hg)]
      exact ih pd pd' h hsize'

theorem foldl_addConverted_mem (env : Env) (npoints : Int) (indices : Option vtkDataArray) :
    ∀ (gs : List giiDataArray) (pd : vtkPointData),
      ∀ d ∈ (gs.foldl (addConverted env npoints indices) pd).arrays,
        d ∈ pd.arrays ∨ ∃ a ∈ gs, d = convertedArray env npoints indices a := by
  intro gs
  induction gs with
  | nil => intro pd d hd; exact Or.inl hd
  | cons a gs ih =>
    intro pd d hd
    rw [List.foldl_cons] at hd
    rcases ih _ d hd with h | ⟨b, hb, hdb⟩
    · rw [addConverted_arrays] at h
      rcases mem_AddArray _ _ _ h with h1 | h1
      · exact Or.inl h1
      · exact Or.inr ⟨a, List.mem_cons_self _ _, h1⟩
    · exact Or.inr ⟨b, List.mem_cons_of_mem _ hb, hdb⟩

theorem addConverted_names (env : Env) (npoints : Int) (indices : Option vtkDataArray)
    (pd : vtkPointData) (a : giiDataArray) :
    (∀ n ∈ pd.arrays.map (fun d => d.name),
      n ∈ (addConverted env npoints indices pd a).arrays.map (fun d => d.name)) ∧
    expectedName a ∈ (addConverted env npoints indices pd a).arrays.map (fun d => d.name) := by
  rw [addConverted_arrays, AddArray_names, convertedArray_name]
  split_ifs with h
  · exact ⟨fun n hn => hn, h⟩
  · exact ⟨fun n hn => List.mem_append_left _ hn, by simp⟩

theorem foldl_addConverted_names (env : Env) (npoints : Int)
    (indices : Option vtkDataArray) :
    ∀ (gs : List giiDataArray) (pd : vtkPointData),
      (∀ n ∈ pd.arrays.map (fun d => d.name),
        n ∈ (gs.foldl (addConverted env npoints indices) pd).arrays.map (fun d => d.name)) ∧
      (∀ a ∈ gs, expectedName a ∈
        (gs.foldl (addConverted env npoints indices) pd).arrays.map (fun d => d.name)) := by
  intro gs
  induction gs with
  | nil => intro pd; exact ⟨fun n hn => hn, fun a ha => absurd ha (List.not_mem_nil _)⟩
  | cons a gs ih =>
    intro pd
    rw [List.foldl_cons]
    obtain ⟨ih1, ih2⟩ := ih (addConverted env npoints indices pd a)
    obtain ⟨h1, h2⟩ := addConverted_names env npoints indices pd a
    refine ⟨fun n hn => ih1 n (h1 n hn), ?_⟩
    intro b hb
    rcases List.mem_cons.mp hb with rfl | hb
    · exact ih1 _ h2
    · exact ih2 b hb

theorem pointData_result_cases (env : Env) (gim : gifti_image) (npoints : Int)
    (indices : Option vtkDataArray) (pd : vtkPointData)
    (h : GIFTIPointDataToVTK env gim npoints indices = .ok pd) :
    (npoints ≠ 0 ∧ (∃ a ∈ gim.darray, isPointDataArray a ∧ ¬ sizeMatches a npoints indices) ∧
      pd = vtkPointData.New) ∨
    ((npoints = 0 ∨ ∀ a ∈ gim.darray, isPointDataArray a → sizeMatches a npoints indices) ∧
      pd = (pointDataArrays gim).foldl (addConverted env npoints indices) vtkPointData.New) := by
  unfold GIFTIPointDataToVTK at h
  simp only at h
  split_ifs at h
  by_cases hn : npoints = 0
  · right
    exact ⟨Or.inl hn, pointData_loop_eq_foldl env npoints indices _ gim.darray _ pd h (Or.inl hn)⟩
  · by_cases hex : ∃ a ∈ gim.darray, isPointDataArray a ∧ ¬ sizeMatches a npoints indices
    · left
      obtain ⟨a, ha, hg, hm⟩ := hex
      refine ⟨hn, ⟨a, ha, hg, hm⟩, ?_⟩
      exact (pointData_loop_spec env npoints indices _ hn gim.darray _ pd h).1
        ⟨a, ha, hg, (sizeMismatch_iff a npoints indices).mpr hm⟩
    · right
      have hall : ∀ a ∈ gim.darray, isPointDataArray a → sizeMatches a npoints indices := by
        intro a ha hg
        by_contra hm
        exact hex ⟨a, ha, hg, hm⟩
      refine ⟨Or.inr hall, ?_⟩
      apply pointData_loop_eq_foldl env npoints indices _ gim.darray _ pd h
      right
      intro a ha hg hm
      exact (sizeMismatch_iff a npoints indices).mp hm (hall a ha hg)

theorem mem_pointDataArrays (gim : gifti_image) (a : giiDataArray) :
    a ∈ pointDataArrays gim ↔ a ∈ gim.darray ∧ isPointDataArray a := by
  simp [pointDataArrays, List.mem_filter]

theorem lastValue_none (key : String) :
    ∀ meta : giiMetaData, (∀ e ∈ meta, e.1 ≠ key) → lastValue key meta = none
  | [], _ => rfl
  | e :: meta, h => by
    rw [lastValue, lastValue_none key meta (fun x hx => h x (List.mem_cons_of_mem _ hx)),
      if_neg (h e (List.mem_cons_self _ _))]

theorem lastValue_last (key s : String) (post : giiMetaData)
    (hpost : ∀ e ∈ post, e.1 ≠ key) :
    ∀ pre : giiMetaData, lastValue key (pre ++ (key, s) :: post) = some s
  | [] => by
    rw [List.nil_append, lastValue, lastValue_none key post hpost, if_pos rfl]
  | e :: pre => by
    rw [List.cons_append, lastValue, lastValue_last key s post hpost pre]

/-- C11: whenever `GIFTIPointDataToVTK` returns, every array of the returned
point data carries the expected name of a point data array of the image; and
when no array is rejected for its size, every point data array of the image
has an array of its expected name in the result. The expected name is the
value of the array's last `Name` metadata entry, and the decimal string of the
intent code when the metadata has no `Name` entry. -/
theorem C11_point_data_array_names (env : Env) (gim : gifti_image) (npoints : Int)
    (indices : Option vtkDataArray) (pd : vtkPointData)
    (h : GIFTIPointDataToVTK env gim npoints indices = .ok pd) :
    (∀ d ∈ pd.arrays, ∃ a ∈ gim.darray, isPointDataArray a ∧ d.name = expectedName a) ∧
    ((npoints = 0 ∨ ∀ a ∈ gim.darray, isPointDataArray a → sizeMatches a npoints indices) →
      ∀ a ∈ gim.darray, isPointDataArray a → ∃ d ∈ pd.arrays, d.name = expectedName a) ∧
    (∀ a : giiDataArray,
      (∀ pre post s, a.meta = pre ++ (GiftiMetaData.NAME, s) :: post →
        (∀ e ∈ post, e.1 ≠ GiftiMetaData.NAME) → expectedName a = s) ∧
      ((∀ e ∈ a.meta, e.1 ≠ GiftiMetaData.NAME) → expectedName a = toString a.intent)) := by
  refine ⟨?_, ?_, ?_⟩
  · intro d hd
    rcases pointData_result_cases env gim npoints indices pd h with ⟨_, _, hnew⟩ | ⟨_, hfold⟩
    · rw [hnew] at hd
      exact absurd hd (List.not_mem_nil _)
    · rw [hfold] at hd
      rcases foldl_addConverted_mem env npoints indices _ _ d hd with h1 | ⟨a, ha, hda⟩
      · exact absurd h1 (List.not_mem_nil _)
      · rw [mem_pointDataArrays] at ha
        exact ⟨a, ha.1, ha.2, by rw [hda, convertedArray_name]⟩
  · intro hsize a ha hg
    rcases pointData_result_cases env gim npoints indices pd h with
      ⟨hn, ⟨b, hb, hbg, hbm⟩, _⟩ | ⟨_, hfold⟩
    · rcases hsize with h0 | hs
      · exact absurd h0 hn
      · exact absurd (hs b hb hbg) hbm
    · have := (foldl_addConverted_names env npoints indices (pointDataArrays gim)
        vtkPointData.New).2 a ((mem_pointDataArrays gim a).mpr ⟨ha, hg⟩)
      rw [← hfold, List.mem_map] at this
      obtain ⟨d, hd, hdn⟩ := this
      exact ⟨d, hd, hdn⟩
  · intro a
    constructor
    · intro pre post s hmeta hpost
      unfold expectedName
      rw [hmeta, lastValue_last GiftiMetaData.NAME s post hpost pre]
    · intro hno
      unfold expectedName
      rw [lastValue_none GiftiMetaData.NAME a.meta hno]

/-- Witness of C11: an array with a `Name` entry and one without. -/
theorem C11_names_witness :
    ∃ pd, GIFTIPointDataToVTK exEnv (exImage [0, 1, 2]
        [exNamed "thickness" (exShape GIFTI_IND_ORD_COL_MAJOR [4, 5, 6]),
         exShape GIFTI_IND_ORD_COL_MAJOR [1, 2, 3]]) 3 none = .ok pd ∧
      pd.arrays.map (fun d => d.name) = ["thickness", "2005"] ∧
      ∀ d ∈ pd.arrays, ∃ a ∈ (exImage [0, 1, 2]
        [exNamed "thickness" (exShape GIFTI_IND_ORD_COL_MAJOR [4, 5, 6]),
         exShape GIFTI_IND_ORD_COL_MAJOR [1, 2, 3]]).darray,
        isPointDataArray a ∧ d.name = expectedName a :=
  ⟨_, rfl, by decide,
    (C11_point_data_array_names exEnv (exImage [0, 1, 2]
        [exNamed "thickness" (exShape GIFTI_IND_ORD_COL_MAJOR [4, 5, 6]),
         exShape GIFTI_IND_ORD_COL_MAJOR [1, 2, 3]]) 3 none _ rfl).1⟩

theorem activate_scalars (a : giiDataArray) (ncomp : Int) (pd : vtkPointData) (idx : Nat) :
    (GIFTIPointDataToVTK.activate a ncomp pd idx).scalars =
      if a.intent = NIFTI_INTENT_SHAPE ∧ pd.scalars.isNone then some idx else pd.scalars := by
  unfold GIFTIPointDataToVTK.activate
  simp only
  split_ifs <;> rfl

theorem activate_vectors (a : giiDataArray) (ncomp : Int) (pd : vtkPointData) (idx : Nat) :
    (GIFTIPointDataToVTK.activate a ncomp pd idx).vectors =
      if a.intent = NIFTI_INTENT_VECTOR ∧ ncomp = 3 ∧ pd.vectors.isNone then some idx
      else pd.vectors := by
  unfold GIFTIPointDataToVTK.activate
  simp only
  split_ifs <;> rfl

theorem activeAfter_step (p : Prop) [Decidable p] (s f : Option Nat) (n : Nat) :
    activeAfter (if p ∧ s.isNone then some n else s) (n + 1) f =
      activeAfter s n (if p then some 0 else f.map (fun i => i + 1)) := by
  by_cases hp : p <;> cases s <;> cases f <;>
    simp [activeAfter, hp, Nat.add_assoc, Nat.add_comm 1]

theorem foldl_addConverted_distinct (env : Env) (npoints : Int)
    (indices : Option vtkDataArray) :
    ∀ (gs : List giiDataArray) (pd : vtkPointData),
      (gs.map expectedName).Nodup →
      (∀ a ∈ gs, expectedName a ∉ pd.arrays.map (fun d => d.name)) →
      (gs.foldl (addConverted env npoints indices) pd).arrays =
        pd.arrays ++ gs.map (convertedArray env npoints indices) ∧
      (gs.foldl (addConverted env npoints indices) pd).scalars =
        activeAfter pd.scalars pd.arrays.length (firstIndex isShapeArray gs) ∧
      (gs.foldl (addConverted env npoints indices) pd).vectors =
        activeAfter pd.vectors pd.arrays.length (firstIndex isVectorArray gs) := by
  intro gs
  induction gs with
  | nil =>
    intro pd _ _
    refine ⟨by simp, ?_, ?_⟩
    · cases hs : pd.scalars <;> simp [activeAfter, firstIndex, hs]
    · cases hs : pd.vectors <;> simp [activeAfter, firstIndex, hs]
  | cons a gs ih =>
    intro pd hnodup hfresh
    rw [List.map_cons, List.nodup_cons] at hnodup
    have ha : (convertedArray env npoints indices a).name ∉ pd.arrays.map (fun d => d.name) := by
      rw [convertedArray_name]
      exact hfresh a (List.mem_cons_self _ _)
    have hstep : addConverted env npoints indices pd a =
        GIFTIPointDataToVTK.activate a (componentCount a)
          { pd with arrays := pd.arrays ++ [convertedArray env npoints indices a] }
          pd.arrays.length := by
      unfold addConverted
      rw [AddArray_fresh pd _ ha]
    have harr : (addConverted env npoints indices pd a).arrays =
        pd.arrays ++ [convertedArray env npoints indices a] := by
      rw [hstep, pointData_activate_arrays]
    have hfresh' : ∀ b ∈ gs, expectedName b ∉
        (addConverted env npoints indices pd a).arrays.map (fun d => d.name) := by
      intro b hb
      rw [harr, List.map_append, List.mem_append, not_or]
      refine ⟨hfresh b (List.mem_cons_of_mem _ hb), ?_⟩
      simp only [List.map_cons, List.map_nil, List.mem_singleton, convertedArray_name]
      intro hba
      exact hnodup.1 (hba ▸ List.mem_map_of_mem _ hb)
    obtain ⟨ih1, ih2, ih3⟩ := ih (addConverted env npoints indices pd a) hnodup.2 hfresh'
    rw [List.foldl_cons]
    refine ⟨?_, ?_, ?_⟩
    · rw [ih1, harr]; simp
    · rw [ih2, harr, hstep, activate_scalars]
      simp only [List.length_append, List.length_singleton]
      rw [activeAfter_step]
      simp [firstIndex, isShapeArray]
    · rw [ih3, harr, hstep, activate_vectors]
      simp only [List.length_append, List.length_singleton]
      have := activeAfter_step (a.intent = NIFTI_INTENT_VECTOR ∧ componentCount a = 3)
        pd.vectors (firstIndex isVectorArray gs) pd.arrays.length
      simp only [and_assoc] at this
      rw [this]
      simp [firstIndex, isVectorArray]

theorem AddArray_mem_self (pd : vtkPointData) (data : vtkDataArray) :
    data ∈ (pd.AddArray data).1.arrays := by
  unfold vtkPointData.AddArray
  simp only
  split_ifs with h
  · exact List.mem_set _ _ h data
  · simp

theorem AddArray_mem_of_ne (pd : vtkPointData) (data d : vtkDataArray) (hd : d ∈ pd.arrays)
    (hne : d.name ≠ data.name) : d ∈ (pd.AddArray data).1.arrays := by
  unfold vtkPointData.AddArray
  simp only
  split_ifs with h
  · obtain ⟨i, hi, hdi⟩ := List.getElem_of_mem hd
    have hfound : (pd.arrays[List.findIdx (fun a => a.name == data.name) pd.arrays]).name
        = data.name := by
      have := @List.findIdx_getElem _ (fun a => a.name == data.name) pd.arrays h
      simpa using this
    have hii : List.findIdx (fun a => a.name == data.name) pd.arrays ≠ i := by
      intro hEq
      subst hEq
      rw [hdi] at hfound
      exact hne hfound
    rw [List.mem_iff_getElem]
    refine ⟨i, by simpa using hi, ?_⟩
    rw [List.getElem_set_ne hii]
    exact hdi
  · exact List.mem_append_left _ hd

theorem foldl_addConverted_keeps (env : Env) (npoints : Int) (indices : Option vtkDataArray)
    (d : vtkDataArray) :
    ∀ (gs : List giiDataArray) (pd : vtkPointData), d ∈ pd.arrays →
      (∀ c ∈ gs, expectedName c ≠ d.name) →
      d ∈ (gs.foldl (addConverted env npoints indices) pd).arrays := by
  intro gs
  induction gs with
  | nil => intro pd hd _; exact hd
  | cons c gs ih =>
    intro pd hd hne
    rw [List.foldl_cons]
    apply ih _ _ (fun b hb => hne b (List.mem_cons_of_mem _ hb))
    rw [addConverted_arrays]
    apply AddArray_mem_of_ne _ _ _ hd
    rw [convertedArray_name]
    exact fun h => hne c (List.mem_cons_self _ _) h.symm

theorem foldl_addConverted_last (env : Env) (npoints : Int) (indices : Option vtkDataArray)
    (pre post : List giiDataArray) (a : giiDataArray) (pd : vtkPointData)
    (hpost : ∀ c ∈ post, expectedName c ≠ expectedName a) :
    convertedArray env npoints indices a ∈
      ((pre ++ a :: post).foldl (addConverted env npoints indices) pd).arrays := by
  rw [List.foldl_append, List.foldl_cons]
  apply foldl_addConverted_keeps
  · rw [addConverted_arrays]
    exact AddArray_mem_self _ _
  · rw [convertedArray_name]
    exact hpost

theorem convertedArray_shape (env : Env) (npoints : Int) (indices : Option vtkDataArray)
    (a : giiDataArray) (hn : npoints ≠ 0) :
    (convertedArray env npoints indices a).shape = (npoints.toNat, componentCount a) := by
  unfold convertedArray
  rw [pointData_named_shape, CopyGIFTIDataArrayWithDataType_shape, if_pos hn, fresh_shape]

theorem componentCount_eq (a : giiDataArray) (hg : isPointDataArray a) :
    componentCount a = castInt (a.nvals / a.dim 0) ∧
      (a.nvals / a.dim 0 < 2 ^ 31 → componentCount a = a.nvals / a.dim 0) := by
  unfold componentCount
  rw [Int.tdiv_eq_ediv (le_of_lt hg.2.2.2.2.2) (le_of_lt hg.2.2.2.2.1)]
  exact ⟨rfl, fun hlt => castInt_of_lt _
    (Int.ediv_nonneg (le_of_lt hg.2.2.2.2.2) (le_of_lt hg.2.2.2.2.1)) hlt⟩

/-- C10: in `GIFTIPointDataToVTK` with a positive point count, (1) the call
returns when the index array has at most `npoints` entries and every point
data array has a recognised datatype. Whenever it returns: (2) if some point
data array (intent not `POINTSET`/`TRIANGLE`/`NODE_INDEX`, at least one value)
has a `dims[0]` that differs from the index count (index array present) or
from the point count (no index array), the returned point data has no arrays
at all; and every returned array has exactly `npoints` tuples and the
component count `static_cast<int>(nvals / dims[0])` of a point data array of
the image that passed the size check, which is `nvals / dims[0]` when that
fits an `int`. (3) If every point data array passes the size check, then each
point data array that no later one replaces (no later point data array gets
the same name) has its array in the result, under its name, with `npoints`
tuples and its component count `nvals / dims[0]`; and when the names are
pairwise distinct, the returned arrays are those of the point data arrays of
the image, one for each, in file order. -/
theorem C10_point_data_sizes (env : Env) (gim : gifti_image) (npoints : Int)
    (indices : Option vtkDataArray) (hn : 0 < npoints) :
    ((∀ ind, indices = some ind → ind.GetNumberOfTuples ≤ npoints) →
      (∀ a ∈ gim.darray, isPointDataArray a → a.datatype ∈ recognisedTypes) →
      ∃ pd, GIFTIPointDataToVTK env gim npoints indices = .ok pd) ∧
    (∀ pd, GIFTIPointDataToVTK env gim npoints indices = .ok pd →
      ((∃ a ∈ gim.darray, isPointDataArray a ∧ ¬ sizeMatches a npoints indices) →
        pd.arrays = []) ∧
      (∀ d ∈ pd.arrays, d.GetNumberOfTuples = npoints ∧
        ∃ a ∈ gim.darray, isPointDataArray a ∧ sizeMatches a npoints indices ∧
          d.ncomp = castInt (a.nvals / a.dim 0) ∧
          (a.nvals / a.dim 0 < 2 ^ 31 → d.ncomp = a.nvals / a.dim 0))) ∧
    (∀ pd, GIFTIPointDataToVTK env gim npoints indices = .ok pd →
      (∀ a ∈ gim.darray, isPointDataArray a → sizeMatches a npoints indices) →
      (∀ (pre post : List giiDataArray) (a : giiDataArray),
        pointDataArrays gim = pre ++ a :: post →
        (∀ c ∈ post, expectedName c ≠ expectedName a) →
        ∃ d ∈ pd.arrays, d.name = expectedName a ∧ d.GetNumberOfTuples = npoints ∧
          d.ncomp = castInt (a.nvals / a.dim 0) ∧
          (a.nvals / a.dim 0 < 2 ^ 31 → d.ncomp = a.nvals / a.dim 0)) ∧
      (((pointDataArrays gim).map expectedName).Nodup →
        pd.arrays.map (fun d => (d.name, d.GetNumberOfTuples, d.ncomp)) =
          (pointDataArrays gim).map
            (fun a => (expectedName a, npoints, castInt (a.nvals / a.dim 0))))) := by
  have hn0 : npoints ≠ 0 := ne_of_gt hn
  have htup : ((npoints.toNat : Nat) : Int) = npoints := Int.toNat_of_nonneg (le_of_lt hn)
  refine ⟨?_, ?_, ?_⟩
  · intro hidx hrec
    unfold GIFTIPointDataToVTK
    cases indices with
    | none => simpa using pointData_loop_ok env npoints none 0 gim.darray _ hrec
    | some ind =>
      have h1 : ¬ ind.GetNumberOfTuples > npoints := not_lt.mpr (hidx ind rfl)
      simpa [hn0, h1] using
        pointData_loop_ok env npoints (some ind) ind.GetNumberOfTuples gim.darray _ hrec
  · intro pd hpd
    unfold GIFTIPointDataToVTK at hpd
    simp only at hpd
    split_ifs at hpd
    obtain ⟨h1, h2⟩ := pointData_loop_spec env npoints indices _ hn0 gim.darray _ pd hpd
    constructor
    · rintro ⟨a, ha, hg, hm⟩
      rw [h1 ⟨a, ha, hg, (sizeMismatch_iff a npoints indices).mpr hm⟩]
      rfl
    · intro d hd
      rcases h2 d hd with h3 | ⟨h3, a, ha, hg, hm, hc⟩
      · exact absurd h3 (List.not_mem_nil _)
      · refine ⟨?_, a, ha, hg, ?_, ?_, ?_⟩
        · unfold vtkDataArray.GetNumberOfTuples
          rw [h3]
          exact htup
        · exact not_not.mp (fun h => hm ((sizeMismatch_iff a npoints indices).mpr h))
        · rw [hc]; exact (componentCount_eq a hg).1
        · intro hlt
          rw [hc]; exact (componentCount_eq a hg).2 hlt
  · intro pd hpd hall
    have hfold : pd = (pointDataArrays gim).foldl (addConverted env npoints indices)
        vtkPointData.New := by
      rcases pointData_result_cases env gim npoints indices pd hpd with
        ⟨_, ⟨b, hb, hbg, hbm⟩, _⟩ | ⟨_, hfold⟩
      · exact absurd (hall b hb hbg) hbm
      · exact hfold
    have hshape : ∀ a ∈ pointDataArrays gim,
        ((convertedArray env npoints indices a).name,
          (convertedArray env npoints indices a).GetNumberOfTuples,
          (convertedArray env npoints indices a).ncomp) =
        (expectedName a, npoints, castInt (a.nvals / a.dim 0)) := by
      intro a ha
      have hs := convertedArray_shape env npoints indices a hn0
      simp only [vtkDataArray.shape, Prod.mk.injEq] at hs
      rw [convertedArray_name, hs.2, ← (componentCount_eq a ((mem_pointDataArrays gim a).mp ha).2).1]
      unfold vtkDataArray.GetNumberOfTuples
      rw [hs.1, htup]
    constructor
    · intro pre post a hsplit hpost
      have ha : a ∈ pointDataArrays gim := by
        rw [hsplit]; exact List.mem_append_right _ (List.mem_cons_self _ _)
      have hg := ((mem_pointDataArrays gim a).mp ha).2
      have hmem := foldl_addConverted_last env npoints indices pre post a vtkPointData.New hpost
      rw [← hsplit, ← hfold] at hmem
      have hs := hshape a ha
      simp only [Prod.mk.injEq] at hs
      refine ⟨_, hmem, hs.1, hs.2.1, hs.2.2, ?_⟩
      intro hlt
      rw [hs.2.2]
      rw [← (componentCount_eq a hg).1]
      exact (componentCount_eq a hg).2 hlt
    · intro hnodup
      have hd := (foldl_addConverted_distinct env npoints indices (pointDataArrays gim)
        vtkPointData.New hnodup (fun a _ h => absurd h (List.not_mem_nil _))).1
      rw [← hfold] at hd
      rw [hd]
      show List.map _ ([] ++ _) = _
      rw [List.nil_append, List.map_map]
      exact List.map_congr_left hshape

/-- Witness of C10: over three points, a one-component and a two-component
point data array of three rows each are converted to arrays of three tuples
with one and two components; with a further array of two rows the result has
no arrays. -/
theorem C10_point_data_sizes_witness :
    (∃ pd, GIFTIPointDataToVTK exEnv (exImage [0, 1, 2]
        [exShape GIFTI_IND_ORD_COL_MAJOR [4, 5, 6],
         exMatrix GIFTI_IND_ORD_COL_MAJOR 3 2 [1, 2, 3, 4, 5, 6]]) 3 none = .ok pd ∧
      pd.arrays.map (fun d => (d.name, d.GetNumberOfTuples, d.ncomp)) =
        (pointDataArrays (exImage [0, 1, 2]
          [exShape GIFTI_IND_ORD_COL_MAJOR [4, 5, 6],
           exMatrix GIFTI_IND_ORD_COL_MAJOR 3 2 [1, 2, 3, 4, 5, 6]])).map
          (fun a => (expectedName a, 3, castInt (a.nvals / a.dim 0)))) ∧
    (pointDataArrays (exImage [0, 1, 2]
        [exShape GIFTI_IND_ORD_COL_MAJOR [4, 5, 6],
         exMatrix GIFTI_IND_ORD_COL_MAJOR 3 2 [1, 2, 3, 4, 5, 6]])).map
        (fun a => (expectedName a, (3 : Int), castInt (a.nvals / a.dim 0))) =
      [("2005", 3, 1), ("1007", 3, 2)] ∧
    (∃ pd, GIFTIPointDataToVTK exEnv (exImage [0, 1, 2]
        [exShape GIFTI_IND_ORD_COL_MAJOR [4, 5, 6],
         exShape GIFTI_IND_ORD_COL_MAJOR [4, 5]]) 3 none = .ok pd ∧ pd.arrays = []) :=
  ⟨⟨_, rfl, ((C10_point_data_sizes exEnv (exImage [0, 1, 2]
        [exShape GIFTI_IND_ORD_COL_MAJOR [4, 5, 6],
         exMatrix GIFTI_IND_ORD_COL_MAJOR 3 2 [1, 2, 3, 4, 5, 6]]) 3 none (by decide)).2.2
        _ rfl (by decide)).2 (by decide)⟩,
   by decide,
   ⟨_, rfl, ((C10_point_data_sizes exEnv (exImage [0, 1, 2]
        [exShape GIFTI_IND_ORD_COL_MAJOR [4, 5, 6],
         exShape GIFTI_IND_ORD_COL_MAJOR [4, 5]]) 3 none (by decide)).2.1 _ rfl).1
        ⟨exShape GIFTI_IND_ORD_COL_MAJOR [4, 5], by decide, by decide, by decide⟩⟩⟩

/-! ## Coordinates: the recorded data space -/

theorem dataspace_common (array : giiDataArray) (d : String) (hne : array.coordsys ≠ [])
    (hall : ∀ c ∈ array.coordsys, c = d) : GIFTICoordinatesToVTK.dataspace array = d := by
  unfold GIFTICoordinatesToVTK.dataspace
  cases hcs : array.coordsys with
  | nil => exact absurd hcs hne
  | cons c rest =>
    rw [hcs] at hall
    have hc : c = d := hall c (List.mem_cons_self _ _)
    have hrest : rest.any (fun x => decide (x ≠ c)) = false := by
      rw [List.any_eq_false]
      intro x hx
      have : x = c := (hall x (List.mem_cons_of_mem _ hx)).trans hc.symm
      simp [this]
    simp only [hrest, Bool.false_eq_true, if_false]
    exact hc

theorem dataspace_unknown (array : giiDataArray)
    (h : array.coordsys = [] ∨ ∃ c ∈ array.coordsys, ∃ c' ∈ array.coordsys, c ≠ c') :
    GIFTICoordinatesToVTK.dataspace array = "NIFTI_XFORM_UNKNOWN" := by
  unfold GIFTICoordinatesToVTK.dataspace
  cases hcs : array.coordsys with
  | nil => rfl
  | cons d rest =>
    rw [hcs] at h
    rcases h with h | ⟨c, hc, c', hc', hne⟩
    · exact absurd h (List.cons_ne_nil _ _)
    · have hany : rest.any (fun x => decide (x ≠ d)) = true := by
        rw [List.any_eq_true]
        by_cases hcd : c = d
        · have hc'd : c' ≠ d := fun h => hne (hcd.trans h.symm)
          rcases List.mem_cons.mp hc' with h1 | h1
          · exact absurd h1 hc'd
          · exact ⟨c', h1, by simpa using hc'd⟩
        · rcases List.mem_cons.mp hc with h1 | h1
          · exact absurd h1 hcd
          · exact ⟨c, h1, by simpa using hcd⟩
      simp only [hany, if_true]

/-- C13: let `a` be the first array of intent `POINTSET` of the image, accepted by
`GIFTICoordinatesToVTK`, and let an information table be supplied. Then the
call returns a table whose `DataSpace` entry is the common dataspace string
when `a` has at least one coordinate system and all of them carry the same
string, and `NIFTI_XFORM_UNKNOWN` when `a` has no coordinate system or two of
them differ. -/
theorem C13_recorded_dataspace (env : Env) (gim : gifti_image) (info : vtkInformation)
    (pre post : List giiDataArray) (a : giiDataArray)
    (hda : gim.darray = pre ++ a :: post)
    (hpre : ∀ b ∈ pre, b.intent ≠ NIFTI_INTENT_POINTSET)
    (ha : a.intent = NIFTI_INTENT_POINTSET)
    (hok : a.datatype = NIFTI_TYPE_FLOAT32 ∧ a.num_dim = 2 ∧ a.dim 1 = 3) :
    ∃ info', (GIFTICoordinatesToVTK env gim (some info)).2 = some info' ∧
      (∀ d, a.coordsys ≠ [] → (∀ c ∈ a.coordsys, c = d) →
        vtkInformation.Get info' GiftiMetaData.DATA_SPACE = some (.str d)) ∧
      ((a.coordsys = [] ∨ ∃ c ∈ a.coordsys, ∃ c' ∈ a.coordsys, c ≠ c') →
        vtkInformation.Get info' GiftiMetaData.DATA_SPACE =
          some (.str "NIFTI_XFORM_UNKNOWN")) := by
  obtain ⟨h1, h2, h3⟩ := hok
  unfold GIFTICoordinatesToVTK
  rw [hda, coordinates_loop_skip env (some info) pre _ hpre, GIFTICoordinatesToVTK.loop,
    if_pos ha, if_neg (not_not.mpr h1), if_neg (not_not.mpr h2), if_neg (not_not.mpr h3)]
  refine ⟨_, rfl, ?_, ?_⟩
  · intro d hne hall
    rw [info_Get_Set_self, dataspace_common a d hne hall]
  · intro h
    rw [info_Get_Set_self, dataspace_unknown a h]

/-- Witness of C13: two coordinate systems of the same data space, and two of
different data spaces. -/
theorem C13_dataspace_witness :
    (∃ info', (GIFTICoordinatesToVTK exEnv { darray := [exPointsCS ["A", "A"]], meta := [] }
        (some [])).2 = some info' ∧
      vtkInformation.Get info' GiftiMetaData.DATA_SPACE = some (.str "A")) ∧
    (∃ info', (GIFTICoordinatesToVTK exEnv { darray := [exPointsCS ["A", "B"]], meta := [] }
        (some [])).2 = some info' ∧
      vtkInformation.Get info' GiftiMetaData.DATA_SPACE = some (.str "NIFTI_XFORM_UNKNOWN")) :=
  ⟨(C13_recorded_dataspace exEnv { darray := [exPointsCS ["A", "A"]], meta := [] } [] [] []
      (exPointsCS ["A", "A"]) rfl (fun _ h => absurd h (List.not_mem_nil _)) rfl
      (by decide)).elim (fun info' h => ⟨info', h.1, h.2.1 "A" (by decide) (by decide)⟩),
   (C13_recorded_dataspace exEnv { darray := [exPointsCS ["A", "B"]], meta := [] } [] [] []
      (exPointsCS ["A", "B"]) rfl (fun _ h => absurd h (List.not_mem_nil _)) rfl
      (by decide)).elim (fun info' h => ⟨info', h.1, h.2.2 (Or.inr (by decide))⟩)⟩

/-! ## Metadata: mesh to file and back -/

theorem add_to_meta_mem (meta : giiMetaData) (name value : String) :
    (name, value) ∈ gifti_add_to_meta meta name value := by
  unfold gifti_add_to_meta
  split_ifs with hany
  · obtain ⟨e, he, hname⟩ := List.any_eq_true.mp hany
    exact List.mem_map.mpr ⟨e, he, by rw [if_pos hname]⟩
  · exact List.mem_append_right _ (List.mem_singleton_self _)

theorem add_to_meta_cases (meta : giiMetaData) (name value : String) (e : String × String)
    (h : e ∈ gifti_add_to_meta meta name value) :
    e = (name, value) ∨ (e ∈ meta ∧ e.1 ≠ name) := by
  unfold gifti_add_to_meta at h
  split_ifs at h with hany
  · obtain ⟨e', he', heq⟩ := List.mem_map.mp h
    by_cases hn : (e'.1 == name) = true
    · rw [if_pos hn] at heq
      exact Or.inl heq.symm
    · rw [if_neg hn] at heq
      subst heq
      exact Or.inr ⟨he', fun h => hn (by simpa using h)⟩
  · rcases List.mem_append.mp h with h | h
    · right
      refine ⟨h, fun hn => hany ?_⟩
      exact List.any_eq_true.mpr ⟨e, h, by simpa using hn⟩
    · exact Or.inl (List.mem_singleton.mp h)

theorem add_to_meta_mem_of_ne (meta : giiMetaData) (name value : String)
    (e : String × String) (he : e ∈ meta) (hne : e.1 ≠ name) :
    e ∈ gifti_add_to_meta meta name value := by
  unfold gifti_add_to_meta
  split_ifs with hany
  · refine List.mem_map.mpr ⟨e, he, ?_⟩
    rw [if_neg (by simpa using hne)]
  · exact List.mem_append_left _ he

theorem add_to_meta_holdsOnly (meta : giiMetaData) (name value : String) :
    holdsOnly (gifti_add_to_meta meta name value) name value := by
  refine ⟨add_to_meta_mem meta name value, fun e he _ => ?_⟩
  rcases add_to_meta_cases meta name value e he with h | ⟨_, h⟩
  · rw [h]
  · contradiction

theorem add_to_meta_only_other (meta : giiMetaData) (name value n val : String)
    (hne : name ≠ n) (h : ∀ e ∈ meta, e.1 = n → e.2 = val) :
    ∀ e ∈ gifti_add_to_meta meta name value, e.1 = n → e.2 = val := by
  intro e he hn
  rcases add_to_meta_cases meta name value e he with h' | ⟨h', _⟩
  · rw [h'] at hn
    exact absurd hn hne
  · exact h e h' hn

theorem add_to_meta_holdsOnly_other (meta : giiMetaData) (name value n val : String)
    (hne : name ≠ n) (h : holdsOnly meta n val) :
    holdsOnly (gifti_add_to_meta meta name value) n val :=
  ⟨add_to_meta_mem_of_ne meta name value _ h.1 (fun hn => hne hn.symm),
   add_to_meta_only_other meta name value n val hne h.2⟩

theorem add_to_meta_names (meta : giiMetaData) (name value : String) (names : List String)
    (hname : name ∈ names) (h : ∀ e ∈ meta, e.1 ∈ names) :
    ∀ e ∈ gifti_add_to_meta meta name value, e.1 ∈ names := by
  intro e he
  rcases add_to_meta_cases meta name value e he with h' | ⟨h', _⟩
  · rw [h']
    exact hname
  · exact h e h'

theorem fromInfo_cons (host : Host) (meta : giiMetaData) (info : vtkInformation)
    (key : vtkInformationKey) (keys : List vtkInformationKey) :
    CopyGIFTIMetaData.fromInfo host meta info (key :: keys) =
      CopyGIFTIMetaData.fromInfo host
        (if vtkInformation.Has info key.name = true ∧ GiftiMetaData.Get host info key ≠ ""
          then gifti_add_to_meta meta key.name (GiftiMetaData.Get host info key)
          else meta) info keys := by
  unfold CopyGIFTIMetaData.fromInfo
  rw [List.foldl_cons]
  congr 1
  by_cases h1 : vtkInformation.Has info key.name = true
  · by_cases h2 : GiftiMetaData.Get host info key ≠ ""
    · rw [if_pos h1, if_pos (And.intro h1 h2)]
      exact if_pos h2
    · rw [if_pos h1, if_neg (fun h : _ ∧ _ => h2 h.2)]
      exact if_neg h2
  · rw [if_neg h1, if_neg (fun h : _ ∧ _ => h1 h.1)]

theorem fromInfo_names (host : Host) (info : vtkInformation) (names : List String) :
    ∀ (keys : List vtkInformationKey) (meta : giiMetaData),
      (∀ k ∈ keys, k.name ∈ names) → (∀ e ∈ meta, e.1 ∈ names) →
      ∀ e ∈ CopyGIFTIMetaData.fromInfo host meta info keys, e.1 ∈ names
  | [], _, _, hmeta => hmeta
  | key :: keys, meta, hkeys, hmeta => by
    rw [fromInfo_cons]
    apply fromInfo_names host info names keys _
      (fun k hk => hkeys k (List.mem_cons_of_mem _ hk))
    split_ifs
    · exact add_to_meta_names meta _ _ names (hkeys key (List.mem_cons_self _ _)) hmeta
    · exact hmeta

theorem fromInfo_only (host : Host) (info : vtkInformation) (n val : String) :
    ∀ (keys : List vtkInformationKey) (meta : giiMetaData),
      (∀ k ∈ keys, k.name = n → GiftiMetaData.Get host info k = val) →
      (∀ e ∈ meta, e.1 = n → e.2 = val) →
      ∀ e ∈ CopyGIFTIMetaData.fromInfo host meta info keys, e.1 = n → e.2 = val
  | [], _, _, hmeta => hmeta
  | key :: keys, meta, hval, hmeta => by
    rw [fromInfo_cons]
    apply fromInfo_only host info n val keys _
      (fun k hk => hval k (List.mem_cons_of_mem _ hk))
    split_ifs
    · by_cases hn : key.name = n
      · rw [hval key (List.mem_cons_self _ _) hn, hn]
        exact (add_to_meta_holdsOnly meta n val).2
      · exact add_to_meta_only_other meta _ _ n val hn hmeta
    · exact hmeta

theorem fromInfo_holdsOnly (host : Host) (info : vtkInformation) (n val : String)
    (hhas : vtkInformation.Has info n = true) (hval : val ≠ "") :
    ∀ (keys : List vtkInformationKey) (meta : giiMetaData),
      (∀ k ∈ keys, k.name = n → GiftiMetaData.Get host info k = val) →
      (∀ e ∈ meta, e.1 = n → e.2 = val) →
      (holdsOnly meta n val ∨ ∃ k ∈ keys, k.name = n) →
      holdsOnly (CopyGIFTIMetaData.fromInfo host meta info keys) n val
  | [], _, _, _, h => by
    rcases h with h | ⟨k, hk, _⟩
    · exact h
    · exact absurd hk (List.not_mem_nil _)
  | key :: keys, meta, hget, hmeta, h => by
    rw [fromInfo_cons]
    have hget' : ∀ k ∈ keys, k.name = n → GiftiMetaData.Get host info k = val :=
      fun k hk => hget k (List.mem_cons_of_mem _ hk)
    by_cases hn : key.name = n
    · have hv := hget key (List.mem_cons_self _ _) hn
      rw [hv, hn, if_pos ⟨hhas, hval⟩]
      exact fromInfo_holdsOnly host info n val hhas hval keys _ hget'
        (add_to_meta_holdsOnly meta n val).2 (Or.inl (add_to_meta_holdsOnly meta n val))
    · have hrest : holdsOnly meta n val ∨ ∃ k ∈ keys, k.name = n := by
        rcases h with h | ⟨k, hk, hkn⟩
        · exact Or.inl h
        · rcases List.mem_cons.mp hk with rfl | hk
          · exact absurd hkn hn
          · exact Or.inr ⟨k, hk, hkn⟩
      split_ifs
      · apply fromInfo_holdsOnly host info n val hhas hval keys _ hget'
          (add_to_meta_only_other meta _ _ n val hn hmeta)
        rcases hrest with h | h
        · exact Or.inl (add_to_meta_holdsOnly_other meta _ _ n val hn h)
        · exact Or.inr h
      · exact fromInfo_holdsOnly host info n val hhas hval keys _ hget' hmeta hrest

theorem listed_name_cases (name : String)
    (hname : name ∈ listedKeys.map (fun k => k.name)) :
    name ∈ stringKeyNames ∨ name = GiftiMetaData.TIME_STEP ∨
      name = GiftiMetaData.INTENT_CODE ∨ name = GiftiMetaData.INTENT_P1 ∨
      name = GiftiMetaData.INTENT_P2 ∨ name = GiftiMetaData.INTENT_P3 := by
  simp only [listedKeys, List.map_cons, List.map_nil, List.mem_cons, List.mem_nil_iff,
    or_false] at hname
  rcases hname with h | h | h | h | h | h | h | h | h | h | h | h | h | h | h | h <;>
    subst h <;> decide

theorem entryOf_key_of_listed (env : Env) (name value k : String) (w : InfoValue)
    (hname : name ∈ listedKeys.map (fun k => k.name))
    (h : entryOf env name value = some (k, w)) : k = name := by
  rcases listed_name_cases name hname with hs | hs | hs | hs | hs | hs
  · rw [entryOf_string env name value hs] at h
    simp only [Option.some.injEq, Prod.mk.injEq] at h
    exact h.1.symm
  · subst hs
    rw [(entryOf_numeric env value).1] at h
    simp only [Option.map_eq_some', Prod.mk.injEq] at h
    obtain ⟨_, _, hk, _⟩ := h
    exact hk.symm
  · subst hs
    rw [(entryOf_numeric env value).2.1 _ (by simp [intentCodeNames])] at h
    simp only [Option.map_eq_some', Prod.mk.injEq] at h
    obtain ⟨_, _, hk, _⟩ := h
    exact hk.symm
  · subst hs
    rw [(entryOf_numeric env value).2.2.1 _ (by simp [intentP1Names])] at h
    simp only [Option.map_eq_some', Prod.mk.injEq] at h
    obtain ⟨_, _, hk, _⟩ := h
    exact hk.symm
  · subst hs
    rw [(entryOf_numeric env value).2.2.2.1 _ (by simp [intentP2Names])] at h
    simp only [Option.map_eq_some', Prod.mk.injEq] at h
    obtain ⟨_, _, hk, _⟩ := h
    exact hk.symm
  · subst hs
    rw [(entryOf_numeric env value).2.2.2.2 _ (by simp [intentP3Names])] at h
    simp only [Option.map_eq_some', Prod.mk.injEq] at h
    obtain ⟨_, _, hk, _⟩ := h
    exact hk.symm

theorem CopyGIFTIMetaData_Get_of_entries (env : Env) (n : String) (v : InfoValue) :
    ∀ (meta : giiMetaData) (info : vtkInformation),
      (∀ e ∈ meta, ∀ w, entryOf env e.1 e.2 = some (n, w) → w = v) →
      (vtkInformation.Get info n = some v ∨ ∃ e ∈ meta, entryOf env e.1 e.2 = some (n, v)) →
      vtkInformation.Get (CopyGIFTIMetaData env info meta) n = some v
  | [], info, _, h => by
    rcases h with h | ⟨e, he, _⟩
    · exact h
    · exact absurd he (List.not_mem_nil _)
  | e :: meta, info, hall, h => by
    have hfold : CopyGIFTIMetaData env info (e :: meta) =
        CopyGIFTIMetaData env (CopyGIFTIMetaData.step env info e) meta := by
      unfold CopyGIFTIMetaData
      exact List.foldl_cons _ _
    rw [hfold]
    apply CopyGIFTIMetaData_Get_of_entries env n v meta _
      (fun e' he' => hall e' (List.mem_cons_of_mem _ he'))
    obtain ⟨name, value⟩ := e
    rw [step_eq_entryOf]
    cases hent : entryOf env name value with
    | none =>
      simp only
      rcases h with h | ⟨e', he', hent'⟩
      · exact Or.inl h
      · rcases List.mem_cons.mp he' with rfl | he'
        · rw [hent] at hent'
          exact Option.noConfusion hent'
        · exact Or.inr ⟨e', he', hent'⟩
    | some kw =>
      obtain ⟨k, w⟩ := kw
      simp only
      by_cases hk : k = n
      · subst hk
        have hw : w = v := hall (name, value) (List.mem_cons_self _ _) w hent
        rw [hw]
        exact Or.inl (info_Get_Set_self _ _ _)
      · rw [info_Get_Set_other _ _ _ _ (fun h => hk h.symm)]
        rcases h with h | ⟨e', he', hent'⟩
        · exact Or.inl h
        · rcases List.mem_cons.mp he' with rfl | he'
          · rw [hent] at hent'
            simp only [Option.some.injEq, Prod.mk.injEq] at hent'
            exact absurd hent'.1 hk
          · exact Or.inr ⟨e', he', hent'⟩

theorem CopyGIFTIMetaData_Get_of_holdsOnly (env : Env) (meta : giiMetaData)
    (target : vtkInformation) (n val : String) (v : InfoValue)
    (hnames : ∀ e ∈ meta, e.1 ∈ listedKeys.map (fun k => k.name))
    (hold : holdsOnly meta n val) (hentry : entryOf env n val = some (n, v)) :
    vtkInformation.Get (CopyGIFTIMetaData env target meta) n = some v := by
  apply CopyGIFTIMetaData_Get_of_entries env n v meta target
  · intro e he w hw
    have hn : n = e.1 := entryOf_key_of_listed env e.1 e.2 n w (hnames e he) hw
    have hv : e.2 = val := hold.2 e he hn.symm
    rw [← hn, hv, hentry] at hw
    simp only [Option.some.injEq, Prod.mk.injEq] at hw
    exact hw.2.symm
  · exact Or.inr ⟨(n, val), hold.1, hentry⟩

theorem listed_name_determines_key :
    ∀ k ∈ listedKeys, ∀ k' ∈ listedKeys, k'.name = k.name → k' = k := by
  decide

theorem KeysForFile_listed : ∀ k ∈ GiftiMetaData.KeysForFile, k ∈ listedKeys := by
  decide

theorem KeysForDataArray_listed (intent : Int) :
    ∀ k ∈ GiftiMetaData.KeysForDataArray intent, k ∈ listedKeys := by
  unfold GiftiMetaData.KeysForDataArray
  simp only
  split_ifs <;> decide

theorem listed_string_name :
    ∀ k ∈ listedKeys, k.type = KeyType.string → k.name ∈ stringKeyNames := by
  decide

theorem listed_double_name :
    ∀ k ∈ listedKeys, k.type = KeyType.double →
      k.name = GiftiMetaData.TIME_STEP ∨ k.name = GiftiMetaData.INTENT_P1 ∨
      k.name = GiftiMetaData.INTENT_P2 ∨ k.name = GiftiMetaData.INTENT_P3 := by
  decide

theorem entryOf_double (env : Env) (k : vtkInformationKey) (value : String)
    (hk : k ∈ listedKeys) (htype : k.type = KeyType.double) :
    entryOf env k.name value =
      (env.fromStringDouble value).map (fun x => (k.name, InfoValue.dbl x)) := by
  rcases listed_double_name k hk htype with h | h | h | h <;> rw [h]
  · exact (entryOf_numeric env value).1
  · exact (entryOf_numeric env value).2.2.1 _ (by simp [intentP1Names])
  · exact (entryOf_numeric env value).2.2.2.1 _ (by simp [intentP2Names])
  · exact (entryOf_numeric env value).2.2.2.2 _ (by simp [intentP3Names])

theorem GiftiMetaData_Get_string (host : Host) (info : vtkInformation)
    (k : vtkInformationKey) (v : String) (htype : k.type = KeyType.string)
    (h : vtkInformation.Get info k.name = some (.str v)) :
    GiftiMetaData.Get host info k = v := by
  unfold GiftiMetaData.Get
  simp only [htype, decide_True, if_true, h]

theorem GiftiMetaData_Get_double (host : Host) (info : vtkInformation)
    (k : vtkInformationKey) (x : Rat) (htype : k.type = KeyType.double)
    (h : vtkInformation.Get info k.name = some (.dbl x)) :
    GiftiMetaData.Get host info k = host.ToString x := by
  unfold GiftiMetaData.Get
  simp [htype, h]

theorem GiftiMetaData_Get_integer (host : Host) (info : vtkInformation)
    (k : vtkInformationKey) (htype : k.type = KeyType.integer) :
    GiftiMetaData.Get host info k = "" := by
  unfold GiftiMetaData.Get
  simp [htype]

theorem info_Has_of_Get (info : vtkInformation) (k : String) (v : InfoValue)
    (h : vtkInformation.Get info k = some v) : vtkInformation.Has info k = true := by
  rw [info_Has_eq, h]
  rfl

theorem fromInfo_round_trip (host : Host) (env : Env) (info target : vtkInformation)
    (keys : List vtkInformationKey) (hkeys : ∀ k ∈ keys, k ∈ listedKeys)
    (k : vtkInformationKey) (hk : k ∈ keys) (val : String) (v : InfoValue)
    (hhas : vtkInformation.Has info k.name = true)
    (hget : GiftiMetaData.Get host info k = val) (hval : val ≠ "")
    (hentry : entryOf env k.name val = some (k.name, v)) :
    holdsOnly (CopyGIFTIMetaData.fromInfo host [] info keys) k.name val ∧
    vtkInformation.Get
      (CopyGIFTIMetaData env target (CopyGIFTIMetaData.fromInfo host [] info keys)) k.name
        = some v := by
  have hold : holdsOnly (CopyGIFTIMetaData.fromInfo host [] info keys) k.name val := by
    apply fromInfo_holdsOnly host info k.name val hhas hval keys []
    · intro k' hk' hn
      rw [listed_name_determines_key k (hkeys k hk) k' (hkeys k' hk') hn]
      exact hget
    · intro e he
      exact absurd he (List.not_mem_nil _)
    · exact Or.inr ⟨k, hk, rfl⟩
  refine ⟨hold, ?_⟩
  apply CopyGIFTIMetaData_Get_of_holdsOnly env _ target k.name val v _ hold hentry
  apply fromInfo_names host info _ keys []
  · intro k' hk'
    exact List.mem_map_of_mem _ (hkeys k' hk')
  · intro e he
    exact absurd he (List.not_mem_nil _)

theorem ite_prop {α : Type} (P : α → Prop) (c : Prop) [Decidable c] (a b : α)
    (ha : P a) (hb : P b) : P (if c then a else b) := by
  split_ifs
  · exact ha
  · exact hb

theorem AddGIFTICoordinates_meta (host : Host) (gim : gifti_image) (points : List Point)
    (info : Option vtkInformation) :
    (AddGIFTICoordinates host gim points info).2.meta = gim.meta := by
  unfold AddGIFTICoordinates
  refine ite_prop (fun r : Bool × gifti_image => r.2.meta = gim.meta) _ _ _ rfl ?_
  refine ite_prop (fun r : Bool × gifti_image => r.2.meta = gim.meta) _ _ _ rfl ?_
  refine ite_prop (fun r : Bool × gifti_image => r.2.meta = gim.meta) _ _ _ rfl ?_
  rfl

theorem AddGIFTITopology_meta (host : Host) (gim : gifti_image) (triangles : List (List Int))
    (info : Option vtkInformation) :
    (AddGIFTITopology host gim triangles info).2.meta = gim.meta := by
  unfold AddGIFTITopology
  refine ite_prop (fun r : Bool × gifti_image => r.2.meta = gim.meta) _ _ _ rfl ?_
  refine ite_prop (fun r : Bool × gifti_image => r.2.meta = gim.meta) _ _ _ rfl ?_
  refine ite_prop (fun r : Bool × gifti_image => r.2.meta = gim.meta) _ _ _ rfl ?_
  generalize AddGIFTITopology.copy _ _ = r
  cases r <;> rfl

theorem assemble_meta (host : Host) (type : String) (polydata : vtkPolyData)
    (compress ascii : Bool) :
    (WriteGIFTI.assemble host type polydata compress ascii).meta =
      gifti_add_to_meta (gifti_add_to_meta
        (CopyGIFTIMetaData.fromInfo host [] polydata.info GiftiMetaData.KeysForFile)
        GiftiMetaData.DATE host.GetDateTime) GiftiMetaData.USER_NAME host.GetUserName := by
  unfold WriteGIFTI.assemble
  simp only []
  split_ifs <;> simp only [AddGIFTICoordinates_meta, AddGIFTITopology_meta]

theorem assemble_names (host : Host) (type : String) (polydata : vtkPolyData)
    (compress ascii : Bool) :
    ∀ e ∈ (WriteGIFTI.assemble host type polydata compress ascii).meta,
      e.1 ∈ listedKeys.map (fun k => k.name) := by
  rw [assemble_meta]
  apply add_to_meta_names _ _ _ _ (by decide)
  apply add_to_meta_names _ _ _ _ (by decide)
  apply fromInfo_names host polydata.info _ GiftiMetaData.KeysForFile []
  · intro k hk
    exact List.mem_map_of_mem _ (KeysForFile_listed k hk)
  · intro e he
    exact absurd he (List.not_mem_nil _)

theorem assemble_stamped (host : Host) (env : Env) (type : String) (polydata : vtkPolyData)
    (compress ascii : Bool) (target : vtkInformation) :
    holdsOnly (WriteGIFTI.assemble host type polydata compress ascii).meta
      GiftiMetaData.DATE host.GetDateTime ∧
    holdsOnly (WriteGIFTI.assemble host type polydata compress ascii).meta
      GiftiMetaData.USER_NAME host.GetUserName ∧
    vtkInformation.Get (CopyGIFTIMetaData env target
      (WriteGIFTI.assemble host type polydata compress ascii).meta) GiftiMetaData.DATE
        = some (.str host.GetDateTime) ∧
    vtkInformation.Get (CopyGIFTIMetaData env target
      (WriteGIFTI.assemble host type polydata compress ascii).meta) GiftiMetaData.USER_NAME
        = some (.str host.GetUserName) := by
  have hnames := assemble_names host type polydata compress ascii
  have hdate : holdsOnly (WriteGIFTI.assemble host type polydata compress ascii).meta
      GiftiMetaData.DATE host.GetDateTime := by
    rw [assemble_meta]
    exact add_to_meta_holdsOnly_other _ _ _ _ _ (by decide) (add_to_meta_holdsOnly _ _ _)
  have huser : holdsOnly (WriteGIFTI.assemble host type polydata compress ascii).meta
      GiftiMetaData.USER_NAME host.GetUserName := by
    rw [assemble_meta]
    exact add_to_meta_holdsOnly _ _ _
  exact ⟨hdate, huser,
    CopyGIFTIMetaData_Get_of_holdsOnly env _ target _ _ _ hnames hdate
      (entryOf_string env _ _ (by decide)),
    CopyGIFTIMetaData_Get_of_holdsOnly env _ target _ _ _ hnames huser
      (entryOf_string env _ _ (by decide))⟩

theorem assemble_round_trip (host : Host) (env : Env) (type : String)
    (polydata : vtkPolyData) (compress ascii : Bool) (target : vtkInformation)
    (k : vtkInformationKey) (hk : k ∈ GiftiMetaData.KeysForFile)
    (hdate : k.name ≠ GiftiMetaData.DATE) (huser : k.name ≠ GiftiMetaData.USER_NAME)
    (val : String) (v : InfoValue)
    (hhas : vtkInformation.Has polydata.info k.name = true)
    (hget : GiftiMetaData.Get host polydata.info k = val) (hval : val ≠ "")
    (hentry : entryOf env k.name val = some (k.name, v)) :
    vtkInformation.Get (CopyGIFTIMetaData env target
      (WriteGIFTI.assemble host type polydata compress ascii).meta) k.name = some v := by
  have hold := (fromInfo_round_trip host env polydata.info target GiftiMetaData.KeysForFile
    KeysForFile_listed k hk val v hhas hget hval hentry).1
  apply CopyGIFTIMetaData_Get_of_holdsOnly env _ target k.name val v
    (assemble_names host type polydata compress ascii) _ hentry
  rw [assemble_meta]
  exact add_to_meta_holdsOnly_other _ _ _ _ _ (fun h => huser h.symm)
    (add_to_meta_holdsOnly_other _ _ _ _ _ (fun h => hdate h.symm) hold)

/-- C15 as stated fails: a mesh that carries the date `2001-01-01` and an empty
description is written with the date and user name of the host, the date read
back is the host's, and the description is not written at all. -/
theorem C15_date_replaced_and_empty_value_dropped :
    GiftiMetaData.Key.DATE ∈ GiftiMetaData.KeysForFile ∧
    GiftiMetaData.Key.DESCRIPTION ∈ GiftiMetaData.KeysForFile ∧
    vtkInformation.Get [("Date", .str "2001-01-01"), ("Description", .str "")] "Date"
      = some (.str "2001-01-01") ∧
    vtkInformation.Get [("Date", .str "2001-01-01"), ("Description", .str "")] "Description"
      = some (.str "") ∧
    CopyGIFTIMetaData.fromInfo exHost [] [("Date", .str "2001-01-01"), ("Description", .str "")]
      GiftiMetaData.KeysForFile = [("Date", "2001-01-01")] ∧
    (WriteGIFTI exHost "m.surf.gii"
      (exMesh [[0, 1, 2]] [("Date", .str "2001-01-01"), ("Description", .str "")])
      false false).written.map (fun gim => gim.meta)
      = some [("Date", "2026-10-30"), ("UserName", "user")] ∧
    vtkInformation.Get (CopyGIFTIMetaData exParseEnv []
      [("Date", "2026-10-30"), ("UserName", "user")]) "Date" = some (.str "2026-10-30") ∧
    vtkInformation.Get (CopyGIFTIMetaData exParseEnv []
      [("Date", "2026-10-30"), ("UserName", "user")]) "Description" = none := by
  decide

/-- C15 (amended): for a key list of `KeysForFile` or `KeysForDataArray` and a
key of it that the mesh's table holds: a string key with a non-empty value `v`
is written as the one entry of its name, with value `v`, and the file-to-mesh
copy of the written metadata sets the key to `v`; a double key with value `x`
whose string form `ToString(x)` is not empty is written as the one entry of
its name, with that string, and the copy back sets the key to the number that
the string parses to. In the image that `WriteGIFTI` assembles, `Date` and
`UserName` hold the date and user name of the host, whatever the mesh carried,
and are read back so; the other file keys are read back as the mesh carried
them, under the same conditions. -/
theorem C15_string_and_double_keys_round_trip (host : Host) (env : Env)
    (polydata : vtkPolyData) (target : vtkInformation) :
    (∀ keys, (keys = GiftiMetaData.KeysForFile ∨
        ∃ intent, keys = GiftiMetaData.KeysForDataArray intent) →
      ∀ k ∈ keys,
        (∀ v, k.type = KeyType.string →
          vtkInformation.Get polydata.info k.name = some (.str v) → v ≠ "" →
          holdsOnly (CopyGIFTIMetaData.fromInfo host [] polydata.info keys) k.name v ∧
          vtkInformation.Get (CopyGIFTIMetaData env target
            (CopyGIFTIMetaData.fromInfo host [] polydata.info keys)) k.name
              = some (.str v)) ∧
        (∀ x y, k.type = KeyType.double →
          vtkInformation.Get polydata.info k.name = some (.dbl x) → host.ToString x ≠ "" →
          env.fromStringDouble (host.ToString x) = some y →
          holdsOnly (CopyGIFTIMetaData.fromInfo host [] polydata.info keys) k.name
            (host.ToString x) ∧
          vtkInformation.Get (CopyGIFTIMetaData env target
            (CopyGIFTIMetaData.fromInfo host [] polydata.info keys)) k.name
              = some (.dbl y))) ∧
    (∀ type compress ascii,
      holdsOnly (WriteGIFTI.assemble host type polydata compress ascii).meta
        GiftiMetaData.DATE host.GetDateTime ∧
      holdsOnly (WriteGIFTI.assemble host type polydata compress ascii).meta
        GiftiMetaData.USER_NAME host.GetUserName ∧
      vtkInformation.Get (CopyGIFTIMetaData env target
        (WriteGIFTI.assemble host type polydata compress ascii).meta) GiftiMetaData.DATE
          = some (.str host.GetDateTime) ∧
      vtkInformation.Get (CopyGIFTIMetaData env target
        (WriteGIFTI.assemble host type polydata compress ascii).meta) GiftiMetaData.USER_NAME
          = some (.str host.GetUserName) ∧
      ∀ k ∈ GiftiMetaData.KeysForFile, k.name ≠ GiftiMetaData.DATE →
        k.name ≠ GiftiMetaData.USER_NAME →
        (∀ v, k.type = KeyType.string →
          vtkInformation.Get polydata.info k.name = some (.str v) → v ≠ "" →
          vtkInformation.Get (CopyGIFTIMetaData env target
            (WriteGIFTI.assemble host type polydata compress ascii).meta) k.name
              = some (.str v)) ∧
        (∀ x y, k.type = KeyType.double →
          vtkInformation.Get polydata.info k.name = some (.dbl x) → host.ToString x ≠ "" →
          env.fromStringDouble (host.ToString x) = some y →
          vtkInformation.Get (CopyGIFTIMetaData env target
            (WriteGIFTI.assemble host type polydata compress ascii).meta) k.name
              = some (.dbl y))) := by
  constructor
  · intro keys hkeys k hk
    have hlisted : ∀ k ∈ keys, k ∈ listedKeys := by
      rcases hkeys with rfl | ⟨intent, rfl⟩
      · exact KeysForFile_listed
      · exact KeysForDataArray_listed intent
    constructor
    · intro v htype hget hv
      exact fromInfo_round_trip host env polydata.info target keys hlisted k hk v (.str v)
        (info_Has_of_Get _ _ _ hget) (GiftiMetaData_Get_string host _ k v htype hget) hv
        (entryOf_string env _ _ (listed_string_name k (hlisted k hk) htype))
    · intro x y htype hget hx hy
      refine fromInfo_round_trip host env polydata.info target keys hlisted k hk _ (.dbl y)
        (info_Has_of_Get _ _ _ hget) (GiftiMetaData_Get_double host _ k x htype hget) hx ?_
      rw [entryOf_double env k _ (hlisted k hk) htype, hy]
      rfl
  · intro type compress ascii
    obtain ⟨h1, h2, h3, h4⟩ := assemble_stamped host env type polydata compress ascii target
    refine ⟨h1, h2, h3, h4, ?_⟩
    intro k hk hdate huser
    constructor
    · intro v htype hget hv
      exact assemble_round_trip host env type polydata compress ascii target k hk hdate huser
        v (.str v) (info_Has_of_Get _ _ _ hget) (GiftiMetaData_Get_string host _ k v htype hget)
        hv (entryOf_string env _ _ (listed_string_name k (KeysForFile_listed k hk) htype))
    · intro x y htype hget hx hy
      refine assemble_round_trip host env type polydata compress ascii target k hk hdate huser
        _ (.dbl y) (info_Has_of_Get _ _ _ hget)
        (GiftiMetaData_Get_double host _ k x htype hget) hx ?_
      rw [entryOf_double env k _ (KeysForFile_listed k hk) htype, hy]
      rfl

/-- Witness of C15: a mesh with a subject and a time step of one half, on a
host that prints one half as `0.5` and with a reader that parses `0.5` as one
half: both are read back as carried. -/
theorem C15_round_trip_witness :
    vtkInformation.Get (CopyGIFTIMetaData exParseEnv []
      (CopyGIFTIMetaData.fromInfo exHost []
        (exMesh [] [("SubjectID", .str "s1"), ("TimeStep", .dbl (1 / 2))]).info
        GiftiMetaData.KeysForFile)) "SubjectID" = some (.str "s1") ∧
    vtkInformation.Get (CopyGIFTIMetaData exParseEnv []
      (CopyGIFTIMetaData.fromInfo exHost []
        (exMesh [] [("SubjectID", .str "s1"), ("TimeStep", .dbl (1 / 2))]).info
        GiftiMetaData.KeysForFile)) "TimeStep" = some (.dbl (1 / 2)) :=
  ⟨(((C15_string_and_double_keys_round_trip exHost exParseEnv
      (exMesh [] [("SubjectID", .str "s1"), ("TimeStep", .dbl (1 / 2))]) []).1
      GiftiMetaData.KeysForFile (Or.inl rfl) GiftiMetaData.Key.SUBJECT_ID (by decide)).1
      "s1" rfl (by decide) (by decide)).2,
   (((C15_string_and_double_keys_round_trip exHost exParseEnv
      (exMesh [] [("SubjectID", .str "s1"), ("TimeStep", .dbl (1 / 2))]) []).1
      GiftiMetaData.KeysForFile (Or.inl rfl) GiftiMetaData.Key.TIME_STEP (by decide)).2
      (1 / 2) (1 / 2) rfl rfl (by decide) rfl).2⟩

/-! ## Metadata key lists -/

/-- C16: `KeysForFile` is exactly Date, UserName, Description, SubjectID,
UniqueID, TimeStep. `KeysForDataArray` always starts with Name, Description,
UniqueID, SubjectID, SurfaceID; it adds exactly the two anatomical structure
keys and the geometric type for intent `POINTSET`, exactly the topological
type for intent `TRIANGLE`, exactly the intent code and the three intent
parameters for every intent in the statistical code range, and nothing for any
other non-negative intent. -/
theorem C16_metadata_key_lists :
    GiftiMetaData.KeysForFile.map (fun k => k.name) =
      ["Date", "UserName", "Description", "SubjectID", "UniqueID", "TimeStep"] ∧
    (∀ intent : Int, ∃ extra, (GiftiMetaData.KeysForDataArray intent).map (fun k => k.name) =
      ["Name", "Description", "UniqueID", "SubjectID", "SurfaceID"] ++ extra) ∧
    (GiftiMetaData.KeysForDataArray NIFTI_INTENT_POINTSET).map (fun k => k.name) =
      ["Name", "Description", "UniqueID", "SubjectID", "SurfaceID"] ++
      ["AnatomicalStructurePrimary", "AnatomicalStructureSecondary", "GeometricType"] ∧
    (GiftiMetaData.KeysForDataArray NIFTI_INTENT_TRIANGLE).map (fun k => k.name) =
      ["Name", "Description", "UniqueID", "SubjectID", "SurfaceID"] ++ ["TopologicalType"] ∧
    (∀ intent : Int, NIFTI_FIRST_STATCODE ≤ intent → intent ≤ NIFTI_LAST_STATCODE →
      (GiftiMetaData.KeysForDataArray intent).map (fun k => k.name) =
        ["Name", "Description", "UniqueID", "SubjectID", "SurfaceID"] ++
        ["Intent_code", "intent_p1", "intent_p2", "intent_p3"]) ∧
    (∀ intent : Int, 0 ≤ intent → intent ≠ NIFTI_INTENT_POINTSET →
      intent ≠ NIFTI_INTENT_TRIANGLE →
      ¬ (NIFTI_FIRST_STATCODE ≤ intent ∧ intent ≤ NIFTI_LAST_STATCODE) →
      (GiftiMetaData.KeysForDataArray intent).map (fun k => k.name) =
        ["Name", "Description", "UniqueID", "SubjectID", "SurfaceID"]) := by
  refine ⟨by decide, ?_, by decide, by decide, ?_, ?_⟩
  · intro intent
    unfold GiftiMetaData.KeysForDataArray
    simp only
    split_ifs
    · exact ⟨_, List.map_append _ _ _⟩
    · exact ⟨_, List.map_append _ _ _⟩
    · exact ⟨_, List.map_append _ _ _⟩
    · exact ⟨_, List.map_append _ _ _⟩
    · exact ⟨[], by decide⟩
  · intro intent h1 h2
    have hneg : ¬ intent < 0 := by unfold NIFTI_FIRST_STATCODE at h1; omega
    have hp : ¬ intent = NIFTI_INTENT_POINTSET := by
      unfold NIFTI_LAST_STATCODE at h2; unfold NIFTI_INTENT_POINTSET; omega
    have ht : ¬ intent = NIFTI_INTENT_TRIANGLE := by
      unfold NIFTI_LAST_STATCODE at h2; unfold NIFTI_INTENT_TRIANGLE; omega
    unfold GiftiMetaData.KeysForDataArray
    simp only [if_neg hneg, if_neg hp, if_neg ht, if_pos (And.intro h1 h2)]
    decide
  · intro intent h0 hp ht hs
    unfold GiftiMetaData.KeysForDataArray
    simp only [if_neg (not_lt.mpr h0), if_neg hp, if_neg ht, if_neg hs]
    decide

/-- Witness of C16: the keys for intent `5` (a statistical code) and for intent
`2005` (`SHAPE`). -/
theorem C16_key_lists_witness :
    (GiftiMetaData.KeysForDataArray 5).map (fun k => k.name) =
      ["Name", "Description", "UniqueID", "SubjectID", "SurfaceID"] ++
      ["Intent_code", "intent_p1", "intent_p2", "intent_p3"] ∧
    (GiftiMetaData.KeysForDataArray NIFTI_INTENT_SHAPE).map (fun k => k.name) =
      ["Name", "Description", "UniqueID", "SubjectID", "SurfaceID"] :=
  ⟨C16_metadata_key_lists.2.2.2.2.1 5 (by decide) (by decide),
   C16_metadata_key_lists.2.2.2.2.2 NIFTI_INTENT_SHAPE (by decide) (by decide) (by decide)
     (by decide)⟩

/-! ## Writing: file type, arrays and encoding -/

theorem WriteGIFTI_type_none_iff (host : Host) (fname : String) :
    WriteGIFTI.type host fname = none ↔
      host.Extension fname = ".gii" ∧
        (host.Extension (dropExtension fname ".gii") = ".label" ∨
         host.Extension (dropExtension fname ".gii") = ".time") := by
  unfold WriteGIFTI.type
  simp only
  by_cases hext : host.Extension fname = ".gii"
  · rw [if_pos hext, hext]
    by_cases hlt : host.Extension (dropExtension fname ".gii") = ".label" ∨
        host.Extension (dropExtension fname ".gii") = ".time"
    · simp [hlt]
    · rw [if_neg hlt]
      split_ifs <;> simp [hlt]
  · rw [if_neg hext]
    simp [hext]

theorem WriteGIFTI_of_type (host : Host) (fname type : String) (polydata : vtkPolyData)
    (compress ascii : Bool) (htype : WriteGIFTI.type host fname = some type) :
    WriteGIFTI host fname polydata compress ascii =
      if host.gifti_create_image = true then
        { success := decide (host.gifti_write_image
            (WriteGIFTI.assemble host type polydata compress ascii) fname = 0),
          written := some (WriteGIFTI.assemble host type polydata compress ascii) }
      else { success := false, written := none } := by
  unfold WriteGIFTI
  rw [htype]
  simp only
  by_cases hc : host.gifti_create_image = true
  · simp [hc]
  · simp [hc]

/-- C17: for a file name whose last extension is `.gii`: if the extension before
it is `.label` or `.time`, `WriteGIFTI` returns `false` and no image is created
or written; otherwise the file type check passes, and `WriteGIFTI` returns
`false` only if `gifti_create_image` fails or `gifti_write_image` reports an
error for the assembled image. -/
theorem C17_label_and_time_rejected (host : Host) (fname : String) (polydata : vtkPolyData)
    (compress ascii : Bool) (hext : host.Extension fname = ".gii") :
    ((host.Extension (dropExtension fname ".gii") = ".label" ∨
      host.Extension (dropExtension fname ".gii") = ".time") →
      WriteGIFTI host fname polydata compress ascii = { success := false, written := none }) ∧
    (¬ (host.Extension (dropExtension fname ".gii") = ".label" ∨
        host.Extension (dropExtension fname ".gii") = ".time") →
      (∃ type, WriteGIFTI.type host fname = some type) ∧
      ((WriteGIFTI host fname polydata compress ascii).success = false →
        host.gifti_create_image = false ∨
        ∃ gim, (WriteGIFTI host fname polydata compress ascii).written = some gim ∧
          host.gifti_write_image gim fname ≠ 0)) := by
  constructor
  · intro hlt
    have hnone := (WriteGIFTI_type_none_iff host fname).mpr ⟨hext, hlt⟩
    unfold WriteGIFTI
    rw [hnone]
  · intro hlt
    have hsome : ∃ type, WriteGIFTI.type host fname = some type := by
      cases ht : WriteGIFTI.type host fname with
      | none => exact absurd ((WriteGIFTI_type_none_iff host fname).mp ht).2 hlt
      | some type => exact ⟨type, rfl⟩
    refine ⟨hsome, ?_⟩
    obtain ⟨type, htype⟩ := hsome
    rw [WriteGIFTI_of_type host fname type polydata compress ascii htype]
    by_cases hc : host.gifti_create_image = true
    · rw [if_pos hc]
      intro hs
      right
      exact ⟨_, rfl, by simpa using hs⟩
    · intro _
      left
      simpa using hc

/-- Witness of C17: a `.label.gii` file name is rejected, a `.shape.gii` file
name is written. -/
theorem C17_file_type_witness :
    WriteGIFTI exHost "m.label.gii" (exMesh [[0, 1, 2]] []) true false
      = { success := false, written := none } ∧
    ∃ type, WriteGIFTI.type exHost "m.shape.gii" = some type :=
  ⟨(C17_label_and_time_rejected exHost "m.label.gii" (exMesh [[0, 1, 2]] []) true false
      (by decide)).1 (by decide),
   ((C17_label_and_time_rejected exHost "m.shape.gii" (exMesh [[0, 1, 2]] []) true false
      (by decide)).2 (by decide)).1⟩

/-- C19: in the image that `WriteGIFTI` hands to `gifti_write_image`, every data
array has the same encoding: ASCII when `ascii` is set, otherwise base64 with
gzip when `compress` is set and `HAVE_ZLIB` is defined, otherwise plain
base64; whatever encoding an array had before is overwritten. -/
theorem C19_uniform_encoding (host : Host) (fname : String) (polydata : vtkPolyData)
    (compress ascii : Bool) (gim : gifti_image)
    (h : (WriteGIFTI host fname polydata compress ascii).written = some gim) :
    ∀ da ∈ gim.darray, da.encoding =
      if ascii = true then GIFTI_ENCODING_ASCII
      else if compress = true ∧ host.HAVE_ZLIB = true then GIFTI_ENCODING_B64GZ
      else GIFTI_ENCODING_B64BIN := by
  cases ht : WriteGIFTI.type host fname with
  | none =>
    unfold WriteGIFTI at h
    rw [ht] at h
    exact Option.noConfusion h
  | some type =>
    rw [WriteGIFTI_of_type host fname type polydata compress ascii ht] at h
    split_ifs at h
    simp only [Option.some.injEq] at h
    subst h
    intro da hda
    unfold WriteGIFTI.assemble at hda
    simp only [List.mem_map] at hda
    obtain ⟨da0, _, rfl⟩ := hda
    simp only
    cases ascii <;> cases compress <;> cases host.HAVE_ZLIB <;> simp

/-- Witness of C19: with `ascii` set, both arrays of the written image are
ASCII encoded although they were created with the gzip encoding. -/
theorem C19_encoding_witness :
    ∃ gim, (WriteGIFTI exHost "m.surf.gii" (exMesh [[0, 1, 2]] []) true true).written
        = some gim ∧
      gim.darray.length = 2 ∧
      (AddGIFTICoordinates exHost { darray := [], meta := [] } (exMesh [[0, 1, 2]] []).points
        none).2.darray.map (fun da => da.encoding) = [GIFTI_ENCODING_B64GZ] ∧
      ∀ da ∈ gim.darray, da.encoding = GIFTI_ENCODING_ASCII :=
  ⟨_, rfl, by decide, by decide,
    C19_uniform_encoding exHost "m.surf.gii" (exMesh [[0, 1, 2]] []) true true _ rfl⟩

theorem topology_copy_none :
    ∀ (cells : List (List Int)) (pdata : List Rat), (∃ c ∈ cells, c.length ≠ 3) →
      AddGIFTITopology.copy cells pdata = none
  | [], _, h => by
    obtain ⟨c, hc, _⟩ := h
    exact absurd hc (List.not_mem_nil _)
  | pts :: rest, pdata, h => by
    unfold AddGIFTITopology.copy
    by_cases hp : pts.length ≠ 3
    · rw [if_pos hp]
    · rw [if_neg hp]
      apply topology_copy_none rest
      obtain ⟨c, hc, hc3⟩ := h
      rcases List.mem_cons.mp hc with rfl | hc
      · exact absurd hc3 hp
      · exact ⟨c, hc, hc3⟩

theorem topology_copy_some :
    ∀ (cells : List (List Int)) (pdata : List Rat), (∀ c ∈ cells, c.length = 3) →
      ∃ data, AddGIFTITopology.copy cells pdata = some data
  | [], pdata, _ => ⟨pdata, rfl⟩
  | pts :: rest, pdata, h => by
    unfold AddGIFTITopology.copy
    rw [if_neg (not_not.mpr (h pts (List.mem_cons_self _ _)))]
    exact topology_copy_some rest _ (fun c hc => h c (List.mem_cons_of_mem _ hc))

theorem castInt_length (n : Nat) (h : (n : Int) < 2 ^ 31) : (castInt n).toNat = n := by
  rw [castInt_of_lt _ (Int.natCast_nonneg n) h]
  exact Int.toNat_natCast n

theorem setAttributes_dim0 (host : Host) (intent datatype dims0 : Int) :
    (setAttributes host giiDataArray.empty intent datatype dims0).dim 0 = dims0 := by
  simp [setAttributes, giiDataArray.empty, giiDataArray.dim]

/-- The first half of C20, for every mesh: a cell array of fewer than `2^31`
cells, one of which does not have exactly three points, makes
`AddGIFTITopology` return `false` and leave the image as it was. -/
theorem AddGIFTITopology_rejects (host : Host) (gim : gifti_image)
    (triangles : List (List Int)) (info : Option vtkInformation)
    (hlen : (triangles.length : Int) < 2 ^ 31) (hbad : ∃ c ∈ triangles, c.length ≠ 3) :
    AddGIFTITopology host gim triangles info = (false, gim) := by
  unfold AddGIFTITopology
  by_cases h1 : GetMaxCellSize triangles ≠ 3
  · rw [if_pos h1]
  · rw [if_neg h1]
    by_cases h2 : ¬ host.gifti_add_empty_darray gim = true
    · rw [if_pos h2]
    · rw [if_neg h2]
      show (if ¬ host.calloc ((setAttributes host giiDataArray.empty NIFTI_INTENT_TRIANGLE
          NIFTI_TYPE_INT32 (castInt triangles.length)).nvals * 4) = true then (false, gim)
        else _) = (false, gim)
      by_cases h3 : ¬ host.calloc ((setAttributes host giiDataArray.empty NIFTI_INTENT_TRIANGLE
          NIFTI_TYPE_INT32 (castInt triangles.length)).nvals * 4) = true
      · rw [if_pos h3]
      · rw [if_neg h3, setAttributes_dim0, castInt_length _ hlen, List.take_length,
          topology_copy_none triangles [] hbad]

theorem AddGIFTICoordinates_ok (host : Host) (gim : gifti_image) (points : List Point)
    (info : Option vtkInformation)
    (hda : ∀ g, host.gifti_add_empty_darray g = true) (hcalloc : ∀ n, host.calloc n = true)
    (hcs : ∀ da, host.gifti_add_empty_CS da = true) :
    ∃ da, da.intent = NIFTI_INTENT_POINTSET ∧
      AddGIFTICoordinates host gim points info
        = (true, { gim with darray := gim.darray ++ [da] }) := by
  have hn : ∀ b : Bool, b = true → ¬ ¬ b = true := fun b hb => not_not.mpr hb
  unfold AddGIFTICoordinates
  rw [if_neg (hn _ (hda gim))]
  dsimp only
  rw [if_neg (hn _ (hcalloc _)), if_neg (hn _ (hcs _))]
  refine ⟨_, ?_, rfl⟩
  cases info <;> rfl

theorem GetMaxCellSize_fold :
    ∀ (cells : List (List Int)) (m : Nat), (∀ c ∈ cells, c.length = 3) → cells ≠ [] →
      cells.foldl (fun m pts => max m pts.length) m = max m 3
  | [], _, _, h => absurd rfl h
  | [c], m, h, _ => by
    simp [h c (List.mem_cons_self _ _)]
  | c :: c' :: rest, m, h, _ => by
    rw [List.foldl_cons, GetMaxCellSize_fold (c' :: rest) _
      (fun x hx => h x (List.mem_cons_of_mem _ hx)) (List.cons_ne_nil _ _),
      h c (List.mem_cons_self _ _)]
    omega

theorem AddGIFTITopology_ok (host : Host) (gim : gifti_image) (triangles : List (List Int))
    (info : Option vtkInformation)
    (hda : ∀ g, host.gifti_add_empty_darray g = true) (hcalloc : ∀ n, host.calloc n = true)
    (htri : ∀ c ∈ triangles, c.length = 3) (hne : triangles ≠ []) :
    ∃ da, da.intent = NIFTI_INTENT_TRIANGLE ∧
      AddGIFTITopology host gim triangles info
        = (true, { gim with darray := gim.darray ++ [da] }) := by
  have hmax : GetMaxCellSize triangles = 3 := by
    unfold GetMaxCellSize
    rw [GetMaxCellSize_fold triangles 0 htri hne]
    rfl
  have hn : ∀ b : Bool, b = true → ¬ ¬ b = true := fun b hb => not_not.mpr hb
  have hint : (setAttributes host giiDataArray.empty NIFTI_INTENT_TRIANGLE NIFTI_TYPE_INT32
      (castInt triangles.length)).intent = NIFTI_INTENT_TRIANGLE := rfl
  obtain ⟨data, hdata⟩ := topology_copy_some
    (triangles.take ((setAttributes host giiDataArray.empty NIFTI_INTENT_TRIANGLE
      NIFTI_TYPE_INT32 (castInt triangles.length)).dim 0).toNat) []
    (fun c hc => htri c (List.mem_of_mem_take hc))
  unfold AddGIFTITopology
  rw [if_neg (not_not.mpr hmax), if_neg (hn _ (hda gim))]
  show ∃ da, da.intent = NIFTI_INTENT_TRIANGLE ∧
    (if ¬ host.calloc ((setAttributes host giiDataArray.empty NIFTI_INTENT_TRIANGLE
          NIFTI_TYPE_INT32 (castInt triangles.length)).nvals * 4) = true then (false, gim)
        else _) = _
  rw [if_neg (hn _ (hcalloc _)), hdata]
  cases info with
  | none =>
    refine ⟨_, ?_, rfl⟩
    exact hint
  | some i =>
    refine ⟨_, ?_, rfl⟩
    exact hint

/-- The array intents of the image that `WriteGIFTI` assembles. -/
theorem assemble_intents (host : Host) (type : String) (polydata : vtkPolyData)
    (compress ascii : Bool)
    (hda : ∀ g, host.gifti_add_empty_darray g = true) (hcalloc : ∀ n, host.calloc n = true)
    (hcs : ∀ da, host.gifti_add_empty_CS da = true)
    (hpoints : 0 < polydata.points.length) (hpolys : 0 < polydata.polys.length)
    (htri : ∀ c ∈ polydata.polys, c.length = 3) :
    (WriteGIFTI.assemble host type polydata compress ascii).darray.map (fun da => da.intent) =
      (if type = "" ∨ type = ".coord" ∨ type = ".surf" then [NIFTI_INTENT_POINTSET] else []) ++
      (if type = "" ∨ type = ".topo" ∨ type = ".surf" then [NIFTI_INTENT_TRIANGLE] else []) := by
  have hne : polydata.polys ≠ [] := by
    intro h; rw [h] at hpolys; exact absurd hpolys (Nat.lt_irrefl 0)
  unfold WriteGIFTI.assemble
  simp only [gt_iff_lt, hpoints, hpolys, if_true, List.map_map]
  by_cases hP : type = "" ∨ type = ".coord" ∨ type = ".surf"
  · obtain ⟨da, hint, hadd⟩ := AddGIFTICoordinates_ok host
      { darray := [], meta := gifti_add_to_meta (gifti_add_to_meta
          (CopyGIFTIMetaData.fromInfo host [] polydata.info GiftiMetaData.KeysForFile)
          GiftiMetaData.DATE host.GetDateTime) GiftiMetaData.USER_NAME host.GetUserName }
      polydata.points (some polydata.info) hda hcalloc hcs
    rw [if_pos hP, if_pos hP, hadd]
    by_cases hT : type = "" ∨ type = ".topo" ∨ type = ".surf"
    · obtain ⟨db, hintb, haddb⟩ := AddGIFTITopology_ok host _ polydata.polys
        (some polydata.info) hda hcalloc htri hne
      rw [if_pos hT, if_pos hT, haddb]
      simp [hint, hintb]
    · rw [if_neg hT, if_neg hT]
      simp [hint]
  · rw [if_neg hP, if_neg hP]
    by_cases hT : type = "" ∨ type = ".topo" ∨ type = ".surf"
    · obtain ⟨db, hintb, haddb⟩ := AddGIFTITopology_ok host
        { darray := [], meta := gifti_add_to_meta (gifti_add_to_meta
          (CopyGIFTIMetaData.fromInfo host [] polydata.info GiftiMetaData.KeysForFile)
          GiftiMetaData.DATE host.GetDateTime) GiftiMetaData.USER_NAME host.GetUserName }
        polydata.polys (some polydata.info) hda hcalloc htri hne
      rw [if_pos hT, if_pos hT, haddb]
      simp [hintb]
    · rw [if_neg hT, if_neg hT]
      simp

theorem WriteGIFTI_type_of_gii (host : Host) (fname : String)
    (hext : host.Extension fname = ".gii")
    (hlabel : host.Extension (dropExtension fname ".gii") ≠ ".label")
    (htime : host.Extension (dropExtension fname ".gii") ≠ ".time") :
    WriteGIFTI.type host fname =
      some (if host.Extension (dropExtension fname ".gii") ∈ enumeratedSubtypes
        then host.Extension (dropExtension fname ".gii") else "") := by
  unfold WriteGIFTI.type
  simp only
  rw [if_pos hext, hext, if_neg (not_or.mpr ⟨hlabel, htime⟩)]
  generalize host.Extension (dropExtension fname ".gii") = sub
  by_cases hmem : sub ∈ enumeratedSubtypes
  · rw [if_pos hmem, if_neg]
    intro h
    simp only [enumeratedSubtypes, List.mem_cons, List.mem_singleton, List.mem_nil_iff,
      or_false] at hmem
    obtain ⟨h1, h2, h3, h4, h5, h6, h7, h8, h9, h10⟩ := h
    rcases hmem with h | h | h | h | h | h | h | h | h | h <;> contradiction
  · rw [if_neg hmem, if_pos]
    simp only [enumeratedSubtypes, List.mem_cons, List.mem_singleton, List.mem_nil_iff,
      or_false, not_or] at hmem
    obtain ⟨h1, h2, h3, h4, h5, h6, h7, h8, h9, h10⟩ := hmem
    exact ⟨h1, h2, h3, h4, h5, h6, h7, h8, h9, h10⟩

theorem expectedIntents_of_type (sub : String) :
    ((if (if sub ∈ enumeratedSubtypes then sub else "") = "" ∨
        (if sub ∈ enumeratedSubtypes then sub else "") = ".coord" ∨
        (if sub ∈ enumeratedSubtypes then sub else "") = ".surf"
      then [NIFTI_INTENT_POINTSET] else []) ++
     (if (if sub ∈ enumeratedSubtypes then sub else "") = "" ∨
        (if sub ∈ enumeratedSubtypes then sub else "") = ".topo" ∨
        (if sub ∈ enumeratedSubtypes then sub else "") = ".surf"
      then [NIFTI_INTENT_TRIANGLE] else [])) = expectedIntents sub := by
  unfold expectedIntents
  by_cases hmem : sub ∈ enumeratedSubtypes
  · have hne : sub ≠ "" := by
      intro h
      rw [h] at hmem
      exact absurd hmem (by decide)
    simp only [hmem, if_true, hne, not_true_eq_false, false_or, or_false]
  · simp only [hmem, if_false, true_or, if_true, not_false_eq_true, or_true]

/-- C18 as stated fails: the mesh has four points and one polygon and the file
name has the type `.surf`, but the polygon has four points, so the written
image holds the coordinates only. -/
theorem C18_surf_image_without_triangles :
    0 < (exMesh [[0, 1, 2, 3]] []).points.length ∧
    0 < (exMesh [[0, 1, 2, 3]] []).polys.length ∧
    exHost.Extension "m.surf.gii" = ".gii" ∧
    exHost.Extension (dropExtension "m.surf.gii" ".gii") = ".surf" ∧
    expectedIntents ".surf" = [NIFTI_INTENT_POINTSET, NIFTI_INTENT_TRIANGLE] ∧
    ((WriteGIFTI exHost "m.surf.gii" (exMesh [[0, 1, 2, 3]] []) false false).written.map
      (fun gim => gim.darray.map (fun da => da.intent))) = some [NIFTI_INTENT_POINTSET] := by
  decide

/-- C18 (amended): for a mesh with at least one point and at least one polygon
whose polygons all have exactly three points, a `.gii` file name whose second
extension is neither `.label` nor `.time`, and a host on which the image and
array allocations succeed, the image that `WriteGIFTI` writes holds the
coordinates array exactly for `.coord`, `.surf` and a second extension that is
not an enumerated type, followed by the triangle array exactly for `.topo`,
`.surf` and a second extension that is not an enumerated type, and nothing
else. -/
theorem C18_arrays_by_file_type (host : Host) (fname : String) (polydata : vtkPolyData)
    (compress ascii : Bool)
    (hcreate : host.gifti_create_image = true)
    (hda : ∀ g, host.gifti_add_empty_darray g = true) (hcalloc : ∀ n, host.calloc n = true)
    (hcs : ∀ da, host.gifti_add_empty_CS da = true)
    (hpoints : 0 < polydata.points.length) (hpolys : 0 < polydata.polys.length)
    (htri : ∀ c ∈ polydata.polys, c.length = 3)
    (hext : host.Extension fname = ".gii")
    (hlabel : host.Extension (dropExtension fname ".gii") ≠ ".label")
    (htime : host.Extension (dropExtension fname ".gii") ≠ ".time") :
    ∃ gim, (WriteGIFTI host fname polydata compress ascii).written = some gim ∧
      gim.darray.map (fun da => da.intent) =
        expectedIntents (host.Extension (dropExtension fname ".gii")) := by
  rw [WriteGIFTI_of_type host fname _ polydata compress ascii
    (WriteGIFTI_type_of_gii host fname hext hlabel htime), if_pos hcreate]
  refine ⟨_, rfl, ?_⟩
  rw [assemble_intents host _ polydata compress ascii hda hcalloc hcs hpoints hpolys htri]
  exact expectedIntents_of_type _

/-- Witness of C18: a triangle written as `.surf`, `.func` and `.mesh` file. -/
theorem C18_file_type_witness :
    (∃ gim, (WriteGIFTI exHost "m.surf.gii" (exMesh [[0, 1, 2]] []) false false).written
        = some gim ∧
      gim.darray.map (fun da => da.intent) = [NIFTI_INTENT_POINTSET, NIFTI_INTENT_TRIANGLE]) ∧
    (∃ gim, (WriteGIFTI exHost "m.func.gii" (exMesh [[0, 1, 2]] []) false false).written
        = some gim ∧
      gim.darray.map (fun da => da.intent) = []) ∧
    (∃ gim, (WriteGIFTI exHost "m.mesh.gii" (exMesh [[0, 1, 2]] []) false false).written
        = some gim ∧
      gim.darray.map (fun da => da.intent) = [NIFTI_INTENT_POINTSET, NIFTI_INTENT_TRIANGLE]) :=
  ⟨C18_arrays_by_file_type exHost "m.surf.gii" (exMesh [[0, 1, 2]] []) false false rfl
      (fun _ => rfl) (fun _ => rfl) (fun _ => rfl) (by decide) (by decide) (by decide)
      (by decide) (by decide) (by decide),
   C18_arrays_by_file_type exHost "m.func.gii" (exMesh [[0, 1, 2]] []) false false rfl
      (fun _ => rfl) (fun _ => rfl) (fun _ => rfl) (by decide) (by decide) (by decide)
      (by decide) (by decide) (by decide),
   C18_arrays_by_file_type exHost "m.mesh.gii" (exMesh [[0, 1, 2]] []) false false rfl
      (fun _ => rfl) (fun _ => rfl) (fun _ => rfl) (by decide) (by decide) (by decide)
      (by decide) (by decide) (by decide)⟩

/-- C20: for a mesh with one polygon of four points and a `.surf.gii` file name,
`AddGIFTITopology` returns `false` and leaves the image unchanged, but
`WriteGIFTI`, which does not look at that result, writes an image without
triangle array and returns `true`. -/
theorem C20_write_succeeds_with_non_triangular_polygon :
    AddGIFTITopology exHost { darray := [], meta := [] } [[0, 1, 2, 3]] none
      = (false, { darray := [], meta := [] }) ∧
    WriteGIFTI.type exHost "m.surf.gii" = some ".surf" ∧
    (WriteGIFTI exHost "m.surf.gii" (exMesh [[0, 1, 2, 3]] []) true false).success = true ∧
    ((WriteGIFTI exHost "m.surf.gii" (exMesh [[0, 1, 2, 3]] []) true false).written.map
      (fun gim => gim.darray.map (fun da => da.intent))) = some [NIFTI_INTENT_POINTSET] := by
  decide

/-! ## Reading an OFF file -/

theorem sentry_good (s : istream) (hgood : s.good = true) :
    s.sentry =
      if (s.buf.dropWhile isspace).isEmpty then
        ({ buf := [], eofbit := true, failbit := true }, false)
      else ({ s with buf := s.buf.dropWhile isspace }, true) := by
  unfold istream.sentry
  rw [if_pos hgood]

/-- C21: `ReadOFF` returns the empty mesh when the file cannot be opened and for
every file whose first whitespace-delimited token is neither `OFF` nor `off`,
whatever follows the token; a file without any token has the empty token. -/
theorem C21_header_token_required (lib : StdLib) (env : Env) (file : Option (List Char))
    (h : ∀ text, file = some text → firstToken text ≠ "OFF" ∧ firstToken text ≠ "off") :
    ReadOFF lib env file = vtkPolyData.New := by
  cases file with
  | none => rfl
  | some text =>
    obtain ⟨h1, h2⟩ := h text rfl
    unfold ReadOFF
    have hopen : (ifstream.open (some text)).fail = false := rfl
    simp only [hopen, Bool.false_eq_true, if_false]
    have hkey : ((ifstream.open (some text)).readString "").2 ≠ "OFF" ∧
        ((ifstream.open (some text)).readString "").2 ≠ "off" := by
      unfold istream.readString
      rw [sentry_good (ifstream.open (some text)) rfl]
      by_cases hempty : (((ifstream.open (some text)).buf.dropWhile isspace).isEmpty) = true
      · rw [if_pos hempty]
        exact ⟨by decide, by decide⟩
      · rw [if_neg hempty]
        exact ⟨h1, h2⟩
    rw [if_pos hkey]

/-- Witness of C21: the tokens `Off`, `OFf` and `COFF`, and an empty file. -/
theorem C21_header_token_witness :
    ReadOFF exLib exEnv (some "Off\n1 0 0\n0 0 0\n".data) = vtkPolyData.New ∧
    ReadOFF exLib exEnv (some "OFf\n1 0 0\n0 0 0\n".data) = vtkPolyData.New ∧
    ReadOFF exLib exEnv (some "COFF\n1 0 0\n0 0 0\n".data) = vtkPolyData.New ∧
    ReadOFF exLib exEnv (some []) = vtkPolyData.New ∧
    ReadOFF exLib exEnv (some "OFF\n1 0 0\n0 0 0\n".data) ≠ vtkPolyData.New :=
  ⟨C21_header_token_required exLib exEnv _ (fun _ h => by cases h; decide),
   C21_header_token_required exLib exEnv _ (fun _ h => by cases h; decide),
   C21_header_token_required exLib exEnv _ (fun _ h => by cases h; decide),
   C21_header_token_required exLib exEnv _ (fun _ h => by cases h; decide),
   by decide⟩

/-- C22: the file declares three vertices and two faces and holds the three
vertices and one face. When it ends directly after the last digit of the face,
`ReadOFF` returns a mesh with the three points and the one polygon; when a line
break follows that digit, or the file ends inside the second face or inside the
vertex list, it returns the empty mesh. -/
theorem C22_truncated_face_list_accepted :
    ReadOFF exLib exEnv (some "OFF\n3 2 0\n0 0 0\n1 0 0\n0 1 0\n3 0 1 2".data)
      = { vtkPolyData.New with points := [(0, 0, 0), (1, 0, 0), (0, 1, 0)],
                               polys := [[0, 1, 2]] } ∧
    ReadOFF exLib exEnv (some "OFF\n3 2 0\n0 0 0\n1 0 0\n0 1 0\n3 0 1 2\n".data)
      = vtkPolyData.New ∧
    ReadOFF exLib exEnv (some "OFF\n3 2 0\n0 0 0\n1 0 0\n0 1 0\n3 0 1 2\n3 0 1".data)
      = vtkPolyData.New ∧
    ReadOFF exLib exEnv (some "OFF\n3 2 0\n0 0 0\n1 0 0\n0 1".data) = vtkPolyData.New ∧
    ReadOFF exLib exEnv (some "OFF\n3 2 0\n0 0 0\n1 0 0".data) = vtkPolyData.New := by
  decide

/-! ## Output streams -/

theorem emits_refl (lib : StdLib) (os : ostream) : Emits lib os os [] :=
  ⟨fun h => ⟨h, (List.append_nil _).symm⟩, fun _ h => h⟩

theorem emits_trans (lib : StdLib) (os1 os2 os3 : ostream) (t1 t2 : List Char)
    (h1 : Emits lib os1 os2 t1) (h2 : Emits lib os2 os3 t2) :
    Emits lib os1 os3 (t1 ++ t2) := by
  refine ⟨fun h => ?_, fun ha h => h2.2 ha (h1.2 ha h)⟩
  obtain ⟨hf2, ht2⟩ := h2.1 h
  obtain ⟨hf1, ht1⟩ := h1.1 hf2
  exact ⟨hf1, by rw [ht2, ht1, List.append_assoc]⟩

theorem emits_write (lib : StdLib) (os : ostream) (s : List Char) :
    Emits lib os (os.write lib s) s := by
  unfold ostream.write
  by_cases hf : os.failed = true
  · rw [if_pos hf]
    exact ⟨fun h => absurd hf (by rw [h]; decide), fun _ h => h⟩
  · rw [if_neg hf]
    have hf0 : os.failed = false := by simpa using hf
    by_cases ha : lib.accepts os.text s = true
    · rw [if_pos ha]
      exact ⟨fun _ => ⟨hf0, rfl⟩, fun _ _ => hf0⟩
    · rw [if_neg ha]
      exact ⟨fun h => Bool.noConfusion h, fun hall _ => absurd (hall _ _) ha⟩

theorem emits_str (lib : StdLib) (os : ostream) (s : String) :
    Emits lib os (os.str lib s) s.data :=
  emits_write lib os s.data

theorem emits_int (lib : StdLib) (os : ostream) (n : Int) :
    Emits lib os (os.int lib n) (intText n) :=
  emits_write lib os _

theorem emits_dbl (lib : StdLib) (os : ostream) (x : Rat) :
    Emits lib os (os.dbl lib x) (lib.formatDouble os.precision x) :=
  emits_write lib os _

theorem emits_precision (lib : StdLib) (os : ostream) (p : Nat) :
    Emits lib os { os with precision := p } [] :=
  ⟨fun h => ⟨h, (List.append_nil _).symm⟩, fun _ h => h⟩

theorem write_precision (lib : StdLib) (os : ostream) (s : List Char) :
    (os.write lib s).precision = os.precision := by
  unfold ostream.write
  split_ifs <;> rfl

theorem str_precision (lib : StdLib) (os : ostream) (s : String) :
    (os.str lib s).precision = os.precision :=
  write_precision lib os _

theorem int_precision (lib : StdLib) (os : ostream) (n : Int) :
    (os.int lib n).precision = os.precision :=
  write_precision lib os _

theorem dbl_precision (lib : StdLib) (os : ostream) (x : Rat) :
    (os.dbl lib x).precision = os.precision :=
  write_precision lib os _

theorem emits_foldl {α : Type} (lib : StdLib) (f : ostream → α → ostream)
    (g : α → List Char) (I : ostream → Prop)
    (hstep : ∀ os x, I os → Emits lib os (f os x) (g x) ∧ I (f os x)) :
    ∀ (l : List α) (os : ostream), I os →
      Emits lib os (l.foldl f os) (l.map g).flatten ∧ I (l.foldl f os)
  | [], os, hI => ⟨emits_refl lib os, hI⟩
  | x :: l, os, hI => by
    obtain ⟨h1, hI1⟩ := hstep os x hI
    obtain ⟨h2, hI2⟩ := emits_foldl lib f g I hstep l (f os x) hI1
    rw [List.foldl_cons, List.map_cons, List.flatten_cons]
    exact ⟨emits_trans lib _ _ _ _ _ h1 h2, hI2⟩

theorem map_getD_range {α β : Type} (l : List α) (d : α) (f : α → β) :
    (List.range l.length).map (fun i => f (l.getD i d)) = l.map f := by
  apply List.ext_getElem
  · simp
  · intro i h1 h2
    simp only [List.length_map, List.length_range] at h1
    simp [List.getD_eq_getElem?_getD, List.getElem?_eq_getElem h1]

theorem step_str (lib : StdLib) (os0 os : ostream) (t : List Char) (p : Nat) (s : String)
    (h : Emits lib os0 os t ∧ os.precision = p) :
    Emits lib os0 (os.str lib s) (t ++ s.data) ∧ (os.str lib s).precision = p :=
  ⟨emits_trans lib _ _ _ _ _ h.1 (emits_str lib os s), (str_precision lib os s).trans h.2⟩

theorem step_int (lib : StdLib) (os0 os : ostream) (t : List Char) (p : Nat) (n : Int)
    (h : Emits lib os0 os t ∧ os.precision = p) :
    Emits lib os0 (os.int lib n) (t ++ intText n) ∧ (os.int lib n).precision = p :=
  ⟨emits_trans lib _ _ _ _ _ h.1 (emits_int lib os n), (int_precision lib os n).trans h.2⟩

theorem step_dbl (lib : StdLib) (os0 os : ostream) (t : List Char) (p : Nat) (x : Rat)
    (h : Emits lib os0 os t ∧ os.precision = p) :
    Emits lib os0 (os.dbl lib x) (t ++ lib.formatDouble p x) ∧ (os.dbl lib x).precision = p := by
  refine ⟨?_, (dbl_precision lib os x).trans h.2⟩
  have := emits_dbl lib os x
  rw [h.2] at this
  exact emits_trans lib _ _ _ _ _ h.1 this

theorem step_precision (lib : StdLib) (os0 os : ostream) (t : List Char) (p q : Nat)
    (h : Emits lib os0 os t ∧ os.precision = p) :
    Emits lib os0 { os with precision := q } t ∧
      ({ os with precision := q } : ostream).precision = q := by
  refine ⟨?_, rfl⟩
  have := emits_trans lib _ _ _ _ _ h.1 (emits_precision lib os q)
  rwa [List.append_nil] at this

theorem step_foldl {α : Type} (lib : StdLib) (f : ostream → α → ostream)
    (g : α → List Char) (p : Nat)
    (hstep : ∀ os x, os.precision = p →
      Emits lib os (f os x) (g x) ∧ (f os x).precision = p)
    (l : List α) (os0 os : ostream) (t : List Char)
    (h : Emits lib os0 os t ∧ os.precision = p) :
    Emits lib os0 (l.foldl f os) (t ++ (l.map g).flatten) ∧ (l.foldl f os).precision = p := by
  obtain ⟨h1, h2⟩ := emits_foldl lib f g (fun os => os.precision = p) hstep l os h.2
  exact ⟨emits_trans lib _ _ _ _ _ h.1 h1, h2⟩

theorem step_start (lib : StdLib) (os : ostream) :
    Emits lib os os [] ∧ os.precision = os.precision :=
  ⟨emits_refl lib os, rfl⟩

/-! ## Writing an OFF file -/

theorem WriteOFF_cell_line (lib : StdLib) (ptIds : List Int) (os : ostream) (p : Nat)
    (hp : os.precision = p) :
    Emits lib os
      (((List.range (ptIds.length : Int).toNat).foldl (fun (ofs : ostream) (i : Nat) =>
        (ofs.str lib " ").int lib (ptIds.getD i 0)) (os.int lib ptIds.length)).str lib "\n")
      (offCellLine ptIds ++ ['\n']) ∧
    (((List.range (ptIds.length : Int).toNat).foldl (fun (ofs : ostream) (i : Nat) =>
        (ofs.str lib " ").int lib (ptIds.getD i 0)) (os.int lib ptIds.length)).str lib
          "\n").precision = p := by
  have h := step_str lib os _ _ p "\n" (step_foldl lib (fun (ofs : ostream) (i : Nat) =>
        (ofs.str lib " ").int lib (ptIds.getD i 0)) (fun i => ' ' :: intText (ptIds.getD i 0)) p
      (fun os x hx => step_int lib os _ _ p _ (step_str lib os os _ p " " ⟨emits_refl lib os, hx⟩))
      (List.range (ptIds.length : Int).toNat) os _ _
      (step_int lib os os _ p ptIds.length ⟨emits_refl lib os, hp⟩))
  rw [Int.toNat_natCast, map_getD_range ptIds 0 (fun id => ' ' :: intText id),
    List.nil_append] at h
  exact h

theorem WriteOFF_emits (lib : StdLib) (polydata : vtkPolyData) :
    ∃ ofs : ostream, WriteOFF lib polydata = (!ofs.failed, ofs.text) ∧
      Emits lib (ofstream.open lib) ofs
        (joinLines (["OFF".data,
            intText polydata.points.length ++ [' '] ++ intText polydata.cells.length ++
              " 0".data] ++
          polydata.points.map (offPointLine lib) ++ polydata.cells.map offCellLine)) := by
  refine ⟨_, rfl, ?_⟩
  have h := step_foldl lib (fun (ofs : ostream) (cellId : Nat) =>
      let ptIds := polydata.cells.getD cellId []
      let numPts : Int := ptIds.length
      let ofs := ofs.int lib numPts
      let ofs := (List.range numPts.toNat).foldl (fun (ofs : ostream) (i : Nat) =>
        (ofs.str lib " ").int lib (ptIds.getD i 0)) ofs
      ofs.str lib "\n")
    (fun cellId => offCellLine (polydata.cells.getD cellId []) ++ ['\n']) 12
    (fun os x hx => WriteOFF_cell_line lib (polydata.cells.getD x []) os 12 hx)
    (List.range polydata.GetNumberOfCells.toNat) _ _ _
    (step_foldl lib (fun (ofs : ostream) (ptId : Nat) =>
      let p := polydata.GetPoint ptId
      (((((ofs.dbl lib p.1).str lib " ").dbl lib p.2.1).str lib " ").dbl lib p.2.2).str lib "\n")
    (fun ptId => offPointLine lib (polydata.GetPoint ptId) ++ ['\n']) 12
    (fun os x hx => by
      have := step_str lib os _ _ 12 "\n" (step_dbl lib os _ _ 12 (polydata.GetPoint x).2.2
        (step_str lib os _ _ 12 " " (step_dbl lib os _ _ 12 (polydata.GetPoint x).2.1
        (step_str lib os _ _ 12 " " (step_dbl lib os os _ 12 (polydata.GetPoint x).1
        ⟨emits_refl lib os, hx⟩)))))
      simpa [offPointLine, List.append_assoc] using this)
    (List.range polydata.GetNumberOfPoints.toNat) _ _ _
    (step_str lib _ _ _ 12 " 0\n" (step_int lib _ _ _ 12 polydata.GetNumberOfCells
    (step_str lib _ _ _ 12 " " (step_int lib _ _ _ 12 polydata.GetNumberOfPoints
    (step_str lib _ _ _ 12 "OFF\n"
    (step_precision lib _ (ofstream.open lib) _ 6 12 (step_start lib _))))))))
  have h1 := h.1
  have hpoints : (List.range polydata.GetNumberOfPoints.toNat).map
      (fun ptId => offPointLine lib (polydata.GetPoint ptId) ++ ['\n'])
      = polydata.points.map (fun p => offPointLine lib p ++ ['\n']) := by
    unfold vtkPolyData.GetNumberOfPoints vtkPolyData.GetPoint
    rw [Int.toNat_natCast]
    exact map_getD_range polydata.points _ (fun p => offPointLine lib p ++ ['\n'])
  have hcells : (List.range polydata.GetNumberOfCells.toNat).map
      (fun cellId => offCellLine (polydata.cells.getD cellId []) ++ ['\n'])
      = polydata.cells.map (fun c => offCellLine c ++ ['\n']) := by
    unfold vtkPolyData.GetNumberOfCells
    rw [Int.toNat_natCast]
    exact map_getD_range polydata.cells _ (fun c => offCellLine c ++ ['\n'])
  rw [hpoints, hcells] at h1
  have htext : joinLines (["OFF".data,
            intText polydata.points.length ++ [' '] ++ intText polydata.cells.length ++
              " 0".data] ++
          polydata.points.map (offPointLine lib) ++ polydata.cells.map offCellLine)
      = [] ++ "OFF\n".data ++ intText polydata.GetNumberOfPoints ++ " ".data ++
          intText polydata.GetNumberOfCells ++ " 0\n".data ++
          (polydata.points.map (fun p => offPointLine lib p ++ ['\n'])).flatten ++
          (polydata.cells.map (fun c => offCellLine c ++ ['\n'])).flatten := by
    unfold joinLines vtkPolyData.GetNumberOfPoints vtkPolyData.GetNumberOfCells
    simp only [List.map_append, List.map_cons, List.map_nil, List.flatten_append,
      List.flatten_cons, List.flatten_nil, List.map_map, List.append_assoc, List.nil_append,
      List.append_nil]
    rfl
  rw [htext]
  exact h1

theorem result_of_emits (lib : StdLib) (ofs : ostream) (r : Bool × List Char) (t : List Char)
    (hr : r = (!ofs.failed, ofs.text)) (h : Emits lib (ofstream.open lib) ofs t) :
    (lib.healthy → r = (true, t)) ∧ (lib.opens = false → r.1 = false) ∧
    (r.1 = true → r.2 = t) := by
  subst hr
  refine ⟨fun hh => ?_, fun ho => ?_, fun ht => ?_⟩
  · have hopen : (ofstream.open lib).failed = false := by
      unfold ofstream.open
      simp [hh.1]
    have hf := h.2 hh.2 hopen
    have ht := (h.1 hf).2
    rw [hf, ht]
    rfl
  · cases hf : ofs.failed
    · have := (h.1 hf).1
      unfold ofstream.open at this
      simp [ho] at this
    · rfl
  · have hf : ofs.failed = false := by simpa using ht
    have := (h.1 hf).2
    simpa [ofstream.open] using this

/-- C24 (counterexample): a write failure that `WriteOFF` does not report. The
mesh of four points and one triangle is written to a file whose device stores
nothing (`room = 0`) behind a buffer of `8192` characters: the `42` characters
of the text stay in the buffer, no output operation fails, and `WriteOFF`
returns `true`; the file is empty after the call. With a buffer of `16`
characters the device is asked during the call, and the result is `false`. -/
theorem C24_write_failure_not_reported :
    WriteOFF.buffered exLib { capacity := 8192, room := 0 } (exMesh [[0, 1, 2]] []) =
      (true, []) ∧
    WriteOFF { exLib with accepts := filebuf.accepts { capacity := 8192, room := 0 } }
        (exMesh [[0, 1, 2]] []) =
      (true, "OFF\n4 1 0\n0 0 0\n1 0 0\n0 1 0\n1 1 0\n3 0 1 2\n".data) ∧
    "OFF\n4 1 0\n0 0 0\n1 0 0\n0 1 0\n1 1 0\n3 0 1 2\n".data.length = 42 ∧
    (WriteOFF.buffered exLib { capacity := 16, room := 0 } (exMesh [[0, 1, 2]] [])).1 = false := by
  decide

/-- C24 (amended): the text that `WriteOFF` puts out is, each ended by a line
break, the line `OFF`, the line of the number of points, the number of cells
and `0`, one coordinate line per point in the order of the points, and one line
per cell in the order of the cell IDs, made of the number of point IDs and each
point ID after one space. (1) When the file opens and every output operation
succeeds, `WriteOFF` returns `true` and exactly this text was written to the
stream. (2) It returns `false` when the file does not open. (3) It returns
`false` when an output operation fails: whenever it returns `true`, exactly
this text was written to the stream. (4) On a buffered file, whenever it
returns `true` and the device has room for the text, the file holds exactly
this text after the call. -/
theorem C24_off_text_and_result (lib : StdLib) (polydata : vtkPolyData) :
    (lib.healthy → WriteOFF lib polydata =
      (true, joinLines (["OFF".data,
            intText polydata.points.length ++ [' '] ++ intText polydata.cells.length ++
              " 0".data] ++
          polydata.points.map (offPointLine lib) ++ polydata.cells.map offCellLine))) ∧
    (lib.opens = false → (WriteOFF lib polydata).1 = false) ∧
    ((WriteOFF lib polydata).1 = true → (WriteOFF lib polydata).2 =
      joinLines (["OFF".data,
            intText polydata.points.length ++ [' '] ++ intText polydata.cells.length ++
              " 0".data] ++
          polydata.points.map (offPointLine lib) ++ polydata.cells.map offCellLine)) ∧
    (∀ fb : filebuf, (WriteOFF.buffered lib fb polydata).1 = true →
      (joinLines (["OFF".data,
            intText polydata.points.length ++ [' '] ++ intText polydata.cells.length ++
              " 0".data] ++
          polydata.points.map (offPointLine lib) ++ polydata.cells.map offCellLine)).length
        ≤ fb.room →
      WriteOFF.buffered lib fb polydata =
        (true, joinLines (["OFF".data,
            intText polydata.points.length ++ [' '] ++ intText polydata.cells.length ++
              " 0".data] ++
          polydata.points.map (offPointLine lib) ++ polydata.cells.map offCellLine))) := by
  obtain ⟨ofs, hr, h⟩ := WriteOFF_emits lib polydata
  obtain ⟨h1, h2, h3⟩ := result_of_emits lib ofs _ _ hr h
  refine ⟨h1, h2, h3, ?_⟩
  intro fb htrue hroom
  obtain ⟨ofs2, hr2, he2⟩ := WriteOFF_emits { lib with accepts := fb.accepts } polydata
  have hl : offPointLine { lib with accepts := fb.accepts } = offPointLine lib := rfl
  have h4 := (result_of_emits _ ofs2 _ _ hr2 he2).2.2 htrue
  rw [hl] at h4
  unfold WriteOFF.buffered at htrue ⊢
  simp only at htrue ⊢
  rw [htrue, h4]
  unfold filebuf.close
  rw [List.take_of_length_le hroom]

/-- Witness of C24: a mesh of four points with a line and two triangles on a
library where every output operation succeeds, and a mesh of four points and
one triangle on a buffered file with room for the text. -/
theorem C24_off_text_witness :
    WriteOFF exLib { exMesh [[0, 1, 2], [1, 2, 3]] [] with lines := [[0, 1]] } =
      (true, "OFF\n4 3 0\n0 0 0\n1 0 0\n0 1 0\n1 1 0\n2 0 1\n3 0 1 2\n3 1 2 3\n".data) ∧
    WriteOFF.buffered exLib { capacity := 16, room := 64 } (exMesh [[0, 1, 2]] []) =
      (true, "OFF\n4 1 0\n0 0 0\n1 0 0\n0 1 0\n1 1 0\n3 0 1 2\n".data) :=
  ⟨((C24_off_text_and_result exLib
      { exMesh [[0, 1, 2], [1, 2, 3]] [] with lines := [[0, 1]] }).1
      ⟨rfl, fun _ _ => rfl⟩).trans (by decide),
   ((C24_off_text_and_result exLib (exMesh [[0, 1, 2]] [])).2.2.2
      { capacity := 16, room := 64 } (by decide) (by decide)).trans (by decide)⟩

/-! ## Decimal digits -/

theorem isspace_iff (c : Char) :
    isspace c = true ↔ c = ' ' ∨ c = '\t' ∨ c = '\n' ∨ c = Char.ofNat 11 ∨ c = Char.ofNat 12 ∨
      c = '\r' := by
  unfold isspace
  simp only [Bool.or_eq_true, beq_iff_eq, or_assoc]

theorem not_isspace_of_isDigit (c : Char) (h : c.isDigit = true) : isspace c = false := by
  cases hs : isspace c
  · rfl
  · rw [isspace_iff] at hs
    rcases hs with rfl | rfl | rfl | rfl | rfl | rfl <;> revert h <;> decide

theorem digitChar_digit (d : Nat) (h : d < 10) :
    (Nat.digitChar d).isDigit = true ∧ digitValue (Nat.digitChar d) = d := by
  interval_cases d <;> exact ⟨by decide, by decide⟩

theorem toDigitsCore_append :
    ∀ (fuel n : Nat) (ds : List Char),
      Nat.toDigitsCore 10 fuel n ds = Nat.toDigitsCore 10 fuel n [] ++ ds
  | 0, _, _ => rfl
  | fuel + 1, n, ds => by
    unfold Nat.toDigitsCore
    simp only
    by_cases h : n / 10 = 0
    · rw [if_pos h, if_pos h]
      rfl
    · rw [if_neg h, if_neg h, toDigitsCore_append fuel (n / 10) (Nat.digitChar (n % 10) :: ds),
        toDigitsCore_append fuel (n / 10) [Nat.digitChar (n % 10)], List.append_assoc]
      rfl

theorem digitsValue_append (l : List Char) (c : Char) :
    digitsValue (l ++ [c]) = 10 * digitsValue l + digitValue c := by
  unfold digitsValue
  rw [List.foldl_append]
  rfl

theorem toDigitsCore_spec :
    ∀ (fuel n : Nat), n < fuel →
      Nat.toDigitsCore 10 fuel n [] ≠ [] ∧
      (∀ c ∈ Nat.toDigitsCore 10 fuel n [], c.isDigit = true) ∧
      digitsValue (Nat.toDigitsCore 10 fuel n []) = n
  | 0, _, h => absurd h (Nat.not_lt_zero _)
  | fuel + 1, n, h => by
    have hd := digitChar_digit (n % 10) (Nat.mod_lt _ (by decide))
    unfold Nat.toDigitsCore
    simp only
    by_cases h0 : n / 10 = 0
    · rw [if_pos h0]
      refine ⟨List.cons_ne_nil _ _, ?_, ?_⟩
      · intro c hc
        rw [List.mem_singleton.mp hc]
        exact hd.1
      · have : digitsValue [Nat.digitChar (n % 10)] = 10 * 0 + digitValue (Nat.digitChar (n % 10)) :=
          rfl
        rw [this, hd.2]
        omega
    · rw [if_neg h0, toDigitsCore_append]
      have hlt : n / 10 < fuel := by omega
      obtain ⟨_, h2, h3⟩ := toDigitsCore_spec fuel (n / 10) hlt
      refine ⟨?_, ?_, ?_⟩
      · intro hnil
        exact absurd (List.append_eq_nil.mp hnil).2 (List.cons_ne_nil _ _)
      · intro c hc
        rcases List.mem_append.mp hc with hc | hc
        · exact h2 c hc
        · rw [List.mem_singleton.mp hc]
          exact hd.1
      · rw [digitsValue_append, h3, hd.2]
        omega

theorem intText_ofNat (m : Nat) : intText (m : Int) = Nat.toDigits 10 m := rfl

theorem intText_negSucc (m : Nat) :
    intText (Int.negSucc m) = '-' :: Nat.toDigits 10 (m + 1) := rfl

/-- The decimal text of an integer: digits of its value, after a minus sign when
it is negative. -/
theorem intText_spec (n : Int) :
    ∃ digits : List Char, digits ≠ [] ∧ (∀ c ∈ digits, c.isDigit = true) ∧
      ((0 ≤ n ∧ intText n = digits ∧ (digitsValue digits : Int) = n) ∨
       (n < 0 ∧ intText n = '-' :: digits ∧ -(digitsValue digits : Int) = n)) := by
  cases n with
  | ofNat m =>
    obtain ⟨h1, h2, h3⟩ := toDigitsCore_spec (m + 1) m (Nat.lt_succ_self m)
    refine ⟨Nat.toDigits 10 m, h1, h2, Or.inl ⟨Int.natCast_nonneg m, rfl, ?_⟩⟩
    show ((digitsValue (Nat.toDigitsCore 10 (m + 1) m []) : Nat) : Int) = ((m : Nat) : Int)
    rw [h3]
  | negSucc m =>
    obtain ⟨h1, h2, h3⟩ := toDigitsCore_spec (m + 1 + 1) (m + 1) (Nat.lt_succ_self _)
    refine ⟨Nat.toDigits 10 (m + 1), h1, h2, Or.inr ⟨Int.negSucc_lt_zero m, rfl, ?_⟩⟩
    show -((digitsValue (Nat.toDigitsCore 10 (m + 1 + 1) (m + 1) []) : Nat) : Int) = Int.negSucc m
    rw [h3]
    rfl

theorem intText_ne_nil (n : Int) : intText n ≠ [] := by
  obtain ⟨digits, h1, _, h | h⟩ := intText_spec n
  · rw [h.2.1]; exact h1
  · rw [h.2.1]; exact List.cons_ne_nil _ _

theorem intText_not_isspace (n : Int) : ∀ c ∈ intText n, isspace c = false := by
  obtain ⟨digits, _, h2, h | h⟩ := intText_spec n
  · rw [h.2.1]
    exact fun c hc => not_isspace_of_isDigit c (h2 c hc)
  · rw [h.2.1]
    intro c hc
    rcases List.mem_cons.mp hc with rfl | hc
    · decide
    · exact not_isspace_of_isDigit c (h2 c hc)

/-! ## TetGen writers: the text written -/

theorem spaced_nil : spaced [] = [] := rfl

theorem spaced_cons (t : List Char) (toks : List (List Char)) :
    spaced (t :: toks) = ' ' :: t ++ spaced toks := rfl

theorem spaced_append (a b : List (List Char)) : spaced (a ++ b) = spaced a ++ spaced b := by
  unfold spaced
  rw [List.map_append, List.flatten_append]

theorem spaced_flatten (L : List (List (List Char))) :
    spaced L.flatten = (L.map spaced).flatten := by
  induction L with
  | nil => rfl
  | cons l L ih => rw [List.flatten_cons, spaced_append, ih, List.map_cons, List.flatten_cons]

theorem spaced_map {α : Type} (f : α → List Char) (l : List α) :
    spaced (l.map f) = (l.map (fun x => ' ' :: f x)).flatten := by
  unfold spaced
  rw [List.map_map]
  rfl

theorem foldl_sum_ncomp (arrays : List vtkDataArray) (n : Int) :
    arrays.foldl (fun (n : Int) ar => n + ar.ncomp) n = n + (arrays.map (fun ar => ar.ncomp)).sum := by
  induction arrays generalizing n with
  | nil => simp
  | cons a arrays ih =>
    rw [List.foldl_cons, ih, List.map_cons, List.sum_cons, Int.add_assoc]

theorem WriteTetGenNode_attributes (lib : StdLib) (pointset : vtkPolyData) (ptId : Nat)
    (os : ostream) (hp : os.precision = 5) :
    Emits lib os
      (pointset.pointData.arrays.foldl (fun (os : ostream) ar =>
        (List.range ar.ncomp.toNat).foldl (fun (os : ostream) (j : Nat) =>
          (os.str lib " ").dbl lib (ar.GetComponent ptId j)) os) os)
      (spaced (nodeAttributes lib pointset ptId)) := by
  have h := step_foldl lib (fun (os : ostream) (ar : vtkDataArray) =>
        (List.range ar.ncomp.toNat).foldl (fun (os : ostream) (j : Nat) =>
          (os.str lib " ").dbl lib (ar.GetComponent ptId j)) os)
      (fun ar => spaced ((List.range ar.ncomp.toNat).map
        (fun j => lib.formatDouble 5 (ar.GetComponent ptId j)))) 5
      (fun os ar hx => by
        have := step_foldl lib (fun (os : ostream) (j : Nat) =>
          (os.str lib " ").dbl lib (ar.GetComponent ptId j))
          (fun j => ' ' :: lib.formatDouble 5 (ar.GetComponent ptId j)) 5
          (fun os j hj => step_dbl lib os _ _ 5 _ (step_str lib os os _ 5 " "
            ⟨emits_refl lib os, hj⟩))
          (List.range ar.ncomp.toNat) os os [] ⟨emits_refl lib os, hx⟩
        rw [List.nil_append] at this
        show Emits lib os _ (spaced (List.map _ _)) ∧ _
        rw [spaced_map]
        exact this)
      pointset.pointData.arrays os os [] ⟨emits_refl lib os, hp⟩
  have h1 := h.1
  rw [List.nil_append] at h1
  unfold nodeAttributes
  rw [spaced_flatten, List.map_map]
  exact h1

theorem WriteTetGenNode_point (lib : StdLib) (pointset : vtkPolyData) (ptId : Nat)
    (os : ostream) :
    Emits lib os
      ((pointset.pointData.arrays.foldl (fun (os : ostream) ar =>
        (List.range ar.ncomp.toNat).foldl (fun (os : ostream) (j : Nat) =>
          (os.str lib " ").dbl lib (ar.GetComponent ptId j)) os)
        { ((((((({ ((os.int lib ((ptId : Int) + 1)).str lib " ") with precision := 8
          } : ostream).str lib " ").dbl lib (pointset.GetPoint ptId).1).str lib " ").dbl lib
          (pointset.GetPoint ptId).2.1).str lib " ").dbl lib (pointset.GetPoint ptId).2.2)
          with precision := 5 }).str lib "\n")
      (nodePointLine lib pointset ptId ++ ['\n']) := by
  have h1 := step_precision lib _ _ _ 8 5 (step_dbl lib _ _ _ 8 (pointset.GetPoint ptId).2.2
    (step_str lib _ _ _ 8 " " (step_dbl lib _ _ _ 8 (pointset.GetPoint ptId).2.1
    (step_str lib _ _ _ 8 " " (step_dbl lib _ _ _ 8 (pointset.GetPoint ptId).1
    (step_str lib _ _ _ 8 " " (step_precision lib _ _ _ os.precision 8
    (step_str lib _ _ _ os.precision " " (step_int lib _ _ _ os.precision ((ptId : Int) + 1)
    (step_start lib os))))))))))
  have h2 := WriteTetGenNode_attributes lib pointset ptId _ h1.2
  have h3 := emits_trans lib _ _ _ _ _ (emits_trans lib _ _ _ _ _ h1.1 h2) (emits_str lib _ "\n")
  have htext : nodePointLine lib pointset ptId ++ ['\n'] =
      ([] ++ intText ((ptId : Int) + 1) ++ " ".data ++ " ".data ++
        lib.formatDouble 8 (pointset.GetPoint ptId).1 ++ " ".data ++
        lib.formatDouble 8 (pointset.GetPoint ptId).2.1 ++ " ".data ++
        lib.formatDouble 8 (pointset.GetPoint ptId).2.2 ++
        spaced (nodeAttributes lib pointset ptId)) ++ "\n".data := by
    unfold nodePointLine
    simp only [List.cons_append, List.nil_append, spaced_cons, List.append_assoc]
  rw [htext]
  exact h3

theorem WriteTetGenNode_emits (lib : StdLib) (os : ostream) (pointset : vtkPolyData) :
    Emits lib os (WriteTetGenNode lib os pointset).2 (joinLines (nodeLines lib pointset)) ∧
    (WriteTetGenNode lib os pointset).2.precision = os.precision ∧
    (WriteTetGenNode lib os pointset).1 = !(WriteTetGenNode lib os pointset).2.failed := by
  have hhead := step_str lib _ _ _ os.precision " 0\n" (step_int lib _ _ _ os.precision
    (pointset.pointData.arrays.foldl (fun (n : Int) ar => n + ar.ncomp) 0)
    (step_str lib _ _ _ os.precision " 3 " (step_int lib _ _ _ os.precision
    pointset.GetNumberOfPoints (step_start lib os))))
  have hloop := emits_foldl lib (fun (os : ostream) (ptId : Nat) =>
      let os := (os.int lib ((ptId : Int) + 1)).str lib " "
      let os := { os with precision := 8 }
      let p := pointset.GetPoint ptId
      let os := (((((os.str lib " ").dbl lib p.1).str lib " ").dbl lib p.2.1).str lib " ").dbl lib
        p.2.2
      let os := { os with precision := 5 }
      let os := pointset.pointData.arrays.foldl (fun (os : ostream) ar =>
        (List.range ar.ncomp.toNat).foldl (fun (os : ostream) (j : Nat) =>
          (os.str lib " ").dbl lib (ar.GetComponent ptId j)) os) os
      os.str lib "\n")
    (fun ptId => nodePointLine lib pointset ptId ++ ['\n']) (fun _ => True)
    (fun os x _ => ⟨WriteTetGenNode_point lib pointset x os, trivial⟩)
    (List.range pointset.GetNumberOfPoints.toNat)
    ((((os.int lib pointset.GetNumberOfPoints).str lib " 3 ").int lib
      (pointset.pointData.arrays.foldl (fun (n : Int) ar => n + ar.ncomp) 0)).str lib " 0\n")
    trivial
  have hall := emits_trans lib _ _ _ _ _ (emits_trans lib _ _ _ _ _ hhead.1 hloop.1)
    (emits_precision lib _ (((((os.int lib pointset.GetNumberOfPoints).str lib " 3 ").int lib
      (pointset.pointData.arrays.foldl (fun (n : Int) ar => n + ar.ncomp) 0)).str lib
      " 0\n").precision))
  refine ⟨?_, ?_, rfl⟩
  · have htext : joinLines (nodeLines lib pointset) =
        ([] ++ intText pointset.GetNumberOfPoints ++ " 3 ".data ++
          intText (pointset.pointData.arrays.foldl (fun (n : Int) ar => n + ar.ncomp) 0) ++
          " 0\n".data ++
          ((List.range pointset.GetNumberOfPoints.toNat).map
            (fun ptId => nodePointLine lib pointset ptId ++ ['\n'])).flatten) ++ [] := by
      unfold joinLines nodeLines nodeHeader nodeAttributeCount vtkPolyData.GetNumberOfPoints
      rw [foldl_sum_ncomp, Int.zero_add, Int.toNat_natCast]
      simp only [List.map_cons, List.flatten_cons, List.map_map, List.append_assoc,
        List.nil_append, List.append_nil]
      rfl
    rw [htext]
    exact hall
  · exact hhead.2

theorem joinLines_append (a b : List (List Char)) :
    joinLines (a ++ b) = joinLines a ++ joinLines b := by
  unfold joinLines
  rw [List.map_append, List.flatten_append]

theorem joinLines_cons (l : List Char) (ls : List (List Char)) :
    joinLines (l :: ls) = l ++ '\n' :: joinLines ls := by
  unfold joinLines
  rw [List.map_cons, List.flatten_cons, List.append_assoc]
  rfl

theorem joinLines_nil : joinLines [] = [] := rfl

theorem step_cells (lib : StdLib) (sep : String) (cells : List (List Int))
    (os0 os : ostream) (t : List Char) (p : Nat)
    (h : Emits lib os0 os t ∧ os.precision = p) :
    Emits lib os0 (WriteTetGen.cells lib os sep cells)
      (t ++ joinLines (cells.map (tetCellLine sep.data))) ∧
    (WriteTetGen.cells lib os sep cells).precision = p := by
  have := step_foldl lib (fun (os : ostream) (pts : List Int) =>
      let npts : Int := pts.length
      let os := (os.int lib npts).str lib sep
      let os := (List.range npts.toNat).foldl (fun (os : ostream) (i : Nat) =>
        (os.str lib " ").int lib (pts.getD i 0 + 1)) os
      os.str lib "\n")
    (fun pts => tetCellLine sep.data pts ++ ['\n']) p
    (fun os pts hx => by
      have h := step_str lib os _ _ p "\n" (step_foldl lib (fun (os : ostream) (i : Nat) =>
          (os.str lib " ").int lib (pts.getD i 0 + 1))
        (fun i => ' ' :: intText (pts.getD i 0 + 1)) p
        (fun os x hx => step_int lib os _ _ p _ (step_str lib os os _ p " "
          ⟨emits_refl lib os, hx⟩))
        (List.range (pts.length : Int).toNat) os _ _
        (step_str lib os _ _ p sep (step_int lib os os _ p pts.length
          ⟨emits_refl lib os, hx⟩)))
      rw [Int.toNat_natCast, map_getD_range pts 0 (fun id => ' ' :: intText (id + 1)),
        List.nil_append, ← spaced_map] at h
      exact h)
    cells os0 os t h
  unfold joinLines
  rw [List.map_map]
  exact this

theorem step_polyGroup (lib : StdLib) (comment line : String) (cells : List (List Int))
    (hline : line.data = comment.data ++ ['\n'])
    (os0 os : ostream) (t : List Char) (p : Nat)
    (h : Emits lib os0 os t ∧ os.precision = p) :
    Emits lib os0
      (if cells.length > 0 then
        WriteTetGen.cells lib (((os.str lib line).int lib cells.length).str lib "\n") " " cells
       else os)
      (t ++ joinLines (polyGroup comment cells)) ∧
    (if cells.length > 0 then
        WriteTetGen.cells lib (((os.str lib line).int lib cells.length).str lib "\n") " " cells
       else os).precision = p := by
  cases cells with
  | nil =>
    simp only [List.length_nil, gt_iff_lt, Nat.lt_irrefl, if_false]
    have : joinLines (polyGroup comment []) = [] := rfl
    rw [this, List.append_nil]
    exact h
  | cons c cs =>
    have hpos : (c :: cs).length > 0 := Nat.succ_pos _
    rw [if_pos hpos]
    have := step_cells lib " " (c :: cs) _ _ _ p (step_str lib _ _ _ p "\n"
      (step_int lib _ _ _ p ((c :: cs).length : Nat) (step_str lib _ _ _ p line h)))
    have htext : t ++ joinLines (polyGroup comment (c :: cs)) =
        t ++ line.data ++ intText ((c :: cs).length : Nat) ++ "\n".data ++
          joinLines ((c :: cs).map (tetCellLine " ".data)) := by
      unfold polyGroup
      rw [hline]
      simp only [List.isEmpty_cons, Bool.false_eq_true, if_false, joinLines_cons,
        List.append_assoc, List.cons_append, List.nil_append]
    rw [htext]
    exact this

theorem step_smeshGroup (lib : StdLib) (sep : String) (cells : List (List Int))
    (os0 os : ostream) (t : List Char) (p : Nat)
    (h : Emits lib os0 os t ∧ os.precision = p) :
    Emits lib os0 (if cells.length > 0 then WriteTetGen.cells lib os sep cells else os)
      (t ++ joinLines (cells.map (tetCellLine sep.data))) ∧
    (if cells.length > 0 then WriteTetGen.cells lib os sep cells else os).precision = p := by
  cases cells with
  | nil =>
    simp only [List.length_nil, gt_iff_lt, Nat.lt_irrefl, if_false, List.map_nil, joinLines_nil,
      List.append_nil]
    exact h
  | cons c cs =>
    have hpos : (c :: cs).length > 0 := Nat.succ_pos _
    rw [if_pos hpos]
    exact step_cells lib sep (c :: cs) _ _ _ p h

theorem step_node (lib : StdLib) (pointset : vtkPolyData)
    (os0 os : ostream) (t : List Char) (p : Nat)
    (h : Emits lib os0 os t ∧ os.precision = p) :
    Emits lib os0 (WriteTetGenNode lib os pointset).2 (t ++ joinLines (nodeLines lib pointset)) ∧
    (WriteTetGenNode lib os pointset).2.precision = p := by
  obtain ⟨h1, h2, _⟩ := WriteTetGenNode_emits lib os pointset
  exact ⟨emits_trans lib _ _ _ _ _ h.1 h1, h2.trans h.2⟩

theorem step_holes (lib : StdLib) (holes : Option (List Point))
    (os0 os : ostream) (t : List Char)
    (h : Emits lib os0 os t ∧ os.precision = 6) :
    Emits lib os0 (WriteTetGen.holes lib os holes) (t ++ holeSection lib holes) ∧
    (WriteTetGen.holes lib os holes).precision = 6 := by
  cases holes with
  | none =>
    have := step_str lib _ _ _ 6 "0\n" (step_str lib _ _ _ 6 "\n# part 4: region list\n"
      (step_str lib _ _ _ 6 "0\n" (step_str lib _ _ _ 6 "\n# part 3: hole list\n" h)))
    have htext : t ++ holeSection lib none = t ++ "\n# part 3: hole list\n".data ++ "0\n".data ++
        "\n# part 4: region list\n".data ++ "0\n".data := by
      unfold holeSection holeLines
      simp only [joinLines_cons, joinLines_nil, List.append_assoc]
      rfl
    rw [htext]
    exact this
  | some hs =>
    have := step_str lib _ _ _ 6 "0\n" (step_str lib _ _ _ 6 "\n# part 4: region list\n"
      (step_foldl lib (fun (os : ostream) (i : Nat) =>
        let p := hs.getD i (0, 0, 0)
        (((((((os.int lib ((i : Int) + 1)).str lib " ").dbl lib p.1).str lib " ").dbl lib
          p.2.1).str lib " ").dbl lib p.2.2).str lib "\n")
        (fun (i : Nat) => (intText ((i : Int) + 1) ++ ' ' :: lib.formatDouble 6 (hs.getD i (0, 0, 0)).1 ++
          ' ' :: lib.formatDouble 6 (hs.getD i (0, 0, 0)).2.1 ++
          ' ' :: lib.formatDouble 6 (hs.getD i (0, 0, 0)).2.2) ++ ['\n']) 6
        (fun os i hx => by
          have := step_str lib os _ _ 6 "\n" (step_dbl lib os _ _ 6 (hs.getD i (0, 0, 0)).2.2
            (step_str lib os _ _ 6 " " (step_dbl lib os _ _ 6 (hs.getD i (0, 0, 0)).2.1
            (step_str lib os _ _ 6 " " (step_dbl lib os _ _ 6 (hs.getD i (0, 0, 0)).1
            (step_str lib os _ _ 6 " " (step_int lib os os _ 6 ((i : Int) + 1)
            ⟨emits_refl lib os, hx⟩)))))))
          simpa [List.append_assoc] using this)
        (List.range hs.length) _ _ _
        (step_str lib _ _ _ 6 "\n" (step_int lib _ _ _ 6 (hs.length : Nat)
        (step_str lib _ _ _ 6 "\n# part 3: hole list\n" h)))))
    have htext : t ++ holeSection lib (some hs) =
        t ++ "\n# part 3: hole list\n".data ++ intText (hs.length : Nat) ++ "\n".data ++
        ((List.range hs.length).map
          (fun (i : Nat) => (intText ((i : Int) + 1) ++ ' ' :: lib.formatDouble 6 (hs.getD i (0, 0, 0)).1 ++
          ' ' :: lib.formatDouble 6 (hs.getD i (0, 0, 0)).2.1 ++
          ' ' :: lib.formatDouble 6 (hs.getD i (0, 0, 0)).2.2) ++ ['\n'])).flatten ++
        "\n# part 4: region list\n".data ++ "0\n".data := by
      unfold holeSection holeLines
      simp only [joinLines_cons, joinLines_nil, List.append_assoc]
      unfold joinLines
      simp only [List.map_map, List.append_assoc, List.cons_append, List.nil_append,
        Function.comp_def]
    rw [htext]
    exact this

theorem polyFacetCount_eq (polydata : vtkPolyData) :
    (let nfacets : Int := 0
     let nfacets := if polydata.verts.length > 0 then nfacets + 1 else nfacets
     let nfacets := if polydata.lines.length > 0 then nfacets + 1 else nfacets
     let nfacets := if polydata.polys.length > 0 then nfacets + 1 else nfacets
     let nfacets := if polydata.strips.length > 0 then nfacets + 1 else nfacets
     nfacets) = polyFacetCount polydata := by
  unfold polyFacetCount
  cases polydata.verts <;> cases polydata.lines <;> cases polydata.polys <;>
    cases polydata.strips <;> simp

theorem smeshFacetCount_eq (polydata : vtkPolyData) :
    (let nfacets : Int := 0
     let nfacets := if polydata.verts.length > 0 then nfacets + polydata.verts.length else nfacets
     let nfacets := if polydata.lines.length > 0 then nfacets + polydata.lines.length else nfacets
     let nfacets := if polydata.polys.length > 0 then nfacets + polydata.polys.length else nfacets
     let nfacets :=
       if polydata.strips.length > 0 then nfacets + polydata.strips.length else nfacets
     nfacets) = (polydata.cells.length : Nat) := by
  unfold vtkPolyData.cells
  simp only [List.length_append, Nat.cast_add]
  have hz : ∀ (n : Nat) (a : Int), (if n > 0 then a + (n : Int) else a) = a + (n : Int) := by
    intro n a
    by_cases hn : n > 0
    · rw [if_pos hn]
    · have : n = 0 := by omega
      rw [if_neg hn, this]
      simp
  simp only [hz]
  omega

theorem emits_of_not_open (lib : StdLib) (t : List Char) (h : lib.opens = false) :
    Emits lib (ofstream.open lib) (ofstream.open lib) t := by
  refine ⟨fun hf => ?_, fun _ hf => hf⟩
  unfold ofstream.open at hf
  simp [h] at hf

theorem WriteTetGenPoly_emits (lib : StdLib) (polydata : vtkPolyData)
    (holes : Option (List Point)) :
    ∃ ofs : ostream, WriteTetGenPoly lib polydata holes = (!ofs.failed, ofs.text) ∧
      Emits lib (ofstream.open lib) ofs
        (nodeSection lib polydata ++ polyFacetSection polydata ++ holeSection lib holes) := by
  obtain ⟨scan, fmt, opens, accepts⟩ := lib
  cases opens with
  | false => exact ⟨ofstream.open ⟨scan, fmt, false, accepts⟩, rfl, emits_of_not_open _ _ rfl⟩
  | true =>
    refine ⟨_, rfl, ?_⟩
    have h := step_holes _ holes _ _ _
      (step_polyGroup _ "# strips" "# strips\n" polydata.strips rfl _ _ _ 6
      (step_polyGroup _ "# polys" "# polys\n" polydata.polys rfl _ _ _ 6
      (step_polyGroup _ "# lines" "# lines\n" polydata.lines rfl _ _ _ 6
      (step_polyGroup _ "# verts" "# verts\n" polydata.verts rfl _ _ _ 6
      (step_str _ _ _ _ 6 " 0\n" (step_int _ _ _ _ 6
        (let nfacets : Int := 0
         let nfacets := if polydata.verts.length > 0 then nfacets + 1 else nfacets
         let nfacets := if polydata.lines.length > 0 then nfacets + 1 else nfacets
         let nfacets := if polydata.polys.length > 0 then nfacets + 1 else nfacets
         let nfacets := if polydata.strips.length > 0 then nfacets + 1 else nfacets
         nfacets)
      (step_str _ _ _ _ 6 "\n# part 2: facets\n" (step_node _ polydata _ _ _ 6
      (step_str _ _ _ _ 6 "# part 1: nodes\n"
        (step_start ⟨scan, fmt, true, accepts⟩
          (ofstream.open ⟨scan, fmt, true, accepts⟩)))))))))))
    have htext : nodeSection ⟨scan, fmt, true, accepts⟩ polydata ++ polyFacetSection polydata ++
        holeSection ⟨scan, fmt, true, accepts⟩ holes =
        [] ++ "# part 1: nodes\n".data ++ joinLines (nodeLines ⟨scan, fmt, true, accepts⟩ polydata) ++
          "\n# part 2: facets\n".data ++ intText (polyFacetCount polydata) ++ " 0\n".data ++
          joinLines (polyGroup "# verts" polydata.verts) ++
          joinLines (polyGroup "# lines" polydata.lines) ++
          joinLines (polyGroup "# polys" polydata.polys) ++
          joinLines (polyGroup "# strips" polydata.strips) ++
          holeSection ⟨scan, fmt, true, accepts⟩ holes := by
      unfold nodeSection polyFacetSection
      simp only [joinLines_cons, joinLines_append, List.append_assoc, List.nil_append,
        List.cons_append]
    rw [htext, ← polyFacetCount_eq polydata]
    exact h.1

theorem WriteTetGenSMesh_emits (lib : StdLib) (polydata : vtkPolyData)
    (holes : Option (List Point)) :
    ∃ ofs : ostream, WriteTetGenSMesh lib polydata holes = (!ofs.failed, ofs.text) ∧
      Emits lib (ofstream.open lib) ofs
        (nodeSection lib polydata ++ smeshFacetSection polydata ++ holeSection lib holes) := by
  obtain ⟨scan, fmt, opens, accepts⟩ := lib
  cases opens with
  | false => exact ⟨ofstream.open ⟨scan, fmt, false, accepts⟩, rfl, emits_of_not_open _ _ rfl⟩
  | true =>
    refine ⟨_, rfl, ?_⟩
    have h := step_holes _ holes _ _ _
      (step_smeshGroup _ "" polydata.strips _ _ _ 6
      (step_smeshGroup _ " " polydata.polys _ _ _ 6
      (step_smeshGroup _ " " polydata.lines _ _ _ 6
      (step_smeshGroup _ " " polydata.verts _ _ _ 6
      (step_str _ _ _ _ 6 " 0\n" (step_int _ _ _ _ 6
        (let nfacets : Int := 0
         let nfacets :=
           if polydata.verts.length > 0 then nfacets + polydata.verts.length else nfacets
         let nfacets :=
           if polydata.lines.length > 0 then nfacets + polydata.lines.length else nfacets
         let nfacets :=
           if polydata.polys.length > 0 then nfacets + polydata.polys.length else nfacets
         let nfacets :=
           if polydata.strips.length > 0 then nfacets + polydata.strips.length else nfacets
         nfacets)
      (step_str _ _ _ _ 6 "\n# part 2: facets\n" (step_node _ polydata _ _ _ 6
      (step_str _ _ _ _ 6 "# part 1: nodes\n"
        (step_start ⟨scan, fmt, true, accepts⟩
          (ofstream.open ⟨scan, fmt, true, accepts⟩)))))))))))
    have htext : nodeSection ⟨scan, fmt, true, accepts⟩ polydata ++ smeshFacetSection polydata ++
        holeSection ⟨scan, fmt, true, accepts⟩ holes =
        [] ++ "# part 1: nodes\n".data ++ joinLines (nodeLines ⟨scan, fmt, true, accepts⟩ polydata) ++
          "\n# part 2: facets\n".data ++ intText (polydata.cells.length : Nat) ++ " 0\n".data ++
          joinLines (polydata.verts.map (tetCellLine " ".data)) ++
          joinLines (polydata.lines.map (tetCellLine " ".data)) ++
          joinLines (polydata.polys.map (tetCellLine " ".data)) ++
          joinLines (polydata.strips.map (tetCellLine "".data)) ++
          holeSection ⟨scan, fmt, true, accepts⟩ holes := by
      unfold nodeSection smeshFacetSection
      simp only [joinLines_cons, joinLines_append, List.append_assoc, List.nil_append,
        List.cons_append]
    rw [htext, ← smeshFacetCount_eq polydata]
    exact h.1

/-! ## Lines and fields -/

theorem fieldsAux_token (tok : List Char) (htok : ∀ c ∈ tok, isspace c = false) :
    ∀ (rest cur : List Char), fieldsAux (tok ++ rest) cur = fieldsAux rest (cur ++ tok) := by
  induction tok with
  | nil => intro rest cur; simp
  | cons c tok ih =>
    intro rest cur
    have hc : isspace c = false := htok c (List.mem_cons_self _ _)
    rw [List.cons_append, fieldsAux]
    simp only [hc, Bool.false_eq_true, if_false]
    rw [ih (fun c' hc' => htok c' (List.mem_cons_of_mem _ hc')), List.append_assoc]
    rfl

theorem fieldsAux_space (c : Char) (hc : isspace c = true) (rest cur : List Char)
    (hcur : cur ≠ []) : fieldsAux (c :: rest) cur = cur :: fieldsAux rest [] := by
  rw [fieldsAux]
  simp only [hc, if_true]
  rw [if_neg]
  simpa using hcur

theorem fieldsAux_skip (ws : List Char) (hws : ∀ c ∈ ws, isspace c = true) (rest : List Char) :
    fieldsAux (ws ++ rest) [] = fieldsAux rest [] := by
  induction ws with
  | nil => rfl
  | cons c ws ih =>
    rw [List.cons_append, fieldsAux]
    simp only [hws c (List.mem_cons_self _ _), if_true, List.isEmpty_nil]
    exact ih (fun c' hc' => hws c' (List.mem_cons_of_mem _ hc'))

theorem fieldsAux_spaced :
    ∀ (toks : List (List Char)), (∀ t ∈ toks, t ≠ [] ∧ ∀ c ∈ t, isspace c = false) →
      ∀ cur : List Char, cur ≠ [] → fieldsAux (spaced toks) cur = cur :: toks
  | [], _, cur, hcur => by
    rw [spaced_nil, fieldsAux]
    rw [if_neg]
    simpa using hcur
  | t :: toks, h, cur, hcur => by
    obtain ⟨ht1, ht2⟩ := h t (List.mem_cons_self _ _)
    rw [spaced_cons, List.cons_append, fieldsAux_space ' ' (by decide) _ cur hcur,
      fieldsAux_token t ht2, List.nil_append,
      fieldsAux_spaced toks (fun t' ht' => h t' (List.mem_cons_of_mem _ ht')) t ht1]

theorem fields_spaced (toks : List (List Char))
    (h : ∀ t ∈ toks, t ≠ [] ∧ ∀ c ∈ t, isspace c = false) : fields (spaced toks) = toks := by
  unfold fields
  cases toks with
  | nil => rfl
  | cons t toks =>
    obtain ⟨ht1, ht2⟩ := h t (List.mem_cons_self _ _)
    have hskip := fieldsAux_skip [' '] (by decide) (t ++ spaced toks)
    rw [spaced_cons, List.cons_append]
    rw [List.singleton_append] at hskip
    rw [hskip, fieldsAux_token t ht2, List.nil_append,
      fieldsAux_spaced toks (fun t' ht' => h t' (List.mem_cons_of_mem _ ht')) t ht1]

/-- The fields of a line that starts with a field, goes on with whitespace and
then with fields that each follow one space. -/
theorem fields_first_spaced (tok sep : List Char) (toks : List (List Char))
    (htok : tok ≠ [] ∧ ∀ c ∈ tok, isspace c = false) (hsep : ∀ c ∈ sep, isspace c = true)
    (h : ∀ t ∈ toks, t ≠ [] ∧ ∀ c ∈ t, isspace c = false) :
    fields (tok ++ sep ++ spaced toks) = tok :: toks := by
  unfold fields
  rw [List.append_assoc, fieldsAux_token tok htok.2, List.nil_append]
  cases sep with
  | nil => exact fieldsAux_spaced toks h tok htok.1
  | cons c sep =>
    rw [List.cons_append, fieldsAux_space c (hsep c (List.mem_cons_self _ _)) _ tok htok.1,
      fieldsAux_skip sep (fun c' hc' => hsep c' (List.mem_cons_of_mem _ hc'))]
    exact congrArg _ (fields_spaced toks h)

theorem fields_head (tok rest : List Char) (htok : tok ≠ [] ∧ ∀ c ∈ tok, isspace c = false) :
    (fields (tok ++ ' ' :: rest)).head? = some tok := by
  unfold fields
  rw [fieldsAux_token tok htok.2, List.nil_append, fieldsAux_space ' ' (by decide) _ tok htok.1]
  rfl

theorem count_joinLines (lines : List (List Char)) (h : ∀ l ∈ lines, '\n' ∉ l) :
    (joinLines lines).count '\n' = lines.length := by
  induction lines with
  | nil => rfl
  | cons l lines ih =>
    rw [joinLines_cons, List.count_append, List.count_cons_self,
      ih (fun l' hl' => h l' (List.mem_cons_of_mem _ hl')),
      List.count_eq_zero_of_not_mem (h l (List.mem_cons_self _ _)), List.length_cons]
    omega

theorem no_newline_of_not_isspace (l : List Char) (h : ∀ c ∈ l, isspace c = false) :
    '\n' ∉ l := by
  intro hmem
  have := h '\n' hmem
  revert this
  decide

theorem intText_field (n : Int) : intText n ≠ [] ∧ ∀ c ∈ intText n, isspace c = false :=
  ⟨intText_ne_nil n, intText_not_isspace n⟩

/-! ## TetGen node writer -/

theorem written_of_emits (lib : StdLib) (os1 os2 : ostream) (t : List Char)
    (h : Emits lib os1 os2 t) (haccepts : ∀ a b, lib.accepts a b = true)
    (hos : os1.failed = false) : os2.failed = false ∧ os2.text = os1.text ++ t :=
  ⟨h.2 haccepts hos, (h.1 (h.2 haccepts hos)).2⟩

theorem nodePoint_fields_ok (lib : StdLib) (pointset : vtkPolyData) (ptId : Nat)
    (hfields : lib.printsFields) :
    ∀ t ∈ [lib.formatDouble 8 (pointset.GetPoint ptId).1,
        lib.formatDouble 8 (pointset.GetPoint ptId).2.1,
        lib.formatDouble 8 (pointset.GetPoint ptId).2.2] ++ nodeAttributes lib pointset ptId,
      t ≠ [] ∧ ∀ c ∈ t, isspace c = false := by
  intro t ht
  rcases List.mem_append.mp ht with ht | ht
  · simp only [List.mem_cons, List.mem_singleton, List.not_mem_nil, or_false] at ht
    rcases ht with rfl | rfl | rfl <;> exact hfields _ _
  · unfold nodeAttributes at ht
    simp only [List.mem_flatten, List.mem_map] at ht
    obtain ⟨l, ⟨ar, _, rfl⟩, ht⟩ := ht
    obtain ⟨j, _, rfl⟩ := List.mem_map.mp ht
    exact hfields _ _

theorem nodePointLine_fields (lib : StdLib) (pointset : vtkPolyData) (ptId : Nat)
    (hfields : lib.printsFields) :
    fields (nodePointLine lib pointset ptId) =
      intText ((ptId : Int) + 1) ::
        ([lib.formatDouble 8 (pointset.GetPoint ptId).1,
          lib.formatDouble 8 (pointset.GetPoint ptId).2.1,
          lib.formatDouble 8 (pointset.GetPoint ptId).2.2] ++ nodeAttributes lib pointset ptId) := by
  have := fields_first_spaced (intText ((ptId : Int) + 1)) [' '] _ (intText_field _)
    (by decide) (nodePoint_fields_ok lib pointset ptId hfields)
  rw [List.append_assoc] at this
  exact this

theorem spaced_no_newline (toks : List (List Char))
    (h : ∀ t ∈ toks, t ≠ [] ∧ ∀ c ∈ t, isspace c = false) : '\n' ∉ spaced toks := by
  unfold spaced
  intro hmem
  obtain ⟨l, hl, hc⟩ := List.mem_flatten.mp hmem
  obtain ⟨t, ht, rfl⟩ := List.mem_map.mp hl
  rcases List.mem_cons.mp hc with hc | hc
  · revert hc; decide
  · exact no_newline_of_not_isspace t (h t ht).2 hc

theorem nodeLines_no_newline (lib : StdLib) (pointset : vtkPolyData)
    (hfields : lib.printsFields) : ∀ l ∈ nodeLines lib pointset, '\n' ∉ l := by
  intro l hl
  unfold nodeLines at hl
  rcases List.mem_cons.mp hl with rfl | hl
  · unfold nodeHeader
    intro hmem
    simp only [List.mem_append] at hmem
    rcases hmem with ((hmem | hmem) | hmem) | hmem
    · exact no_newline_of_not_isspace _ (intText_not_isspace _) hmem
    · revert hmem; decide
    · exact no_newline_of_not_isspace _ (intText_not_isspace _) hmem
    · revert hmem; decide
  · obtain ⟨ptId, _, rfl⟩ := List.mem_map.mp hl
    unfold nodePointLine
    intro hmem
    rcases List.mem_append.mp hmem with hmem | hmem
    · exact no_newline_of_not_isspace _ (intText_not_isspace _) hmem
    · rcases List.mem_cons.mp hmem with hmem | hmem
      · revert hmem; decide
      · exact spaced_no_newline _ (nodePoint_fields_ok lib pointset ptId hfields) hmem

/-- C26: on a stream that has not failed, with a device that accepts all output
and numbers printed without line break, the TetGen node writer returns `true`
and appends exactly `P + 1` lines, each ended by a line break and without a
line break inside: the header line and then one line per point in the order
of the point IDs, and the first field of the line of point `i` is `i + 1`. -/
theorem C26_node_writer_lines (lib : StdLib) (os : ostream) (pointset : vtkPolyData)
    (haccepts : ∀ a b, lib.accepts a b = true) (hos : os.failed = false)
    (hfields : lib.printsFields) :
    (WriteTetGenNode lib os pointset).1 = true ∧
    (WriteTetGenNode lib os pointset).2.text = os.text ++
      joinLines (nodeHeader pointset ::
        (List.range pointset.points.length).map (nodePointLine lib pointset)) ∧
    (nodeHeader pointset ::
      (List.range pointset.points.length).map (nodePointLine lib pointset)).length
        = pointset.points.length + 1 ∧
    (∀ l ∈ nodeHeader pointset ::
      (List.range pointset.points.length).map (nodePointLine lib pointset), '\n' ∉ l) ∧
    (joinLines (nodeHeader pointset ::
      (List.range pointset.points.length).map (nodePointLine lib pointset))).count '\n'
        = pointset.points.length + 1 ∧
    (∀ ptId, (fields (nodePointLine lib pointset ptId)).head? =
      some (intText ((ptId : Int) + 1))) := by
  obtain ⟨hemit, _, hres⟩ := WriteTetGenNode_emits lib os pointset
  obtain ⟨hf, ht⟩ := written_of_emits lib _ _ _ hemit haccepts hos
  have hnl := nodeLines_no_newline lib pointset hfields
  refine ⟨by rw [hres, hf]; rfl, ht, by simp, hnl, ?_, ?_⟩
  · have := count_joinLines _ hnl
    simpa [nodeLines] using this
  · intro ptId
    unfold nodePointLine
    exact fields_head _ _ (intText_field _)

/-- Witness of C26: the four points of the example mesh give five lines. -/
theorem C26_node_writer_witness :
    (WriteTetGenNode exLib (ofstream.open exLib) (exMesh [] [])).2.text
      = "4 3 0 0\n1  0 0 0\n2  1 0 0\n3  0 1 0\n4  1 1 0\n".data ∧
    ("4 3 0 0\n1  0 0 0\n2  1 0 0\n3  0 1 0\n4  1 1 0\n".data).count '\n' = 4 + 1 :=
  ⟨(C26_node_writer_lines exLib (ofstream.open exLib) (exMesh [] []) (fun _ _ => rfl) rfl
      (fun _ x => ⟨(intText_field x.num).1, (intText_field x.num).2⟩)).2.1.trans (by decide),
   by decide⟩

theorem sum_toNat :
    ∀ l : List Int, (∀ a ∈ l, 0 ≤ a) → 0 ≤ l.sum ∧ (l.map Int.toNat).sum = l.sum.toNat
  | [], _ => ⟨Int.le_refl 0, rfl⟩
  | a :: l, h => by
    obtain ⟨h1, h2⟩ := sum_toNat l (fun b hb => h b (List.mem_cons_of_mem _ hb))
    have ha := h a (List.mem_cons_self _ _)
    rw [List.sum_cons, List.map_cons, List.sum_cons, h2]
    exact ⟨Int.add_nonneg ha h1, (Int.toNat_add ha h1).symm⟩

theorem nodeAttributes_length (lib : StdLib) (pointset : vtkPolyData) (ptId : Nat)
    (hncomp : ∀ ar ∈ pointset.pointData.arrays, 0 ≤ ar.ncomp) :
    (nodeAttributes lib pointset ptId).length = (nodeAttributeCount pointset).toNat := by
  unfold nodeAttributes nodeAttributeCount
  rw [List.length_flatten, List.map_map]
  have := (sum_toNat (pointset.pointData.arrays.map (fun ar => ar.ncomp)) (by
    intro a ha
    obtain ⟨ar, har, rfl⟩ := List.mem_map.mp ha
    exact hncomp ar har)).2
  rw [← this, List.map_map]
  congr 1
  apply List.map_congr_left
  intro ar _
  simp

/-- C27: when numbers are printed as fields and no array has a negative number
of components, the header line of the TetGen node writer has the four fields
`P`, `3`, `A`, `0`, where `A` is the sum of the numbers of components of the
point data arrays, and the line of every point has the `1 + 3 + A` fields point
ID plus one, the three coordinates, and every component of every array in the
order of the arrays; these are the lines that the writer appends. -/
theorem C27_node_writer_fields (lib : StdLib) (pointset : vtkPolyData)
    (hfields : lib.printsFields)
    (hncomp : ∀ ar ∈ pointset.pointData.arrays, 0 ≤ ar.ncomp) :
    fields (nodeHeader pointset) =
      [intText pointset.points.length, "3".data,
       intText ((pointset.pointData.arrays.map (fun (ar : vtkDataArray) => ar.ncomp)).sum), "0".data] ∧
    (∀ ptId, fields (nodePointLine lib pointset ptId) =
      intText ((ptId : Int) + 1) ::
        ([lib.formatDouble 8 (pointset.GetPoint ptId).1,
          lib.formatDouble 8 (pointset.GetPoint ptId).2.1,
          lib.formatDouble 8 (pointset.GetPoint ptId).2.2] ++
         (pointset.pointData.arrays.map (fun (ar : vtkDataArray) =>
            (List.range ar.ncomp.toNat).map (fun j =>
              lib.formatDouble 5 (ar.GetComponent ptId j)))).flatten)) ∧
    (∀ ptId, (fields (nodePointLine lib pointset ptId)).length =
      1 + 3 + ((pointset.pointData.arrays.map (fun (ar : vtkDataArray) => ar.ncomp)).sum).toNat) ∧
    (∀ os : ostream, (∀ a b, lib.accepts a b = true) → os.failed = false →
      (WriteTetGenNode lib os pointset).2.text = os.text ++
        joinLines (nodeHeader pointset ::
          (List.range pointset.points.length).map (nodePointLine lib pointset))) := by
  refine ⟨?_, fun ptId => nodePointLine_fields lib pointset ptId hfields, ?_, ?_⟩
  · have := fields_first_spaced (intText pointset.points.length) []
      ["3".data, intText (nodeAttributeCount pointset), "0".data] (intText_field _)
      (fun _ h => absurd h (List.not_mem_nil _)) (by
        intro t ht
        simp only [List.mem_cons, List.mem_singleton, List.not_mem_nil, or_false] at ht
        rcases ht with rfl | rfl | rfl
        · exact ⟨by decide, by decide⟩
        · exact intText_field _
        · exact ⟨by decide, by decide⟩)
    have htext : nodeHeader pointset = intText pointset.points.length ++ [] ++
        spaced ["3".data, intText (nodeAttributeCount pointset), "0".data] := by
      unfold nodeHeader
      simp only [spaced_cons, spaced_nil, List.append_nil, List.append_assoc]
      rfl
    rw [htext]
    exact this
  · intro ptId
    rw [nodePointLine_fields lib pointset ptId hfields, List.length_cons, List.length_append,
      nodeAttributes_length lib pointset ptId hncomp]
    unfold nodeAttributeCount
    simp only [List.length_cons, List.length_nil]
    omega
  · intro os haccepts hos
    exact (written_of_emits lib _ _ _ (WriteTetGenNode_emits lib os pointset).1 haccepts hos).2

/-- Witness of C27: a point data array of two components gives two more fields
on every point line and the attribute count two. -/
theorem C27_node_writer_witness :
    fields (nodeHeader exCellMesh) = ["4".data, "3".data, "2".data, "0".data] ∧
    fields (nodePointLine exLib exCellMesh 1)
      = ["2".data, "1".data, "0".data, "0".data, "3".data, "4".data] :=
  ⟨(C27_node_writer_fields exLib exCellMesh
      (fun _ x => ⟨(intText_field x.num).1, (intText_field x.num).2⟩) (by decide)).1.trans
      (by decide),
   ((C27_node_writer_fields exLib exCellMesh
      (fun _ x => ⟨(intText_field x.num).1, (intText_field x.num).2⟩) (by decide)).2.1 1).trans
      (by decide)⟩

/-! ## TetGen poly and smesh writers -/

theorem tetCellLine_fields (sep : List Char) (hsep : ∀ c ∈ sep, isspace c = true)
    (pts : List Int) :
    fields (tetCellLine sep pts) = intText pts.length :: pts.map (fun id => intText (id + 1)) := by
  unfold tetCellLine
  apply fields_first_spaced _ sep _ (intText_field _) hsep
  intro t ht
  obtain ⟨id, _, rfl⟩ := List.mem_map.mp ht
  exact intText_field _

theorem result_of_healthy (lib : StdLib) (ofs : ostream) (r : Bool × List Char)
    (t : List Char) (hr : r = (!ofs.failed, ofs.text))
    (h : Emits lib (ofstream.open lib) ofs t) (hh : lib.healthy) : r = (true, t) :=
  (result_of_emits lib ofs r t hr h).1 hh

/-- C28: on a library where the file opens and the device accepts all output,
the file that `WriteTetGenPoly` writes is the node section, the facet section
and the hole section. The facet section declares as facet count the number of
non-empty groups among vertices, lines, polygons and triangle strips; the
non-empty groups follow in that order, each as its comment line, the line of
its number of cells, and one line per cell; an empty group has no line. The
fields of a cell line are the number of points and each point ID plus one. -/
theorem C28_poly_facet_section (lib : StdLib) (polydata : vtkPolyData)
    (holes : Option (List Point)) (hhealthy : lib.healthy) :
    WriteTetGenPoly lib polydata holes =
      (true, nodeSection lib polydata ++
        ("\n# part 2: facets\n".data ++
          joinLines ((intText (polyFacetCount polydata) ++ " 0".data) ::
            (polyGroup "# verts" polydata.verts ++ polyGroup "# lines" polydata.lines ++
             polyGroup "# polys" polydata.polys ++ polyGroup "# strips" polydata.strips))) ++
        holeSection lib holes) ∧
    polyFacetCount polydata =
      (([polydata.verts, polydata.lines, polydata.polys, polydata.strips].filter
        (fun g => !g.isEmpty)).length : Nat) ∧
    (∀ comment : String, polyGroup comment [] = []) ∧
    (∀ (comment : String) (cells : List (List Int)), cells ≠ [] →
      polyGroup comment cells =
        comment.data :: intText cells.length :: cells.map (tetCellLine [' '])) ∧
    (∀ pts : List Int, fields (tetCellLine [' '] pts) =
      intText pts.length :: pts.map (fun id => intText (id + 1))) := by
  obtain ⟨ofs, hr, h⟩ := WriteTetGenPoly_emits lib polydata holes
  refine ⟨result_of_healthy lib ofs _ _ hr h hhealthy, rfl, fun _ => rfl, ?_,
    tetCellLine_fields [' '] (by decide)⟩
  intro comment cells hne
  cases cells with
  | nil => exact absurd rfl hne
  | cons c cs => rfl

/-- Witness of C28: a mesh with a vertex, a line, a triangle and a strip has
four facets; a mesh with two triangles only has one. -/
theorem C28_poly_facet_witness :
    polyFacetCount exCellMesh = 4 ∧
    (WriteTetGenPoly exLib (exMesh [[0, 1, 2], [1, 2, 3]] []) none).2 =
      ("# part 1: nodes\n4 3 0 0\n1  0 0 0\n2  1 0 0\n3  0 1 0\n4  1 1 0\n" ++
       "\n# part 2: facets\n1 0\n# polys\n2\n3  1 2 3\n3  2 3 4\n" ++
       "\n# part 3: hole list\n0\n\n# part 4: region list\n0\n").data :=
  ⟨by decide,
   (congrArg Prod.snd (C28_poly_facet_section exLib (exMesh [[0, 1, 2], [1, 2, 3]] []) none
      ⟨rfl, fun _ _ => rfl⟩).1).trans (by decide)⟩

theorem holeLine_fields (lib : StdLib) (hfields : lib.printsFields) (n : Int) (p : Point) :
    fields (intText n ++ ' ' :: lib.formatDouble 6 p.1 ++ ' ' :: lib.formatDouble 6 p.2.1 ++
      ' ' :: lib.formatDouble 6 p.2.2) =
      [intText n, lib.formatDouble 6 p.1, lib.formatDouble 6 p.2.1, lib.formatDouble 6 p.2.2] := by
  have := fields_first_spaced (intText n) []
    [lib.formatDouble 6 p.1, lib.formatDouble 6 p.2.1, lib.formatDouble 6 p.2.2]
    (intText_field _) (fun _ h => absurd h (List.not_mem_nil _)) (by
      intro t ht
      simp only [List.mem_cons, List.mem_singleton, List.not_mem_nil, or_false] at ht
      rcases ht with rfl | rfl | rfl <;> exact hfields _ _)
  simp only [spaced_cons, spaced_nil, List.append_nil, List.append_assoc,
    List.cons_append] at this ⊢
  exact this

/-- C29: on a library where the file opens, the device accepts all output and
numbers are printed as fields, the files of `WriteTetGenPoly` and
`WriteTetGenSMesh` end with the hole list and region list sections. For a
hole list of `H` points the hole list section is the line `H` and `H` lines,
the line of hole `i` (from zero) with the fields `i + 1`, `x`, `y`, `z`; without
a hole list it is the line `0`, as for an empty hole list. The region list
section is the single line `0`. -/
theorem C29_hole_and_region_sections (lib : StdLib) (polydata : vtkPolyData)
    (holes : Option (List Point)) (hhealthy : lib.healthy) (hfields : lib.printsFields) :
    (∃ pre, (WriteTetGenPoly lib polydata holes).2 = pre ++
      ("\n# part 3: hole list\n".data ++ joinLines (holeLines lib holes) ++
        "\n# part 4: region list\n".data ++ joinLines ["0".data])) ∧
    (∃ pre, (WriteTetGenSMesh lib polydata holes).2 = pre ++
      ("\n# part 3: hole list\n".data ++ joinLines (holeLines lib holes) ++
        "\n# part 4: region list\n".data ++ joinLines ["0".data])) ∧
    holeLines lib none = ["0".data] ∧
    holeLines lib (some []) = holeLines lib none ∧
    (∀ hs : List Point, ∃ lines, holeLines lib (some hs) = intText hs.length :: lines ∧
      lines.length = hs.length ∧
      ∀ i p, hs.get? i = some p → ∃ l, lines.get? i = some l ∧
        fields l = [intText ((i : Int) + 1), lib.formatDouble 6 p.1, lib.formatDouble 6 p.2.1,
          lib.formatDouble 6 p.2.2]) := by
  obtain ⟨ofs, hr, h⟩ := WriteTetGenPoly_emits lib polydata holes
  obtain ⟨ofs2, hr2, h2⟩ := WriteTetGenSMesh_emits lib polydata holes
  refine ⟨⟨_, congrArg Prod.snd (result_of_healthy lib ofs _ _ hr h hhealthy)⟩,
    ⟨_, congrArg Prod.snd (result_of_healthy lib ofs2 _ _ hr2 h2 hhealthy)⟩, rfl, rfl, ?_⟩
  intro hs
  refine ⟨_, rfl, by simp, ?_⟩
  intro i p hp
  have hi : i < hs.length := by
    rcases Nat.lt_or_ge i hs.length with hi | hi
    · exact hi
    · rw [List.get?_eq_none.mpr hi] at hp
      exact Option.noConfusion hp
  have hget : hs.getD i (0, 0, 0) = p := by
    rw [List.getD_eq_getElem?_getD, ← List.get?_eq_getElem?, hp]
    rfl
  refine ⟨_, ?_, holeLine_fields lib hfields ((i : Int) + 1) p⟩
  rw [List.get?_eq_getElem?, List.getElem?_map, List.getElem?_range hi, Option.map_some', hget]

/-- Witness of C29: one hole, and no hole list. -/
theorem C29_hole_sections_witness :
    (∃ pre, (WriteTetGenPoly exLib (exMesh [[0, 1, 2]] []) (some [(1, 1, 1)])).2 = pre ++
      "\n# part 3: hole list\n1\n1 1 1 1\n\n# part 4: region list\n0\n".data) ∧
    (∃ pre, (WriteTetGenSMesh exLib (exMesh [[0, 1, 2]] []) none).2 = pre ++
      "\n# part 3: hole list\n0\n\n# part 4: region list\n0\n".data) :=
  ⟨(C29_hole_and_region_sections exLib (exMesh [[0, 1, 2]] []) (some [(1, 1, 1)])
      ⟨rfl, fun _ _ => rfl⟩
      (fun _ x => ⟨(intText_field x.num).1, (intText_field x.num).2⟩)).1,
   (C29_hole_and_region_sections exLib (exMesh [[0, 1, 2]] []) none ⟨rfl, fun _ _ => rfl⟩
      (fun _ x => ⟨(intText_field x.num).1, (intText_field x.num).2⟩)).2.1⟩

/-- C30: on a library where the file opens and the device accepts all output,
the file that `WriteTetGenSMesh` writes is the node section, the facet section
and the hole section, with the node and hole sections of `WriteTetGenPoly` for
the same mesh and hole list. The facet section declares the total number of
cells and holds exactly one line per cell, the vertices first, then the lines,
the polygons and the triangle strips, without comment or count lines; the
fields of each line are the number of points and each point ID plus one. -/
theorem C30_smesh_facet_section (lib : StdLib) (polydata : vtkPolyData)
    (holes : Option (List Point)) (hhealthy : lib.healthy) :
    WriteTetGenSMesh lib polydata holes =
      (true, nodeSection lib polydata ++
        ("\n# part 2: facets\n".data ++
          joinLines ((intText polydata.cells.length ++ " 0".data) ::
            (polydata.verts.map (tetCellLine [' ']) ++ polydata.lines.map (tetCellLine [' ']) ++
             polydata.polys.map (tetCellLine [' ']) ++ polydata.strips.map (tetCellLine [])))) ++
        holeSection lib holes) ∧
    (polydata.verts.map (tetCellLine [' ']) ++ polydata.lines.map (tetCellLine [' ']) ++
      polydata.polys.map (tetCellLine [' ']) ++ polydata.strips.map (tetCellLine [])).length
        = polydata.cells.length ∧
    polydata.cells.length = polydata.verts.length + polydata.lines.length +
      polydata.polys.length + polydata.strips.length ∧
    (∀ pts : List Int, fields (tetCellLine [' '] pts) =
      intText pts.length :: pts.map (fun id => intText (id + 1))) ∧
    (∀ pts : List Int, fields (tetCellLine [] pts) =
      intText pts.length :: pts.map (fun id => intText (id + 1))) ∧
    (∃ facets, WriteTetGenPoly lib polydata holes =
      (true, nodeSection lib polydata ++ facets ++ holeSection lib holes)) := by
  obtain ⟨ofs, hr, h⟩ := WriteTetGenSMesh_emits lib polydata holes
  obtain ⟨ofs2, hr2, h2⟩ := WriteTetGenPoly_emits lib polydata holes
  refine ⟨result_of_healthy lib ofs _ _ hr h hhealthy, ?_, ?_,
    tetCellLine_fields [' '] (by decide),
    tetCellLine_fields [] (fun _ hc => absurd hc (List.not_mem_nil _)),
    ⟨_, result_of_healthy lib ofs2 _ _ hr2 h2 hhealthy⟩⟩
  · simp [vtkPolyData.cells]
  · simp only [vtkPolyData.cells, List.length_append]

/-- Witness of C30: a vertex, a line, a triangle and a strip give four facet
lines. -/
theorem C30_smesh_facet_witness :
    (WriteTetGenSMesh exLib { exCellMesh with pointData := vtkPointData.New } none).2 =
      ("# part 1: nodes\n4 3 0 0\n1  0 0 0\n2  1 0 0\n3  0 1 0\n4  1 1 0\n" ++
       "\n# part 2: facets\n4 0\n1  4\n2  1 2\n3  1 2 3\n4 1 2 3 4\n" ++
       "\n# part 3: hole list\n0\n\n# part 4: region list\n0\n").data :=
  (congrArg Prod.snd (C30_smesh_facet_section exLib
    { exCellMesh with pointData := vtkPointData.New } none ⟨rfl, fun _ _ => rfl⟩).1).trans
    (by decide)

/-! ## Reading fields -/

theorem dropWhile_spaces (ws l : List Char) (hws : ∀ c ∈ ws, isspace c = true) :
    (ws ++ l).dropWhile isspace = l.dropWhile isspace := by
  induction ws with
  | nil => rfl
  | cons c ws ih =>
    rw [List.cons_append, List.dropWhile_cons, hws c (List.mem_cons_self _ _)]
    exact ih (fun c' hc' => hws c' (List.mem_cons_of_mem _ hc'))

theorem takeWhile_append_of_boundary (p : Char → Bool) (t rest : List Char)
    (ht : ∀ c ∈ t, p c = true) (hrest : rest = [] ∨ ∃ c cs, rest = c :: cs ∧ p c = false) :
    (t ++ rest).takeWhile p = t ∧ (t ++ rest).dropWhile p = rest := by
  induction t with
  | nil =>
    rcases hrest with rfl | ⟨c, cs, rfl, hc⟩
    · exact ⟨rfl, rfl⟩
    · simp [List.takeWhile_cons, List.dropWhile_cons, hc]
  | cons c t ih =>
    have hc := ht c (List.mem_cons_self _ _)
    obtain ⟨h1, h2⟩ := ih (fun c' hc' => ht c' (List.mem_cons_of_mem _ hc'))
    rw [List.cons_append, List.takeWhile_cons, List.dropWhile_cons, hc]
    exact ⟨by rw [if_pos rfl, h1], by rw [if_pos rfl, h2]⟩

theorem sentry_field (ws t rest : List Char) (hws : ∀ c ∈ ws, isspace c = true)
    (c : Char) (cs : List Char) (ht : t = c :: cs) (hc : isspace c = false) :
    (streamAt (ws ++ t ++ rest)).sentry =
      ({ buf := t ++ rest, eofbit := false, failbit := false }, true) := by
  subst ht
  have hne : (ws ++ (c :: cs) ++ rest).isEmpty = false := by
    cases ws <;> rfl
  have hdrop : (ws ++ (c :: cs) ++ rest).dropWhile isspace = c :: cs ++ rest := by
    rw [List.append_assoc, dropWhile_spaces ws _ hws, List.cons_append, List.dropWhile_cons, hc]
    rfl
  unfold istream.sentry streamAt istream.good
  simp only [hne, Bool.not_false, Bool.and_self, if_true, hdrop]
  rfl

theorem boundary_not (p : Char → Bool) (hp : ∀ c, isspace c = true → p c = false)
    (rest : List Char) (h : atBoundary rest) :
    rest = [] ∨ ∃ c cs, rest = c :: cs ∧ p c = false := by
  rcases h with h | ⟨c, cs, h, hc⟩
  · exact Or.inl h
  · exact Or.inr ⟨c, cs, h, hp c hc⟩

theorem isDigit_not_space (c : Char) (h : isspace c = true) : c.isDigit = false := by
  cases hd : c.isDigit
  · rfl
  · rw [not_isspace_of_isDigit c hd] at h
    exact Bool.noConfusion h

theorem readString_keyword (text rest : List Char) (str : String)
    (h : KeywordField text rest) :
    ∃ t, (t = "OFF".data ∨ t = "off".data) ∧
      (streamAt text).readString str = (streamAt rest, String.mk t) := by
  obtain ⟨ws, t, rfl, hws, ht, hrest⟩ := h
  refine ⟨t, ht, ?_⟩
  have hnospace : ∀ c ∈ t, (fun c => !isspace c) c = true := by
    rcases ht with rfl | rfl <;> decide
  obtain ⟨c, cs, htc, hc⟩ : ∃ c cs, t = c :: cs ∧ isspace c = false := by
    rcases ht with rfl | rfl
    · exact ⟨_, _, rfl, by decide⟩
    · exact ⟨_, _, rfl, by decide⟩
  obtain ⟨h1, h2⟩ := takeWhile_append_of_boundary (fun c => !isspace c) t rest hnospace
    (boundary_not _ (fun c hc => by simp [hc]) rest hrest)
  unfold istream.readString
  rw [sentry_field ws t rest hws c cs htc hc]
  simp only [h1, h2]
  rfl

theorem readInt_field (v : Int) (text rest : List Char) (old : Int)
    (h : IntField v text rest) :
    (streamAt text).readInt old = (streamAt rest, v) := by
  obtain ⟨ws, t, rfl, hws, ⟨hlo, hhi, digits, hne, hdig, hform⟩, hrest⟩ := h
  obtain ⟨d, ds, rfl⟩ : ∃ d ds, digits = d :: ds := by
    cases digits with
    | nil => exact absurd rfl hne
    | cons d ds => exact ⟨d, ds, rfl⟩
  have hd : d.isDigit = true := hdig d (List.mem_cons_self _ _)
  obtain ⟨h1, h2⟩ := takeWhile_append_of_boundary Char.isDigit (d :: ds) rest hdig
    (boundary_not _ isDigit_not_space rest hrest)
  have hlo' : ¬ v < -2 ^ 31 := not_lt.mpr hlo
  have hhi' : ¬ v > 2 ^ 31 - 1 := not_lt.mpr hhi
  rcases hform with ⟨rfl, hv⟩ | ⟨rfl, hv⟩ | ⟨rfl, hv⟩
  · have hminus : ((d :: ds ++ rest).head? == some '-') = false := by
      have : d ≠ '-' := by rintro rfl; revert hd; decide
      simpa using this
    have hplus : ((d :: ds ++ rest).head? == some '+') = false := by
      have : d ≠ '+' := by rintro rfl; revert hd; decide
      simpa using this
    unfold istream.readInt
    rw [sentry_field ws (d :: ds) rest hws d ds rfl (not_isspace_of_isDigit d hd)]
    simp only [hminus, hplus, Bool.false_eq_true, or_self, if_false, h1, h2,
      List.isEmpty_cons, ← hv, if_neg hlo', if_neg hhi']
    rfl
  · have hminus : (('+' :: d :: (ds ++ rest)).head? == some '-') = false := rfl
    have hplus : (('+' :: d :: (ds ++ rest)).head? == some '+') = true := rfl
    rw [List.cons_append] at h1 h2
    unfold istream.readInt
    rw [sentry_field ws ('+' :: d :: ds) rest hws '+' (d :: ds) rfl (by decide)]
    simp only [List.cons_append, hminus, hplus, Bool.false_eq_true, or_true, if_true, if_false,
      List.tail_cons, h1, h2, List.isEmpty_cons, ← hv, if_neg hlo', if_neg hhi']
    rfl
  · have hminus : (('-' :: d :: (ds ++ rest)).head? == some '-') = true := rfl
    rw [List.cons_append] at h1 h2
    unfold istream.readInt
    rw [sentry_field ws ('-' :: d :: ds) rest hws '-' (d :: ds) rfl (by decide)]
    simp only [List.cons_append, hminus, true_or, if_true, List.tail_cons, h1, h2,
      List.isEmpty_cons, Bool.false_eq_true, if_false, ← hv, if_neg hlo', if_neg hhi']
    rfl

theorem readDouble_field (lib : StdLib) (x : Rat) (text rest : List Char) (old : Rat)
    (h : DoubleField lib x text rest) :
    (streamAt text).readDouble lib old = (streamAt rest, x) := by
  obtain ⟨ws, t, rfl, hws, ⟨hne, hnospace, hscan⟩, hrest⟩ := h
  obtain ⟨c, cs, rfl⟩ : ∃ c cs, t = c :: cs := by
    cases t with
    | nil => exact absurd rfl hne
    | cons c cs => exact ⟨c, cs, rfl⟩
  unfold istream.readDouble
  rw [sentry_field ws (c :: cs) rest hws c cs rfl (hnospace c (List.mem_cons_self _ _))]
  simp only [hscan rest hrest, List.drop_left]
  rfl

/-! ## Reading a well formed OFF text -/

theorem IntField_ne_nil (v : Int) (text rest : List Char) (h : IntField v text rest) :
    text.isEmpty = false := by
  obtain ⟨ws, t, rfl, _, ⟨_, _, digits, hne, _, hform⟩, _⟩ := h
  have ht : t ≠ [] := by
    rcases hform with ⟨rfl, _⟩ | ⟨rfl, _⟩ | ⟨rfl, _⟩
    · exact hne
    · exact List.cons_ne_nil _ _
    · exact List.cons_ne_nil _ _
  cases ws with
  | nil =>
    cases t with
    | nil => exact absurd rfl ht
    | cons c cs => rfl
  | cons c cs => rfl

theorem take_succ_set (pts : List Point) (i : Nat) (q : Point) (hi : i < pts.length) :
    (pts.set i q).take (i + 1) = pts.take i ++ [q] := by
  rw [List.set_eq_take_cons_drop q hi]
  have hlen : (pts.take i ++ [q]).length = i + 1 := by
    rw [List.length_append, List.length_take, List.length_singleton, Nat.min_eq_left (Nat.le_of_lt hi)]
  have : pts.take i ++ q :: pts.drop (i + 1) = (pts.take i ++ [q]) ++ pts.drop (i + 1) := by
    rw [List.append_assoc]
    rfl
  rw [this, List.take_left' hlen]

theorem vertices_fields (lib : StdLib) :
    ∀ (ps : List Point) (i : Nat) (text rest : List Char) (pts : List Point) (p : Point),
      PointFields lib ps text rest → i + ps.length ≤ pts.length →
      ∃ p', ReadOFF.vertices lib ps.length i (streamAt text) pts p =
        (streamAt rest, pts.take i ++ ps ++ pts.drop (i + ps.length), p')
  | [], i, text, rest, pts, p, h, _ => by
    have h' : text = rest := h
    subst h'
    refine ⟨p, ?_⟩
    rw [List.append_nil, List.length_nil, Nat.add_zero, List.take_append_drop]
    rfl
  | q :: qs, i, text, rest, pts, p, h, hlen => by
    obtain ⟨t1, t2, t3, h1, h2, h3, h4⟩ := h
    have hi : i < pts.length := by
      rw [List.length_cons] at hlen
      omega
    obtain ⟨p', hp'⟩ := vertices_fields lib qs (i + 1) t3 rest (pts.set i q) q h4 (by
      rw [List.length_set]
      rw [List.length_cons] at hlen
      omega)
    refine ⟨p', ?_⟩
    rw [List.length_cons, ReadOFF.vertices]
    simp only [readDouble_field lib _ _ _ _ h1, readDouble_field lib _ _ _ _ h2,
      readDouble_field lib _ _ _ _ h3]
    have hfail : (streamAt t3).fail = false := rfl
    rw [hfail]
    simp only [Bool.false_eq_true, if_false]
    have hq : ((q.1, q.2.1, q.2.2) : Point) = q := rfl
    rw [hq, hp', take_succ_set pts i q hi, List.drop_set_of_lt q pts (by omega)]
    have hidx : i + 1 + qs.length = i + (qs.length + 1) := by omega
    rw [hidx, List.append_assoc, List.append_assoc, List.append_assoc]
    rfl

theorem cell_fields :
    ∀ (ids : List Int) (text rest : List Char) (ptId : Int) (cell : List Int),
      IdFields ids text rest →
      ∃ ptId', ReadOFF.cell ids.length (streamAt text) ptId cell =
        (streamAt rest, ptId', cell ++ ids)
  | [], text, rest, ptId, cell, h => by
    have h' : text = rest := h
    subst h'
    exact ⟨ptId, by rw [List.append_nil]; rfl⟩
  | id :: ids, text, rest, ptId, cell, h => by
    obtain ⟨t1, h1, h2⟩ := h
    obtain ⟨ptId', hp⟩ := cell_fields ids t1 rest id (cell ++ [id]) h2
    refine ⟨ptId', ?_⟩
    rw [List.length_cons, ReadOFF.cell]
    simp only [readInt_field _ _ _ _ h1]
    rw [hp, List.append_assoc]
    rfl

theorem FaceFields_nil_text (fs : List (Int × List Int)) (rest : List Char)
    (h : FaceFields fs [] rest) : fs = [] ∧ rest = [] := by
  cases fs with
  | nil => exact ⟨rfl, (show [] = rest from h).symm⟩
  | cons f fs =>
    obtain ⟨t1, _, h1, _⟩ := h
    have := IntField_ne_nil _ _ _ h1
    exact absurd this (by decide)

theorem faces_fields :
    ∀ (fs : List (Int × List Int)) (text rest : List Char) (ptId n : Int)
      (cells : ReadOFF.Cells),
      FaceFields fs text rest →
      ReadOFF.faces fs.length (streamAt text) ptId n cells =
        (streamAt rest, { verts := cells.verts ++ offVerts fs,
                          lines := cells.lines ++ offLines fs,
                          polys := cells.polys ++ offPolys fs })
  | [], text, rest, ptId, n, cells, h => by
    have h' : text = rest := h
    subst h'
    simp [ReadOFF.faces, offVerts, offLines, offPolys]
  | f :: fs, text, rest, ptId, n, cells, h => by
    obtain ⟨t1, t2, h1, hlen, h2, h3⟩ := h
    rw [List.length_cons, ReadOFF.faces]
    simp only [readInt_field _ _ _ _ h1]
    have hfail : (streamAt t1).fail = false := rfl
    rw [hfail]
    simp only [Bool.false_eq_true, if_false]
    by_cases hpos : f.1 > 0
    · rw [if_pos hpos, ← hlen]
      obtain ⟨ptId', hcell⟩ := cell_fields f.2 t1 t2 ptId [] h2
      simp only [hcell, List.nil_append]
      by_cases hgood : (streamAt t2).good = true
      · rw [if_neg (not_not.mpr hgood), faces_fields fs t2 rest ptId' f.1 _ h3]
        by_cases h1' : f.1 = 1
        · have e2 : ¬ f.1 = 2 := by omega
          have e3 : ¬ 3 ≤ f.1 := by omega
          simp [offVerts, offLines, offPolys, h1', List.filter_cons]
        · by_cases h2' : f.1 = 2
          · simp [offVerts, offLines, offPolys, h2', List.filter_cons]
          · have e3 : 3 ≤ f.1 := by omega
            simp [offVerts, offLines, offPolys, h1', h2', e3, List.filter_cons]
      · rw [if_pos hgood]
        have ht2 : t2 = [] := by
          cases t2 with
          | nil => rfl
          | cons c cs => exact absurd rfl hgood
        subst ht2
        obtain ⟨hfs, hrest⟩ := FaceFields_nil_text fs rest h3
        subst hfs hrest
        by_cases h1' : f.1 = 1
        · simp [offVerts, offLines, offPolys, h1', List.filter_cons]
        · by_cases h2' : f.1 = 2
          · simp [offVerts, offLines, offPolys, h2', List.filter_cons]
          · have e3 : 3 ≤ f.1 := by omega
            simp [offVerts, offLines, offPolys, h1', h2', e3, List.filter_cons]
    · rw [if_neg hpos]
      have hnil : f.2 = [] := by
        have : f.1.toNat = 0 := Int.toNat_eq_zero.mpr (by omega)
        rw [this] at hlen
        exact List.length_eq_zero.mp hlen
      rw [hnil] at h2
      have ht : t1 = t2 := h2
      subst ht
      rw [faces_fields fs t1 rest ptId f.1 cells h3]
      have e1 : ¬ f.1 = 1 := by omega
      have e2 : ¬ f.1 = 2 := by omega
      have e3 : ¬ 3 ≤ f.1 := by omega
      simp [offVerts, offLines, offPolys, e1, e2, e3, List.filter_cons]

theorem KeywordField_ne_nil (text rest : List Char) (h : KeywordField text rest) :
    text.isEmpty = false := by
  obtain ⟨ws, t, rfl, _, ht, _⟩ := h
  cases ws with
  | nil => rcases ht with rfl | rfl <;> rfl
  | cons c cs => rfl

theorem clamp_toNat (n : Int) : (if n < 0 then 0 else n).toNat = n.toNat := by
  by_cases h : n < 0
  · rw [if_pos h]
    exact (Int.toNat_eq_zero.mpr (Int.le_of_lt h)).symm
  · rw [if_neg h]

theorem SetNumberOfPoints_length (env : Env) (n : Int) :
    (vtkPoints.SetNumberOfPoints env n).length = n.toNat := by
  unfold vtkPoints.SetNumberOfPoints
  rw [List.length_map, List.length_range]

/-- What `ReadOFF` returns for a well-formed text: the points, and the face
records in the three cell arrays. -/
theorem ReadOFF_wellFormed (lib : StdLib) (env : Env) (text : List Char)
    (numVertices numFaces numEdges : Int) (points : List Point)
    (faces : List (Int × List Int))
    (h : WellFormedOFF lib text numVertices numFaces numEdges points faces) :
    ReadOFF lib env (some text) =
      { vtkPolyData.New with points := points, verts := offVerts faces,
                             lines := offLines faces, polys := offPolys faces } := by
  obtain ⟨t1, t2, t3, t4, t5, t6, hkey, hnv, hnf, hne, hplen, hpoints, hflen, hfaces⟩ := h
  have hopen : ifstream.open (some text) = streamAt text := by
    unfold ifstream.open streamAt
    rw [KeywordField_ne_nil text t1 hkey]
  obtain ⟨t, ht, hread⟩ := readString_keyword text t1 "" hkey
  have hkeyword : ¬ (String.mk t ≠ "OFF" ∧ String.mk t ≠ "off") := by
    rcases ht with rfl | rfl <;> decide
  have hlenle : 0 + points.length ≤
      (vtkPoints.SetNumberOfPoints env (if numVertices < 0 then 0 else numVertices)).length := by
    rw [SetNumberOfPoints_length, clamp_toNat, hplen]
    omega
  obtain ⟨p', hverts⟩ := vertices_fields lib points 0 t4 t5
    (vtkPoints.SetNumberOfPoints env (if numVertices < 0 then 0 else numVertices)) (0, 0, 0)
    hpoints hlenle
  have hdrop : List.drop (0 + points.length)
      (vtkPoints.SetNumberOfPoints env (if numVertices < 0 then 0 else numVertices)) = [] := by
    apply List.drop_eq_nil_of_le
    rw [SetNumberOfPoints_length, clamp_toNat, hplen]
    omega
  rw [List.take_zero, List.nil_append, hdrop, List.append_nil, hplen,
    ← clamp_toNat numVertices] at hverts
  have hfacesr := faces_fields faces t5 t6 0 0 { verts := [], lines := [], polys := [] } hfaces
  rw [hflen, ← clamp_toNat numFaces] at hfacesr
  have hf1 : (streamAt t1).fail = false := rfl
  have hf4 : (streamAt t4).fail = false := rfl
  have hf5 : (streamAt t5).fail = false := rfl
  have hf6 : (streamAt t6).fail = false := rfl
  unfold ReadOFF
  simp only [hopen, hread, hf1, readInt_field _ _ _ _ hnv, readInt_field _ _ _ _ hnf,
    readInt_field _ _ _ _ hne, hf4, hverts, hf5, hfacesr, hf6, Bool.false_eq_true, if_false,
    if_neg hkeyword, List.nil_append]
  have hsfail : (streamAt text).fail = false := rfl
  simp only [hsfail, Bool.false_eq_true, if_false]
  cases hv : offVerts faces <;> cases hl : offLines faces <;> cases hp : offPolys faces <;>
    simp [vtkPolyData.New]

/-! ## The text of `WriteOFF` is well formed -/

theorem isIntToken_intText (n : Int) (hlo : -2 ^ 31 ≤ n) (hhi : n ≤ 2 ^ 31 - 1) :
    isIntToken (intText n) n := by
  obtain ⟨digits, hne, hdig, h | h⟩ := intText_spec n
  · exact ⟨hlo, hhi, digits, hne, hdig, Or.inl ⟨h.2.1, h.2.2.symm⟩⟩
  · exact ⟨hlo, hhi, digits, hne, hdig, Or.inr (Or.inr ⟨h.2.1, h.2.2.symm⟩)⟩

theorem atBoundary_cons (c : Char) (cs : List Char) (hc : isspace c = true) :
    atBoundary (c :: cs) :=
  Or.inr ⟨c, cs, rfl, hc⟩

theorem atBoundary_lines {α : Type} (f : α → List Char) (c : Char) (hc : isspace c = true)
    (l : List α) (tail : List Char) (htail : atBoundary tail) :
    atBoundary ((l.map (fun x => c :: f x)).flatten ++ tail) := by
  cases l with
  | nil => exact htail
  | cons x l => exact Or.inr ⟨c, _, rfl, hc⟩

theorem intField_intro (ws rest : List Char) (n : Int) (hws : ∀ c ∈ ws, isspace c = true)
    (hlo : -2 ^ 31 ≤ n) (hhi : n ≤ 2 ^ 31 - 1) (hrest : atBoundary rest) :
    IntField n (ws ++ intText n ++ rest) rest :=
  ⟨ws, intText n, rfl, hws, isIntToken_intText n hlo hhi, hrest⟩

theorem doubleField_intro (lib : StdLib) (ws t rest : List Char) (x : Rat)
    (hws : ∀ c ∈ ws, isspace c = true) (ht : isDoubleToken lib t x) (hrest : atBoundary rest) :
    DoubleField lib x (ws ++ t ++ rest) rest :=
  ⟨ws, t, rfl, hws, ht, hrest⟩

theorem pointFields_lines (lib : StdLib) (back : Rat → Rat)
    (hback : ∀ x, isDoubleToken lib (lib.formatDouble 12 x) (back x)) :
    ∀ (ps : List Point) (tail : List Char), atBoundary tail →
      PointFields lib (ps.map (fun p => (back p.1, back p.2.1, back p.2.2)))
        ((ps.map (fun p => '\n' :: offPointLine lib p)).flatten ++ tail) tail
  | [], tail, _ => rfl
  | p :: ps, tail, htail => by
    have ih := pointFields_lines lib back hback ps tail htail
    have hb := atBoundary_lines (offPointLine lib) '\n' (by decide) ps tail htail
    refine ⟨' ' :: (lib.formatDouble 12 p.2.1 ++ ' ' :: (lib.formatDouble 12 p.2.2 ++
          ((ps.map (fun p => '\n' :: offPointLine lib p)).flatten ++ tail))),
      ' ' :: (lib.formatDouble 12 p.2.2 ++
          ((ps.map (fun p => '\n' :: offPointLine lib p)).flatten ++ tail)),
      (ps.map (fun p => '\n' :: offPointLine lib p)).flatten ++ tail, ?_, ?_, ?_, ih⟩
    · have := doubleField_intro lib ['\n'] (lib.formatDouble 12 p.1)
        (' ' :: (lib.formatDouble 12 p.2.1 ++ ' ' :: (lib.formatDouble 12 p.2.2 ++
          ((ps.map (fun p => '\n' :: offPointLine lib p)).flatten ++ tail))))
        (back p.1) (by decide) (hback _) (atBoundary_cons _ _ (by decide))
      simpa [offPointLine, List.append_assoc] using this
    · have := doubleField_intro lib [' '] (lib.formatDouble 12 p.2.1)
        (' ' :: (lib.formatDouble 12 p.2.2 ++
          ((ps.map (fun p => '\n' :: offPointLine lib p)).flatten ++ tail)))
        (back p.2.1) (by decide) (hback _) (atBoundary_cons _ _ (by decide))
      simpa [List.append_assoc] using this
    · have := doubleField_intro lib [' '] (lib.formatDouble 12 p.2.2)
        ((ps.map (fun p => '\n' :: offPointLine lib p)).flatten ++ tail)
        (back p.2.2) (by decide) (hback _) hb
      simpa [List.append_assoc] using this

theorem idFields_spaced :
    ∀ (ids : List Int) (rest : List Char), atBoundary rest →
      (∀ id ∈ ids, -2 ^ 31 ≤ id ∧ id ≤ 2 ^ 31 - 1) →
      IdFields ids ((ids.map (fun id => ' ' :: intText id)).flatten ++ rest) rest
  | [], rest, _, _ => rfl
  | id :: ids, rest, hrest, hrange => by
    have ih := idFields_spaced ids rest hrest (fun i hi => hrange i (List.mem_cons_of_mem _ hi))
    have hb := atBoundary_lines intText ' ' (by decide) ids rest hrest
    obtain ⟨hlo, hhi⟩ := hrange id (List.mem_cons_self _ _)
    refine ⟨(ids.map (fun id => ' ' :: intText id)).flatten ++ rest, ?_, ih⟩
    have := intField_intro [' '] ((ids.map (fun id => ' ' :: intText id)).flatten ++ rest) id
      (by decide) hlo hhi hb
    simpa [List.append_assoc] using this

theorem faceFields_lines :
    ∀ (cs : List (List Int)) (tail : List Char), atBoundary tail →
      (∀ c ∈ cs, (c.length : Int) ≤ 2 ^ 31 - 1 ∧ ∀ id ∈ c, -2 ^ 31 ≤ id ∧ id ≤ 2 ^ 31 - 1) →
      FaceFields (cs.map (fun c => ((c.length : Int), c)))
        ((cs.map (fun c => '\n' :: offCellLine c)).flatten ++ tail) tail
  | [], tail, _, _ => rfl
  | c :: cs, tail, htail, hrange => by
    have ih := faceFields_lines cs tail htail (fun x hx => hrange x (List.mem_cons_of_mem _ hx))
    have hb := atBoundary_lines offCellLine '\n' (by decide) cs tail htail
    obtain ⟨hlen, hids⟩ := hrange c (List.mem_cons_self _ _)
    have hids' := idFields_spaced c _ hb hids
    refine ⟨(c.map (fun id => ' ' :: intText id)).flatten ++
          ((cs.map (fun c => '\n' :: offCellLine c)).flatten ++ tail),
      (cs.map (fun c => '\n' :: offCellLine c)).flatten ++ tail, ?_, ?_, hids', ih⟩
    · have := intField_intro ['\n']
        ((c.map (fun id => ' ' :: intText id)).flatten ++
          ((cs.map (fun c => '\n' :: offCellLine c)).flatten ++ tail)) (c.length : Int)
        (by decide) (by have := Int.natCast_nonneg c.length; omega) hlen
        (atBoundary_lines intText ' ' (by decide) c _ hb)
      simpa [offCellLine, List.append_assoc] using this
    · exact (Int.toNat_natCast c.length).symm

theorem joinLines_lines : ∀ (ls : List (List Char)) (l : List Char),
    joinLines (l :: ls) = l ++ ((ls.map (fun x => '\n' :: x)).flatten ++ ['\n'])
  | [], l => by simp [joinLines]
  | m :: ls, l => by
    have ih := joinLines_lines ls m
    unfold joinLines at ih ⊢
    rw [List.map_cons, List.flatten_cons, ih]
    simp [List.append_assoc]

theorem offText_wellFormed (lib : StdLib) (polydata : vtkPolyData) (back : Rat → Rat)
    (hback : ∀ x, isDoubleToken lib (lib.formatDouble 12 x) (back x))
    (hpoints : (polydata.points.length : Int) ≤ 2 ^ 31 - 1)
    (hcount : (polydata.cells.length : Int) ≤ 2 ^ 31 - 1)
    (hcells : ∀ c ∈ polydata.cells,
      (c.length : Int) ≤ 2 ^ 31 - 1 ∧ ∀ id ∈ c, -2 ^ 31 ≤ id ∧ id ≤ 2 ^ 31 - 1) :
    WellFormedOFF lib
      (joinLines (["OFF".data,
            intText polydata.points.length ++ [' '] ++ intText polydata.cells.length ++
              " 0".data] ++
          polydata.points.map (offPointLine lib) ++ polydata.cells.map offCellLine))
      polydata.points.length polydata.cells.length 0
      (polydata.points.map (fun p => (back p.1, back p.2.1, back p.2.2)))
      (polydata.cells.map (fun c => ((c.length : Int), c))) := by
  have hend : atBoundary ['\n'] := atBoundary_cons _ _ (by decide)
  have hfaces := faceFields_lines polydata.cells ['\n'] hend hcells
  have hb5 := atBoundary_lines offCellLine '\n' (by decide) polydata.cells ['\n'] hend
  have hpts := pointFields_lines lib back hback polydata.points _ hb5
  have hb4 := atBoundary_lines (offPointLine lib) '\n' (by decide) polydata.points _ hb5
  have hnP := Int.natCast_nonneg polydata.points.length
  have hnC := Int.natCast_nonneg polydata.cells.length
  refine ⟨'\n' :: (intText polydata.points.length ++ ' ' :: (intText polydata.cells.length ++
        ' ' :: '0' :: ((polydata.points.map (fun p => '\n' :: offPointLine lib p)).flatten ++
          ((polydata.cells.map (fun c => '\n' :: offCellLine c)).flatten ++ ['\n'])))),
    ' ' :: (intText polydata.cells.length ++
        ' ' :: '0' :: ((polydata.points.map (fun p => '\n' :: offPointLine lib p)).flatten ++
          ((polydata.cells.map (fun c => '\n' :: offCellLine c)).flatten ++ ['\n']))),
    ' ' :: '0' :: ((polydata.points.map (fun p => '\n' :: offPointLine lib p)).flatten ++
          ((polydata.cells.map (fun c => '\n' :: offCellLine c)).flatten ++ ['\n'])),
    (polydata.points.map (fun p => '\n' :: offPointLine lib p)).flatten ++
          ((polydata.cells.map (fun c => '\n' :: offCellLine c)).flatten ++ ['\n']),
    (polydata.cells.map (fun c => '\n' :: offCellLine c)).flatten ++ ['\n'],
    ['\n'], ?_, ?_, ?_, ?_, ?_, hpts, ?_, hfaces⟩
  · refine ⟨[], "OFF".data, ?_, fun _ hc => absurd hc (List.not_mem_nil _), Or.inl rfl,
      atBoundary_cons _ _ (by decide)⟩
    rw [List.cons_append, List.cons_append, joinLines_lines]
    simp [List.append_assoc, Function.comp_def]
  · have := intField_intro ['\n'] (' ' :: (intText polydata.cells.length ++
        ' ' :: '0' :: ((polydata.points.map (fun p => '\n' :: offPointLine lib p)).flatten ++
          ((polydata.cells.map (fun c => '\n' :: offCellLine c)).flatten ++ ['\n']))))
      polydata.points.length (by decide) (by omega) hpoints (atBoundary_cons _ _ (by decide))
    simpa [List.append_assoc] using this
  · have := intField_intro [' '] (' ' :: '0' ::
        ((polydata.points.map (fun p => '\n' :: offPointLine lib p)).flatten ++
          ((polydata.cells.map (fun c => '\n' :: offCellLine c)).flatten ++ ['\n'])))
      polydata.cells.length (by decide) (by omega) hcount (atBoundary_cons _ _ (by decide))
    simpa [List.append_assoc] using this
  · exact ⟨[' '], ['0'], rfl, by decide,
      ⟨by decide, by decide, ['0'], by decide, by decide, Or.inl ⟨rfl, by decide⟩⟩, hb4⟩
  · rw [List.length_map, Int.toNat_natCast]
  · rw [List.length_map, Int.toNat_natCast]

theorem exLib_token (n : Int) : isDoubleToken exLib (intText n) (n : Rat) := by
  refine ⟨intText_ne_nil n, intText_not_isspace n, fun rest hrest => ?_⟩
  obtain ⟨digits, hne, hdig, h | h⟩ := intText_spec n
  all_goals
    obtain ⟨_, ht, hv⟩ := h
    obtain ⟨d, ds, rfl⟩ : ∃ d ds, digits = d :: ds := by
      cases digits with
      | nil => exact absurd rfl hne
      | cons d ds => exact ⟨d, ds, rfl⟩
    have hd : d.isDigit = true := hdig d (List.mem_cons_self _ _)
    obtain ⟨h1, _⟩ := takeWhile_append_of_boundary Char.isDigit (d :: ds) rest hdig
      (boundary_not _ isDigit_not_space rest hrest)
    rw [ht]
    show exScanDouble _ = _
  · have hminus : ((d :: ds ++ rest).head? == some '-') = false := by
      have : d ≠ '-' := by rintro rfl; revert hd; decide
      simpa using this
    have hplus : ((d :: ds ++ rest).head? == some '+') = false := by
      have : d ≠ '+' := by rintro rfl; revert hd; decide
      simpa using this
    unfold exScanDouble
    simp only [hminus, hplus, Bool.false_eq_true, or_self, if_false, h1, List.isEmpty_cons,
      hv, Nat.sub_self, Nat.zero_add]
  · have hminus : (('-' :: d :: (ds ++ rest)).head? == some '-') = true := rfl
    rw [List.cons_append] at h1
    unfold exScanDouble
    simp only [List.cons_append, hminus, true_or, if_true, List.tail_cons, h1,
      List.isEmpty_cons, Bool.false_eq_true, if_false, hv, List.length_cons]
    congr 1
    omega

theorem bucket_filter (p : Int → Bool) :
    ∀ cs : List (List Int),
      ((cs.map (fun c => ((c.length : Int), c))).filter (fun f => p f.1)).map Prod.snd =
        cs.filter (fun c => p c.length)
  | [] => rfl
  | c :: cs => by
    have ih := bucket_filter p cs
    simp only [List.map_cons, List.filter_cons]
    cases p (c.length : Int)
    · simpa using ih
    · simpa using ih

theorem filter_all {α : Type} (p : α → Bool) (l : List α) (h : ∀ x ∈ l, p x = true) :
    l.filter p = l :=
  List.filter_eq_self.mpr h

theorem filter_none {α : Type} (p : α → Bool) (l : List α) (h : ∀ x ∈ l, p x = false) :
    l.filter p = [] :=
  List.filter_eq_nil_iff.mpr (fun x hx => by rw [h x hx]; exact Bool.false_ne_true)

theorem offBuckets_cells (polydata : vtkPolyData)
    (hverts : ∀ c ∈ polydata.verts, c.length = 1)
    (hlines : ∀ c ∈ polydata.lines, c.length = 2)
    (hpolys : ∀ c ∈ polydata.polys, 3 ≤ c.length)
    (hstrips : polydata.strips = []) :
    offVerts (polydata.cells.map (fun c => ((c.length : Int), c))) = polydata.verts ∧
    offLines (polydata.cells.map (fun c => ((c.length : Int), c))) = polydata.lines ∧
    offPolys (polydata.cells.map (fun c => ((c.length : Int), c))) = polydata.polys := by
  unfold offVerts offLines offPolys
  rw [bucket_filter (fun n => decide (n = 1)), bucket_filter (fun n => decide (n = 2)),
    bucket_filter (fun n => decide (3 ≤ n))]
  unfold vtkPolyData.cells
  rw [hstrips, List.append_nil]
  simp only [List.filter_append]
  refine ⟨?_, ?_, ?_⟩
  · rw [filter_all _ polydata.verts (fun c hc => by simp [hverts c hc]),
      filter_none _ polydata.lines (fun c hc => by simp [hlines c hc]),
      filter_none _ polydata.polys (fun c hc => by
        have := hpolys c hc
        simp only [decide_eq_false_iff_not]
        omega)]
    simp
  · rw [filter_none _ polydata.verts (fun c hc => by simp [hverts c hc]),
      filter_all _ polydata.lines (fun c hc => by simp [hlines c hc]),
      filter_none _ polydata.polys (fun c hc => by
        have := hpolys c hc
        simp only [decide_eq_false_iff_not]
        omega)]
    simp
  · rw [filter_none _ polydata.verts (fun c hc => by simp [hverts c hc]),
      filter_none _ polydata.lines (fun c hc => by simp [hlines c hc]),
      filter_all _ polydata.polys (fun c hc => by
        have := hpolys c hc
        simp only [decide_eq_true_eq]
        omega)]
    simp

theorem faceFields_lengths :
    ∀ (faces : List (Int × List Int)) (text rest : List Char), FaceFields faces text rest →
      ∀ f ∈ faces, f.2.length = f.1.toNat
  | [], _, _, _ => fun _ hf => absurd hf (List.not_mem_nil _)
  | g :: gs, _, _, h => by
    obtain ⟨t1, t2, _, hlen, _, hrest⟩ := h
    intro f hf
    rcases List.mem_cons.mp hf with rfl | hf
    · exact hlen
    · exact faceFields_lengths gs _ _ hrest f hf

theorem exOffText_wellFormed :
    WellFormedOFF exLib "off\n1 3 0\n0 -1 2\n0\n1 0\n 3 0 0 0".data 1 3 0 [(0, -1, 2)]
      [(0, []), (1, [0]), (3, [0, 0, 0])] := by
  have hnl : ∀ c ∈ ['\n'], isspace c = true := by decide
  have hsp : ∀ c ∈ [' '], isspace c = true := by decide
  have hnlsp : ∀ c ∈ ['\n', ' '], isspace c = true := by decide
  have bnl : ∀ cs, atBoundary ('\n' :: cs) := fun cs => atBoundary_cons _ cs (by decide)
  have bsp : ∀ cs, atBoundary (' ' :: cs) := fun cs => atBoundary_cons _ cs (by decide)
  refine ⟨"\n1 3 0\n0 -1 2\n0\n1 0\n 3 0 0 0".data, " 3 0\n0 -1 2\n0\n1 0\n 3 0 0 0".data,
    " 0\n0 -1 2\n0\n1 0\n 3 0 0 0".data, "\n0 -1 2\n0\n1 0\n 3 0 0 0".data,
    "\n0\n1 0\n 3 0 0 0".data, [],
    ⟨[], "off".data, rfl, fun _ hc => absurd hc (List.not_mem_nil _), Or.inr rfl, bnl _⟩,
    intField_intro ['\n'] " 3 0\n0 -1 2\n0\n1 0\n 3 0 0 0".data 1 hnl (by decide) (by decide)
      (bsp _),
    intField_intro [' '] " 0\n0 -1 2\n0\n1 0\n 3 0 0 0".data 3 hsp (by decide) (by decide)
      (bsp _),
    intField_intro [' '] "\n0 -1 2\n0\n1 0\n 3 0 0 0".data 0 hsp (by decide) (by decide)
      (bnl _),
    rfl, ?_, rfl, ?_⟩
  · exact ⟨" -1 2\n0\n1 0\n 3 0 0 0".data, " 2\n0\n1 0\n 3 0 0 0".data, _,
      doubleField_intro exLib ['\n'] (intText 0) " -1 2\n0\n1 0\n 3 0 0 0".data _ hnl
        (exLib_token 0) (bsp _),
      doubleField_intro exLib [' '] (intText (-1)) " 2\n0\n1 0\n 3 0 0 0".data _ hsp
        (exLib_token (-1)) (bsp _),
      doubleField_intro exLib [' '] (intText 2) "\n0\n1 0\n 3 0 0 0".data _ hsp
        (exLib_token 2) (bnl _),
      rfl⟩
  · refine ⟨"\n1 0\n 3 0 0 0".data, _,
      intField_intro ['\n'] "\n1 0\n 3 0 0 0".data 0 hnl (by decide) (by decide) (bnl _),
      rfl, rfl, ?_⟩
    refine ⟨" 0\n 3 0 0 0".data, "\n 3 0 0 0".data,
      intField_intro ['\n'] " 0\n 3 0 0 0".data 1 hnl (by decide) (by decide) (bsp _),
      rfl,
      ⟨_, intField_intro [' '] "\n 3 0 0 0".data 0 hsp (by decide) (by decide) (bnl _), rfl⟩,
      ?_⟩
    exact ⟨" 0 0 0".data, [],
      intField_intro ['\n', ' '] " 0 0 0".data 3 hnlsp (by decide) (by decide) (bsp _),
      rfl,
      ⟨" 0 0".data, intField_intro [' '] " 0 0".data 0 hsp (by decide) (by decide) (bsp _),
        " 0".data, intField_intro [' '] " 0".data 0 hsp (by decide) (by decide) (bsp _),
        [], intField_intro [' '] [] 0 hsp (by decide) (by decide) (Or.inl rfl), rfl⟩,
      rfl⟩

/-- C23: for a well-formed OFF text (the keyword, the three counts, as many
coordinate triples as the vertex count says and as many face records as the
face count says, a negative count counting as zero, each record being its
integer `n` and `n.toNat` point indices), `ReadOFF` returns the mesh whose
points are the coordinate triples, whose point cells are the index lists of
the records with `n = 1`, whose line cells are those of the records with
`n = 2` and whose polygon cells are those of the records with `n ≥ 3`, each in
the order of the file; the number of points is the declared count, zero when it
is negative, and a record with `n = 0` has no index and is in none of the
three groups. -/
theorem C23_well_formed_off_cells (lib : StdLib) (env : Env) (text : List Char)
    (numVertices numFaces numEdges : Int) (points : List Point)
    (faces : List (Int × List Int))
    (h : WellFormedOFF lib text numVertices numFaces numEdges points faces) :
    ReadOFF lib env (some text) =
      { vtkPolyData.New with
        points := points,
        verts := (faces.filter (fun f => decide (f.1 = 1))).map Prod.snd,
        lines := (faces.filter (fun f => decide (f.1 = 2))).map Prod.snd,
        polys := (faces.filter (fun f => decide (3 ≤ f.1))).map Prod.snd } ∧
    (ReadOFF lib env (some text)).points.length = (if numVertices < 0 then 0 else numVertices) ∧
    (∀ f ∈ faces, f.2.length = f.1.toNat) ∧
    (∀ f ∈ faces, f.1 = 0 → f.2 = [] ∧
      f.2 ∉ (faces.filter (fun f => decide (f.1 = 1))).map Prod.snd ∧
      f.2 ∉ (faces.filter (fun f => decide (f.1 = 2))).map Prod.snd ∧
      f.2 ∉ (faces.filter (fun f => decide (3 ≤ f.1))).map Prod.snd) := by
  have hread := ReadOFF_wellFormed lib env text numVertices numFaces numEdges points faces h
  obtain ⟨t1, t2, t3, t4, t5, t6, _, _, _, _, hlen, _, _, hfaces⟩ := h
  have hlens := faceFields_lengths faces t5 t6 hfaces
  have hnotin : ∀ (p : Int → Bool), (∀ n, p n = true → 0 < n) →
      [] ∉ (faces.filter (fun f => p f.1)).map Prod.snd := by
    intro p hp hmem
    obtain ⟨g, hg, hnil⟩ := List.mem_map.mp hmem
    obtain ⟨hg1, hg2⟩ := List.mem_filter.mp hg
    have h1 := hlens g hg1
    have h2 := hp g.1 hg2
    rw [hnil] at h1
    have h3 : g.1.toNat = 0 := h1.symm
    omega
  refine ⟨hread, ?_, hlens, ?_⟩
  · rw [hread]
    show ((points.length : Nat) : Int) = _
    rw [hlen]
    split
    · rw [Int.toNat_of_nonpos (by omega)]; rfl
    · exact Int.toNat_of_nonneg (by omega)
  · intro f hf h0
    have hnil : f.2 = [] := by
      have := hlens f hf
      rw [h0] at this
      exact List.length_eq_zero.mp this
    rw [hnil]
    exact ⟨rfl, hnotin (fun n => decide (n = 1)) (fun n hn => by
        have : n = 1 := of_decide_eq_true hn
        omega),
      hnotin (fun n => decide (n = 2)) (fun n hn => by
        have : n = 2 := of_decide_eq_true hn
        omega),
      hnotin (fun n => decide (3 ≤ n)) (fun n hn => by
        have : 3 ≤ n := of_decide_eq_true hn
        omega)⟩

/-- Witness of C23: a text with one point, a record with `n = 0`, a point cell
and a triangle. -/
theorem C23_well_formed_off_witness :
    ReadOFF exLib exParseEnv (some "off\n1 3 0\n0 -1 2\n0\n1 0\n 3 0 0 0".data) =
      { vtkPolyData.New with points := [(0, -1, 2)], verts := [[0]], polys := [[0, 0, 0]] } :=
  (C23_well_formed_off_cells exLib exParseEnv _ 1 3 0 [(0, -1, 2)]
    [(0, []), (1, [0]), (3, [0, 0, 0])] exOffText_wellFormed).1

/-- C25: for a mesh without triangle strips whose point cells have one point,
whose line cells have two and whose polygon cells have at least three, on a
library where the file opens, the device accepts all output and each number
`x` as printed with precision 12 is a token that reads as `back x`, and with
counts and point IDs in the range of `int`, `WriteOFF` returns `true`, and
`ReadOFF` of the text that it wrote returns a mesh with as many points, the
point `back x, back y, back z` for the point `x, y, z`, and the same point
cells, line cells and polygon cells in the same order. -/
theorem C25_off_round_trip (lib : StdLib) (env : Env) (polydata : vtkPolyData)
    (back : Rat → Rat) (hhealthy : lib.healthy)
    (hback : ∀ x, isDoubleToken lib (lib.formatDouble 12 x) (back x))
    (hpoints : (polydata.points.length : Int) ≤ 2 ^ 31 - 1)
    (hcount : (polydata.cells.length : Int) ≤ 2 ^ 31 - 1)
    (hcells : ∀ c ∈ polydata.cells,
      (c.length : Int) ≤ 2 ^ 31 - 1 ∧ ∀ id ∈ c, -2 ^ 31 ≤ id ∧ id ≤ 2 ^ 31 - 1)
    (hverts : ∀ c ∈ polydata.verts, c.length = 1)
    (hlines : ∀ c ∈ polydata.lines, c.length = 2)
    (hpolys : ∀ c ∈ polydata.polys, 3 ≤ c.length)
    (hstrips : polydata.strips = []) :
    (WriteOFF lib polydata).1 = true ∧
    ReadOFF lib env (some (WriteOFF lib polydata).2) =
      { vtkPolyData.New with
        points := polydata.points.map (fun p => (back p.1, back p.2.1, back p.2.2)),
        verts := polydata.verts, lines := polydata.lines, polys := polydata.polys } ∧
    (ReadOFF lib env (some (WriteOFF lib polydata).2)).points.length =
      polydata.points.length := by
  obtain ⟨ofs, hr, hemits⟩ := WriteOFF_emits lib polydata
  have hwrite := result_of_healthy lib ofs _ _ hr hemits hhealthy
  have hwf := offText_wellFormed lib polydata back hback hpoints hcount hcells
  have hread := ReadOFF_wellFormed lib env _ _ _ _ _ _ hwf
  obtain ⟨hv, hl, hp⟩ := offBuckets_cells polydata hverts hlines hpolys hstrips
  rw [hv, hl, hp] at hread
  rw [hwrite]
  refine ⟨rfl, hread, ?_⟩
  rw [hread]
  exact List.length_map _ _

/-- Witness of C25: a mesh of four points with a point cell, a line and two
triangles. -/
theorem C25_off_round_trip_witness :
    ReadOFF exLib exParseEnv
        (some (WriteOFF exLib
          { exMesh [[0, 1, 2], [1, 2, 3]] [] with verts := [[3]], lines := [[0, 1]] }).2) =
      { vtkPolyData.New with
        points := [(0, 0, 0), (1, 0, 0), (0, 1, 0), (1, 1, 0)],
        verts := [[3]], lines := [[0, 1]], polys := [[0, 1, 2], [1, 2, 3]] } :=
  (C25_off_round_trip exLib exParseEnv
    { exMesh [[0, 1, 2], [1, 2, 3]] [] with verts := [[3]], lines := [[0, 1]] }
    (fun (x : Rat) => (x.num : Rat)) ⟨rfl, fun _ _ => rfl⟩ (fun x => exLib_token x.num)
    (by decide) (by decide) (by decide) (by decide) (by decide) (by decide) rfl).2.1

/-! ## Storage order of coordinates and triangles -/

theorem coordinates_fold_eq (array : giiDataArray) (inc n : Nat) :
    ∀ (k : Nat), k ≤ n → ∀ (x y z : Nat),
      (List.range k).foldl (fun (s : CoordState) j =>
        { points := s.points.set j (array.elem s.x, array.elem s.y, array.elem s.z),
          x := s.x + inc, y := s.y + inc, z := s.z + inc })
        { points := List.replicate n (0, 0, 0), x := x, y := y, z := z } =
      { points := (List.range k).map (fun j =>
            (array.elem (x + j * inc), array.elem (y + j * inc), array.elem (z + j * inc))) ++
          List.replicate (n - k) (0, 0, 0),
        x := x + k * inc, y := y + k * inc, z := z + k * inc } := by
  intro k
  induction k with
  | zero => intro _ x y z; simp
  | succ k ih =>
    intro hk x y z
    rw [List.range_succ, List.foldl_append, ih (Nat.le_of_succ_le hk)]
    simp only [List.foldl_cons, List.foldl_nil, List.map_append, List.map_cons, List.map_nil]
    congr 1
    · have hlen : ((List.range k).map (fun j =>
          (array.elem (x + j * inc), array.elem (y + j * inc), array.elem (z + j * inc)))).length
            = k := by simp
      obtain ⟨m, hm⟩ : ∃ m, n - k = m + 1 := ⟨n - k - 1, by omega⟩
      have hm' : n - (k + 1) = m := by omega
      rw [hm, hm', List.replicate_succ, List.set_append_right _ _ (by rw [hlen]), hlen,
        Nat.sub_self, List.set_cons_zero, List.append_assoc, List.singleton_append]
    all_goals ring

theorem coordinates_fill_eq (array : giiDataArray) (n : Nat) :
    GIFTICoordinatesToVTK.fill array n = (List.range n).map (array.point n) := by
  unfold GIFTICoordinatesToVTK.fill
  by_cases h : array.ind_ord = GIFTI_IND_ORD_COL_MAJOR
  · simp only [if_pos h]
    rw [coordinates_fold_eq array 1 n n (Nat.le_refl n)]
    simp only [Nat.sub_self, List.replicate_zero, List.append_nil]
    apply List.map_congr_left
    intro j _
    simp [giiDataArray.point, if_pos h, two_mul, Nat.add_assoc]
  · simp only [if_neg h]
    rw [coordinates_fold_eq array 3 n n (Nat.le_refl n)]
    simp only [Nat.sub_self, List.replicate_zero, List.append_nil]
    apply List.map_congr_left
    intro j _
    simp [giiDataArray.point, if_neg h, Nat.mul_comm, Nat.add_comm]

theorem triples_length {α : Type} (f g h : Nat → α) (n : Nat) :
    ((List.range n).map (fun j => [f j, g j, h j])).flatten.length = 3 * n := by
  induction n with
  | zero => rfl
  | succ n ih =>
    rw [List.range_succ, List.map_append, List.flatten_append, List.length_append, ih]
    simp
    omega

theorem triples_getD {α : Type} (f g h : Nat → α) (d : α) :
    ∀ (n j : Nat), j < n →
      ((List.range n).map (fun j => [f j, g j, h j])).flatten.getD (3 * j) d = f j ∧
      ((List.range n).map (fun j => [f j, g j, h j])).flatten.getD (3 * j + 1) d = g j ∧
      ((List.range n).map (fun j => [f j, g j, h j])).flatten.getD (3 * j + 2) d = h j := by
  intro n
  induction n with
  | zero => intro j hj; exact absurd hj (Nat.not_lt_zero _)
  | succ n ih =>
    intro j hj
    rw [List.range_succ, List.map_append, List.flatten_append]
    have hlen := triples_length f g h n
    rcases Nat.lt_or_ge j n with hlt | hge
    · obtain ⟨h0, h1, h2⟩ := ih j hlt
      refine ⟨?_, ?_, ?_⟩
      · rw [List.getD_append _ _ _ _ (by rw [hlen]; omega)]; exact h0
      · rw [List.getD_append _ _ _ _ (by rw [hlen]; omega)]; exact h1
      · rw [List.getD_append _ _ _ _ (by rw [hlen]; omega)]; exact h2
    · have hjn : j = n := by omega
      subst hjn
      refine ⟨?_, ?_, ?_⟩
      · rw [List.getD_append_right _ _ _ _ (by rw [hlen]), hlen]
        simp
      · rw [List.getD_append_right _ _ _ _ (by rw [hlen]; omega), hlen]
        simp
      · rw [List.getD_append_right _ _ _ _ (by rw [hlen]; omega), hlen]
        simp

theorem transposed_point (a : giiDataArray) (n j : Nat) (hj : j < n)
    (hcol : a.ind_ord = GIFTI_IND_ORD_COL_MAJOR) :
    (a.transposed n).point n j = a.point n j := by
  obtain ⟨h0, h1, h2⟩ := triples_getD (fun j => a.elem j) (fun j => a.elem (n + j))
    (fun j => a.elem (2 * n + j)) 0 n j hj
  have hrow : ¬ (a.transposed n).ind_ord = GIFTI_IND_ORD_COL_MAJOR := by
    show ¬ GIFTI_IND_ORD_ROW_MAJOR = GIFTI_IND_ORD_COL_MAJOR
    decide
  unfold giiDataArray.point
  rw [if_neg hrow, if_pos hcol]
  show (List.getD _ (3 * j) 0, List.getD _ (3 * j + 1) 0, List.getD _ (3 * j + 2) 0) = _
  exact congrArg₂ Prod.mk h0 (congrArg₂ Prod.mk h1 h2)

theorem transposed_triangle (a : giiDataArray) (n j : Nat) (hj : j < n)
    (hcol : a.ind_ord = GIFTI_IND_ORD_COL_MAJOR) :
    (a.transposed n).triangle n j = a.triangle n j := by
  obtain ⟨h0, h1, h2⟩ := triples_getD (fun j => a.elem j) (fun j => a.elem (n + j))
    (fun j => a.elem (2 * n + j)) 0 n j hj
  have hrow : ¬ (a.transposed n).ind_ord = GIFTI_IND_ORD_COL_MAJOR := by
    show ¬ GIFTI_IND_ORD_ROW_MAJOR = GIFTI_IND_ORD_COL_MAJOR
    decide
  unfold giiDataArray.triangle giiDataArray.pointId
  rw [if_neg hrow, if_pos hcol]
  have hd : (a.transposed n).data = ((List.range n).map (fun j =>
      [a.elem j, a.elem (n + j), a.elem (2 * n + j)])).flatten := rfl
  show [truncate ((a.transposed n).data.getD (3 * j) 0),
    truncate ((a.transposed n).data.getD (3 * j + 1) 0),
    truncate ((a.transposed n).data.getD (3 * j + 2) 0)] = _
  rw [hd, h0, h1, h2]

theorem coordinates_of_accepted (env : Env) (info : Option vtkInformation)
    (pre post : List giiDataArray) (meta : giiMetaData) (a : giiDataArray)
    (hpre : ∀ b ∈ pre, b.intent ≠ NIFTI_INTENT_POINTSET)
    (ha : a.intent = NIFTI_INTENT_POINTSET) (htype : a.datatype = NIFTI_TYPE_FLOAT32)
    (hdim : a.num_dim = 2) (hcols : a.dim 1 = 3) :
    (GIFTICoordinatesToVTK env { darray := pre ++ a :: post, meta := meta } info).1 =
      (List.range (a.dim 0).toNat).map (a.point (a.dim 0).toNat) := by
  unfold GIFTICoordinatesToVTK
  rw [coordinates_loop_skip env info pre _ hpre, GIFTICoordinatesToVTK.loop, if_pos ha,
    if_neg (not_not.mpr htype), if_neg (not_not.mpr hdim), if_neg (not_not.mpr hcols)]
  cases info <;> exact coordinates_fill_eq a _

theorem topology_of_accepted (env : Env) (info : Option vtkInformation)
    (pre post : List giiDataArray) (meta : giiMetaData) (a : giiDataArray)
    (hpre : ∀ b ∈ pre, b.intent ≠ NIFTI_INTENT_TRIANGLE)
    (ha : a.intent = NIFTI_INTENT_TRIANGLE) (htype : a.datatype = NIFTI_TYPE_INT32)
    (hdim : a.num_dim = 2) (hcols : a.dim 1 = 3) :
    (GIFTITopologyToVTK env { darray := pre ++ a :: post, meta := meta } info).1 =
      some ((List.range (a.dim 0).toNat).map (a.triangle (a.dim 0).toNat)) := by
  unfold GIFTITopologyToVTK
  rw [topology_loop_skip env info pre _ hpre, GIFTITopologyToVTK.loop, if_pos ha,
    if_neg (not_not.mpr htype), if_neg (not_not.mpr hdim), if_neg (not_not.mpr hcols)]
  exact congrArg some (topology_fill_eq a _)

/-- C39: for an accepted coordinates array with `n = dims[0]` rows (the first
array of intent `POINTSET`, of datatype `FLOAT32`, with two dimensions and
`dims[1] = 3`), point `j` that `GIFTICoordinatesToVTK` returns is
`(d[j], d[n + j], d[2 n + j])` when the array is column-major and
`(d[3 j], d[3 j + 1], d[3 j + 2])` otherwise, and the points of a column-major
array are those of the row-major array of the transposed data in its place.
The same holds of the triangles that `GIFTITopologyToVTK` returns for an
accepted triangle array. -/
theorem C39_layouts_decode_alike (env : Env) (info : Option vtkInformation)
    (pre post : List giiDataArray) (meta : giiMetaData) (a : giiDataArray)
    (hdim : a.num_dim = 2) (hcols : a.dim 1 = 3) :
    ((∀ b ∈ pre, b.intent ≠ NIFTI_INTENT_POINTSET) → a.intent = NIFTI_INTENT_POINTSET →
      a.datatype = NIFTI_TYPE_FLOAT32 →
      (GIFTICoordinatesToVTK env { darray := pre ++ a :: post, meta := meta } info).1 =
        (List.range (a.dim 0).toNat).map (fun j =>
          if a.ind_ord = GIFTI_IND_ORD_COL_MAJOR then
            (a.elem j, a.elem ((a.dim 0).toNat + j), a.elem (2 * (a.dim 0).toNat + j))
          else (a.elem (3 * j), a.elem (3 * j + 1), a.elem (3 * j + 2))) ∧
      (a.ind_ord = GIFTI_IND_ORD_COL_MAJOR →
        (GIFTICoordinatesToVTK env
          { darray := pre ++ a.transposed (a.dim 0).toNat :: post, meta := meta } info).1 =
        (GIFTICoordinatesToVTK env { darray := pre ++ a :: post, meta := meta } info).1)) ∧
    ((∀ b ∈ pre, b.intent ≠ NIFTI_INTENT_TRIANGLE) → a.intent = NIFTI_INTENT_TRIANGLE →
      a.datatype = NIFTI_TYPE_INT32 →
      (GIFTITopologyToVTK env { darray := pre ++ a :: post, meta := meta } info).1 =
        some ((List.range (a.dim 0).toNat).map (fun j =>
          if a.ind_ord = GIFTI_IND_ORD_COL_MAJOR then
            [truncate (a.elem j), truncate (a.elem ((a.dim 0).toNat + j)),
             truncate (a.elem (2 * (a.dim 0).toNat + j))]
          else [truncate (a.elem (3 * j)), truncate (a.elem (3 * j + 1)),
                truncate (a.elem (3 * j + 2))])) ∧
      (a.ind_ord = GIFTI_IND_ORD_COL_MAJOR →
        (GIFTITopologyToVTK env
          { darray := pre ++ a.transposed (a.dim 0).toNat :: post, meta := meta } info).1 =
        (GIFTITopologyToVTK env { darray := pre ++ a :: post, meta := meta } info).1)) := by
  constructor
  · intro hpre ha htype
    have hmain := coordinates_of_accepted env info pre post meta a hpre ha htype hdim hcols
    refine ⟨?_, fun hcol => ?_⟩
    · rw [hmain]
      apply List.map_congr_left
      intro j _
      unfold giiDataArray.point
      split_ifs <;> rfl
    · rw [hmain, coordinates_of_accepted env info pre post meta (a.transposed (a.dim 0).toNat)
        hpre ha htype hdim hcols]
      show (List.range (a.dim 0).toNat).map _ = _
      apply List.map_congr_left
      intro j hj
      exact transposed_point a _ j (List.mem_range.mp hj) hcol
  · intro hpre ha htype
    have hmain := topology_of_accepted env info pre post meta a hpre ha htype hdim hcols
    refine ⟨?_, fun hcol => ?_⟩
    · rw [hmain]
      refine congrArg some (List.map_congr_left (fun j _ => ?_))
      unfold giiDataArray.triangle giiDataArray.pointId
      split_ifs <;> rfl
    · rw [hmain, topology_of_accepted env info pre post meta (a.transposed (a.dim 0).toNat)
        hpre ha htype hdim hcols]
      show some ((List.range (a.dim 0).toNat).map _) = _
      exact congrArg some (List.map_congr_left (fun j hj =>
        transposed_triangle a _ j (List.mem_range.mp hj) hcol))

/-- Witness of C39: the column-major coordinates array of the points `(1, 2, 3)`
and `(4, 5, 6)`, and a column-major triangle array. -/
theorem C39_layouts_witness :
    (GIFTICoordinatesToVTK exEnv exColumnMajorImage none).1 = [(1, 2, 3), (4, 5, 6)] ∧
    (GIFTITopologyToVTK exEnv exColumnMajorImage none).1 = some [[0, 1, 1], [1, 0, 0]] :=
  ⟨((C39_layouts_decode_alike exEnv none [] (exColumnMajorImage.darray.drop 1) []
      (exColumnMajorImage.darray.getD 0 exPoints) rfl rfl).1
        (fun _ h => absurd h (List.not_mem_nil _)) rfl rfl).1.trans (by decide),
   ((C39_layouts_decode_alike exEnv none (exColumnMajorImage.darray.take 1) []  []
      (exColumnMajorImage.darray.getD 1 exPoints) rfl rfl).2
        (by decide) rfl rfl).1.trans (by decide)⟩

/-! ## The meshes that `ReadGIFTI` returns -/

theorem not_badCell (npoints : Int) (c : List Int) (h : ¬ ReadGIFTI.badCell npoints c) :
    c.length = 3 ∧ ∀ id ∈ c, id < npoints := by
  unfold ReadGIFTI.badCell at h
  simp only [not_or, not_not, ge_iff_le, not_le] at h
  obtain ⟨hlen, h0, h1, h2⟩ := h
  refine ⟨hlen, ?_⟩
  match c, hlen with
  | [x, y, z], _ =>
    intro id hid
    simp only [List.mem_cons, List.mem_singleton, List.not_mem_nil, or_false] at hid
    rcases hid with rfl | rfl | rfl
    · simpa using h0
    · simpa using h1
    · simpa using h2

theorem ReadGIFTI_upper_bounds (env : Env) (gim : Option gifti_image)
    (surface : Option vtkPolyData) (mesh : vtkPolyData)
    (h : ReadGIFTI env gim surface = .ok mesh) :
    (∀ c ∈ mesh.polys, c.length = 3 ∧ ∀ id ∈ c, id < (mesh.points.length : Int)) ∧
    (∀ a ∈ mesh.pointData.arrays, a.GetNumberOfTuples = (mesh.points.length : Int)) := by
  have hnew : (∀ c ∈ vtkPolyData.New.polys,
        c.length = 3 ∧ ∀ id ∈ c, id < (vtkPolyData.New.points.length : Int)) ∧
      (∀ a ∈ vtkPolyData.New.pointData.arrays,
        a.GetNumberOfTuples = (vtkPolyData.New.points.length : Int)) :=
    ⟨fun _ hc => absurd hc (List.not_mem_nil _), fun _ ha => absurd ha (List.not_mem_nil _)⟩
  unfold ReadGIFTI at h
  cases gim with
  | none =>
    cases h
    exact hnew
  | some gim =>
    simp only at h
    cases hp : ReadGIFTI.points (GIFTICoordinatesToVTK env gim (some [])).1 surface with
    | none =>
      rw [hp] at h
      cases h
      exact hnew
    | some points =>
      rw [hp] at h
      simp only at h
      cases ht : (GIFTITopologyToVTK env gim (some [])).1 with
      | none =>
        rw [ht] at h
        cases h
      | some polys =>
        rw [ht] at h
        simp only at h
        by_cases hany : polys.any (fun pts =>
            decide (ReadGIFTI.badCell (points.length : Int) pts)) = true
        · rw [if_pos hany] at h
          cases h
          exact hnew
        · rw [if_neg hany] at h
          cases hi : GIFTINodeIndicesToVTK env gim with
          | error f =>
            rw [hi] at h
            cases h
          | ok indices =>
            rw [hi] at h
            simp only at h
            split_ifs at h with hbad
            · cases h
              exact hnew
            · cases hpd : GIFTIPointDataToVTK env gim (points.length : Int) indices with
              | error f =>
                rw [hpd] at h
                cases h
              | ok pd =>
                rw [hpd] at h
                simp only at h
                split_ifs at h with hok
                · cases h
                  refine ⟨fun c hc => ?_, fun a ha => ?_⟩
                  · apply not_badCell
                    intro hb
                    exact hany (List.any_eq_true.mpr ⟨c, hc, decide_eq_true hb⟩)
                  · exact of_decide_eq_true (List.all_eq_true.mp hok a ha)
                · cases h
                  exact hnew

/-- C37: the image holds the three example points and the triangle
`(-1, 0, 1)`. `ReadGIFTI` returns the mesh of the three points with the
polygon `(-1, 0, 1)`: the topology check compares each point ID with the number
of points only. A triangle with the point ID `3` makes it return the empty
mesh. -/
theorem C37_negative_triangle_index_admitted :
    ReadGIFTI exEnv (some (exImage [-1, 0, 1] [])) none =
      .ok { vtkPolyData.New with points := [(0, 0, 0), (1, 0, 0), (0, 1, 0)],
                                 polys := [[-1, 0, 1]],
                                 info := [(GiftiMetaData.DATA_SPACE,
                                   InfoValue.str "NIFTI_XFORM_UNKNOWN")] } ∧
    ReadGIFTI exEnv (some (exImage [3, 0, 1] [])) none = .ok vtkPolyData.New := by
  decide

/-- C40: for an image that holds the three example points and no triangle
array, and for one whose triangle array has the datatype `INT64`, `ReadGIFTI`
reaches `polys->InitTraversal()` with the null cell array. -/
theorem C40_null_cell_array_used :
    ReadGIFTI exEnv (some { darray := [exPoints], meta := [] }) none
      = .error Fault.nullDeref ∧
    ReadGIFTI exEnv (some { darray := [exPoints, exBadTriangles], meta := [] }) none
      = .error Fault.nullDeref ∧
    (GIFTICoordinatesToVTK exEnv { darray := [exPoints], meta := [] } (some [])).1.length = 3 ∧
    (GIFTITopologyToVTK exEnv { darray := [exPoints], meta := [] } (some [])).1 = none ∧
    (GIFTITopologyToVTK exEnv { darray := [exPoints, exBadTriangles], meta := [] }
      (some [])).1 = none := by
  decide

theorem ReadGIFTI_null_cells (env : Env) (gim : gifti_image) (surface : Option vtkPolyData)
    (points : List Point)
    (hpoints : ReadGIFTI.points (GIFTICoordinatesToVTK env gim (some [])).1 surface
      = some points)
    (htopo : (GIFTITopologyToVTK env gim (some [])).1 = none) :
    ReadGIFTI env (some gim) surface = .error Fault.nullDeref := by
  unfold ReadGIFTI
  simp only [hpoints, htopo]

/-! ## Point indices of an OFF file -/

theorem mem_offBuckets (faces : List (Int × List Int)) (c : List Int) :
    (c ∈ offVerts faces ++ offLines faces ++ offPolys faces) ↔
      ∃ f ∈ faces, 0 < f.1 ∧ f.2 = c := by
  unfold offVerts offLines offPolys
  simp only [List.mem_append, List.mem_map, List.mem_filter, decide_eq_true_eq]
  constructor
  · rintro ((⟨f, ⟨hf, h1⟩, rfl⟩ | ⟨f, ⟨hf, h2⟩, rfl⟩) | ⟨f, ⟨hf, h3⟩, rfl⟩)
    · exact ⟨f, hf, by omega, rfl⟩
    · exact ⟨f, hf, by omega, rfl⟩
    · exact ⟨f, hf, by omega, rfl⟩
  · rintro ⟨f, hf, hpos, rfl⟩
    by_cases h1 : f.1 = 1
    · exact Or.inl (Or.inl ⟨f, ⟨hf, h1⟩, rfl⟩)
    · by_cases h2 : f.1 = 2
      · exact Or.inl (Or.inr ⟨f, ⟨hf, h2⟩, rfl⟩)
      · exact Or.inr ⟨f, ⟨hf, by omega⟩, rfl⟩

/-- C38 (amended): for a well-formed OFF text, the point, line and polygon
cells of the mesh that `ReadOFF` returns are the index lists of the face
records with `n ≥ 1` as written in the file; no index is compared with the
number of points. Every point ID of the mesh is a valid point ID exactly when
every index in the file is one. -/
theorem C38_indices_kept_as_read (lib : StdLib) (env : Env) (text : List Char)
    (numVertices numFaces numEdges : Int) (points : List Point)
    (faces : List (Int × List Int))
    (h : WellFormedOFF lib text numVertices numFaces numEdges points faces) :
    (∀ c, c ∈ (ReadOFF lib env (some text)).verts ++ (ReadOFF lib env (some text)).lines ++
        (ReadOFF lib env (some text)).polys ↔ ∃ f ∈ faces, 0 < f.1 ∧ f.2 = c) ∧
    ((∀ c ∈ (ReadOFF lib env (some text)).verts ++ (ReadOFF lib env (some text)).lines ++
        (ReadOFF lib env (some text)).polys,
        ∀ id ∈ c, 0 ≤ id ∧ id < ((ReadOFF lib env (some text)).points.length : Int)) ↔
      (∀ f ∈ faces, ∀ id ∈ f.2, 0 ≤ id ∧ id < (numVertices.toNat : Int))) := by
  have hread := ReadOFF_wellFormed lib env text numVertices numFaces numEdges points faces h
  obtain ⟨t1, t2, t3, t4, t5, t6, _, _, _, _, hlen, _, _, hfaces⟩ := h
  have hlens := faceFields_lengths faces t5 t6 hfaces
  have hmem := mem_offBuckets faces
  rw [hread]
  show (∀ c, c ∈ offVerts faces ++ offLines faces ++ offPolys faces ↔ _) ∧
    ((∀ c ∈ offVerts faces ++ offLines faces ++ offPolys faces,
      ∀ id ∈ c, 0 ≤ id ∧ id < (points.length : Int)) ↔ _)
  rw [hlen]
  refine ⟨hmem, ?_, ?_⟩
  · intro hall f hf id hid
    have hpos : 0 < f.1 := by
      have h1 := hlens f hf
      have h2 : 0 < f.2.length := List.length_pos_of_mem hid
      omega
    exact hall f.2 ((hmem f.2).mpr ⟨f, hf, hpos, rfl⟩) id hid
  · intro hall c hc id hid
    obtain ⟨f, hf, _, rfl⟩ := (hmem c).mp hc
    exact hall f hf id hid

/-- Witness of C38 (amended): the example text, whose indices are in range. -/
theorem C38_indices_witness :
    (∀ c ∈ (ReadOFF exLib exParseEnv
          (some "off\n1 3 0\n0 -1 2\n0\n1 0\n 3 0 0 0".data)).verts ++
        (ReadOFF exLib exParseEnv (some "off\n1 3 0\n0 -1 2\n0\n1 0\n 3 0 0 0".data)).lines ++
        (ReadOFF exLib exParseEnv (some "off\n1 3 0\n0 -1 2\n0\n1 0\n 3 0 0 0".data)).polys,
      ∀ id ∈ c, 0 ≤ id ∧ id < ((ReadOFF exLib exParseEnv
          (some "off\n1 3 0\n0 -1 2\n0\n1 0\n 3 0 0 0".data)).points.length : Int)) ↔
    (∀ f ∈ [((0 : Int), ([] : List Int)), (1, [0]), (3, [0, 0, 0])],
      ∀ id ∈ f.2, 0 ≤ id ∧ id < (((1 : Int).toNat : Nat) : Int)) :=
  (C38_indices_kept_as_read exLib exParseEnv _ 1 3 0 [(0, -1, 2)]
    [(0, []), (1, [0]), (3, [0, 0, 0])] exOffText_wellFormed).2

/-- C38 (counterexample): the file declares one vertex and holds a face record
with the indices `0`, `5` and `-7`. `ReadOFF` returns the mesh of the one point
with the polygon `(0, 5, -7)`. -/
theorem C38_index_out_of_range_kept :
    ReadOFF exLib exEnv (some "OFF\n1 1 0\n0 0 0\n3 0 5 -7\n".data) =
      { vtkPolyData.New with points := [(0, 0, 0)], polys := [[0, 5, -7]] } := by
  decide

/-! ## BrainSuite surfaces -/

theorem assignAll_upto {α : Type} (f : Nat → α) (init : List α) :
    ∀ k, k ≤ init.length →
      (List.range k).foldl (fun l i => l.set i (f i)) init =
        (List.range k).map f ++ init.drop k := by
  intro k
  induction k with
  | zero => intro _; rfl
  | succ k ih =>
    intro hk
    rw [List.range_succ, List.foldl_append, ih (Nat.le_of_succ_le hk), List.map_append]
    simp only [List.foldl_cons, List.foldl_nil, List.map_cons, List.map_nil]
    have hlen : ((List.range k).map f).length = k := by simp
    obtain ⟨x, xs, hx⟩ : ∃ x xs, init.drop k = x :: xs := by
      cases hd : init.drop k with
      | nil =>
        have := congrArg List.length hd
        simp at this
        omega
      | cons x xs => exact ⟨x, xs, rfl⟩
    have hxs : init.drop (k + 1) = xs := by
      rw [← List.drop_drop 1 k init, hx]
      rfl
    rw [hx, hxs, List.set_append_right _ _ (by rw [hlen]), hlen, Nat.sub_self, List.set_cons_zero,
      List.append_assoc, List.singleton_append]

theorem assignAll_eq {α : Type} (n : Nat) (init : List α) (f : Nat → α)
    (hlen : init.length = n) : assignAll n init f = (List.range n).map f := by
  unfold assignAll
  rw [assignAll_upto f init n (by omega), List.drop_of_length_le (by omega), List.append_nil]

theorem getD_range_map {α : Type} (l : List α) (d : α) :
    (List.range l.length).map (fun i => l.getD i d) = l := by
  apply List.ext_getElem
  · simp
  · intro i h1 h2
    simp [List.getD_eq_getElem?_getD, List.getElem?_eq_getElem h2]

theorem triangles_none_iff :
    ∀ cells : List (List Int),
      WriteDFS.triangles cells = none ↔ ∃ c ∈ cells, c.length ≠ 3
  | [] => by simp [WriteDFS.triangles]
  | pts :: rest => by
    have ih := triangles_none_iff rest
    rw [WriteDFS.triangles]
    by_cases h : pts.length ≠ 3
    · rw [if_pos h]
      exact ⟨fun _ => ⟨pts, List.mem_cons_self _ _, h⟩, fun _ => rfl⟩
    · rw [if_neg h]
      cases hr : WriteDFS.triangles rest with
      | none =>
        obtain ⟨c, hc, hlen⟩ := ih.mp hr
        exact ⟨fun _ => ⟨c, List.mem_cons_of_mem _ hc, hlen⟩, fun _ => rfl⟩
      | some ts =>
        constructor
        · intro hcontra
          cases hcontra
        · rintro ⟨c, hc, hlen⟩
          rcases List.mem_cons.mp hc with rfl | hc
          · exact absurd hlen h
          · have := ih.mpr ⟨c, hc, hlen⟩
            rw [hr] at this
            cases this

theorem triangles_some :
    ∀ cells : List (List Int), (∀ c ∈ cells, c.length = 3) →
      WriteDFS.triangles cells = some (cells.map (fun c =>
        (castInt (c.getD 0 0), castInt (c.getD 1 0), castInt (c.getD 2 0))))
  | [], _ => rfl
  | pts :: rest, h => by
    rw [WriteDFS.triangles, if_neg (not_not.mpr (h pts (List.mem_cons_self _ _))),
      triangles_some rest (fun c hc => h c (List.mem_cons_of_mem _ hc))]
    rfl

theorem WriteDFS_fst_of_none (host : DFSHost) (fname : String) (polydata : vtkPolyData)
    (h : (WriteDFS host fname polydata).2 = none) :
    WriteDFS host fname polydata = (false, none) := by
  unfold WriteDFS at h ⊢
  cases hs : WriteDFS.surface host polydata with
  | none => rfl
  | some s =>
    rw [hs] at h
    cases h

theorem surface_none_iff (host : DFSHost) (polydata : vtkPolyData) :
    WriteDFS.surface host polydata = none ↔ WriteDFS.triangles polydata.cells = none := by
  unfold WriteDFS.surface
  cases ht : WriteDFS.triangles polydata.cells with
  | none => simp
  | some ts => simp

theorem surface_triangles (host : DFSHost) (polydata : vtkPolyData) (s : SILT.DFSurface)
    (h : WriteDFS.surface host polydata = some s) :
    WriteDFS.triangles polydata.cells = some s.triangles := by
  unfold WriteDFS.surface at h
  cases ht : WriteDFS.triangles polydata.cells with
  | none =>
    rw [ht] at h
    cases h
  | some ts =>
    rw [ht] at h
    simp only [Option.some.injEq] at h
    rw [← h]

theorem surface_eq (host : DFSHost) (polydata : vtkPolyData) :
    WriteDFS.surface host polydata =
      (WriteDFS.triangles polydata.cells).map (fun triangles =>
        { vertices := (List.range polydata.points.length).map (fun i =>
            (host.toFloat (polydata.GetPoint i).1, host.toFloat (polydata.GetPoint i).2.1,
             host.toFloat (polydata.GetPoint i).2.2)),
          triangles := triangles,
          vertexNormals :=
            match (match polydata.pointData.GetNormals with
              | some a => some a
              | none => polydata.pointData.GetArray "Normals") with
            | some normals => (List.range polydata.points.length).map (fun i =>
                (host.toFloat (normals.GetComponent i 0), host.toFloat (normals.GetComponent i 1),
                 host.toFloat (normals.GetComponent i 2)))
            | none => [],
          vertexColors :=
            match polydata.pointData.GetArray "Colors" with
            | some colors => (List.range polydata.points.length).map (fun i =>
                (host.toFloat (colors.GetComponent i 0), host.toFloat (colors.GetComponent i 1),
                 host.toFloat (colors.GetComponent i 2)))
            | none => [],
          vertexUV :=
            match (match polydata.pointData.GetTCoords with
              | some a => some a
              | none => polydata.pointData.GetArray "UV") with
            | some coords =>
              if coords.ncomp = 2 ∨ coords.ncomp = 3 then
                (List.range polydata.points.length).map (fun i =>
                  (host.toFloat (coords.GetComponent i 0),
                   host.toFloat (coords.GetComponent i 1)))
              else []
            | none => [],
          vertexLabels :=
            match polydata.pointData.GetArray "Labels" with
            | some labels =>
              if labels.ncomp = 1 then
                (List.range polydata.points.length).map (fun i =>
                  castUShort (labels.GetComponent i 0))
              else []
            | none => [],
          vertexAttributes :=
            match (match polydata.pointData.GetScalars with
              | some a => some a
              | none => polydata.pointData.GetArray "Attributes") with
            | some scalars =>
              if scalars.ncomp = 1 then
                (List.range polydata.points.length).map (fun i =>
                  host.toFloat (scalars.GetComponent i 0))
              else []
            | none => [] }) := by
  unfold WriteDFS.surface
  have hn : polydata.GetNumberOfPoints.toNat = polydata.points.length := by
    unfold vtkPolyData.GetNumberOfPoints
    exact Int.toNat_natCast _
  simp only [hn]
  have hA : ∀ {α : Type} (d : α) (f : Nat → α),
      assignAll polydata.points.length (List.replicate polydata.points.length d) f =
        (List.range polydata.points.length).map f :=
    fun d f => assignAll_eq _ _ f (List.length_replicate _ _)
  simp only [hA]
  cases WriteDFS.triangles polydata.cells with
  | none => rfl
  | some ts => rfl

theorem truncate_intCast (n : Int) : truncate (n : Rat) = n := by
  unfold truncate
  simp

theorem store_real (l : List Rat) : l.map ValueKind.real.store = l := by
  induction l with
  | nil => rfl
  | cons x l ih => rw [List.map_cons, ih]; rfl

theorem dfs_SetTuples (env : Env) (d : vtkDataArray) (name : String) (ncomp : Int) (n : Nat)
    (tuple : Nat → List Rat) (hinfo : d.info = []) :
    (((d.SetName name).SetNumberOfComponents ncomp).SetNumberOfTuples env n).SetTuples n tuple =
      dfsArray d.kind name ncomp n (fun i => (tuple i).map d.kind.store) := by
  unfold vtkDataArray.SetTuples vtkDataArray.SetNumberOfTuples vtkDataArray.SetNumberOfComponents
    vtkDataArray.SetName dfsArray
  simp only [hinfo]
  congr 1
  apply assignAll_eq
  simp

theorem foldl_append_map {α β : Type} (f : α → β) :
    ∀ (l : List α) (init : List β),
      l.foldl (fun (acc : List β) x => acc ++ [f x]) init = init ++ l.map f
  | [], init => by simp
  | x :: l, init => by
    rw [List.foldl_cons, foldl_append_map f l, List.map_cons, List.append_assoc,
      List.singleton_append]

theorem ReadDFS_points (env : Env) (s : SILT.DFSurface) :
    (ReadDFS env (some s)).points = s.vertices := by
  show assignAll s.vertices.length (vtkPoints.SetNumberOfPoints env s.vertices.length)
    (fun i => s.vertices.getD i (0, 0, 0)) = s.vertices
  rw [assignAll_eq _ _ _ (by unfold vtkPoints.SetNumberOfPoints; simp)]
  exact getD_range_map s.vertices (0, 0, 0)

theorem ReadDFS_polys (env : Env) (s : SILT.DFSurface) :
    (ReadDFS env (some s)).polys = s.triangles.map (fun t => [t.1, t.2.1, t.2.2]) := by
  show (List.range s.triangles.length).foldl (fun (cells : List (List Int)) i =>
      cells ++ [[(s.triangles.getD i (0, 0, 0)).1, (s.triangles.getD i (0, 0, 0)).2.1,
        (s.triangles.getD i (0, 0, 0)).2.2]]) [] = _
  rw [foldl_append_map (fun i => [(s.triangles.getD i (0, 0, 0)).1,
    (s.triangles.getD i (0, 0, 0)).2.1, (s.triangles.getD i (0, 0, 0)).2.2]), List.nil_append]
  conv_rhs => rw [← getD_range_map s.triangles (0, 0, 0)]
  rw [List.map_map]
  rfl

set_option maxHeartbeats 1600000 in
theorem ReadDFS_pointData (env : Env) (s : SILT.DFSurface) :
    (ReadDFS env (some s)).pointData.arrays = dfsArrays s ∧
    (ReadDFS env (some s)).pointData.GetScalars =
      (if s.vertexAttributes = [] then none
       else some (dfsArray ValueKind.real "Attributes" 1 s.vertices.length (fun i =>
         [s.vertexAttributes.getD i 0]))) := by
  have hF : vtkFloatArray.New.info = [] := rfl
  have hU : vtkUnsignedShortArray.New.info = [] := rfl
  have hkF : vtkFloatArray.New.kind = ValueKind.real := rfl
  have hkU : vtkUnsignedShortArray.New.kind = ValueKind.integral := rfl
  have hlab : ∀ l : Int, ValueKind.integral.store (l : Rat) = (l : Rat) := by
    intro l
    show ((truncate (l : Rat) : Int) : Rat) = _
    rw [truncate_intCast]
  have hre : ∀ x : Rat, ValueKind.real.store x = x := fun _ => rfl
  unfold ReadDFS
  simp only [dfs_SetTuples env _ _ _ _ _ hF, dfs_SetTuples env _ _ _ _ _ hU, hkF, hkU, store_real,
    List.map_cons, List.map_nil, hlab, hre]
  obtain ⟨v, t, vn, vc, vuv, vl, va⟩ := s
  cases vn <;> cases vc <;> cases vuv <;> cases vl <;> cases va <;>
    simp [dfsArrays, dfsArray, vtkPointData.SetNormals, vtkPointData.SetTCoords,
      vtkPointData.SetScalars, vtkPointData.AddArray, vtkPointData.New, vtkPolyData.New,
      vtkPointData.GetScalars, vtkPointData.attribute, List.findIdx_cons, hre]

theorem castInt_id (x : Int) (hlo : -2 ^ 31 ≤ x) (hhi : x < 2 ^ 31) : castInt x = x := by
  unfold castInt
  rw [Int.emod_eq_of_lt (by omega) (by omega)]
  omega

theorem WriteDFS_of_triangles (host : DFSHost) (fname : String) (polydata : vtkPolyData)
    (hall : ∀ c ∈ polydata.cells, c.length = 3) :
    ∃ surface, WriteDFS.surface host polydata = some surface ∧
      WriteDFS host fname polydata = (host.writeDFS fname surface, some surface) ∧
      surface.triangles = polydata.cells.map (fun c =>
        (castInt (c.getD 0 0), castInt (c.getD 1 0), castInt (c.getD 2 0))) ∧
      ((∀ c ∈ polydata.cells, ∀ id ∈ c, -2 ^ 31 ≤ id ∧ id < 2 ^ 31) →
        surface.triangles.map (fun t => [t.1, t.2.1, t.2.2]) = polydata.cells) := by
  have htri := triangles_some polydata.cells hall
  cases hs : WriteDFS.surface host polydata with
  | none =>
    rw [(surface_none_iff host polydata).mp hs] at htri
    cases htri
  | some s =>
    have hts := surface_triangles host polydata s hs
    rw [htri] at hts
    have hts' := (Option.some.inj hts).symm
    refine ⟨s, rfl, by unfold WriteDFS; rw [hs], hts', fun hrange => ?_⟩
    rw [hts', List.map_map]
    conv_rhs => rw [← List.map_id polydata.cells]
    apply List.map_congr_left
    intro c hc
    have hlen := hall c hc
    match c, hlen, hrange c hc with
    | [x, y, z], _, hr =>
      have hx := hr x (by simp)
      have hy := hr y (by simp)
      have hz := hr z (by simp)
      show [castInt x, castInt y, castInt z] = [x, y, z]
      rw [castInt_id x hx.1 hx.2, castInt_id y hy.1 hy.2, castInt_id z hz.1 hz.2]

/-- C31: `WriteDFS` returns `false` without a call of the writer of the
BrainSuite library exactly when some cell of the mesh (vertex, line, polygon or
triangle strip) does not have three points. Otherwise it returns the result of
the writer for the surface that it filled, and triangle `i` of that surface
holds the three point IDs of cell `i` in order, converted to `int` (unchanged
when they are in the range of `int`). -/
theorem C31_write_dfs_triangles_only (host : DFSHost) (fname : String)
    (polydata : vtkPolyData) :
    (WriteDFS host fname polydata = (false, none) ↔ ∃ c ∈ polydata.cells, c.length ≠ 3) ∧
    ((WriteDFS host fname polydata).2 = none ↔ ∃ c ∈ polydata.cells, c.length ≠ 3) ∧
    ((∀ c ∈ polydata.cells, c.length = 3) →
      ∃ surface, WriteDFS host fname polydata = (host.writeDFS fname surface, some surface) ∧
        surface.triangles = polydata.cells.map (fun c =>
          (castInt (c.getD 0 0), castInt (c.getD 1 0), castInt (c.getD 2 0))) ∧
        ((∀ c ∈ polydata.cells, ∀ id ∈ c, -2 ^ 31 ≤ id ∧ id < 2 ^ 31) →
          surface.triangles.map (fun t => [t.1, t.2.1, t.2.2]) = polydata.cells)) := by
  have hnone : (WriteDFS host fname polydata).2 = none ↔ ∃ c ∈ polydata.cells, c.length ≠ 3 := by
    rw [← triangles_none_iff, ← surface_none_iff host]
    unfold WriteDFS
    cases WriteDFS.surface host polydata <;> simp
  refine ⟨⟨fun h => hnone.mp (by rw [h]), fun h => WriteDFS_fst_of_none host fname polydata
    (hnone.mpr h)⟩, hnone, fun hall => ?_⟩
  obtain ⟨s, _, hw, hts, hback⟩ := WriteDFS_of_triangles host fname polydata hall
  exact ⟨s, hw, hts, hback⟩

/-- Witness of C31: the example mesh with two triangles is handed to the writer;
with a quadrilateral it is not. -/
theorem C31_write_dfs_witness :
    WriteDFS exDFSHost "m.dfs" (exMesh [[0, 1, 2], [1, 2, 3]] []) =
      (true, some { SILT.DFSurface.empty with
        vertices := [(0, 0, 0), (1, 0, 0), (0, 1, 0), (1, 1, 0)],
        triangles := [(0, 1, 2), (1, 2, 3)] }) ∧
    WriteDFS exDFSHost "m.dfs" (exMesh [[0, 1, 2, 3]] []) = (false, none) :=
  ⟨by decide,
   (C31_write_dfs_triangles_only exDFSHost "m.dfs" (exMesh [[0, 1, 2, 3]] [])).1.mpr
     ⟨[0, 1, 2, 3], by decide, by decide⟩⟩

theorem mem_dfsArrays (s : SILT.DFSurface) (a : vtkDataArray) :
    a ∈ dfsArrays s ↔
      (s.vertexNormals ≠ [] ∧ a = dfsArray ValueKind.real "Normals" 3 s.vertices.length (fun i =>
        [(s.vertexNormals.getD i (0, 0, 0)).1, (s.vertexNormals.getD i (0, 0, 0)).2.1,
         (s.vertexNormals.getD i (0, 0, 0)).2.2])) ∨
      (s.vertexColors ≠ [] ∧ a = dfsArray ValueKind.real "Colors" 3 s.vertices.length (fun i =>
        [(s.vertexColors.getD i (0, 0, 0)).1, (s.vertexColors.getD i (0, 0, 0)).2.1,
         (s.vertexColors.getD i (0, 0, 0)).2.2])) ∨
      (s.vertexUV ≠ [] ∧ a = dfsArray ValueKind.real "UV" 3 s.vertices.length (fun i =>
        [(s.vertexUV.getD i (0, 0)).1, (s.vertexUV.getD i (0, 0)).2, 0])) ∨
      (s.vertexLabels ≠ [] ∧ a = dfsArray ValueKind.integral "Labels" 1 s.vertices.length
        (fun i => [((s.vertexLabels.getD i 0 : Int) : Rat)])) ∨
      (s.vertexAttributes ≠ [] ∧ a = dfsArray ValueKind.real "Attributes" 1 s.vertices.length
        (fun i => [s.vertexAttributes.getD i 0])) := by
  unfold dfsArrays
  simp only [List.mem_append]
  by_cases h1 : s.vertexNormals = [] <;> by_cases h2 : s.vertexColors = [] <;>
    by_cases h3 : s.vertexUV = [] <;> by_cases h4 : s.vertexLabels = [] <;>
    by_cases h5 : s.vertexAttributes = [] <;>
    simp [h1, h2, h3, h4, h5, or_assoc]

theorem dfsArrays_has (s : SILT.DFSurface) :
    ((∃ a ∈ dfsArrays s, a.name = "Normals") ↔ s.vertexNormals ≠ []) ∧
    ((∃ a ∈ dfsArrays s, a.name = "Colors") ↔ s.vertexColors ≠ []) ∧
    ((∃ a ∈ dfsArrays s, a.name = "UV") ↔ s.vertexUV ≠ []) ∧
    ((∃ a ∈ dfsArrays s, a.name = "Labels") ↔ s.vertexLabels ≠ []) ∧
    ((∃ a ∈ dfsArrays s, a.name = "Attributes") ↔ s.vertexAttributes ≠ []) := by
  refine ⟨⟨?_, fun h => ⟨_, (mem_dfsArrays s _).mpr (Or.inl ⟨h, rfl⟩), rfl⟩⟩,
    ⟨?_, fun h => ⟨_, (mem_dfsArrays s _).mpr (Or.inr (Or.inl ⟨h, rfl⟩)), rfl⟩⟩,
    ⟨?_, fun h => ⟨_, (mem_dfsArrays s _).mpr (Or.inr (Or.inr (Or.inl ⟨h, rfl⟩))), rfl⟩⟩,
    ⟨?_, fun h => ⟨_, (mem_dfsArrays s _).mpr (Or.inr (Or.inr (Or.inr (Or.inl ⟨h, rfl⟩)))),
      rfl⟩⟩,
    ⟨?_, fun h => ⟨_, (mem_dfsArrays s _).mpr (Or.inr (Or.inr (Or.inr (Or.inr ⟨h, rfl⟩)))),
      rfl⟩⟩⟩
  all_goals
    rintro ⟨a, ha, hname⟩
    rcases (mem_dfsArrays s a).mp ha with ⟨h, rfl⟩ | ⟨h, rfl⟩ | ⟨h, rfl⟩ | ⟨h, rfl⟩ | ⟨h, rfl⟩
    all_goals first
      | exact h
      | (simp [dfsArray] at hname)

/-- C32: for a surface that the BrainSuite library read, the mesh that `ReadDFS`
returns has the vertices as points and the triangles as polygons, in order, and
has an array named `Normals`, `Colors`, `UV`, `Labels` or `Attributes` exactly
when the corresponding vector of the surface is not empty. Every array has one
tuple per point; `UV` has three components and the third of every tuple is
`0`; `Labels` and `Attributes` have one component; `Attributes`, when there,
is the active scalars array. When the file cannot be read the mesh is empty. -/
theorem C32_read_dfs_mesh (env : Env) (surface : SILT.DFSurface) :
    (ReadDFS env (some surface)).points = surface.vertices ∧
    (ReadDFS env (some surface)).polys = surface.triangles.map (fun t => [t.1, t.2.1, t.2.2]) ∧
    ((ReadDFS env (some surface)).pointData.HasArray "Normals" ↔ surface.vertexNormals ≠ []) ∧
    ((ReadDFS env (some surface)).pointData.HasArray "Colors" ↔ surface.vertexColors ≠ []) ∧
    ((ReadDFS env (some surface)).pointData.HasArray "UV" ↔ surface.vertexUV ≠ []) ∧
    ((ReadDFS env (some surface)).pointData.HasArray "Labels" ↔ surface.vertexLabels ≠ []) ∧
    ((ReadDFS env (some surface)).pointData.HasArray "Attributes" ↔
      surface.vertexAttributes ≠ []) ∧
    (∀ a ∈ (ReadDFS env (some surface)).pointData.arrays,
      a.name ∈ ["Normals", "Colors", "UV", "Labels", "Attributes"] ∧
      a.tuples.length = surface.vertices.length ∧
      (a.name = "UV" → a.ncomp = 3 ∧ ∀ t ∈ a.tuples, t.length = 3 ∧ t.get? 2 = some 0) ∧
      (a.name = "Labels" ∨ a.name = "Attributes" → a.ncomp = 1)) ∧
    (surface.vertexAttributes ≠ [] →
      ∃ a, (ReadDFS env (some surface)).pointData.GetScalars = some a ∧
        a.name = "Attributes") ∧
    ReadDFS env none = vtkPolyData.New := by
  obtain ⟨harrays, hscalars⟩ := ReadDFS_pointData env surface
  obtain ⟨h1, h2, h3, h4, h5⟩ := dfsArrays_has surface
  unfold vtkPointData.HasArray
  rw [harrays]
  refine ⟨ReadDFS_points env surface, ReadDFS_polys env surface, h1, h2, h3, h4, h5, ?_, ?_,
    rfl⟩
  · intro a ha
    rcases (mem_dfsArrays surface a).mp ha with
      ⟨_, rfl⟩ | ⟨_, rfl⟩ | ⟨_, rfl⟩ | ⟨_, rfl⟩ | ⟨_, rfl⟩
    · exact ⟨by simp [dfsArray], by simp [dfsArray], fun h => by simp [dfsArray] at h,
        fun h => by simp [dfsArray] at h⟩
    · exact ⟨by simp [dfsArray], by simp [dfsArray], fun h => by simp [dfsArray] at h,
        fun h => by simp [dfsArray] at h⟩
    · refine ⟨by simp [dfsArray], by simp [dfsArray], fun _ => ⟨rfl, ?_⟩,
        fun h => by simp [dfsArray] at h⟩
      intro t ht
      obtain ⟨i, _, rfl⟩ := List.mem_map.mp ht
      exact ⟨rfl, rfl⟩
    · exact ⟨by simp [dfsArray], by simp [dfsArray], fun h => by simp [dfsArray] at h,
        fun _ => rfl⟩
    · exact ⟨by simp [dfsArray], by simp [dfsArray], fun h => by simp [dfsArray] at h,
        fun _ => rfl⟩
  · intro hne
    rw [hscalars, if_neg hne]
    exact ⟨_, rfl, rfl⟩

/-- Witness of C32: the example surface has UV coordinates and labels only. -/
theorem C32_read_dfs_witness :
    (ReadDFS exEnv (some exSurface)).points = [(0, 0, 0), (1, 0, 0), (0, 1, 0)] ∧
    (ReadDFS exEnv (some exSurface)).polys = [[0, 1, 2]] ∧
    (ReadDFS exEnv (some exSurface)).pointData.arrays.map (fun a => (a.name, a.tuples)) =
      [("UV", [[0, 0, 0], [1, 0, 0], [0, 1, 0]]), ("Labels", [[7], [8], [9]])] :=
  ⟨(C32_read_dfs_mesh exEnv exSurface).1, (C32_read_dfs_mesh exEnv exSurface).2.1, by decide⟩

theorem GetArray_some (pd : vtkPointData) (name : String) (a : vtkDataArray)
    (h : pd.GetArray name = some a) : a ∈ pd.arrays ∧ a.name = name := by
  unfold vtkPointData.GetArray at h
  refine ⟨List.mem_of_find?_eq_some h, ?_⟩
  have := List.find?_some h
  simpa using this

theorem GetArray_none_iff (pd : vtkPointData) (name : String) :
    pd.GetArray name = none ↔ ¬ pd.HasArray name := by
  unfold vtkPointData.GetArray vtkPointData.HasArray
  rw [List.find?_eq_none]
  simp

theorem attribute_mem (pd : vtkPointData) (idx : Option Nat) (a : vtkDataArray)
    (h : pd.attribute idx = some a) : a ∈ pd.arrays := by
  unfold vtkPointData.attribute at h
  cases idx with
  | none => cases h
  | some i => exact List.get?_mem h

/-- The array that `WriteDFS` takes for an attribute: the active one, or else
the one of the given name. -/
theorem found_iff (pd : vtkPointData) (active : Option vtkDataArray) (name : String)
    (hmem : ∀ a, active = some a → a ∈ pd.arrays)
    (hname : ∀ a, active = some a → a.name = name) :
    (∀ a, (match active with
        | some a => some a
        | none => pd.GetArray name) = some a → a ∈ pd.arrays ∧ a.name = name) ∧
    ((match active with
        | some a => some a
        | none => pd.GetArray name) = none ↔ ¬ pd.HasArray name) := by
  cases active with
  | none => exact ⟨fun a h => GetArray_some pd name a h, GetArray_none_iff pd name⟩
  | some b =>
    refine ⟨fun a h => ?_, ?_⟩
    · cases h
      exact ⟨hmem b rfl, hname b rfl⟩
    · constructor
      · intro h
        cases h
      · intro h
        exact absurd ⟨b, hmem b rfl, hname b rfl⟩ h

theorem range_map_ne_nil {α : Type} (n : Nat) (f : Nat → α) (hn : 0 < n) :
    (List.range n).map f ≠ [] := by
  intro h
  have := congrArg List.length h
  simp at this
  omega

theorem castUShort_intCast (v : Int) (h0 : 0 ≤ v) (h1 : v < 2 ^ 16) :
    castUShort (v : Rat) = v := by
  unfold castUShort
  rw [truncate_intCast]
  exact Int.emod_eq_of_lt h0 h1

theorem surface_presence (host : DFSHost) (polydata : vtkPolyData) (s : SILT.DFSurface)
    (hs : WriteDFS.surface host polydata = some s) (hpos : 0 < polydata.points.length)
    (hN : ∀ a, polydata.pointData.GetNormals = some a → a.name = "Normals")
    (hT : ∀ a, polydata.pointData.GetTCoords = some a → a.name = "UV")
    (hS : ∀ a, polydata.pointData.GetScalars = some a → a.name = "Attributes")
    (hUV : ∀ a ∈ polydata.pointData.arrays, a.name = "UV" → a.ncomp = 2 ∨ a.ncomp = 3)
    (hL : ∀ a ∈ polydata.pointData.arrays, a.name = "Labels" → a.ncomp = 1)
    (hA : ∀ a ∈ polydata.pointData.arrays, a.name = "Attributes" → a.ncomp = 1) :
    s.vertices.length = polydata.points.length ∧
    (s.vertexNormals ≠ [] ↔ polydata.pointData.HasArray "Normals") ∧
    (s.vertexColors ≠ [] ↔ polydata.pointData.HasArray "Colors") ∧
    (s.vertexUV ≠ [] ↔ polydata.pointData.HasArray "UV") ∧
    (s.vertexLabels ≠ [] ↔ polydata.pointData.HasArray "Labels") ∧
    (s.vertexAttributes ≠ [] ↔ polydata.pointData.HasArray "Attributes") ∧
    (∀ labels, polydata.pointData.GetArray "Labels" = some labels →
      s.vertexLabels = (List.range polydata.points.length).map (fun i =>
        castUShort (labels.GetComponent i 0))) := by
  rw [surface_eq] at hs
  cases ht : WriteDFS.triangles polydata.cells with
  | none =>
    rw [ht] at hs
    cases hs
  | some ts =>
    rw [ht] at hs
    simp only [Option.map_some', Option.some.injEq] at hs
    subst hs
    obtain ⟨hNf, hNn⟩ := found_iff polydata.pointData polydata.pointData.GetNormals "Normals"
      (fun a h => attribute_mem _ _ a h) hN
    obtain ⟨hTf, hTn⟩ := found_iff polydata.pointData polydata.pointData.GetTCoords "UV"
      (fun a h => attribute_mem _ _ a h) hT
    obtain ⟨hSf, hSn⟩ := found_iff polydata.pointData polydata.pointData.GetScalars "Attributes"
      (fun a h => attribute_mem _ _ a h) hS
    refine ⟨by simp, ?_, ?_, ?_, ?_, ?_, ?_⟩
    · show (match (match polydata.pointData.GetNormals with
          | some a => some a
          | none => polydata.pointData.GetArray "Normals") with
        | some normals => _
        | none => []) ≠ [] ↔ _
      cases hf : (match polydata.pointData.GetNormals with
          | some a => some a
          | none => polydata.pointData.GetArray "Normals") with
      | none => exact ⟨fun h => absurd rfl h, fun h => absurd h (hNn.mp hf)⟩
      | some a =>
        exact ⟨fun _ => ⟨a, (hNf a hf).1, (hNf a hf).2⟩, fun _ => range_map_ne_nil _ _ hpos⟩
    · show (match polydata.pointData.GetArray "Colors" with
        | some colors => _
        | none => []) ≠ [] ↔ _
      cases hf : polydata.pointData.GetArray "Colors" with
      | none => exact ⟨fun h => absurd rfl h, fun h => absurd h ((GetArray_none_iff _ _).mp hf)⟩
      | some a =>
        exact ⟨fun _ => ⟨a, (GetArray_some _ _ a hf).1, (GetArray_some _ _ a hf).2⟩,
          fun _ => range_map_ne_nil _ _ hpos⟩
    · show (match (match polydata.pointData.GetTCoords with
          | some a => some a
          | none => polydata.pointData.GetArray "UV") with
        | some coords => if coords.ncomp = 2 ∨ coords.ncomp = 3 then _ else []
        | none => []) ≠ [] ↔ _
      cases hf : (match polydata.pointData.GetTCoords with
          | some a => some a
          | none => polydata.pointData.GetArray "UV") with
      | none => exact ⟨fun h => absurd rfl h, fun h => absurd h (hTn.mp hf)⟩
      | some a =>
        simp only [if_pos (hUV a (hTf a hf).1 (hTf a hf).2)]
        exact ⟨fun _ => ⟨a, (hTf a hf).1, (hTf a hf).2⟩, fun _ => range_map_ne_nil _ _ hpos⟩
    · show (match polydata.pointData.GetArray "Labels" with
        | some labels => if labels.ncomp = 1 then _ else []
        | none => []) ≠ [] ↔ _
      cases hf : polydata.pointData.GetArray "Labels" with
      | none => exact ⟨fun h => absurd rfl h, fun h => absurd h ((GetArray_none_iff _ _).mp hf)⟩
      | some a =>
        simp only [if_pos (hL a (GetArray_some _ _ a hf).1 (GetArray_some _ _ a hf).2)]
        exact ⟨fun _ => ⟨a, (GetArray_some _ _ a hf).1, (GetArray_some _ _ a hf).2⟩,
          fun _ => range_map_ne_nil _ _ hpos⟩
    · show (match (match polydata.pointData.GetScalars with
          | some a => some a
          | none => polydata.pointData.GetArray "Attributes") with
        | some scalars => if scalars.ncomp = 1 then _ else []
        | none => []) ≠ [] ↔ _
      cases hf : (match polydata.pointData.GetScalars with
          | some a => some a
          | none => polydata.pointData.GetArray "Attributes") with
      | none => exact ⟨fun h => absurd rfl h, fun h => absurd h (hSn.mp hf)⟩
      | some a =>
        simp only [if_pos (hA a (hSf a hf).1 (hSf a hf).2)]
        exact ⟨fun _ => ⟨a, (hSf a hf).1, (hSf a hf).2⟩, fun _ => range_map_ne_nil _ _ hpos⟩
    · intro labels hlab
      show (match polydata.pointData.GetArray "Labels" with
        | some labels => if labels.ncomp = 1 then _ else []
        | none => []) = _
      rw [hlab]
      simp only [if_pos (hL labels (GetArray_some _ _ labels hlab).1
        (GetArray_some _ _ labels hlab).2)]

theorem dfsArray_GetComponent (kind : ValueKind) (name : String) (ncomp : Int) (n : Nat)
    (tuple : Nat → List Rat) (i j : Nat) (hi : i < n) :
    (dfsArray kind name ncomp n tuple).GetComponent i j = (tuple i).getD j 0 := by
  unfold vtkDataArray.GetComponent dfsArray
  simp only [List.getD_eq_getElem?_getD, List.getElem?_map, List.getElem?_range hi,
    Option.map_some', Option.getD_some]

/-- C33 (amended): take a mesh with at least one point whose cells all have
three point IDs in the range of `int`, whose active normals, texture
coordinates and scalars (if set) are the arrays named `Normals`, `UV` and
`Attributes`, and whose arrays `UV`, `Labels` and `Attributes` have two or
three, one and one component. Then `WriteDFS` hands a surface to the writer,
and `ReadDFS` of that surface returns a mesh with as many points, the same
triangles in the same order, an array of each of the five names exactly when
the mesh has one, and, when the labels are integers in the range of
`unsigned short`, the same labels. -/
theorem C33_dfs_round_trip (env : Env) (host : DFSHost) (fname : String)
    (polydata : vtkPolyData) (hpos : 0 < polydata.points.length)
    (htri : ∀ c ∈ polydata.cells, c.length = 3)
    (hids : ∀ c ∈ polydata.cells, ∀ id ∈ c, -2 ^ 31 ≤ id ∧ id < 2 ^ 31)
    (hN : ∀ a, polydata.pointData.GetNormals = some a → a.name = "Normals")
    (hT : ∀ a, polydata.pointData.GetTCoords = some a → a.name = "UV")
    (hS : ∀ a, polydata.pointData.GetScalars = some a → a.name = "Attributes")
    (hUV : ∀ a ∈ polydata.pointData.arrays, a.name = "UV" → a.ncomp = 2 ∨ a.ncomp = 3)
    (hL : ∀ a ∈ polydata.pointData.arrays, a.name = "Labels" → a.ncomp = 1)
    (hA : ∀ a ∈ polydata.pointData.arrays, a.name = "Attributes" → a.ncomp = 1) :
    ∃ surface, WriteDFS host fname polydata = (host.writeDFS fname surface, some surface) ∧
      (ReadDFS env (some surface)).points.length = polydata.points.length ∧
      (ReadDFS env (some surface)).polys = polydata.cells ∧
      (∀ name ∈ ["Normals", "Colors", "UV", "Labels", "Attributes"],
        (ReadDFS env (some surface)).pointData.HasArray name ↔
          polydata.pointData.HasArray name) ∧
      (∀ labels, polydata.pointData.GetArray "Labels" = some labels →
        (∀ i, i < polydata.points.length →
          ∃ v : Int, 0 ≤ v ∧ v < 2 ^ 16 ∧ labels.GetComponent i 0 = v) →
        ∃ back, (ReadDFS env (some surface)).pointData.GetArray "Labels" = some back ∧
          ∀ i, i < polydata.points.length →
            back.GetComponent i 0 = labels.GetComponent i 0) := by
  obtain ⟨s, hs, hw, _, hback⟩ := WriteDFS_of_triangles host fname polydata htri
  obtain ⟨hlen, h1, h2, h3, h4, h5, hlabels⟩ :=
    surface_presence host polydata s hs hpos hN hT hS hUV hL hA
  obtain ⟨harrays, _⟩ := ReadDFS_pointData env s
  obtain ⟨g1, g2, g3, g4, g5⟩ := dfsArrays_has s
  refine ⟨s, hw, ?_, ?_, ?_, ?_⟩
  · rw [ReadDFS_points, hlen]
  · rw [ReadDFS_polys]
    exact hback hids
  · intro name hname
    show (∃ a ∈ (ReadDFS env (some s)).pointData.arrays, a.name = name) ↔ _
    rw [harrays]
    simp only [List.mem_cons, List.mem_singleton, List.not_mem_nil, or_false] at hname
    rcases hname with rfl | rfl | rfl | rfl | rfl
    · exact g1.trans h1
    · exact g2.trans h2
    · exact g3.trans h3
    · exact g4.trans h4
    · exact g5.trans h5
  · intro labels hlab hvals
    have hhas : polydata.pointData.HasArray "Labels" :=
      ⟨labels, (GetArray_some _ _ labels hlab).1, (GetArray_some _ _ labels hlab).2⟩
    have hne : s.vertexLabels ≠ [] := h4.mpr hhas
    cases hb : (ReadDFS env (some s)).pointData.GetArray "Labels" with
    | none =>
      have := (GetArray_none_iff _ _).mp hb
      unfold vtkPointData.HasArray at this
      rw [harrays] at this
      exact absurd (g4.mpr hne) this
    | some back =>
      refine ⟨back, rfl, fun i hi => ?_⟩
      obtain ⟨hmem, hname⟩ := GetArray_some _ _ back hb
      rw [harrays] at hmem
      obtain ⟨v, hv0, hv1, hv⟩ := hvals i hi
      have hi' : i < s.vertices.length := by rw [hlen]; exact hi
      rcases (mem_dfsArrays s back).mp hmem with
        ⟨_, rfl⟩ | ⟨_, rfl⟩ | ⟨_, rfl⟩ | ⟨_, rfl⟩ | ⟨_, rfl⟩
      · simp [dfsArray] at hname
      · simp [dfsArray] at hname
      · simp [dfsArray] at hname
      · have hcast : castUShort (labels.GetComponent i 0) = v := by
          rw [hv]
          exact castUShort_intCast v hv0 hv1
        rw [dfsArray_GetComponent _ _ _ _ _ i 0 hi', hlabels labels hlab]
        simp only [List.getD_eq_getElem?_getD, List.getElem?_map, List.getElem?_range hi,
          Option.map_some', Option.getD_some, List.getElem?_cons_zero, hcast]
        exact hv.symm
      · simp [dfsArray] at hname

/-- Witness of C33 (amended): the example mesh with the array `Labels` and no
active scalars. -/
theorem C33_dfs_round_trip_witness :
    ∃ surface, WriteDFS exDFSHost "m.dfs" (exLabelledMesh none) = (true, some surface) ∧
      (ReadDFS exEnv (some surface)).polys = [[0, 1, 2]] ∧
      ((ReadDFS exEnv (some surface)).pointData.HasArray "Attributes" ↔
        (exLabelledMesh none).pointData.HasArray "Attributes") :=
  match C33_dfs_round_trip exEnv exDFSHost "m.dfs" (exLabelledMesh none) (by decide) (by decide)
    (by decide) (fun _ h => Option.noConfusion h) (fun _ h => Option.noConfusion h)
    (fun _ h => Option.noConfusion h) (by decide) (by decide) (by decide) with
  | ⟨surface, hw, _, hpolys, hhas, _⟩ => ⟨surface, hw, hpolys, hhas "Attributes" (by decide)⟩

/-- C33 (counterexample): the example mesh has the array `Labels` only, which is
also its active scalars array. `WriteDFS` writes it as the labels and as the
attributes of the surface, and `ReadDFS` of that surface returns a mesh with
the arrays `Labels` and `Attributes`. -/
theorem C33_active_labels_become_attributes :
    (exLabelledMesh (some 0)).pointData.arrays.map (fun a => a.name) = ["Labels"] ∧
    (∀ c ∈ (exLabelledMesh (some 0)).cells, c.length = 3) ∧
    ((WriteDFS exDFSHost "m.dfs" (exLabelledMesh (some 0))).2.map (fun surface =>
      (ReadDFS exEnv (some surface)).pointData.arrays.map (fun a => a.name))) =
        some ["Labels", "Attributes"] ∧
    ¬ (exLabelledMesh (some 0)).pointData.HasArray "Attributes" ∧
    ((WriteDFS exDFSHost "m.dfs" (exLabelledMesh (some 0))).2.map (fun surface =>
      decide ((ReadDFS exEnv (some surface)).pointData.HasArray "Attributes"))) = some true := by
  decide

/-! ## Generic readers and writers -/

theorem polyDataRead_iff (ext : String) :
    (ext = ".vtp" ∨ ext = ".stl" ∨ ext = ".ply" ∨ ext = ".obj" ∨ ext = ".dfs" ∨ ext = ".off" ∨
      ext = ".gii") ↔ ext ∈ polyDataReadExtensions := by
  unfold polyDataReadExtensions
  simp only [List.mem_cons, List.mem_singleton, List.not_mem_nil, or_false]

theorem ReadPointSet_read_cases (r : Readers) (lib : StdLib) (env : Env) (fname : String) :
    (r.Extension fname ∈ polyDataReadExtensions →
      ReadPointSet.read r lib env fname =
        match ReadPolyData r lib env fname r.ReadPolyData_exit_on_failure with
        | .error f => .error f
        | .ok polydata => .ok (polydata.map vtkPointSet.polyData)) ∧
    (r.Extension fname ∉ polyDataReadExtensions → isXMLExtension (r.Extension fname) →
      ReadPointSet.read r lib env fname = .ok (r.vtkXMLGenericDataObjectReader fname)) ∧
    (r.Extension fname ∉ polyDataReadExtensions → ¬ isXMLExtension (r.Extension fname) →
      ReadPointSet.read r lib env fname = .ok (r.vtkGenericDataObjectReader fname)) := by
  unfold ReadPointSet.read
  simp only [polyDataRead_iff]
  refine ⟨fun h => ?_, fun h hx => ?_, fun h hx => ?_⟩
  · rw [if_pos h]
  · rw [if_neg h, if_pos hx]
  · rw [if_neg h, if_neg hx]

theorem ReadPolyData_read_cases (r : Readers) (lib : StdLib) (env : Env) (fname : String)
    (flag : Bool) :
    (r.Extension fname = ".vtp" →
      ReadPolyData.read r lib env fname flag = .ok (some (r.vtkXMLPolyDataReader fname))) ∧
    (r.Extension fname = ".stl" →
      ReadPolyData.read r lib env fname flag = .ok (some (r.vtkSTLReader fname))) ∧
    (r.Extension fname = ".ply" →
      ReadPolyData.read r lib env fname flag = .ok (some (r.vtkPLYReader fname))) ∧
    (r.Extension fname = ".obj" →
      ReadPolyData.read r lib env fname flag = .ok (some (r.vtkOBJReader fname))) ∧
    (r.Extension fname = ".dfs" →
      ReadPolyData.read r lib env fname flag =
        .ok (some (ReadDFS env (r.dfs.readDFS fname)))) ∧
    (r.Extension fname = ".off" →
      ReadPolyData.read r lib env fname flag = .ok (some (ReadOFF lib env (r.file fname)))) ∧
    (r.Extension fname = ".gii" → r.MIRTK_IO_WITH_GIFTI = true →
      ReadPolyData.read r lib env fname flag =
        match ReadGIFTI env (r.gifti_read_image fname) none with
        | .error f => .error f
        | .ok polydata => .ok (some polydata)) ∧
    (r.Extension fname = ".gii" → r.MIRTK_IO_WITH_GIFTI = false →
      ReadPolyData.read r lib env fname flag =
        if flag then .error Fault.exit else .ok none) ∧
    (r.Extension fname ∉ polyDataReadExtensions →
      ReadPolyData.read r lib env fname flag = .ok (some (r.vtkPolyDataReader fname))) := by
  unfold ReadPolyData.read
  refine ⟨fun h => ?_, fun h => ?_, fun h => ?_, fun h => ?_, fun h => ?_, fun h => ?_,
    fun h hg => ?_, fun h hg => ?_, fun h => ?_⟩
  · simp only [h, if_true]
  · simp only [h]; rfl
  · simp only [h]; rfl
  · simp only [h]; rfl
  · simp only [h]; rfl
  · simp only [h]; rfl
  · simp only [h, hg]; rfl
  · simp only [h, hg]; rfl
  · rw [← polyDataRead_iff] at h
    simp only [not_or] at h
    obtain ⟨h1, h2, h3, h4, h5, h6, h7⟩ := h
    simp only [if_neg h1, if_neg h2, if_neg h3, if_neg h4, if_neg h5, if_neg h6, if_neg h7]

theorem ReadPointSet_of_read (r : Readers) (lib : StdLib) (env : Env) (fname : String) :
    (∀ f, ReadPointSet.read r lib env fname = .error f → ∀ flag,
      ReadPointSet r lib env fname flag = .error f) ∧
    (∀ p, ReadPointSet.read r lib env fname = .ok p →
      ReadPointSet r lib env fname false = .ok p ∧
      (ReadPointSet r lib env fname true = .error Fault.exit ↔
        (p = none ∨ ∃ q, p = some q ∧ q.GetNumberOfPoints = 0)) ∧
      (¬ (p = none ∨ ∃ q, p = some q ∧ q.GetNumberOfPoints = 0) →
        ReadPointSet r lib env fname true = .ok p)) := by
  unfold ReadPointSet
  refine ⟨fun f h flag => by rw [h], fun p h => ?_⟩
  rw [h]
  cases p with
  | none => simp
  | some q =>
    by_cases hq : q.GetNumberOfPoints = 0
    · simp [hq]
    · simp [hq]

theorem ReadPolyData_unset (r : Readers) (lib : StdLib) (env : Env) (fname : String) :
    ReadPolyData r lib env fname false = ReadPolyData.read r lib env fname false := by
  unfold ReadPolyData
  cases ReadPolyData.read r lib env fname false <;> rfl

/-- C36 (amended): with the flag unset, `ReadPolyData` returns the output of
the reader that it selects for every file whose extension is not `.gii` and
for every `.gii` file in a build without GIFTI; for a `.gii` file in a build
with GIFTI it does what `ReadGIFTI` does with that file. `ReadPointSet`
returns with the flag unset whenever its reader selection returns, which it
does for every file read by the XML or the legacy reader; for the seven
extensions of `ReadPolyData` it calls that function with the default flag of
its declaration. With the flag set, `ReadPointSet` terminates the process,
when its reader selection returns, exactly when the result is absent or has no
points. -/
theorem C36_exit_on_failure (r : Readers) (lib : StdLib) (env : Env) (fname : String) :
    ((r.Extension fname ≠ ".gii" ∨ r.MIRTK_IO_WITH_GIFTI = false) →
      ∃ p, ReadPolyData r lib env fname false = .ok p) ∧
    (r.Extension fname = ".gii" → r.MIRTK_IO_WITH_GIFTI = true →
      ReadPolyData r lib env fname false =
        match ReadGIFTI env (r.gifti_read_image fname) none with
        | .error f => .error f
        | .ok polydata => .ok (some polydata)) ∧
    (r.Extension fname ∉ polyDataReadExtensions →
      ∃ p, ReadPointSet r lib env fname false = .ok p) ∧
    (r.Extension fname ∈ polyDataReadExtensions →
      ReadPointSet r lib env fname false =
        match ReadPolyData r lib env fname r.ReadPolyData_exit_on_failure with
        | .error f => .error f
        | .ok polydata => .ok (polydata.map vtkPointSet.polyData)) ∧
    (∀ p, ReadPointSet.read r lib env fname = .ok p →
      ReadPointSet r lib env fname false = .ok p ∧
      (ReadPointSet r lib env fname true = .error Fault.exit ↔
        (p = none ∨ ∃ q, p = some q ∧ q.GetNumberOfPoints = 0)) ∧
      (¬ (p = none ∨ ∃ q, p = some q ∧ q.GetNumberOfPoints = 0) →
        ReadPointSet r lib env fname true = .ok p)) := by
  obtain ⟨h1, h2, h3, h4, h5, h6, h7, h8, h9⟩ := ReadPolyData_read_cases r lib env fname false
  obtain ⟨g1, g2, g3⟩ := ReadPointSet_read_cases r lib env fname
  obtain ⟨e1, e2⟩ := ReadPointSet_of_read r lib env fname
  refine ⟨fun h => ?_, fun h hg => ?_, fun h => ?_, fun h => ?_, e2⟩
  · rw [ReadPolyData_unset]
    by_cases hmem : r.Extension fname ∈ polyDataReadExtensions
    · rw [← polyDataRead_iff] at hmem
      rcases hmem with hm | hm | hm | hm | hm | hm | hm
      · exact ⟨_, h1 hm⟩
      · exact ⟨_, h2 hm⟩
      · exact ⟨_, h3 hm⟩
      · exact ⟨_, h4 hm⟩
      · exact ⟨_, h5 hm⟩
      · exact ⟨_, h6 hm⟩
      · rcases h with h | h
        · exact absurd hm h
        · exact ⟨_, (h8 hm h).trans rfl⟩
    · exact ⟨_, h9 hmem⟩
  · rw [ReadPolyData_unset]
    exact h7 h hg
  · by_cases hx : isXMLExtension (r.Extension fname)
    · exact ⟨_, (e2 _ (g2 h hx)).1⟩
    · exact ⟨_, (e2 _ (g3 h hx)).1⟩
  · have hread := g1 h
    cases hp : ReadPolyData r lib env fname r.ReadPolyData_exit_on_failure with
    | error f =>
      rw [hp] at hread
      exact e1 f hread false
    | ok p =>
      rw [hp] at hread
      exact (e2 _ hread).1

/-- Witness of C36 (amended): with the example readers, a `.vtk` file that the
legacy reader cannot read gives the null pointer with the flag unset and ends
the process with the flag set. -/
theorem C36_exit_on_failure_witness :
    ReadPointSet exReaders exLib exEnv "a/m.vtk" false = .ok none ∧
    ReadPointSet exReaders exLib exEnv "a/m.vtk" true = .error Fault.exit :=
  ⟨((C36_exit_on_failure exReaders exLib exEnv "a/m.vtk").2.2.2.2 none (by decide)).1,
   ((C36_exit_on_failure exReaders exLib exEnv "a/m.vtk").2.2.2.2 none (by decide)).2.1.mpr
     (Or.inl rfl)⟩

/-- C36 (counterexample): every GIFTI file of the example readers holds a point
data array with the datatype tag `0`. With the flag unset, `ReadPolyData` and
`ReadPointSet` end the process on such a file. -/
theorem C36_exit_with_flag_unset :
    ReadPolyData exReaders exLib exEnv "a/m.shape.gii" false = .error Fault.exit ∧
    ReadPointSet exReaders exLib exEnv "a/m.shape.gii" false = .error Fault.exit := by
  decide

theorem boolToInt_eq_one (b : Bool) : decide (boolToInt b = 1) = b := by
  cases b <;> rfl

/-- C35 (amended): `WritePointSet` passes a polygonal mesh to `WritePolyData`,
which selects by the extension `ext` of the file name: the XML writer for
`.vtp`, the STL and PLY writers for `.stl` and `.ply`, the TetGen writers for
`.node`, `.poly` and `.smesh`, `WriteDFS` for `.dfs`, `WriteOFF` for `.off`,
`WriteGIFTI` for `.gii` (in a build with GIFTI), and the legacy writer for every
other extension, `.obj` and the extensions `.vtX` other than `.vtp` included.
For a point set that is not a polygonal mesh, `WritePointSet` selects the XML
writer for the extensions of four bytes that begin with `.vt` and are not
`.vtk`, and the legacy writer for every other extension. -/
theorem C35_write_dispatch (w : Writers) (fname : String) (polydata : vtkPolyData)
    (points : List Point) (compress ascii : Bool) :
    WritePointSet w fname (vtkPointSet.polyData polydata) compress ascii =
      WritePolyData w fname polydata compress ascii ∧
    (w.host.Extension fname = ".vtp" → WritePolyData w fname polydata compress ascii =
      decide (w.vtkXMLPolyDataWriter fname polydata compress = 1)) ∧
    (w.host.Extension fname = ".stl" → WritePolyData w fname polydata compress ascii =
      decide (w.vtkSTLWriter fname polydata ascii = 1)) ∧
    (w.host.Extension fname = ".ply" → WritePolyData w fname polydata compress ascii =
      decide (w.vtkPLYWriter fname polydata ascii = 1)) ∧
    (w.host.Extension fname = ".node" → WritePolyData w fname polydata compress ascii =
      WriteTetGenNode.toFile (w.lib fname) polydata) ∧
    (w.host.Extension fname = ".poly" → WritePolyData w fname polydata compress ascii =
      (WriteTetGenPoly (w.lib fname) polydata w.holes).1) ∧
    (w.host.Extension fname = ".smesh" → WritePolyData w fname polydata compress ascii =
      (WriteTetGenSMesh (w.lib fname) polydata w.holes).1) ∧
    (w.host.Extension fname = ".dfs" → WritePolyData w fname polydata compress ascii =
      (WriteDFS w.dfs fname polydata).1) ∧
    (w.host.Extension fname = ".off" → WritePolyData w fname polydata compress ascii =
      (WriteOFF (w.lib fname) polydata).1) ∧
    (w.host.Extension fname = ".gii" → w.MIRTK_IO_WITH_GIFTI = true →
      WritePolyData w fname polydata compress ascii =
        (WriteGIFTI w.host fname polydata compress ascii).success) ∧
    (w.host.Extension fname ∉ polyDataWriteExtensions →
      WritePolyData w fname polydata compress ascii =
        decide (w.vtkPolyDataWriter fname polydata ascii = 1)) ∧
    (isXMLExtension (w.host.Extension fname) →
      WritePointSet w fname (vtkPointSet.other points) compress ascii =
        decide (w.vtkXMLDataSetWriter fname (vtkPointSet.other points) compress = 1)) ∧
    (¬ isXMLExtension (w.host.Extension fname) →
      WritePointSet w fname (vtkPointSet.other points) compress ascii =
        decide (w.vtkDataSetWriter fname (vtkPointSet.other points) ascii = 1)) ∧
    (∀ ext ∈ [".obj", ".vtu", ".vts", ".vtk", ".VTP"], ext ∉ polyDataWriteExtensions) := by
  refine ⟨rfl, fun h => ?_, fun h => ?_, fun h => ?_, fun h => ?_, fun h => ?_, fun h => ?_,
    fun h => ?_, fun h => ?_, fun h hg => ?_, fun h => ?_, fun h => ?_, fun h => ?_, by decide⟩
  · unfold WritePolyData WritePolyData.success
    simp only [h, if_true]
  · unfold WritePolyData WritePolyData.success
    simp only [h]
    rfl
  · unfold WritePolyData WritePolyData.success
    simp only [h]
    rfl
  · unfold WritePolyData WritePolyData.success
    simp only [h]
    exact boolToInt_eq_one _
  · unfold WritePolyData WritePolyData.success
    simp only [h]
    exact boolToInt_eq_one _
  · unfold WritePolyData WritePolyData.success
    simp only [h]
    exact boolToInt_eq_one _
  · unfold WritePolyData WritePolyData.success
    simp only [h]
    exact boolToInt_eq_one _
  · unfold WritePolyData WritePolyData.success
    simp only [h]
    exact boolToInt_eq_one _
  · unfold WritePolyData WritePolyData.success
    simp only [h, hg]
    exact boolToInt_eq_one _
  · unfold polyDataWriteExtensions at h
    simp only [List.mem_cons, List.mem_singleton, List.not_mem_nil, or_false, not_or] at h
    obtain ⟨h1, h2, h3, h4, h5, h6, h7, h8, h9⟩ := h
    unfold WritePolyData WritePolyData.success
    simp only [if_neg h1, if_neg h2, if_neg h3, if_neg h4, if_neg h5, if_neg h6, if_neg h7,
      if_neg h8, if_neg h9]
  · unfold WritePointSet
    simp only [vtkPolyData.SafeDownCast, if_pos h]
  · unfold WritePointSet
    simp only [vtkPolyData.SafeDownCast, if_neg h]

/-- Witness of C35 (amended): with the example writers, whose legacy writers
fail, a polygonal mesh is written to a `.vtp` file by the XML writer and to a
`.dfs` file by `WriteDFS`. -/
theorem C35_write_dispatch_witness :
    WritePointSet exWriters "a/m.vtp" (vtkPointSet.polyData (exMesh [[0, 1, 2]] [])) false false
      = true ∧
    WritePolyData exWriters "a/m.dfs" (exMesh [[0, 1, 2]] []) false false = true :=
  ⟨(C35_write_dispatch exWriters "a/m.vtp" (exMesh [[0, 1, 2]] []) [] false false).1.trans
      ((C35_write_dispatch exWriters "a/m.vtp" (exMesh [[0, 1, 2]] []) [] false false).2.1
        (by decide)),
   ((C35_write_dispatch exWriters "a/m.dfs" (exMesh [[0, 1, 2]] []) [] false false
      ).2.2.2.2.2.2.2.1 (by decide)).trans (by decide)⟩

/-- C35 (counterexample): with the example writers the legacy writers fail and
the XML writers succeed. For a polygonal mesh `WritePointSet` fails on the file
names `m.vtu` and `m.obj`, which are written by the legacy writer; for a point
set of another class the file name `m.vtu` selects the XML writer. -/
theorem C35_polydata_vtu_written_by_legacy_writer :
    isXMLExtension (exWriters.host.Extension "a/m.vtu") ∧
    WritePointSet exWriters "a/m.vtu" (vtkPointSet.polyData (exMesh [[0, 1, 2]] [])) false false
      = false ∧
    WritePointSet exWriters "a/m.obj" (vtkPointSet.polyData (exMesh [[0, 1, 2]] [])) false false
      = false ∧
    WritePointSet exWriters "a/m.vtu" (vtkPointSet.other [(0, 0, 0)]) false false = true ∧
    exWriters.vtkXMLPolyDataWriter "a/m.vtu" (exMesh [[0, 1, 2]] []) false = 1 ∧
    exWriters.vtkXMLDataSetWriter "a/m.vtu"
      (vtkPointSet.polyData (exMesh [[0, 1, 2]] [])) false = 1 ∧
    exWriters.vtkPolyDataWriter "a/m.vtu" (exMesh [[0, 1, 2]] []) false = 0 := by
  decide

end mirtk
